import Mathlib

/-!
# Trade normalisation and metrics of the crypto portfolio dashboard

A shallow embedding of the trade pipeline of the repository:

* `server.js`: `toSec`, `normalizeTrade`, `parseTradesFromDocData`,
  `parseTradeFromDocSnap`, `extractRawTradesFromDocData`,
  `parseRawTradeFromDocSnap`, the layout probing of the two routes
  `/api/coin-stats` and `/api/coin-stats/raw` and the final sort of the first;
* `src/components/MaxDrawdown/index.js`: the helpers `toSec`, `getCloseSec` and
  `getPL`, and the equity walk of `fetchAll`;
* `src/components/PnLWinRatePie/index.js`: the win/loss count of `fetchAll`;
* `src/components/PnLMarplot/index.jsx`: the windowed sum of `fetchAll`.

JavaScript values are embedded as the inductive type `JsVal`.  Two idealisations
are made: a finite double is an exact rational (no signed zero), and an object
is the list of its own enumerable properties in enumeration order.  The sums of
the equity walk of `fetchAll` are embedded twice: exact (`walkStep`,
`riskMetrics`), which is enough for what depends on signs and on the order of
the running equities only, and in double precision (`Double.walkStep`,
`Double.riskMetrics`), where every sum, difference and quotient is rounded to
the nearest double and overflows to an infinity, as the program computes them.  Built-ins whose result is fixed by the host
rather than by the program (`Date.parse`, `String.prototype.toUpperCase`,
`String.prototype.toLowerCase`, `Number.prototype.toString`) are fields of a
`Host` record.
-/

namespace CoinStats

/-! ## JavaScript values -/

/-- JavaScript numbers: a finite value (idealised as an exact rational), `NaN`,
`Infinity` or `-Infinity`. -/
inductive JsNum
  | fin (q : ℚ)
  | nan
  | posInf
  | negInf
deriving DecidableEq

/-- JavaScript values as they are stored in a document or sent as JSON. -/
inductive JsVal
  | undefined
  | null
  | bool (b : Bool)
  | num (x : JsNum)
  | str (s : String)
  | arr (xs : List JsVal)
  | obj (fields : List (String × JsVal))

/-- The only exception the embedded code can raise by itself: a `TypeError`
(property read on `null`/`undefined`, call of a method that does not exist). -/
inductive JsError
  | typeError
deriving DecidableEq

/-- Host built-ins that the program calls but does not define. -/
structure Host where
  /-- The result of `Date.parse` in milliseconds, `none` for `NaN`. -/
  dateParse : String → Option ℤ
  /-- The result of `String.prototype.toUpperCase`. -/
  toUpperCase : String → String
  /-- The result of `String.prototype.toLowerCase`. -/
  toLowerCase : String → String
  /-- The result of `Number.prototype.toString` (radix 10). -/
  numberToString : JsNum → String

namespace JsNum

/-- The relation `x < y` of JavaScript on numbers (false when either is `NaN`). -/
def lt : JsNum → JsNum → Bool
  | fin a, fin b => decide (a < b)
  | fin _, posInf => true
  | negInf, fin _ => true
  | negInf, posInf => true
  | _, _ => false

/-- The sum `x + y` of JavaScript on numbers. -/
def add : JsNum → JsNum → JsNum
  | fin a, fin b => fin (a + b)
  | nan, _ => nan
  | _, nan => nan
  | posInf, negInf => nan
  | negInf, posInf => nan
  | posInf, _ => posInf
  | _, posInf => posInf
  | negInf, _ => negInf
  | _, negInf => negInf

/-- The value of `Math.floor(x / 1000)`. -/
def floorDiv1000 : JsNum → JsNum
  | fin q => fin (⌊q / 1000⌋ : ℤ)
  | nan => nan
  | posInf => posInf
  | negInf => negInf

/-- The test `Number.isFinite(x)` on a number. -/
def isFinite : JsNum → Bool
  | fin _ => true
  | _ => false

/-- Truthiness of a number: everything but `0` and `NaN`. -/
def truthy : JsNum → Bool
  | fin q => decide (q ≠ 0)
  | nan => false
  | _ => true

end JsNum

namespace JsVal

/-- JavaScript truthiness (`ToBoolean`). -/
def truthy : JsVal → Bool
  | undefined => false
  | null => false
  | bool b => b
  | num x => x.truthy
  | str s => decide (s ≠ "")
  | arr _ => true
  | obj _ => true

/-- The operator `a || b`. -/
def or (a b : JsVal) : JsVal :=
  if a.truthy then a else b

/-- The operator `a ?? b`. -/
def coalesce (a b : JsVal) : JsVal :=
  match a with
  | undefined => b
  | null => b
  | _ => a

/-- The test `v == null`. -/
def isNullish : JsVal → Bool
  | undefined => true
  | null => true
  | _ => false

/-- The test `typeof v === "object"`. -/
def typeofObject : JsVal → Bool
  | null => true
  | arr _ => true
  | obj _ => true
  | _ => false

/-- The test `typeof v === "number"`. -/
def typeofNumber : JsVal → Bool
  | num _ => true
  | _ => false

/-- The value of the first property named `k` in a property list, else
`undefined`. -/
def lookupField (k : String) : List (String × JsVal) → JsVal
  | [] => undefined
  | (k1, v) :: rest => if k1 = k then v else lookupField k rest

/-- The property read `v.k` for a receiver that is not `null`/`undefined` and a
key `k` that is not a built-in property: the own property of an object, else
`undefined`. -/
def field (v : JsVal) (k : String) : JsVal :=
  match v with
  | obj fields => lookupField k fields
  | _ => undefined

/-- The list `Object.values(v)` of an object or an array. -/
def objectValues : JsVal → List JsVal
  | obj fields => fields.map Prod.snd
  | arr xs => xs
  | _ => []

/-- Whether a value is `undefined` can be decided. -/
instance decEqUndefined (v : JsVal) : Decidable (v = undefined) :=
  match v with
  | undefined => isTrue rfl
  | null => isFalse nofun
  | bool _ => isFalse nofun
  | num _ => isFalse nofun
  | str _ => isFalse nofun
  | arr _ => isFalse nofun
  | obj _ => isFalse nofun

/-- Whether a value is a number can be decided. -/
instance decIsNum (v : JsVal) : Decidable (∃ x, v = num x) :=
  match v with
  | num x => isTrue ⟨x, rfl⟩
  | undefined => isFalse nofun
  | null => isFalse nofun
  | bool _ => isFalse nofun
  | str _ => isFalse nofun
  | arr _ => isFalse nofun
  | obj _ => isFalse nofun

/-- Whether a value is an object can be decided. -/
instance decIsObj (v : JsVal) : Decidable (∃ fs, v = obj fs) :=
  match v with
  | obj fs => isTrue ⟨fs, rfl⟩
  | undefined => isFalse nofun
  | null => isFalse nofun
  | bool _ => isFalse nofun
  | num _ => isFalse nofun
  | str _ => isFalse nofun
  | arr _ => isFalse nofun

/-- Whether a value is an array can be decided. -/
instance decIsArr (v : JsVal) : Decidable (∃ xs, v = arr xs) :=
  match v with
  | arr xs => isTrue ⟨xs, rfl⟩
  | undefined => isFalse nofun
  | null => isFalse nofun
  | bool _ => isFalse nofun
  | num _ => isFalse nofun
  | str _ => isFalse nofun
  | obj _ => isFalse nofun

/-- Whether a value is a non-empty string can be decided. -/
instance decIsNonEmptyStr (v : JsVal) : Decidable (∃ s, v = str s ∧ s ≠ "") :=
  match v with
  | str s =>
    if hs : s = "" then isFalse (fun ⟨_, h1, h2⟩ => h2 (by cases h1; exact hs))
    else isTrue ⟨s, rfl, hs⟩
  | undefined => isFalse nofun
  | null => isFalse nofun
  | bool _ => isFalse nofun
  | num _ => isFalse nofun
  | arr _ => isFalse nofun
  | obj _ => isFalse nofun

end JsVal

/-! ## Strings -/

mutual
/-- The conversion `String(v)` (also `v.toString()` on a value that has it). -/
def jsToString (h : Host) : JsVal → String
  | .undefined => "undefined"
  | .null => "null"
  | .bool b => if b then "true" else "false"
  | .num x => h.numberToString x
  | .str s => s
  | .arr xs => jsJoin h xs
  | .obj _ => "[object Object]"
/-- The elements of an array joined by `,` as `Array.prototype.join` does. -/
def jsJoin (h : Host) : List JsVal → String
  | [] => ""
  | [x] => jsJoinItem h x
  | x :: y :: rest => jsJoinItem h x ++ "," ++ jsJoin h (y :: rest)
/-- One element of a joined array: empty for `null` and `undefined`. -/
def jsJoinItem (h : Host) : JsVal → String
  | .undefined => ""
  | .null => ""
  | .bool b => if b then "true" else "false"
  | .num x => h.numberToString x
  | .str s => s
  | .arr xs => jsJoin h xs
  | .obj _ => "[object Object]"
end

/-- The pieces of a character list between occurrences of `sep`. -/
def splitChars (sep : Char) : List Char → List (List Char)
  | [] => [[]]
  | c :: cs =>
    if c = sep then [] :: splitChars sep cs
    else
      match splitChars sep cs with
      | [] => [[c]]
      | p :: ps => (c :: p) :: ps

/-- The call `s.split("|")`. -/
def splitPipe (s : String) : List String :=
  (splitChars '|' s.data).map String.mk

/-- The call `s.includes("|")`. -/
def includesPipe (s : String) : Bool :=
  s.data.contains '|'

/-- The regular expression test `/^\d{n}$/.test(s)`. -/
def isDigits (n : Nat) (s : String) : Bool :=
  decide (s.data.length = n) && s.data.all Char.isDigit

/-! ## Numbers from strings -/

/-- The characters stripped from both ends of a string by `Number(s)`. -/
def isStrWhiteSpace (c : Char) : Bool :=
  let n := c.toNat
  n = 0x9 || n = 0xA || n = 0xB || n = 0xC || n = 0xD || n = 0x20 || n = 0xA0 ||
  n = 0x1680 || (0x2000 ≤ n && n ≤ 0x200A) || n = 0x2028 || n = 0x2029 ||
  n = 0x202F || n = 0x205F || n = 0x3000 || n = 0xFEFF

/-- A character list without its leading and trailing white space. -/
def trimChars (cs : List Char) : List Char :=
  ((cs.dropWhile isStrWhiteSpace).reverse.dropWhile isStrWhiteSpace).reverse

/-- The value of one digit character (decimal or hexadecimal). -/
def digitValue (c : Char) : Nat :=
  if c.isDigit then c.toNat - 48
  else if 'a'.toNat ≤ c.toNat ∧ c.toNat ≤ 'f'.toNat then c.toNat - 87
  else if 'A'.toNat ≤ c.toNat ∧ c.toNat ≤ 'F'.toNat then c.toNat - 55
  else 0

/-- The value of a digit sequence in the given base. -/
def digitsValue (base : Nat) (cs : List Char) : Nat :=
  cs.foldl (fun acc c => acc * base + digitValue c) 0

/-- A hexadecimal digit. -/
def isHexDigit (c : Char) : Bool :=
  c.isDigit || ('a'.toNat ≤ c.toNat && c.toNat ≤ 'f'.toNat) ||
    ('A'.toNat ≤ c.toNat && c.toNat ≤ 'F'.toNat)

/-- An octal digit. -/
def isOctDigit (c : Char) : Bool :=
  '0'.toNat ≤ c.toNat && c.toNat ≤ '7'.toNat

/-- A binary digit. -/
def isBinDigit (c : Char) : Bool :=
  c = '0' || c = '1'

/-- A numeric literal read from a string: sign, integer digits, fraction digits
with their count, decimal exponent; or a signed `Infinity`. -/
inductive NumLit
  | finite (neg : Bool) (intPart fracPart fracLen : Nat) (exp : ℤ)
  | infinity (neg : Bool)
deriving DecidableEq

/-- The exponent after `e`/`E`: an optional sign and at least one digit. -/
def parseExponent : List Char → Option ℤ
  | '+' :: ds => if ds ≠ [] ∧ ds.all Char.isDigit then some (digitsValue 10 ds) else none
  | '-' :: ds => if ds ≠ [] ∧ ds.all Char.isDigit then some (-(digitsValue 10 ds : ℤ)) else none
  | ds => if ds ≠ [] ∧ ds.all Char.isDigit then some (digitsValue 10 ds) else none

/-- An unsigned decimal literal: `Infinity`, or digits with an optional fraction
and an optional exponent, at least one digit before the exponent. -/
def parseUnsigned (neg : Bool) (cs : List Char) : Option NumLit :=
  if cs = "Infinity".data then some (.infinity neg)
  else
    let ip := cs.takeWhile Char.isDigit
    let r1 := cs.dropWhile Char.isDigit
    let fp := match r1 with
      | '.' :: r => r.takeWhile Char.isDigit
      | _ => []
    let r2 := match r1 with
      | '.' :: r => r.dropWhile Char.isDigit
      | _ => r1
    if ip = [] ∧ fp = [] then none
    else
      match r2 with
      | [] => some (.finite neg (digitsValue 10 ip) (digitsValue 10 fp) fp.length 0)
      | e :: r3 =>
        if e = 'e' ∨ e = 'E' then
          (parseExponent r3).map
            (fun k => .finite neg (digitsValue 10 ip) (digitsValue 10 fp) fp.length k)
        else none

/-- The literal denoted by a trimmed, non-empty string, if it is numeric:
hexadecimal, octal or binary without sign, else a signed decimal. -/
def parseNumLit : List Char → Option NumLit
  | '0' :: 'x' :: ds | '0' :: 'X' :: ds =>
    if ds ≠ [] ∧ ds.all isHexDigit then some (.finite false (digitsValue 16 ds) 0 0 0) else none
  | '0' :: 'o' :: ds | '0' :: 'O' :: ds =>
    if ds ≠ [] ∧ ds.all isOctDigit then some (.finite false (digitsValue 8 ds) 0 0 0) else none
  | '0' :: 'b' :: ds | '0' :: 'B' :: ds =>
    if ds ≠ [] ∧ ds.all isBinDigit then some (.finite false (digitsValue 2 ds) 0 0 0) else none
  | '+' :: r => parseUnsigned false r
  | '-' :: r => parseUnsigned true r
  | r => parseUnsigned false r

/-- The number denoted by a literal. -/
def NumLit.value : NumLit → JsNum
  | .finite neg m f len e =>
    .fin ((if neg then -1 else 1) * ((m : ℚ) + (f : ℚ) / 10 ^ len) * 10 ^ e)
  | .infinity neg => if neg then .negInf else .posInf

/-- The literal read from a whole string by `Number(s)`: white space is trimmed
and the empty string reads as `0`. -/
def readNumLit (s : String) : Option NumLit :=
  if trimChars s.data = [] then some (.finite false 0 0 0 0)
  else parseNumLit (trimChars s.data)

/-- The conversion `Number(s)` of a string. -/
def stringToNumber (s : String) : JsNum :=
  match readNumLit s with
  | some l => l.value
  | none => .nan

/-- The conversion `Number(v)` of any value. -/
def toNumber (h : Host) : JsVal → JsNum
  | .undefined => .nan
  | .null => .fin 0
  | .bool b => if b then .fin 1 else .fin 0
  | .num x => x
  | .str s => stringToNumber s
  | .arr xs => stringToNumber (jsJoin h xs)
  | .obj _ => .nan

/-- The time value `new Date(v).getTime()` in milliseconds, `none` for `NaN`. -/
def dateTimeValue (h : Host) : JsVal → Option ℤ
  | .undefined => none
  | .null => some 0
  | .bool b => some (if b then 1 else 0)
  | .num (.fin q) =>
    if |q| ≤ 8640000000000000 then some (if 0 ≤ q then ⌊q⌋ else ⌈q⌉) else none
  | .num _ => none
  | .str s => h.dateParse s
  | .arr xs => h.dateParse (jsJoin h xs)
  | .obj _ => h.dateParse "[object Object]"

/-! ## `server.js` -/

/-- The helper `toSec` of `server.js`: a timestamp in any stored encoding to
epoch seconds, `undefined` when it cannot be read. -/
def toSec (h : Host) (v : JsVal) : JsVal :=
  match v with
  | .undefined => .undefined
  | .null => .undefined
  | .num x =>
    if JsNum.lt (.fin 2000000000000) x then .num x.floorDiv1000
    else .num x
  | _ =>
    let s := jsToString h v
    if isDigits 13 s then .num (stringToNumber s).floorDiv1000
    else if isDigits 10 s then .num (stringToNumber s)
    else
      match dateTimeValue h v with
      | some t => .num (.fin (⌊(t : ℚ) / 1000⌋ : ℤ))
      | none => .undefined

/-- The method call `v.toUpperCase()`: defined on strings only. -/
def callToUpperCase (h : Host) : JsVal → Except JsError JsVal
  | .str s => .ok (.str (h.toUpperCase s))
  | _ => .error .typeError

/-- The function `normalizeTrade` of `server.js`.  Reading a property of a
`null` or `undefined` record raises a `TypeError`, and so does `toUpperCase` on a
symbol that is not a string. -/
def normalizeTrade (h : Host) (t : JsVal) (exchange symbol : String) :
    Except JsError JsVal :=
  if t.isNullish then .error .typeError
  else do
    let sym ← callToUpperCase h ((t.field "symbol").or (.str symbol))
    pure (.obj [
      ("exchange", (t.field "exchange").or (.str exchange)),
      ("symbol", sym),
      ("position",
        .str (jsToString h (((t.field "position").or (t.field "side")).or (.str "")))),
      ("entry_timestamp_s",
        toSec h ((((t.field "entry_timestamp").coalesce (t.field "entry")).coalesce
          (t.field "open_time")).coalesce (t.field "timestamp"))),
      ("close_timestamp_s",
        toSec h (((t.field "close_timestamp").coalesce (t.field "exit")).coalesce
          (t.field "close_time"))),
      ("real_pnl",
        if (t.field "real_pnl").typeofNumber then t.field "real_pnl" else .undefined),
      ("real_net_pnl",
        if (t.field "real_net_pnl").typeofNumber then t.field "real_net_pnl"
        else .undefined),
      ("close_reason", t.field "close_reason")])

/-- The local `raw` of `parseTradesFromDocData`: the structured records of a
document that is an array or an object. -/
def selectRaw (data : JsVal) : List JsVal :=
  match data with
  | .arr xs => xs
  | _ =>
    match data.field "trades" with
    | .arr xs => xs
    | _ =>
      match data.field "positions" with
      | .arr xs => xs
      | _ =>
        if data.objectValues.all (fun v => v.truthy && v.typeofObject) then
          data.objectValues
        else []

/-- The call `xs.map(f)` for a callback that may raise: the first exception
aborts the whole map. -/
def mapExcept {α β : Type} (f : α → Except JsError β) : List α → Except JsError (List β)
  | [] => .ok []
  | x :: xs =>
    match f x with
    | .error e => .error e
    | .ok y =>
      match mapExcept f xs with
      | .error e => .error e
      | .ok ys => .ok (y :: ys)

/-- The completeness test applied to a normalized trade:
`t.entry_timestamp_s && t.close_timestamp_s && t.position`. -/
def passesFilter (t : JsVal) : Bool :=
  (t.field "entry_timestamp_s").truthy && (t.field "close_timestamp_s").truthy &&
    (t.field "position").truthy

/-- The callback mapped over `lines` in `parseTradesFromDocData`: `null` for a
line with fewer than 5 parts, else the normalized trade of its first 5 parts. -/
def parseLine (h : Host) (exchange symbol : String) (line : JsVal) :
    Except JsError JsVal :=
  match splitPipe (jsToString h line) with
  | ex :: sym :: pos :: entrySec :: exitSec :: _ =>
    normalizeTrade h
      (.obj [
        ("exchange", .str ex),
        ("symbol", .str sym),
        ("position", .str pos),
        ("entry_timestamp", .num (stringToNumber entrySec)),
        ("close_timestamp", .num (stringToNumber exitSec))])
      exchange symbol
  | _ => .ok .null

/-- The local `lines` of `parseTradesFromDocData`: the field `lines` if it is an
array, else the empty list. -/
def selectLines (data : JsVal) : List JsVal :=
  match data.field "lines" with
  | .arr xs => xs
  | _ => []

/-- The function `parseTradesFromDocData` of `server.js`. -/
def parseTradesFromDocData (h : Host) (data : JsVal) (exchange symbol : String) :
    Except JsError (List JsVal) :=
  if !data.truthy || !data.typeofObject then .ok []
  else do
    let raw := selectRaw data
    let lines := selectLines data
    let a := (← mapExcept (fun t => normalizeTrade h t exchange symbol) raw).filter passesFilter
    let b := (← mapExcept (parseLine h exchange symbol) lines).filter JsVal.truthy
    pure (a ++ b)

/-- A document snapshot of the store: its identifier and the result of
`docSnap.data()`. -/
structure DocSnap where
  id : String
  data : JsVal

/-- The local `fromId` of `parseTradeFromDocSnap`: the trade decoded from an
identifier `exchange|symbol|position|entry|exit`, else `null`. -/
def parseFromId (h : Host) (id exchange symbol : String) : Except JsError JsVal :=
  if includesPipe id then
    match splitPipe id with
    | ex :: sym :: pos :: entry :: exit :: _ =>
      let entry_s := toSec h (.str entry)
      let exit_s := toSec h (.str exit)
      if entry_s.truthy && exit_s.truthy && (JsVal.str pos).truthy then do
        let symU ← callToUpperCase h ((JsVal.str sym).or (.str symbol))
        pure (.obj [
          ("exchange", (JsVal.str ex).or (.str exchange)),
          ("symbol", symU),
          ("position", .str pos),
          ("entry_timestamp_s", entry_s),
          ("close_timestamp_s", exit_s)])
      else .ok .null
    | _ => .ok .null
  else .ok .null

/-- The function `parseTradeFromDocSnap` of `server.js`. -/
def parseTradeFromDocSnap (h : Host) (docSnap : DocSnap) (exchange symbol : String) :
    Except JsError JsVal := do
  let data := docSnap.data.or (.obj [])
  let fromData ← normalizeTrade h data exchange symbol
  let completeFromData :=
    if (fromData.field "position").truthy && (fromData.field "entry_timestamp_s").truthy &&
        (fromData.field "close_timestamp_s").truthy then fromData
    else .null
  let id := docSnap.id
  let fromId ← parseFromId h id exchange symbol
  pure (completeFromData.or fromId)

/-- The function `extractRawTradesFromDocData` of `server.js`. -/
def extractRawTradesFromDocData (data : JsVal) : List JsVal :=
  if !data.truthy || !data.typeofObject then []
  else
    match data with
    | .arr xs => xs
    | _ =>
      match data.field "trades" with
      | .arr xs => xs
      | _ =>
        match data.field "positions" with
        | .arr xs => xs
        | _ =>
          let values := data.objectValues
          if values.all (fun v => v.truthy && v.typeofObject) then values else []

/-- The definition of one property on an object under construction: an existing
property keeps its place and takes the new value, a new one is added last. -/
def setField (fields : List (String × JsVal)) (k : String) (v : JsVal) :
    List (String × JsVal) :=
  match fields with
  | [] => [(k, v)]
  | (k1, v1) :: rest => if k1 = k then (k1, v) :: rest else (k1, v1) :: setField rest k v

/-- The elements of a list paired with their indices as property names. -/
def indexedFields {α : Type} (mk : α → JsVal) : Nat → List α → List (String × JsVal)
  | _, [] => []
  | i, x :: xs => (toString i, mk x) :: indexedFields mk (i + 1) xs

/-- The own enumerable properties that a spread `...v` copies: those of an
object, the indexed elements of an array or the indexed characters of a string,
nothing for any other value. -/
def spreadFields : JsVal → List (String × JsVal)
  | .obj fields => fields
  | .arr xs => indexedFields id 0 xs
  | .str s => indexedFields (fun c => JsVal.str (String.mk [c])) 0 s.data
  | _ => []

/-- The function `parseRawTradeFromDocSnap` of `server.js`: the object literal
`{ id: docSnap.id, ...data }`. -/
def parseRawTradeFromDocSnap (docSnap : DocSnap) : JsVal :=
  let data := docSnap.data.or (.obj [])
  .obj ((spreadFields data).foldl (fun fields kv => setField fields kv.1 kv.2)
    [("id", .str docSnap.id)])

/-! ## `server.js`: the layout probing of the routes -/

/-- The outcome of `collection("coin-stats").doc(docId).get()`: the call raises,
the document does not exist, or it exists with the given `snap.data()`. -/
inductive DocRead
  | failed
  | missing
  | found (data : JsVal)

/-- The outcome of `collection(name).limit(1000).get()`: the call raises, or
it returns the documents of the page (`qs.empty` when there are none). -/
inductive CollRead
  | failed
  | docs (ds : List DocSnap)

/-- The store as a read-only function of what is asked from it. -/
structure Store where
  getDoc : String → DocRead
  getCollection : String → CollRead

/-- One read of the store by a route. -/
inductive Read
  | doc (docId : String)
  | collection (name : String)
deriving DecidableEq

/-- The locals `trades` and `usedPath` of a route, with the reads made so far. -/
structure Probe where
  trades : List JsVal
  usedPath : Option String
  reads : List Read

/-- The constant `docCandidates` of both routes. -/
def docCandidates (h : Host) (exchange symbol : String) : List String :=
  [exchange ++ "-" ++ symbol, exchange ++ "-" ++ h.toLowerCase symbol,
    exchange ++ "_" ++ symbol, exchange ++ "_" ++ h.toLowerCase symbol]

/-- The loop `for (const docId of docCandidates)` of `GET /api/coin-stats`: the
first document that exists and parses sets `trades` and ends the loop; a read or
a parse that raises is caught inside the loop, which goes on. -/
def oldLayoutLoop (h : Host) (store : Store) (exchange symbol : String) :
    List String → List Read → Probe
  | [], reads => { trades := [], usedPath := none, reads := reads }
  | docId :: rest, reads =>
    match store.getDoc docId with
    | .found data =>
      match parseTradesFromDocData h (data.or (.obj [])) exchange symbol with
      | .ok trades =>
        { trades := trades, usedPath := some ("coin-stats/" ++ docId),
          reads := reads ++ [.doc docId] }
      | .error _ => oldLayoutLoop h store exchange symbol rest (reads ++ [.doc docId])
    | _ => oldLayoutLoop h store exchange symbol rest (reads ++ [.doc docId])

/-- The loop `for (const doc of qs.docs)` of `GET /api/coin-stats`: the trades
pushed, and whether the loop ended without an exception. -/
def pushDocs (h : Host) (exchange symbol : String) :
    List DocSnap → List JsVal → List JsVal × Bool
  | [], trades => (trades, true)
  | doc :: rest, trades =>
    match parseTradeFromDocSnap h doc exchange symbol with
    | .error _ => (trades, false)
    | .ok t =>
      pushDocs h exchange symbol rest
        (if t.truthy && passesFilter t then trades ++ [t] else trades)

/-- The layout probing of `GET /api/coin-stats`: the old documents, then, if
`trades` is still empty, the collection `{exchange}-{symbol}`. -/
def coinStatsProbe (h : Host) (store : Store) (exchange symbol : String) : Probe :=
  let old := oldLayoutLoop h store exchange symbol (docCandidates h exchange symbol) []
  if old.trades.length = 0 then
    let collName := exchange ++ "-" ++ symbol
    let reads := old.reads ++ [.collection collName]
    match store.getCollection collName with
    | .failed => { old with reads := reads }
    | .docs ds =>
      if ds.length = 0 then { old with reads := reads }
      else
        match pushDocs h exchange symbol ds old.trades with
        | (trades, true) =>
          { trades := trades, usedPath := some (collName ++ "/* (docs)"), reads := reads }
        | (trades, false) => { trades := trades, usedPath := old.usedPath, reads := reads }
  else old

/-- The loop `for (const docId of docCandidates)` of `GET /api/coin-stats/raw`. -/
def rawOldLayoutLoop (store : Store) : List String → List Read → Probe
  | [], reads => { trades := [], usedPath := none, reads := reads }
  | docId :: rest, reads =>
    match store.getDoc docId with
    | .found data =>
      { trades := extractRawTradesFromDocData (data.or (.obj [])),
        usedPath := some ("coin-stats/" ++ docId), reads := reads ++ [.doc docId] }
    | _ => rawOldLayoutLoop store rest (reads ++ [.doc docId])

/-- The layout probing of `GET /api/coin-stats/raw`. -/
def coinStatsRawProbe (h : Host) (store : Store) (exchange symbol : String) : Probe :=
  let old := rawOldLayoutLoop store (docCandidates h exchange symbol) []
  if old.trades.length = 0 then
    let collName := exchange ++ "-" ++ symbol
    let reads := old.reads ++ [.collection collName]
    match store.getCollection collName with
    | .failed => { old with reads := reads }
    | .docs ds =>
      if ds.length = 0 then { old with reads := reads }
      else
        { trades := ds.map parseRawTradeFromDocSnap,
          usedPath := some (collName ++ "/* (docs)"), reads := reads }
  else old

/-- The difference `x - y` of JavaScript on numbers. -/
def JsNum.sub : JsNum → JsNum → JsNum
  | .fin a, .fin b => .fin (a - b)
  | .nan, _ => .nan
  | _, .nan => .nan
  | .posInf, .posInf => .nan
  | .negInf, .negInf => .nan
  | .posInf, _ => .posInf
  | .negInf, _ => .negInf
  | _, .negInf => .posInf
  | _, .posInf => .negInf

/-- The operand `t.entry_timestamp_s || 0` of the comparator of the final sort,
converted to a number as the subtraction does. -/
def entryKey (h : Host) (t : JsVal) : JsNum :=
  toNumber h ((t.field "entry_timestamp_s").or (.num (.fin 0)))

/-- The comparator `(a, b) => (a.entry_timestamp_s || 0) - (b.entry_timestamp_s || 0)`. -/
def compareEntry (h : Host) (a b : JsVal) : JsNum :=
  (entryKey h a).sub (entryKey h b)

/-- The call `trades.sort(compareEntry)`: `Array.prototype.sort` is stable and
puts `a` after `b` only when the comparator is positive.  (For a comparator that
is not consistent the order is left to the implementation; insertion is one such
order.) -/
def sortByEntry (h : Host) (trades : List JsVal) : List JsVal :=
  trades.insertionSort (fun a b => JsNum.lt (.fin 0) (compareEntry h a b) = false)

/-- The array `trades` of the response of `GET /api/coin-stats`: empty when
nothing was found, else the found trades after the final sort. -/
def coinStatsTrades (h : Host) (store : Store) (exchange symbol : String) : List JsVal :=
  let found := (coinStatsProbe h store exchange symbol).trades
  if found.length = 0 then [] else sortByEntry h found

/-- The array `trades` of the response of `GET /api/coin-stats/raw`: empty when
nothing was found, else the found records as they are. -/
def coinStatsRawTrades (h : Host) (store : Store) (exchange symbol : String) : List JsVal :=
  let found := (coinStatsRawProbe h store exchange symbol).trades
  if found.length = 0 then [] else found

/-! ## `MaxDrawdown`: the equity walk of `fetchAll` -/

/-- An element `{ ts, pl }` of `allTrades`.  Both fields are finite numbers: a
trade whose close time or P&L fails `Number.isFinite` is skipped before the push. -/
structure Entry where
  ts : ℚ
  pl : ℚ

/-- The loop variables `equity`, `minEquity`, `totalProfits`, `totalLosses`. -/
structure Walk where
  equity : ℚ
  minEquity : ℚ
  totalProfits : ℚ
  totalLosses : ℚ

/-- One iteration of `for (const { pl } of allTrades)`, the sums taken exactly;
`Double.walkStep` is the same iteration with every sum rounded to a double. -/
def walkStep (w : Walk) (e : Entry) : Walk :=
  let equity := w.equity + e.pl
  { equity := equity
    minEquity := if equity < w.minEquity then equity else w.minEquity
    totalProfits := if e.pl > 0 then w.totalProfits + e.pl else w.totalProfits
    totalLosses :=
      if e.pl > 0 then w.totalLosses
      else if e.pl < 0 then w.totalLosses + e.pl
      else w.totalLosses }

/-- The whole loop, started at `startingBalance`. -/
def equityWalk (startingBalance : ℚ) (allTrades : List Entry) : Walk :=
  allTrades.foldl walkStep
    { equity := startingBalance, minEquity := startingBalance,
      totalProfits := 0, totalLosses := 0 }

/-- The call `allTrades.sort((a, b) => a.ts - b.ts)`: a stable ascending sort. -/
def sortByCloseTime (allTrades : List Entry) : List Entry :=
  allTrades.insertionSort (fun a b => a.ts ≤ b.ts)

/-- The constant `ddFraction`, `none` for `null`. -/
def ddFraction (startingBalance : ℚ) (w : Walk) : Option ℚ :=
  if startingBalance > 0 then some ((w.minEquity - startingBalance) / startingBalance)
  else none

/-- The variable `pf` after the three-way test. -/
def profitFactorOf (w : Walk) : JsNum :=
  if w.totalLosses < 0 then .fin (w.totalProfits / |w.totalLosses|)
  else if w.totalProfits > 0 ∧ w.totalLosses = 0 then .posInf
  else .fin 0

/-- The state `maxDrawdown`, `profitFactor` set by `fetchAll`, `none` for `null`. -/
structure RiskState where
  maxDrawdown : Option ℚ
  profitFactor : Option JsNum

/-- The part of `fetchAll` after the trades are collected: nothing is computed
for an empty `allTrades`, else the trades are sorted and walked. -/
def riskMetrics (startingBalance : ℚ) (allTrades : List Entry) : RiskState :=
  if allTrades.length = 0 then { maxDrawdown := none, profitFactor := none }
  else
    let w := equityWalk startingBalance (sortByCloseTime allTrades)
    { maxDrawdown := ddFraction startingBalance w, profitFactor := some (profitFactorOf w) }

/-- The running equity after the first `k` trades of a walk. -/
def runningEquity (startingBalance : ℚ) (walked : List Entry) (k : Nat) : ℚ :=
  (equityWalk startingBalance (walked.take k)).equity

/-- The sum of the strictly positive P&Ls of a list. -/
def sumProfits (l : List Entry) : ℚ :=
  ((l.filter (fun e => decide (0 < e.pl))).map Entry.pl).sum

/-- The sum of the strictly negative P&Ls of a list. -/
def sumLosses (l : List Entry) : ℚ :=
  ((l.filter (fun e => decide (e.pl < 0))).map Entry.pl).sum

/-! ## `MaxDrawdown`: the equity walk of `fetchAll` in double precision -/

namespace Double

/-- The integer nearest to `q`; of the two nearest ones the even one when `q`
lies halfway between them. -/
def roundHalfEven (q : ℚ) : ℤ :=
  if q - ⌊q⌋ < 1 / 2 then ⌊q⌋
  else if 1 / 2 < q - ⌊q⌋ then ⌊q⌋ + 1
  else if ⌊q⌋ % 2 = 0 then ⌊q⌋ else ⌊q⌋ + 1

/-- The exponent of the unit in the last place of the doubles around `x`: a
double has 53 significant bits, and below `2 ^ (-1022)` the spacing stays that
of the subnormal numbers, `2 ^ (-1074)`. -/
def ulpExponent (x : ℚ) : ℤ :=
  max (Int.log 2 |x|) (-1022) - 52

/-- The value of an arithmetic operation whose exact result is `x`: the double
nearest to `x` (IEEE 754 binary64, round to nearest, ties to even), `Infinity`
or `-Infinity` when the rounded value is beyond the largest double.  The two
zeros are not told apart. -/
def round (x : ℚ) : JsNum :=
  let r : ℚ := roundHalfEven (x / 2 ^ ulpExponent x) * 2 ^ ulpExponent x
  if 2 ^ (1024 : ℤ) ≤ r then .posInf
  else if r ≤ -2 ^ (1024 : ℤ) then .negInf
  else .fin r

/-- The sum `x + y` of two doubles. -/
def add : JsNum → JsNum → JsNum
  | .fin a, .fin b => round (a + b)
  | .nan, _ => .nan
  | _, .nan => .nan
  | .posInf, .negInf => .nan
  | .negInf, .posInf => .nan
  | .posInf, _ => .posInf
  | _, .posInf => .posInf
  | .negInf, _ => .negInf
  | _, .negInf => .negInf

/-- The difference `x - y` of two doubles. -/
def sub : JsNum → JsNum → JsNum
  | .fin a, .fin b => round (a - b)
  | .nan, _ => .nan
  | _, .nan => .nan
  | .posInf, .posInf => .nan
  | .negInf, .negInf => .nan
  | .posInf, _ => .posInf
  | _, .negInf => .posInf
  | .negInf, _ => .negInf
  | _, .posInf => .negInf

/-- The value of `Math.abs(x)`. -/
def abs : JsNum → JsNum
  | .fin a => .fin |a|
  | .nan => .nan
  | .posInf => .posInf
  | .negInf => .posInf

/-- The quotient `x / y` of two doubles; a divisor zero is taken as `+0`. -/
def div : JsNum → JsNum → JsNum
  | .fin a, .fin b =>
    if b = 0 then (if a = 0 then .nan else if 0 < a then .posInf else .negInf)
    else round (a / b)
  | .nan, _ => .nan
  | _, .nan => .nan
  | .fin _, _ => .fin 0
  | .posInf, .fin b => if 0 ≤ b then .posInf else .negInf
  | .negInf, .fin b => if 0 ≤ b then .negInf else .posInf
  | _, _ => .nan

/-- The loop variables `equity`, `minEquity`, `totalProfits`, `totalLosses` as
the doubles that they are. -/
structure Walk where
  equity : JsNum
  minEquity : JsNum
  totalProfits : JsNum
  totalLosses : JsNum
deriving DecidableEq

/-- One iteration of `for (const { pl } of allTrades)`, every sum rounded. -/
def walkStep (w : Walk) (e : Entry) : Walk :=
  let equity := add w.equity (.fin e.pl)
  { equity := equity
    minEquity := if equity.lt w.minEquity then equity else w.minEquity
    totalProfits := if e.pl > 0 then add w.totalProfits (.fin e.pl) else w.totalProfits
    totalLosses :=
      if e.pl > 0 then w.totalLosses
      else if e.pl < 0 then add w.totalLosses (.fin e.pl)
      else w.totalLosses }

/-- The whole loop, started at `startingBalance`. -/
def equityWalk (startingBalance : ℚ) (allTrades : List Entry) : Walk :=
  allTrades.foldl walkStep
    { equity := .fin startingBalance, minEquity := .fin startingBalance,
      totalProfits := .fin 0, totalLosses := .fin 0 }

/-- The constant `ddFraction`, `none` for `null`. -/
def ddFraction (startingBalance : ℚ) (w : Walk) : Option JsNum :=
  if startingBalance > 0 then
    some (div (sub w.minEquity (.fin startingBalance)) (.fin startingBalance))
  else none

/-- The variable `pf` after the three-way test. -/
def profitFactorOf (w : Walk) : JsNum :=
  if w.totalLosses.lt (.fin 0) then div w.totalProfits (abs w.totalLosses)
  else if JsNum.lt (.fin 0) w.totalProfits ∧ w.totalLosses = .fin 0 then .posInf
  else .fin 0

/-- The state `maxDrawdown`, `profitFactor` set by `fetchAll`, `none` for `null`. -/
structure RiskState where
  maxDrawdown : Option JsNum
  profitFactor : Option JsNum
deriving DecidableEq

/-- The part of `fetchAll` after the trades are collected: nothing is computed
for an empty `allTrades`, else the trades are sorted and walked. -/
def riskMetrics (startingBalance : ℚ) (allTrades : List Entry) : RiskState :=
  if allTrades.length = 0 then { maxDrawdown := none, profitFactor := none }
  else
    let w := equityWalk startingBalance (sortByCloseTime allTrades)
    { maxDrawdown := ddFraction startingBalance w, profitFactor := some (profitFactorOf w) }

/-- The running equity after the first `k` trades of a walk. -/
def runningEquity (startingBalance : ℚ) (walked : List Entry) (k : Nat) : JsNum :=
  (equityWalk startingBalance (walked.take k)).equity

end Double

/-! ## `MaxDrawdown`: the helpers `toSec`, `getCloseSec` and `getPL` -/

namespace MaxDrawdown

/-- The helper `toSec` of `MaxDrawdown/index.js`: as the one of `server.js`,
except that the date is read from the string `s`, by `new Date(s)`. -/
def toSec (h : Host) (v : JsVal) : JsVal :=
  match v with
  | .undefined => .undefined
  | .null => .undefined
  | .num x =>
    if JsNum.lt (.fin 2000000000000) x then .num x.floorDiv1000
    else .num x
  | _ =>
    let s := jsToString h v
    if isDigits 13 s then .num (stringToNumber s).floorDiv1000
    else if isDigits 10 s then .num (stringToNumber s)
    else
      match dateTimeValue h (.str s) with
      | some t => .num (.fin (⌊(t : ℚ) / 1000⌋ : ℤ))
      | none => .undefined

/-- The helper `getCloseSec`: the first of the five converted times that is
neither `null` nor `undefined`. -/
def getCloseSec (h : Host) (t : JsVal) : JsVal :=
  ((((toSec h (t.field "close_timestamp")).coalesce (toSec h (t.field "exit"))).coalesce
    (toSec h (t.field "close_time"))).coalesce (toSec h (t.field "timestamp"))).coalesce
    (toSec h (t.field "entry_timestamp"))

/-- The block that `getPL` repeats for each of its four fields: the value itself
when its type is number; else, when it is not `null` or `undefined`, `Number(v)`
if that is finite; else nothing is returned and the next field is tried. -/
def plOfField (h : Host) (v : JsVal) : Option JsVal :=
  match v with
  | .num x => some (.num x)
  | _ =>
    if v.isNullish then none
    else if (toNumber h v).isFinite then some (.num (toNumber h v))
    else none

/-- The helper `getPL`. -/
def getPL (h : Host) (t : JsVal) : JsVal :=
  match plOfField h (t.field "real_profit_loss") with
  | some v => v
  | none =>
    match plOfField h (t.field "real_net_profit_loss") with
    | some v => v
    | none =>
      match plOfField h (t.field "real_net_pnl") with
      | some v => v
      | none =>
        match plOfField h (t.field "real_pnl") with
        | some v => v
        | none => .undefined

/-- The test `Number.isFinite(v)` on any value. -/
def isFiniteNumber : JsVal → Bool
  | .num x => x.isFinite
  | _ => false

/-- The body of `for (const t of trades)` in `fetchAll`: the entry pushed to
`allTrades`, nothing for a trade that is skipped; reading a field of `null` or
`undefined` raises. -/
def collectEntry (h : Host) (t : JsVal) : Except JsError (Option Entry) :=
  if t.isNullish then .error .typeError
  else if !isFiniteNumber (getCloseSec h t) then .ok none
  else if !isFiniteNumber (getPL h t) then .ok none
  else
    match getCloseSec h t, getPL h t with
    | .num (.fin ts), .num (.fin pl) => .ok (some { ts := ts, pl := pl })
    | _, _ => .ok none

end MaxDrawdown

/-! ## `PnLWinRatePie` and `PnLMarplot`: the lookback window -/

/-- The relation `x <= y` of JavaScript on numbers (false when either is `NaN`). -/
def JsNum.le : JsNum → JsNum → Bool
  | .fin a, .fin b => decide (a ≤ b)
  | .nan, _ => false
  | _, .nan => false
  | .negInf, _ => true
  | _, .posInf => true
  | _, _ => false

/-- The table `LOOKBACKS`: key and seconds of each span. -/
def LOOKBACKS : List (String × ℤ) :=
  [("1d", 1 * 24 * 60 * 60), ("7d", 7 * 24 * 60 * 60), ("30d", 30 * 24 * 60 * 60),
    ("1y", 365 * 24 * 60 * 60)]

/-- The seconds of `LOOKBACKS.find((l) => l.key === rangeKey) || LOOKBACKS[1]`. -/
def lookbackSeconds (rangeKey : String) : ℤ :=
  match LOOKBACKS.find? (fun l => l.1 = rangeKey) with
  | some l => l.2
  | none => 7 * 24 * 60 * 60

/-- A loop `for (const x of xs)` whose body may raise. -/
def foldExcept {σ α : Type} (f : σ → α → Except JsError σ) : σ → List α → Except JsError σ
  | s, [] => .ok s
  | s, x :: xs =>
    match f s x with
    | .error e => .error e
    | .ok s1 => foldExcept f s1 xs

/-- The counters `win` and `loss` of `PnLWinRatePie`. -/
structure WinLoss where
  win : Nat
  loss : Nat
deriving DecidableEq

/-- The body of `for (const t of trades)` in `PnLWinRatePie`. -/
def winLossStep (h : Host) (fromSec nowSec : ℤ) (acc : WinLoss) (t : JsVal) :
    Except JsError WinLoss :=
  if t.isNullish then .error .typeError
  else
    let ct := toNumber h (t.field "close_timestamp_s")
    if !ct.isFinite || ct.lt (.fin fromSec) || (JsNum.fin nowSec).lt ct then .ok acc
    else
      let pnl :=
        if (t.field "real_net_pnl").typeofNumber then t.field "real_net_pnl"
        else if (t.field "real_pnl").typeofNumber then t.field "real_pnl"
        else .null
      match pnl with
      | .num x =>
        if (JsNum.fin 0).lt x then .ok { acc with win := acc.win + 1 }
        else if x.lt (.fin 0) then .ok { acc with loss := acc.loss + 1 }
        else .ok acc
      | _ => .ok acc

/-- The win/loss count of `PnLWinRatePie` over the trades of one response, from
the counters reached so far. -/
def winLossCount (h : Host) (nowSec seconds : ℤ) (acc : WinLoss) (trades : List JsVal) :
    Except JsError WinLoss :=
  foldExcept (winLossStep h (nowSec - seconds) nowSec) acc trades

/-- The filter callback of `PnLMarplot`. -/
def inLookback (h : Host) (fromSec nowSec : ℤ) (t : JsVal) : Except JsError Bool :=
  if t.isNullish then .error .typeError
  else
    let ct := toNumber h (t.field "close_timestamp_s")
    .ok (ct.isFinite && (JsNum.fin fromSec).le ct && ct.le (.fin nowSec))

/-- The call `xs.filter(p)` for a callback that may raise. -/
def filterExcept {α : Type} (p : α → Except JsError Bool) : List α → Except JsError (List α)
  | [] => .ok []
  | x :: xs =>
    match p x with
    | .error e => .error e
    | .ok b =>
      match filterExcept p xs with
      | .error e => .error e
      | .ok ys => .ok (if b then x :: ys else ys)

/-- The reduce callback of `PnLMarplot`. -/
def addNetPnl (acc : JsNum) (t : JsVal) : JsNum :=
  match t.field "real_net_pnl" with
  | .num x => acc.add x
  | _ => acc.add (.fin 0)

/-- The windowed P&L that `PnLMarplot` reports for one symbol. -/
def windowedPnl (h : Host) (nowSec seconds : ℤ) (trades : List JsVal) : Except JsError JsNum :=
  match filterExcept (inLookback h (nowSec - seconds) nowSec) trades with
  | .error e => .error e
  | .ok filtered => .ok (filtered.foldl addNetPnl (.fin 0))

/-! ## Notions of the specification -/

/-- Completeness as the code tests it: position, entry time and close time are
all truthy. -/
def TruthyComplete (t : JsVal) : Prop :=
  (t.field "position").truthy = true ∧ (t.field "entry_timestamp_s").truthy = true ∧
    (t.field "close_timestamp_s").truthy = true

/-- Completeness as the code tests it can be decided. -/
instance decTruthyComplete (t : JsVal) : Decidable (TruthyComplete t) :=
  inferInstanceAs (Decidable (_ ∧ _ ∧ _))

/-- Completeness as the specification words it: a non-empty position and both
timestamps defined. -/
def SpecComplete (t : JsVal) : Prop :=
  (∃ s, t.field "position" = .str s ∧ s ≠ "") ∧
    t.field "entry_timestamp_s" ≠ .undefined ∧ t.field "close_timestamp_s" ≠ .undefined

/-- Completeness as the specification words it can be decided. -/
instance decSpecComplete (t : JsVal) : Decidable (SpecComplete t) :=
  inferInstanceAs (Decidable (_ ∧ _ ∧ _))

/-- The identifier-derived trade as the specification words it: the first five
parts of the identifier read as exchange, symbol, position, entry and exit, an
empty exchange or symbol replaced by the context, the symbol upper-cased;
`none` unless there are five parts, a non-empty position and two truthy times. -/
def idDerivedTrade (h : Host) (id exchange symbol : String) : Option JsVal :=
  match splitPipe id with
  | ex :: sym :: pos :: entry :: exit :: _ =>
    if pos ≠ "" ∧ (toSec h (.str entry)).truthy = true ∧ (toSec h (.str exit)).truthy = true then
      some (.obj [
        ("exchange", .str (if ex = "" then exchange else ex)),
        ("symbol", .str (h.toUpperCase (if sym = "" then symbol else sym))),
        ("position", .str pos),
        ("entry_timestamp_s", toSec h (.str entry)),
        ("close_timestamp_s", toSec h (.str exit))])
    else none
  | _ => none

/-- A non-null object in the sense of `v && typeof v === "object"`: an object or
an array. -/
def IsObjectValue (v : JsVal) : Prop :=
  (∃ xs, v = .arr xs) ∨ (∃ fs, v = .obj fs)

/-- Whether a value is a non-null object can be decided. -/
instance decIsObjectValue (v : JsVal) : Decidable (IsObjectValue v) :=
  inferInstanceAs (Decidable (_ ∨ _))

/-- A trade as the normalized route sends it: an object whose
`close_timestamp_s` is `undefined` or a number. -/
def IsTradeRecord (t : JsVal) : Prop :=
  (∃ fs, t = .obj fs) ∧
    (t.field "close_timestamp_s" = .undefined ∨ ∃ x, t.field "close_timestamp_s" = .num x)

/-- Whether a value is a trade record can be decided. -/
instance decIsTradeRecord (t : JsVal) : Decidable (IsTradeRecord t) :=
  inferInstanceAs (Decidable (_ ∧ (_ ∨ _)))

/-- The close time of a trade lies in the closed interval `[fromSec, nowSec]`. -/
def closeInWindow (fromSec nowSec : ℤ) (t : JsVal) : Bool :=
  match t.field "close_timestamp_s" with
  | .num (.fin c) => decide ((fromSec : ℚ) ≤ c ∧ c ≤ (nowSec : ℚ))
  | _ => false

/-- The resolved P&L of a trade: `real_net_pnl` if it is a number, else
`real_pnl` if it is a number. -/
def resolvedPnl (t : JsVal) : Option JsNum :=
  match t.field "real_net_pnl" with
  | .num x => some x
  | _ =>
    match t.field "real_pnl" with
    | .num x => some x
    | _ => none

/-- A trade whose resolved P&L is strictly positive. -/
def isWin (t : JsVal) : Bool :=
  match resolvedPnl t with
  | some x => (JsNum.fin 0).lt x
  | none => false

/-- A trade whose resolved P&L is strictly negative. -/
def isLoss (t : JsVal) : Bool :=
  match resolvedPnl t with
  | some x => x.lt (.fin 0)
  | none => false

/-- The contribution of a trade to the windowed P&L: its `real_net_pnl` if it
is a number, else 0. -/
def netPnlOrZero (t : JsVal) : JsNum :=
  match t.field "real_net_pnl" with
  | .num x => x
  | _ => .fin 0

/-- The sum of a list of numbers, added from the left starting at 0. -/
def sumNums (xs : List JsNum) : JsNum :=
  xs.foldl JsNum.add (.fin 0)

/-- The first value of a list that is neither `null` nor `undefined`, else
`undefined`. -/
def firstDefined : List JsVal → JsVal
  | [] => .undefined
  | v :: vs => if v.isNullish then firstDefined vs else v

/-- The trade of a line of five parts, in closed form: the parts read as
exchange, symbol, position, entry and exit, an empty exchange or symbol replaced
by the context, the symbol upper-cased, the two times converted with `Number`
and then `toSec`; no P&L and no close reason. -/
def lineTrade (h : Host) (exchange symbol : String) (ex sym pos entry exit : String) :
    JsVal :=
  .obj [
    ("exchange", .str (if ex = "" then exchange else ex)),
    ("symbol", .str (h.toUpperCase (if sym = "" then symbol else sym))),
    ("position", .str pos),
    ("entry_timestamp_s", toSec h (.num (stringToNumber entry))),
    ("close_timestamp_s", toSec h (.num (stringToNumber exit))),
    ("real_pnl", .undefined),
    ("real_net_pnl", .undefined),
    ("close_reason", .undefined)]

/-- The trade that a `lines` entry contributes: that of its first five
pipe-separated fields, nothing when it has fewer than five. -/
def lineTradeOf (h : Host) (exchange symbol : String) (line : JsVal) : Option JsVal :=
  match splitPipe (jsToString h line) with
  | ex :: sym :: pos :: entry :: exit :: _ =>
    some (lineTrade h exchange symbol ex sym pos entry exit)
  | _ => none

/-- The trades that the `lines` entries contribute, in order. -/
def lineTrades (h : Host) (exchange symbol : String) (lines : List JsVal) : List JsVal :=
  lines.filterMap (lineTradeOf h exchange symbol)

/-- A time that passes the truthiness test: a number other than 0 and `NaN`. -/
def IsTruthyTime (v : JsVal) : Prop :=
  ∃ x, v = .num x ∧ x ≠ .fin 0 ∧ x ≠ .nan

/-- The entry time of a trade is as `toSec` returns it: `undefined` or a number. -/
def HasEntryTime (t : JsVal) : Prop :=
  t.field "entry_timestamp_s" = .undefined ∨ ∃ x, t.field "entry_timestamp_s" = .num x

/-- The old-layout loop of the normalized route goes on after this candidate:
the read raises, the document does not exist, or its parse raises. -/
def SkippedByLoop (h : Host) (store : Store) (exchange symbol : String) (docId : String) :
    Prop :=
  ∀ data ts, store.getDoc docId = .found data →
    parseTradesFromDocData h (data.or (.obj [])) exchange symbol ≠ .ok ts

/-- The old-layout loop of the raw route goes on after this candidate: the read
raises or the document does not exist. -/
def SkippedByRawLoop (store : Store) (docId : String) : Prop :=
  ∀ data, store.getDoc docId ≠ .found data

/-- The trades that the new-layout block of the normalized route adds to an
empty `trades`. -/
def newLayoutTrades (h : Host) (store : Store) (exchange symbol : String) : List JsVal :=
  match store.getCollection (exchange ++ "-" ++ symbol) with
  | .failed => []
  | .docs ds => (pushDocs h exchange symbol ds []).1

/-- The records that the new-layout block of the raw route yields. -/
def newLayoutRawTrades (store : Store) (exchange symbol : String) : List JsVal :=
  match store.getCollection (exchange ++ "-" ++ symbol) with
  | .failed => []
  | .docs ds => ds.map parseRawTradeFromDocSnap

/-- The minimum equity as the specification words it: the least of the starting
balance and the exact sums `startingBalance + (sum of the first k P&Ls)`. -/
def closedFormMinEquity (startingBalance : ℚ) (walked : List Entry) : ℚ :=
  ((List.range (walked.length + 1)).map
    (fun k => startingBalance + ((walked.take k).map Entry.pl).sum)).foldl min startingBalance

/-! ## A host for evaluating examples -/

/-- Days from 1970-01-01 to the given date of the proleptic Gregorian calendar. -/
def daysFromCivil (y m d : ℤ) : ℤ :=
  let y1 := if m ≤ 2 then y - 1 else y
  let era := y1 / 400
  let yoe := y1 - era * 400
  let mp := (m + 9) % 12
  let doy := (153 * mp + 2) / 5 + d - 1
  let doe := yoe * 365 + yoe / 4 - yoe / 100 + doy
  era * 146097 + doe - 719468

/-- The number of days of a month. -/
def daysInMonth (y m : ℤ) : ℤ :=
  if m = 2 then (if y % 4 = 0 ∧ (y % 100 ≠ 0 ∨ y % 400 = 0) then 29 else 28)
  else if m = 4 ∨ m = 6 ∨ m = 9 ∨ m = 11 then 30
  else 31

/-- The time value of a UTC date and time of day, if they exist. -/
def utcMillis (y m d hh mm ss ms : ℤ) : Option ℤ :=
  if 1 ≤ m ∧ m ≤ 12 ∧ 1 ≤ d ∧ d ≤ daysInMonth y m ∧ hh ≤ 23 ∧ mm ≤ 59 ∧ ss ≤ 59 then
    some ((((daysFromCivil y m d * 24 + hh) * 60 + mm) * 60 + ss) * 1000 + ms)
  else none

/-- The digits of a character list as a number, if all are decimal digits. -/
def readDigits (cs : List Char) : Option ℤ :=
  if cs.all Char.isDigit then some (digitsValue 10 cs) else none

/-- The forms `YYYY-MM-DD`, `YYYY-MM-DDTHH:mm:ssZ` and `YYYY-MM-DDTHH:mm:ss.sssZ`
of the ECMAScript date-time string format; every other string is unparsable. -/
def parseIsoUtc (s : String) : Option ℤ :=
  match s.data with
  | [y1, y2, y3, y4, '-', m1, m2, '-', d1, d2] => do
    let y ← readDigits [y1, y2, y3, y4]
    let m ← readDigits [m1, m2]
    let d ← readDigits [d1, d2]
    utcMillis y m d 0 0 0 0
  | [y1, y2, y3, y4, '-', m1, m2, '-', d1, d2, 'T', h1, h2, ':', n1, n2, ':', s1, s2, 'Z'] => do
    let y ← readDigits [y1, y2, y3, y4]
    let m ← readDigits [m1, m2]
    let d ← readDigits [d1, d2]
    let hh ← readDigits [h1, h2]
    let mm ← readDigits [n1, n2]
    let ss ← readDigits [s1, s2]
    utcMillis y m d hh mm ss 0
  | [y1, y2, y3, y4, '-', m1, m2, '-', d1, d2, 'T', h1, h2, ':', n1, n2, ':', s1, s2, '.',
      f1, f2, f3, 'Z'] => do
    let y ← readDigits [y1, y2, y3, y4]
    let m ← readDigits [m1, m2]
    let d ← readDigits [d1, d2]
    let hh ← readDigits [h1, h2]
    let mm ← readDigits [n1, n2]
    let ss ← readDigits [s1, s2]
    let ms ← readDigits [f1, f2, f3]
    utcMillis y m d hh mm ss ms
  | _ => none

/-- The decimal digits of a natural number, most significant first. -/
def natDigits : Nat → Nat → List Char
  | 0, _ => []
  | fuel + 1, n =>
    if n < 10 then [Char.ofNat (48 + n)]
    else natDigits fuel (n / 10) ++ [Char.ofNat (48 + n % 10)]

/-- The first fraction digits of `r / d` for `r < d`, until the remainder is 0. -/
def fracDigits : Nat → Nat → Nat → List Char
  | 0, _, _ => []
  | fuel + 1, r, d =>
    if r = 0 then []
    else Char.ofNat (48 + r * 10 / d) :: fracDigits fuel (r * 10 % d) d

/-- The decimal rendering of a number: exact for the integers and the short
decimal fractions used in the examples. -/
def renderNumber : JsNum → String
  | .nan => "NaN"
  | .posInf => "Infinity"
  | .negInf => "-Infinity"
  | .fin q =>
    let n := q.num.natAbs
    let ip := natDigits (n + 1) (n / q.den)
    let fp := fracDigits 17 (n % q.den) q.den
    String.mk ((if q.num < 0 then ['-'] else []) ++ ip ++ (if fp = [] then [] else '.' :: fp))

/-- The host used to evaluate the examples: case mapping of the ASCII letters,
decimal rendering of numbers, and `Date.parse` of the UTC forms of the
ECMAScript date-time string format. -/
def refHost : Host where
  dateParse := parseIsoUtc
  toUpperCase := fun s => String.mk (s.data.map Char.toUpper)
  toLowerCase := fun s => String.mk (s.data.map Char.toLower)
  numberToString := renderNumber

/-- An example store: the old document `binance-BTCUSDT` exists and holds one
complete trade, no other document exists and every collection is empty. -/
def legacyStore : Store where
  getDoc := fun docId =>
    if docId = "binance-BTCUSDT" then
      .found (.obj [("trades", .arr [.obj [("position", .str "Long"),
        ("entry_timestamp", .num (.fin 1754548860)),
        ("close_timestamp", .num (.fin 1754549760))]])])
    else .missing
  getCollection := fun _ => .docs []

/-- An example store: the first candidate `binance-BTCUSDT` exists but holds no
trade, the second candidate `binance-btcusdt` holds one complete trade, no other
document exists and every collection is empty. -/
def shadowedStore : Store where
  getDoc := fun docId =>
    if docId = "binance-BTCUSDT" then .found (.obj [("trades", .arr [])])
    else if docId = "binance-btcusdt" then
      .found (.obj [("trades", .arr [.obj [("position", .str "Long"),
        ("entry_timestamp", .num (.fin 1754548860)),
        ("close_timestamp", .num (.fin 1754549760))]])])
    else .missing
  getCollection := fun _ => .docs []

/-- An example store: the first candidate `binance-BTCUSDT` holds two complete
trades, the later one first; no other document exists and every collection is
empty. -/
def unsortedStore : Store where
  getDoc := fun docId =>
    if docId = "binance-BTCUSDT" then
      .found (.obj [("trades", .arr [
        .obj [("position", .str "Short"), ("entry_timestamp", .num (.fin 1754549000)),
          ("close_timestamp", .num (.fin 1754549760))],
        .obj [("position", .str "Long"), ("entry_timestamp", .num (.fin 1754548860)),
          ("close_timestamp", .num (.fin 1754549760))]])])
    else .missing
  getCollection := fun _ => .docs []

/-- An example store: no old document exists, and the collection
`binance-BTCUSDT` holds two documents, the first with the stored symbol 5 (a
number), the second with complete field data. -/
def raisingPageStore : Store where
  getDoc := fun _ => .missing
  getCollection := fun name =>
    if name = "binance-BTCUSDT" then
      .docs [{ id := "doc-0", data := .obj [("symbol", .num (.fin 5))] },
        { id := "doc-1",
          data := .obj [("position", .str "Long"), ("entry_timestamp", .num (.fin 1754548860)),
            ("close_timestamp", .num (.fin 1754549760))] }]
    else .docs []

/-- The trades closed at the times 1, 2, 3 with the P&Ls 0.01, 0.2 and -0.21, each
written as the double that the decimal numeral denotes. -/
def centTrades : List Entry :=
  [⟨1, 5764607523034235 / 576460752303423488⟩, ⟨2, 3602879701896397 / 18014398509481984⟩,
    ⟨3, -7566047373982433 / 36028797018963968⟩]

/-- Four trades closed at the same time 1 with the P&Ls 0.1, 0.2, 0.3 and -0.6, each
written as the double that the decimal numeral denotes. -/
def tenthsUp : List Entry :=
  [⟨1, 3602879701896397 / 36028797018963968⟩, ⟨1, 3602879701896397 / 18014398509481984⟩,
    ⟨1, 5404319552844595 / 18014398509481984⟩, ⟨1, -5404319552844595 / 9007199254740992⟩]

/-- The trades of `tenthsUp` with the three profits in the opposite order: 0.3,
0.2, 0.1 and -0.6. -/
def tenthsDown : List Entry :=
  [⟨1, 5404319552844595 / 18014398509481984⟩, ⟨1, 3602879701896397 / 18014398509481984⟩,
    ⟨1, 3602879701896397 / 36028797018963968⟩, ⟨1, -5404319552844595 / 9007199254740992⟩]

/-- Four trades with the P&Ls `2 ^ 1023`, `2 ^ 1023`, `-2 ^ 1023` and `-2 ^ 1023`
(about 8.99e307, a finite double). -/
def overflowTrades : List Entry :=
  [⟨1, 2 ^ 1023⟩, ⟨2, 2 ^ 1023⟩, ⟨3, -2 ^ 1023⟩, ⟨4, -2 ^ 1023⟩]

end CoinStats

/-! ## Basic facts about the embedding -/

namespace CoinStats

@[simp] theorem truthy_undefined : JsVal.undefined.truthy = false := rfl

@[simp] theorem truthy_null : JsVal.null.truthy = false := rfl

@[simp] theorem truthy_bool (b : Bool) : (JsVal.bool b).truthy = b := rfl

@[simp] theorem truthy_num (x : JsNum) : (JsVal.num x).truthy = x.truthy := rfl

@[simp] theorem truthy_str (s : String) : (JsVal.str s).truthy = decide (s ≠ "") := rfl

@[simp] theorem truthy_arr (xs : List JsVal) : (JsVal.arr xs).truthy = true := rfl

@[simp] theorem truthy_obj (fs : List (String × JsVal)) : (JsVal.obj fs).truthy = true := rfl

@[simp] theorem truthy_fin (q : ℚ) : (JsNum.fin q).truthy = decide (q ≠ 0) := rfl

@[simp] theorem field_obj_nil (k : String) : (JsVal.obj []).field k = .undefined := rfl

@[simp] theorem field_obj_cons (k k1 : String) (v : JsVal) (fs : List (String × JsVal)) :
    (JsVal.obj ((k1, v) :: fs)).field k = if k1 = k then v else (JsVal.obj fs).field k := rfl

@[simp] theorem lt_fin_fin (a b : ℚ) : (JsNum.fin a).lt (.fin b) = decide (a < b) := rfl

@[simp] theorem le_fin_fin (a b : ℚ) : (JsNum.fin a).le (.fin b) = decide (a ≤ b) := rfl

theorem or_of_truthy {a : JsVal} (b : JsVal) (ha : a.truthy = true) : a.or b = a := by
  simp [JsVal.or, ha]

theorem or_of_falsy {a : JsVal} (b : JsVal) (ha : a.truthy = false) : a.or b = b := by
  simp [JsVal.or, ha]

/-- A string without the separator is a single piece. -/
theorem splitChars_of_not_mem (sep : Char) (cs : List Char) (hc : sep ∉ cs) :
    splitChars sep cs = [cs] := by
  induction cs with
  | nil => rfl
  | cons c cs ih =>
    have h1 : c ≠ sep := fun e => hc (by simp [e])
    have h2 : sep ∉ cs := fun e => hc (by simp [e])
    simp [splitChars, h1, ih h2]

/-- When `id.includes("|")` is false, `id.split("|")` is `[id]`. -/
theorem splitPipe_of_not_includes (s : String) (hs : includesPipe s = false) :
    splitPipe s = [s] := by
  have : '|' ∉ s.data := by
    intro hm
    simp [includesPipe, hm] at hs
  simp [splitPipe, splitChars_of_not_mem _ _ this]

/-- The local `fromId` never raises and is the identifier-derived trade of the
specification, `null` when there is none. -/
theorem parseFromId_eq (h : Host) (id exchange symbol : String) :
    parseFromId h id exchange symbol = .ok ((idDerivedTrade h id exchange symbol).getD .null) := by
  unfold parseFromId idDerivedTrade
  by_cases hp : includesPipe id = true
  · simp only [hp, if_true]
    split
    · rename_i ex sym pos entry exit rest heq
      by_cases hpos : pos = ""
      · simp [hpos]
      · by_cases he : (toSec h (.str entry)).truthy = true
        · by_cases hx : (toSec h (.str exit)).truthy = true
          · by_cases hsym : sym = "" <;> by_cases hex : ex = "" <;>
              simp [hpos, he, hx, JsVal.or, callToUpperCase, hsym, hex,
                bind, Except.bind, pure, Except.pure]
          · simp [hpos, he, hx]
        · simp [hpos, he]
    · rfl
  · have hp2 : includesPipe id = false := by simpa using hp
    simp [hp2, splitPipe_of_not_includes id hp2]

/-- The normalized trade of the line record
`binance|BTCUSDT||1754548860|1754549760`, whose position part is empty. -/
theorem normalizeTrade_emptyPosition :
    normalizeTrade refHost
      (.obj [("exchange", .str "binance"), ("symbol", .str "BTCUSDT"), ("position", .str ""),
        ("entry_timestamp", .num (.fin 1754548860)),
        ("close_timestamp", .num (.fin 1754549760))]) "binance" "BTCUSDT"
    = .ok (.obj [("exchange", .str "binance"), ("symbol", .str "BTCUSDT"),
        ("position", .str ""), ("entry_timestamp_s", .num (.fin 1754548860)),
        ("close_timestamp_s", .num (.fin 1754549760)), ("real_pnl", .undefined),
        ("real_net_pnl", .undefined), ("close_reason", .undefined)]) := by
  have hu : refHost.toUpperCase "BTCUSDT" = "BTCUSDT" := by decide
  simp [normalizeTrade, JsVal.isNullish, JsVal.or, callToUpperCase, hu, JsVal.coalesce, toSec,
    JsVal.typeofNumber, jsToString, bind, Except.bind, pure, Except.pure]
  norm_num

/-! ## C1: completeness of the trades of `parseTradesFromDocData` -/

/-- C1 (failing input): a document with an empty `trades` array whose `lines`
array holds `binance|BTCUSDT||1754548860|1754549760`, a line with an empty
position part.
`parseTradesFromDocData` returns the trade decoded from that line although its
position is the empty string: the `lines` half is filtered with `Boolean` only,
and the trade fails the completeness test that the structured half applies. -/
theorem parseTradesFromDocData_line_emptyPosition :
    parseTradesFromDocData refHost
        (.obj [("trades", .arr []),
          ("lines", .arr [.str "binance|BTCUSDT||1754548860|1754549760"])])
        "binance" "BTCUSDT"
      = .ok [.obj [("exchange", .str "binance"), ("symbol", .str "BTCUSDT"),
          ("position", .str ""), ("entry_timestamp_s", .num (.fin 1754548860)),
          ("close_timestamp_s", .num (.fin 1754549760)), ("real_pnl", .undefined),
          ("real_net_pnl", .undefined), ("close_reason", .undefined)]] ∧
    passesFilter (.obj [("exchange", .str "binance"), ("symbol", .str "BTCUSDT"),
          ("position", .str ""), ("entry_timestamp_s", .num (.fin 1754548860)),
          ("close_timestamp_s", .num (.fin 1754549760)), ("real_pnl", .undefined),
          ("real_net_pnl", .undefined), ("close_reason", .undefined)]) = false := by
  have hs : splitPipe "binance|BTCUSDT||1754548860|1754549760"
      = ["binance", "BTCUSDT", "", "1754548860", "1754549760"] := by decide
  have hn1 : readNumLit "1754548860" = some (.finite false 1754548860 0 0 0) := by decide
  have hn2 : readNumLit "1754549760" = some (.finite false 1754549760 0 0 0) := by decide
  have hl : parseLine refHost "binance" "BTCUSDT"
      (.str "binance|BTCUSDT||1754548860|1754549760")
      = .ok (.obj [("exchange", .str "binance"), ("symbol", .str "BTCUSDT"),
          ("position", .str ""), ("entry_timestamp_s", .num (.fin 1754548860)),
          ("close_timestamp_s", .num (.fin 1754549760)), ("real_pnl", .undefined),
          ("real_net_pnl", .undefined), ("close_reason", .undefined)]) := by
    simp only [parseLine, jsToString, hs, stringToNumber, hn1, hn2, NumLit.value]
    norm_num
    exact normalizeTrade_emptyPosition
  constructor
  · simp [parseTradesFromDocData, JsVal.typeofObject, selectRaw, selectLines,
      JsVal.objectValues, mapExcept, hl, bind, Except.bind, pure, Except.pure]
  · simp [passesFilter]

/-! ## C2: the encodings of one instant -/

/-- C2 (failing input): the instant 1754548860 (2025-08-07T06:41:00Z).  `toSec`
returns 1754548860 for the second number, the 10-digit string, the 13-digit
millisecond string and the date string, but for the 13-digit millisecond number
1754548860000 it returns 1754548860000: that number does not exceed the
threshold 2000000000000, so it is taken as seconds. -/
theorem toSec_millisecond_number_kept :
    toSec refHost (.num (.fin 1754548860)) = .num (.fin 1754548860) ∧
    toSec refHost (.str "1754548860") = .num (.fin 1754548860) ∧
    toSec refHost (.str "1754548860000") = .num (.fin 1754548860) ∧
    toSec refHost (.str "2025-08-07T06:41:00Z") = .num (.fin 1754548860) ∧
    toSec refHost (.num (.fin 1754548860000)) = .num (.fin 1754548860000) := by
  have hn1 : readNumLit "1754548860" = some (.finite false 1754548860 0 0 0) := by decide
  have hn2 : readNumLit "1754548860000" = some (.finite false 1754548860000 0 0 0) := by
    decide
  have hd1 : isDigits 13 "1754548860" = false := by decide
  have hd2 : isDigits 10 "1754548860" = true := by decide
  have hd3 : isDigits 13 "1754548860000" = true := by decide
  have hd4 : isDigits 13 "2025-08-07T06:41:00Z" = false := by decide
  have hd5 : isDigits 10 "2025-08-07T06:41:00Z" = false := by decide
  have hp : parseIsoUtc "2025-08-07T06:41:00Z" = some 1754548860000 := by decide
  refine ⟨?_, ?_, ?_, ?_, ?_⟩
  · norm_num [toSec]
  · simp [toSec, jsToString, hd1, hd2, stringToNumber, hn1, NumLit.value]
  · simp [toSec, jsToString, hd3, stringToNumber, hn2, NumLit.value, JsNum.floorDiv1000]
    norm_num
  · simp [toSec, jsToString, hd4, hd5, dateTimeValue, refHost, hp]
    norm_num
  · norm_num [toSec]

/-! ## C3: the resolution policy of `parseTradeFromDocSnap` -/

/-- C3 (counterexample): a snapshot whose fields give position `Long`, entry
time 0 and close time 1754549760, with an identifier that is not pipe-encoded.
The field-derived trade is complete in the sense of the specification (non-empty
position, both timestamps defined), yet `parseTradeFromDocSnap` returns `null`:
the code tests truthiness, and the defined entry time 0 is falsy. -/
theorem parseTradeFromDocSnap_zero_entry_null :
    normalizeTrade refHost
        (.obj [("position", .str "Long"), ("entry_timestamp", .num (.fin 0)),
          ("close_timestamp", .num (.fin 1754549760))]) "binance" "BTCUSDT"
      = .ok (.obj [("exchange", .str "binance"), ("symbol", .str "BTCUSDT"),
          ("position", .str "Long"), ("entry_timestamp_s", .num (.fin 0)),
          ("close_timestamp_s", .num (.fin 1754549760)), ("real_pnl", .undefined),
          ("real_net_pnl", .undefined), ("close_reason", .undefined)]) ∧
    SpecComplete (.obj [("exchange", .str "binance"), ("symbol", .str "BTCUSDT"),
          ("position", .str "Long"), ("entry_timestamp_s", .num (.fin 0)),
          ("close_timestamp_s", .num (.fin 1754549760)), ("real_pnl", .undefined),
          ("real_net_pnl", .undefined), ("close_reason", .undefined)]) ∧
    parseTradeFromDocSnap refHost
        { id := "doc-1",
          data := .obj [("position", .str "Long"), ("entry_timestamp", .num (.fin 0)),
            ("close_timestamp", .num (.fin 1754549760))] } "binance" "BTCUSDT"
      = .ok .null := by
  have hu : refHost.toUpperCase "BTCUSDT" = "BTCUSDT" := by decide
  have hi : includesPipe "doc-1" = false := by decide
  have hn : normalizeTrade refHost
        (.obj [("position", .str "Long"), ("entry_timestamp", .num (.fin 0)),
          ("close_timestamp", .num (.fin 1754549760))]) "binance" "BTCUSDT"
      = .ok (.obj [("exchange", .str "binance"), ("symbol", .str "BTCUSDT"),
          ("position", .str "Long"), ("entry_timestamp_s", .num (.fin 0)),
          ("close_timestamp_s", .num (.fin 1754549760)), ("real_pnl", .undefined),
          ("real_net_pnl", .undefined), ("close_reason", .undefined)]) := by
    simp [normalizeTrade, JsVal.isNullish, JsVal.or, callToUpperCase, hu, JsVal.coalesce, toSec,
      JsVal.typeofNumber, jsToString, bind, Except.bind, pure, Except.pure]
    norm_num
  refine ⟨hn, ?_, ?_⟩
  · simp [SpecComplete]
  · simp [parseTradeFromDocSnap, JsVal.or, hn, parseFromId, hi, bind, Except.bind, pure,
      Except.pure]

/-- C3 (amended): whenever the field data normalizes without a `TypeError`,
`parseTradeFromDocSnap` returns the field-derived trade if its position, entry
time and close time are all truthy; otherwise the identifier-derived trade if
the identifier has five parts with a non-empty position and truthy entry and
exit times; otherwise `null`. -/
theorem parseTradeFromDocSnap_resolution (h : Host) (docSnap : DocSnap)
    (exchange symbol : String) (fromData : JsVal)
    (hfd : normalizeTrade h (docSnap.data.or (.obj [])) exchange symbol = .ok fromData) :
    (TruthyComplete fromData →
      parseTradeFromDocSnap h docSnap exchange symbol = .ok fromData) ∧
    (¬ TruthyComplete fromData → ∀ t, idDerivedTrade h docSnap.id exchange symbol = some t →
      parseTradeFromDocSnap h docSnap exchange symbol = .ok t) ∧
    (¬ TruthyComplete fromData → idDerivedTrade h docSnap.id exchange symbol = none →
      parseTradeFromDocSnap h docSnap exchange symbol = .ok .null) := by
  have key : parseTradeFromDocSnap h docSnap exchange symbol =
      .ok ((if (fromData.field "position").truthy && (fromData.field "entry_timestamp_s").truthy
          && (fromData.field "close_timestamp_s").truthy then fromData else .null).or
        ((idDerivedTrade h docSnap.id exchange symbol).getD .null)) := by
    unfold parseTradeFromDocSnap
    simp only [hfd, parseFromId_eq, bind, Except.bind, pure, Except.pure]
  refine ⟨?_, ?_, ?_⟩
  · rintro ⟨h1, h2, h3⟩
    have hobj : fromData.truthy = true := by
      cases fromData <;> simp_all [JsVal.field]
    simp [key, h1, h2, h3, or_of_truthy _ hobj]
  · intro hc t ht
    have hf : ((fromData.field "position").truthy && (fromData.field "entry_timestamp_s").truthy
        && (fromData.field "close_timestamp_s").truthy) = false := by
      by_contra hne
      simp only [Bool.not_eq_false, Bool.and_eq_true] at hne
      exact hc ⟨hne.1.1, hne.1.2, hne.2⟩
    simp [key, hf, JsVal.or, ht]
  · intro hc ht
    have hf : ((fromData.field "position").truthy && (fromData.field "entry_timestamp_s").truthy
        && (fromData.field "close_timestamp_s").truthy) = false := by
      by_contra hne
      simp only [Bool.not_eq_false, Bool.and_eq_true] at hne
      exact hc ⟨hne.1.1, hne.1.2, hne.2⟩
    simp [key, hf, JsVal.or, ht]

/-- C3 (witness): a snapshot whose fields give only a position and whose
identifier is `binance|xrpusdt|Long|1754548860|1754549760`: the field-derived
trade is not complete and the identifier-derived trade is returned. -/
theorem parseTradeFromDocSnap_resolution_witness :
    normalizeTrade refHost ((JsVal.obj [("position", .str "Long")]).or (.obj []))
        "binance" "XRPUSDT"
      = .ok (.obj [("exchange", .str "binance"), ("symbol", .str "XRPUSDT"),
          ("position", .str "Long"), ("entry_timestamp_s", .undefined),
          ("close_timestamp_s", .undefined), ("real_pnl", .undefined),
          ("real_net_pnl", .undefined), ("close_reason", .undefined)]) ∧
    parseTradeFromDocSnap refHost
        { id := "binance|xrpusdt|Long|1754548860|1754549760",
          data := .obj [("position", .str "Long")] } "binance" "XRPUSDT"
      = .ok (.obj [("exchange", .str "binance"), ("symbol", .str "XRPUSDT"),
          ("position", .str "Long"), ("entry_timestamp_s", .num (.fin 1754548860)),
          ("close_timestamp_s", .num (.fin 1754549760))]) := by
  have hu : refHost.toUpperCase "XRPUSDT" = "XRPUSDT" := by decide
  have hu2 : refHost.toUpperCase "xrpusdt" = "XRPUSDT" := by decide
  have hn : normalizeTrade refHost ((JsVal.obj [("position", .str "Long")]).or (.obj []))
        "binance" "XRPUSDT"
      = .ok (.obj [("exchange", .str "binance"), ("symbol", .str "XRPUSDT"),
          ("position", .str "Long"), ("entry_timestamp_s", .undefined),
          ("close_timestamp_s", .undefined), ("real_pnl", .undefined),
          ("real_net_pnl", .undefined), ("close_reason", .undefined)]) := by
    simp [normalizeTrade, JsVal.isNullish, JsVal.or, callToUpperCase, hu, JsVal.coalesce, toSec,
      JsVal.typeofNumber, jsToString, bind, Except.bind, pure, Except.pure]
  have hs : splitPipe "binance|xrpusdt|Long|1754548860|1754549760"
      = ["binance", "xrpusdt", "Long", "1754548860", "1754549760"] := by decide
  have hn1 : readNumLit "1754548860" = some (.finite false 1754548860 0 0 0) := by decide
  have hn2 : readNumLit "1754549760" = some (.finite false 1754549760 0 0 0) := by decide
  have hd1 : isDigits 13 "1754548860" = false := by decide
  have hd2 : isDigits 10 "1754548860" = true := by decide
  have hd3 : isDigits 13 "1754549760" = false := by decide
  have hd4 : isDigits 10 "1754549760" = true := by decide
  have ht1 : toSec refHost (.str "1754548860") = .num (.fin 1754548860) := by
    simp [toSec, jsToString, hd1, hd2, stringToNumber, hn1, NumLit.value]
  have ht2 : toSec refHost (.str "1754549760") = .num (.fin 1754549760) := by
    simp [toSec, jsToString, hd3, hd4, stringToNumber, hn2, NumLit.value]
  have hid : idDerivedTrade refHost "binance|xrpusdt|Long|1754548860|1754549760" "binance"
        "XRPUSDT"
      = some (.obj [("exchange", .str "binance"), ("symbol", .str "XRPUSDT"),
          ("position", .str "Long"), ("entry_timestamp_s", .num (.fin 1754548860)),
          ("close_timestamp_s", .num (.fin 1754549760))]) := by
    simp [idDerivedTrade, hs, ht1, ht2, hu2]
  have hnc : ¬ TruthyComplete (.obj [("exchange", .str "binance"), ("symbol", .str "XRPUSDT"),
          ("position", .str "Long"), ("entry_timestamp_s", .undefined),
          ("close_timestamp_s", .undefined), ("real_pnl", .undefined),
          ("real_net_pnl", .undefined), ("close_reason", .undefined)]) := by
    simp [TruthyComplete]
  exact ⟨hn, (parseTradeFromDocSnap_resolution refHost
    { id := "binance|xrpusdt|Long|1754548860|1754549760",
      data := .obj [("position", .str "Long")] } "binance" "XRPUSDT" _ hn).2.1 hnc _ hid⟩

/-! ## The equity walk -/

@[simp] theorem walkStep_equity (w : Walk) (e : Entry) :
    (walkStep w e).equity = w.equity + e.pl := rfl

theorem walkStep_minEquity (w : Walk) (e : Entry) :
    (walkStep w e).minEquity = min (w.equity + e.pl) w.minEquity := by
  simp only [walkStep]
  split_ifs with hlt
  · exact (min_eq_left hlt.le).symm
  · exact (min_eq_right (not_lt.mp hlt)).symm

/-- The equity after a walk is the start plus the sum of the P&Ls. -/
theorem foldl_walkStep_equity (s : List Entry) :
    ∀ w0 : Walk, (s.foldl walkStep w0).equity = w0.equity + (s.map Entry.pl).sum := by
  induction s with
  | nil => intro w0; simp
  | cons e s ih =>
    intro w0
    simp only [List.foldl_cons, ih, walkStep_equity, List.map_cons, List.sum_cons]
    ring

/-- The minimum after a walk is below the minimum before it and below every
running equity of the walk. -/
theorem foldl_walkStep_min_le (s : List Entry) :
    ∀ w0 : Walk, (s.foldl walkStep w0).minEquity ≤ w0.minEquity ∧
      ∀ k, 1 ≤ k → k ≤ s.length →
        (s.foldl walkStep w0).minEquity ≤ w0.equity + ((s.take k).map Entry.pl).sum := by
  induction s with
  | nil =>
    intro w0
    refine ⟨le_refl _, ?_⟩
    intro k h1 h2
    simp at h2
    omega
  | cons e s ih =>
    intro w0
    obtain ⟨h1, h2⟩ := ih (walkStep w0 e)
    have hm := walkStep_minEquity w0 e
    simp only [List.foldl_cons]
    refine ⟨le_trans h1 (by rw [hm]; exact min_le_right _ _), ?_⟩
    intro k hk1 hk2
    obtain ⟨j, rfl⟩ : ∃ j, k = j + 1 := ⟨k - 1, by omega⟩
    simp only [List.take_succ_cons, List.map_cons, List.sum_cons]
    rcases Nat.eq_zero_or_pos j with hj | hj
    · subst hj
      simp only [List.take_zero, List.map_nil, List.sum_nil, add_zero]
      exact le_trans h1 (by rw [hm]; exact min_le_left _ _)
    · have := h2 j hj (by simpa using hk2)
      rw [walkStep_equity] at this
      linarith

/-- The minimum after a walk is the minimum before it or one of the running
equities of the walk. -/
theorem foldl_walkStep_min_attained (s : List Entry) :
    ∀ w0 : Walk, (s.foldl walkStep w0).minEquity = w0.minEquity ∨
      ∃ k, 1 ≤ k ∧ k ≤ s.length ∧
        (s.foldl walkStep w0).minEquity = w0.equity + ((s.take k).map Entry.pl).sum := by
  induction s with
  | nil => intro w0; exact Or.inl rfl
  | cons e s ih =>
    intro w0
    simp only [List.foldl_cons]
    rcases ih (walkStep w0 e) with h | ⟨k, hk1, hk2, hk⟩
    · rw [h, walkStep_minEquity]
      rcases min_choice (w0.equity + e.pl) w0.minEquity with hc | hc
      · right
        exact ⟨1, le_refl _, by simp, by simp [hc]⟩
      · left
        exact hc
    · right
      refine ⟨k + 1, by omega, by simpa using hk2, ?_⟩
      rw [hk, walkStep_equity]
      simp only [List.take_succ_cons, List.map_cons, List.sum_cons]
      ring

/-- The running equity is the start plus the sum of the first P&Ls. -/
theorem runningEquity_eq (sb : ℚ) (s : List Entry) (k : Nat) :
    runningEquity sb s k = sb + ((s.take k).map Entry.pl).sum := by
  simp [runningEquity, equityWalk, foldl_walkStep_equity]

theorem equityWalk_min_le (sb : ℚ) (s : List Entry) (k : Nat) (hk : k ≤ s.length) :
    (equityWalk sb s).minEquity ≤ runningEquity sb s k := by
  rw [runningEquity_eq]
  obtain ⟨h1, h2⟩ := foldl_walkStep_min_le s
    { equity := sb, minEquity := sb, totalProfits := 0, totalLosses := 0 }
  rcases Nat.eq_zero_or_pos k with h0 | h0
  · subst h0
    simpa [equityWalk] using h1
  · exact h2 k h0 hk

theorem equityWalk_min_attained (sb : ℚ) (s : List Entry) :
    ∃ k, k ≤ s.length ∧ (equityWalk sb s).minEquity = runningEquity sb s k := by
  rcases foldl_walkStep_min_attained s
    { equity := sb, minEquity := sb, totalProfits := 0, totalLosses := 0 } with h | ⟨k, _, hk2, hk⟩
  · exact ⟨0, Nat.zero_le _, by simpa [runningEquity_eq, equityWalk] using h⟩
  · exact ⟨k, hk2, by rw [runningEquity_eq]; exact hk⟩

/-- The accumulated profits are the sum of the strictly positive P&Ls. -/
theorem foldl_walkStep_profits (s : List Entry) :
    ∀ w0 : Walk, (s.foldl walkStep w0).totalProfits = w0.totalProfits + sumProfits s := by
  induction s with
  | nil => intro w0; simp [sumProfits]
  | cons e s ih =>
    intro w0
    simp only [List.foldl_cons, ih]
    by_cases hp : 0 < e.pl
    · simp [walkStep, sumProfits, hp, List.filter_cons]
      ring
    · simp [walkStep, sumProfits, hp, List.filter_cons]

/-- The accumulated losses are the sum of the strictly negative P&Ls. -/
theorem foldl_walkStep_losses (s : List Entry) :
    ∀ w0 : Walk, (s.foldl walkStep w0).totalLosses = w0.totalLosses + sumLosses s := by
  induction s with
  | nil => intro w0; simp [sumLosses]
  | cons e s ih =>
    intro w0
    simp only [List.foldl_cons, ih]
    by_cases hp : 0 < e.pl
    · have hn : ¬ e.pl < 0 := not_lt.mpr hp.le
      simp [walkStep, sumLosses, hp, hn, List.filter_cons]
    · by_cases hn : e.pl < 0
      · simp [walkStep, sumLosses, hp, hn, List.filter_cons]
        ring
      · simp [walkStep, sumLosses, hp, hn, List.filter_cons]

theorem sortByCloseTime_perm (l : List Entry) : (sortByCloseTime l).Perm l :=
  List.perm_insertionSort _ l

theorem sortByCloseTime_sorted (l : List Entry) :
    (sortByCloseTime l).Sorted (fun a b => a.ts ≤ b.ts) := by
  haveI : IsTotal Entry (fun a b => a.ts ≤ b.ts) := ⟨fun a b => le_total a.ts b.ts⟩
  haveI : IsTrans Entry (fun a b => a.ts ≤ b.ts) := ⟨fun a b c h1 h2 => le_trans h1 h2⟩
  exact List.sorted_insertionSort _ l

theorem sumProfits_perm {l1 l2 : List Entry} (hp : l1.Perm l2) : sumProfits l1 = sumProfits l2 :=
  ((hp.filter _).map _).sum_eq

theorem sumLosses_perm {l1 l2 : List Entry} (hp : l1.Perm l2) : sumLosses l1 = sumLosses l2 :=
  ((hp.filter _).map _).sum_eq

theorem equityWalk_totalProfits (sb : ℚ) (l : List Entry) :
    (equityWalk sb (sortByCloseTime l)).totalProfits = sumProfits l := by
  simp [equityWalk, foldl_walkStep_profits, sumProfits_perm (sortByCloseTime_perm l)]

theorem equityWalk_totalLosses (sb : ℚ) (l : List Entry) :
    (equityWalk sb (sortByCloseTime l)).totalLosses = sumLosses l := by
  simp [equityWalk, foldl_walkStep_losses, sumLosses_perm (sortByCloseTime_perm l)]

theorem sumLosses_cons (a : Entry) (l : List Entry) :
    sumLosses (a :: l) = (if a.pl < 0 then a.pl else 0) + sumLosses l := by
  by_cases ha : a.pl < 0 <;> simp [sumLosses, List.filter_cons, ha]

theorem sumProfits_cons (a : Entry) (l : List Entry) :
    sumProfits (a :: l) = (if 0 < a.pl then a.pl else 0) + sumProfits l := by
  by_cases ha : 0 < a.pl <;> simp [sumProfits, List.filter_cons, ha]

theorem sumLosses_nonpos (l : List Entry) : sumLosses l ≤ 0 := by
  induction l with
  | nil => simp [sumLosses]
  | cons a l ih =>
    rw [sumLosses_cons]
    split_ifs with ha <;> linarith

/-- The sum of the losses is negative as soon as one P&L is negative. -/
theorem sumLosses_neg_of_exists (l : List Entry) (hl : ∃ e ∈ l, e.pl < 0) :
    sumLosses l < 0 := by
  induction l with
  | nil => simp at hl
  | cons a l ih =>
    rw [sumLosses_cons]
    obtain ⟨e, he, hneg⟩ := hl
    have hnp := sumLosses_nonpos l
    rcases List.mem_cons.mp he with rfl | hmem
    · simp only [hneg, if_true]
      linarith
    · have h1 := ih ⟨e, hmem, hneg⟩
      split_ifs with ha <;> linarith

theorem sumProfits_nonneg (l : List Entry) : 0 ≤ sumProfits l := by
  unfold sumProfits
  apply List.sum_nonneg
  intro x hx
  simp only [List.mem_map, List.mem_filter, decide_eq_true_eq] at hx
  obtain ⟨e, ⟨_, he⟩, rfl⟩ := hx
  exact he.le

theorem sumLosses_eq_zero_of_none (l : List Entry) (hl : ∀ e ∈ l, ¬ e.pl < 0) :
    sumLosses l = 0 := by
  have : l.filter (fun e => decide (e.pl < 0)) = [] := by
    simp only [List.filter_eq_nil_iff, decide_eq_true_eq]
    exact hl
  simp [sumLosses, this]

theorem sumProfits_eq_zero_of_none (l : List Entry) (hl : ∀ e ∈ l, ¬ 0 < e.pl) :
    sumProfits l = 0 := by
  have : l.filter (fun e => decide (0 < e.pl)) = [] := by
    simp only [List.filter_eq_nil_iff, decide_eq_true_eq]
    exact hl
  simp [sumProfits, this]

theorem sumProfits_pos_of_exists (l : List Entry) (hl : ∃ e ∈ l, 0 < e.pl) :
    0 < sumProfits l := by
  induction l with
  | nil => simp at hl
  | cons a l ih =>
    have hsplit : sumProfits (a :: l) = (if 0 < a.pl then a.pl else 0) + sumProfits l := by
      by_cases ha : 0 < a.pl <;> simp [sumProfits, List.filter_cons, ha]
    rw [hsplit]
    obtain ⟨e, he, hpos⟩ := hl
    rcases List.mem_cons.mp he with rfl | hmem
    · have := sumProfits_nonneg l
      simp only [hpos, if_true]
      linarith
    · have h1 := ih ⟨e, hmem, hpos⟩
      by_cases ha : 0 < a.pl
      · simp only [ha, if_true]; linarith
      · simp only [ha, if_false]; linarith

theorem riskMetrics_of_ne_nil (sb : ℚ) (l : List Entry) (hl : l ≠ []) :
    riskMetrics sb l =
      { maxDrawdown := ddFraction sb (equityWalk sb (sortByCloseTime l)),
        profitFactor := some (profitFactorOf (equityWalk sb (sortByCloseTime l))) } := by
  have : l.length ≠ 0 := by simpa using hl
  simp [riskMetrics, this]

theorem sortByCloseTime_length (l : List Entry) : (sortByCloseTime l).length = l.length :=
  (sortByCloseTime_perm l).length_eq

theorem profitFactorOf_walk (sb : ℚ) (l : List Entry) :
    profitFactorOf (equityWalk sb (sortByCloseTime l)) =
      if sumLosses l < 0 then .fin (sumProfits l / |sumLosses l|)
      else if 0 < sumProfits l ∧ sumLosses l = 0 then .posInf
      else .fin 0 := by
  simp only [profitFactorOf, equityWalk_totalProfits, equityWalk_totalLosses, gt_iff_lt]

/-- Two lists with the same image under a map that is injective across them
are equal. -/
theorem eq_of_map_eq_of_inj {α β : Type} (f : α → β) :
    ∀ l1 l2 : List α, (∀ a ∈ l1, ∀ b ∈ l2, f a = f b → a = b) →
      l1.map f = l2.map f → l1 = l2 := by
  intro l1
  induction l1 with
  | nil =>
    intro l2 _ h
    cases l2 with
    | nil => rfl
    | cons b l2 => simp at h
  | cons a l1 ih =>
    intro l2 hinj h
    cases l2 with
    | nil => simp at h
    | cons b l2 =>
      simp only [List.map_cons, List.cons.injEq] at h
      have hab : a = b := hinj a (List.mem_cons_self _ _) b (List.mem_cons_self _ _) h.1
      have htl : l1 = l2 :=
        ih l2 (fun x hx y hy => hinj x (List.mem_cons_of_mem _ hx) y (List.mem_cons_of_mem _ hy))
          h.2
      rw [hab, htl]

/-- The sorted list does not depend on the input order when the close times are
pairwise distinct. -/
theorem sortByCloseTime_eq_of_perm (l1 l2 : List Entry) (hp : l1.Perm l2)
    (hn : (l1.map Entry.ts).Nodup) : sortByCloseTime l1 = sortByCloseTime l2 := by
  have hp12 : (sortByCloseTime l1).Perm (sortByCloseTime l2) :=
    (sortByCloseTime_perm l1).trans (hp.trans (sortByCloseTime_perm l2).symm)
  have hs1 : ((sortByCloseTime l1).map Entry.ts).Sorted (· ≤ ·) :=
    List.pairwise_map.mpr (sortByCloseTime_sorted l1)
  have hs2 : ((sortByCloseTime l2).map Entry.ts).Sorted (· ≤ ·) :=
    List.pairwise_map.mpr (sortByCloseTime_sorted l2)
  have hmap : (sortByCloseTime l1).map Entry.ts = (sortByCloseTime l2).map Entry.ts :=
    List.eq_of_perm_of_sorted (hp12.map _) hs1 hs2
  have hn1 : ((sortByCloseTime l1).map Entry.ts).Nodup :=
    (((sortByCloseTime_perm l1).map Entry.ts).nodup_iff).mpr hn
  apply eq_of_map_eq_of_inj Entry.ts _ _ _ hmap
  intro a ha b hb hab
  exact List.inj_on_of_nodup_map hn1 ha (hp12.symm.subset hb) hab

/-! ## Double precision: rounding and the rounded walk -/

/-- The binary exponent of a positive rational from its two bounds. -/
theorem intLog_eq (x : ℚ) (e : ℤ) (h1 : (2 : ℚ) ^ e ≤ x) (h2 : x < (2 : ℚ) ^ (e + 1)) :
    Int.log 2 x = e := by
  have hx : 0 < x := lt_of_lt_of_le (by positivity) h1
  apply le_antisymm
  · have := (Int.lt_zpow_iff_log_lt (b := 2) (by norm_num) hx (x := e + 1)).mp
      (by exact_mod_cast h2)
    omega
  · exact (Int.zpow_le_iff_le_log (b := 2) (by norm_num) hx).mp (by exact_mod_cast h1)

theorem roundHalfEven_nonneg (q : ℚ) (hq : 0 ≤ q) : 0 ≤ Double.roundHalfEven q := by
  have hf : 0 ≤ ⌊q⌋ := Int.floor_nonneg.mpr hq
  unfold Double.roundHalfEven
  split_ifs <;> omega

theorem roundHalfEven_nonpos (q : ℚ) (hq : q ≤ 0) : Double.roundHalfEven q ≤ 0 := by
  have hf : ⌊q⌋ ≤ 0 := by
    have h0 : (⌊q⌋ : ℚ) ≤ 0 := (Int.floor_le q).trans hq
    exact_mod_cast h0
  unfold Double.roundHalfEven
  have hlt : 0 < q - ⌊q⌋ → ⌊q⌋ + 1 ≤ 0 := by
    intro h
    have h1 : (⌊q⌋ : ℚ) < 0 := by linarith
    have h2 : ⌊q⌋ < 0 := by exact_mod_cast h1
    omega
  split_ifs with h1 h2 h3
  · exact hf
  · exact hlt (by linarith)
  · exact hf
  · exact hlt (by linarith)

/-- Rounding keeps the sign: the double of a value `≥ 0` is a number `≥ 0` or
`Infinity`. -/
theorem double_round_nonneg (x : ℚ) (hx : 0 ≤ x) :
    Double.round x = .posInf ∨ ∃ r, 0 ≤ r ∧ Double.round x = .fin r := by
  have hr : (0 : ℚ) ≤ Double.roundHalfEven (x / 2 ^ Double.ulpExponent x)
      * 2 ^ Double.ulpExponent x := by
    have h1 := roundHalfEven_nonneg (x / 2 ^ Double.ulpExponent x) (by positivity)
    have h2 : (0 : ℚ) ≤ Double.roundHalfEven (x / 2 ^ Double.ulpExponent x) := by
      exact_mod_cast h1
    positivity
  unfold Double.round
  simp only
  split_ifs with h1 h2
  · exact Or.inl rfl
  · exfalso
    have : (0 : ℚ) < 2 ^ (1024 : ℤ) := by positivity
    linarith
  · exact Or.inr ⟨_, hr, rfl⟩

/-- Rounding keeps the sign: the double of a value `≤ 0` is a number `≤ 0` or
`-Infinity`. -/
theorem double_round_nonpos (x : ℚ) (hx : x ≤ 0) :
    Double.round x = .negInf ∨ ∃ r, r ≤ 0 ∧ Double.round x = .fin r := by
  have hr : (Double.roundHalfEven (x / 2 ^ Double.ulpExponent x) : ℚ)
      * 2 ^ Double.ulpExponent x ≤ 0 := by
    have hq : x / 2 ^ Double.ulpExponent x ≤ 0 :=
      div_nonpos_of_nonpos_of_nonneg hx (by positivity)
    have h1 := roundHalfEven_nonpos _ hq
    have h2 : (Double.roundHalfEven (x / 2 ^ Double.ulpExponent x) : ℚ) ≤ 0 := by
      exact_mod_cast h1
    exact mul_nonpos_of_nonpos_of_nonneg h2 (by positivity)
  unfold Double.round
  simp only
  split_ifs with h1 h2
  · exfalso
    have : (0 : ℚ) < 2 ^ (1024 : ℤ) := by positivity
    linarith
  · exact Or.inl rfl
  · exact Or.inr ⟨_, hr, rfl⟩

theorem double_round_ne_nan (x : ℚ) : Double.round x ≠ .nan := by
  unfold Double.round
  simp only
  split_ifs <;> simp

/-- The value of `round` from the binary exponent and the rounded significand. -/
theorem double_round_eq (x : ℚ) (e m : ℤ) (h1 : (2 : ℚ) ^ e ≤ |x|) (h2 : |x| < (2 : ℚ) ^ (e + 1))
    (he : -1022 ≤ e) (hm : Double.roundHalfEven (x / 2 ^ (e - 52)) = m)
    (hlt : (m : ℚ) * 2 ^ (e - 52) < 2 ^ (1024 : ℤ))
    (hgt : -2 ^ (1024 : ℤ) < (m : ℚ) * 2 ^ (e - 52)) :
    Double.round x = .fin (m * 2 ^ (e - 52)) := by
  have hu : Double.ulpExponent x = e - 52 := by
    unfold Double.ulpExponent
    rw [intLog_eq _ e h1 h2, max_eq_left he]
  unfold Double.round
  simp only [hu, hm]
  rw [if_neg (not_le.mpr hlt), if_neg (not_le.mpr hgt)]

theorem jsNum_lt_trans (a b c : JsNum) (h1 : a.lt b = true) (h2 : b.lt c = true) :
    a.lt c = true := by
  cases a <;> cases b <;> cases c <;> simp_all [JsNum.lt]
  exact lt_trans h1 h2

theorem jsNum_lt_irrefl (a : JsNum) : a.lt a = false := by
  cases a <;> simp [JsNum.lt]

theorem double_add_ne_nan (a : JsNum) (q : ℚ) (ha : a ≠ .nan) : Double.add a (.fin q) ≠ .nan := by
  cases a with
  | fin x => exact double_round_ne_nan _
  | nan => exact absurd rfl ha
  | posInf => simp [Double.add]
  | negInf => simp [Double.add]

theorem double_round_zero : Double.round 0 = .fin 0 := by
  norm_num [Double.round, Double.roundHalfEven]

/-- The value of `round` beyond the largest double, on the positive side. -/
theorem double_round_eq_posInf (x : ℚ) (e m : ℤ) (h1 : (2 : ℚ) ^ e ≤ |x|)
    (h2 : |x| < (2 : ℚ) ^ (e + 1)) (he : -1022 ≤ e)
    (hm : Double.roundHalfEven (x / 2 ^ (e - 52)) = m)
    (hge : (2 : ℚ) ^ (1024 : ℤ) ≤ (m : ℚ) * 2 ^ (e - 52)) :
    Double.round x = .posInf := by
  have hu : Double.ulpExponent x = e - 52 := by
    unfold Double.ulpExponent
    rw [intLog_eq _ e h1 h2, max_eq_left he]
  unfold Double.round
  simp only [hu, hm]
  rw [if_pos hge]

/-- The value of `round` beyond the largest double, on the negative side. -/
theorem double_round_eq_negInf (x : ℚ) (e m : ℤ) (h1 : (2 : ℚ) ^ e ≤ |x|)
    (h2 : |x| < (2 : ℚ) ^ (e + 1)) (he : -1022 ≤ e)
    (hm : Double.roundHalfEven (x / 2 ^ (e - 52)) = m)
    (hle : (m : ℚ) * 2 ^ (e - 52) ≤ -2 ^ (1024 : ℤ)) :
    Double.round x = .negInf := by
  have hu : Double.ulpExponent x = e - 52 := by
    unfold Double.ulpExponent
    rw [intLog_eq _ e h1 h2, max_eq_left he]
  have hpos : (0 : ℚ) < 2 ^ (1024 : ℤ) := by positivity
  unfold Double.round
  simp only [hu, hm]
  rw [if_neg (by linarith), if_pos hle]

theorem lt_fin_false (a b : ℚ) (h : ¬ a < b) : JsNum.lt (.fin a) (.fin b) = false := by
  simp [JsNum.lt, h]

theorem lt_fin_true (a b : ℚ) (h : a < b) : JsNum.lt (.fin a) (.fin b) = true := by
  simp [JsNum.lt, h]

/-! ## The rounded equity walk -/

@[simp] theorem double_walkStep_equity (w : Double.Walk) (e : Entry) :
    (Double.walkStep w e).equity = Double.add w.equity (.fin e.pl) := rfl

theorem double_walkStep_minEquity (w : Double.Walk) (e : Entry) :
    (Double.walkStep w e).minEquity
      = if (Double.add w.equity (.fin e.pl)).lt w.minEquity then Double.add w.equity (.fin e.pl)
        else w.minEquity := rfl

theorem double_riskMetrics_of_ne_nil (sb : ℚ) (l : List Entry) (hl : l ≠ []) :
    Double.riskMetrics sb l =
      { maxDrawdown := Double.ddFraction sb (Double.equityWalk sb (sortByCloseTime l)),
        profitFactor := some (Double.profitFactorOf (Double.equityWalk sb (sortByCloseTime l))) } := by
  have : l.length ≠ 0 := by simpa using hl
  simp [Double.riskMetrics, this]

theorem double_runningEquity_zero (sb : ℚ) (s : List Entry) :
    Double.runningEquity sb s 0 = .fin sb := by
  simp [Double.runningEquity, Double.equityWalk]

theorem double_runningEquity_length (sb : ℚ) (s : List Entry) :
    Double.runningEquity sb s s.length = (Double.equityWalk sb s).equity := by
  simp [Double.runningEquity]

/-- The running equity after one more trade is the rounded sum of the running
equity and the P&L of that trade. -/
theorem double_runningEquity_succ (sb : ℚ) (s : List Entry) (k : Nat) (hk : k < s.length) :
    Double.runningEquity sb s (k + 1)
      = Double.add (Double.runningEquity sb s k) (.fin (s.get ⟨k, hk⟩).pl) := by
  simp only [Double.runningEquity, Double.equityWalk]
  rw [List.take_succ, List.foldl_append]
  simp [List.getElem?_eq_getElem hk]

/-- No value that is not below the minimum before a walk is below the minimum
after it. -/
theorem double_foldl_min_not_lt (s : List Entry) :
    ∀ (w0 : Double.Walk) (x : JsNum), x.lt w0.minEquity = false →
      x.lt (s.foldl Double.walkStep w0).minEquity = false := by
  induction s with
  | nil => intro w0 x hx; simpa using hx
  | cons e s ih =>
    intro w0 x hx
    simp only [List.foldl_cons]
    apply ih
    rw [double_walkStep_minEquity]
    split_ifs with hlt
    · cases hxe : x.lt (Double.add w0.equity (.fin e.pl)) with
      | false => rfl
      | true =>
        have := jsNum_lt_trans _ _ _ hxe hlt
        rw [hx] at this
        exact absurd this (by simp)
    · exact hx

/-- No running equity of a walk is below the minimum after the walk. -/
theorem double_foldl_min_running (s : List Entry) :
    ∀ (w0 : Double.Walk) (k : Nat), 1 ≤ k → k ≤ s.length →
      (((s.take k).foldl Double.walkStep w0).equity).lt
        (s.foldl Double.walkStep w0).minEquity = false := by
  induction s with
  | nil =>
    intro w0 k h1 h2
    simp at h2
    omega
  | cons e s ih =>
    intro w0 k h1 h2
    obtain ⟨j, rfl⟩ : ∃ j, k = j + 1 := ⟨k - 1, by omega⟩
    simp only [List.take_succ_cons, List.foldl_cons]
    rcases Nat.eq_zero_or_pos j with hj | hj
    · subst hj
      simp only [List.take_zero, List.foldl_nil]
      apply double_foldl_min_not_lt
      rw [double_walkStep_minEquity, double_walkStep_equity]
      split_ifs with hlt
      · exact jsNum_lt_irrefl _
      · simpa using hlt
    · exact ih (Double.walkStep w0 e) j hj (by simpa using h2)

/-- The minimum after a walk is the minimum before it or one of the running
equities of the walk. -/
theorem double_foldl_min_attained (s : List Entry) :
    ∀ w0 : Double.Walk, (s.foldl Double.walkStep w0).minEquity = w0.minEquity ∨
      ∃ k, 1 ≤ k ∧ k ≤ s.length ∧
        (s.foldl Double.walkStep w0).minEquity
          = ((s.take k).foldl Double.walkStep w0).equity := by
  induction s with
  | nil => intro w0; exact Or.inl rfl
  | cons e s ih =>
    intro w0
    simp only [List.foldl_cons]
    rcases ih (Double.walkStep w0 e) with h | ⟨k, hk1, hk2, hk⟩
    · rw [h, double_walkStep_minEquity]
      split_ifs with hlt
      · right
        exact ⟨1, le_refl _, by simp, by simp⟩
      · left
        rfl
    · right
      exact ⟨k + 1, by omega, by simpa using hk2, by simpa using hk⟩

theorem double_foldl_equity_ne_nan (s : List Entry) :
    ∀ w0 : Double.Walk, w0.equity ≠ .nan → (s.foldl Double.walkStep w0).equity ≠ .nan := by
  induction s with
  | nil => intro w0 h; simpa using h
  | cons e s ih =>
    intro w0 h
    simp only [List.foldl_cons]
    exact ih _ (double_add_ne_nan _ _ h)

theorem double_runningEquity_ne_nan (sb : ℚ) (s : List Entry) (k : Nat) :
    Double.runningEquity sb s k ≠ .nan := by
  unfold Double.runningEquity Double.equityWalk
  exact double_foldl_equity_ne_nan _ _ (by simp)

theorem double_equityWalk_min_not_lt (sb : ℚ) (s : List Entry) (k : Nat) (hk : k ≤ s.length) :
    (Double.runningEquity sb s k).lt (Double.equityWalk sb s).minEquity = false := by
  rcases Nat.eq_zero_or_pos k with h0 | h0
  · subst h0
    rw [double_runningEquity_zero]
    exact double_foldl_min_not_lt s _ _ (jsNum_lt_irrefl _)
  · exact double_foldl_min_running s _ k h0 hk

theorem double_equityWalk_min_attained (sb : ℚ) (s : List Entry) :
    ∃ k, k ≤ s.length ∧ (Double.equityWalk sb s).minEquity = Double.runningEquity sb s k := by
  rcases double_foldl_min_attained s
    { equity := .fin sb, minEquity := .fin sb, totalProfits := .fin 0, totalLosses := .fin 0 }
    with h | ⟨k, _, hk2, hk⟩
  · exact ⟨0, Nat.zero_le _, by rw [double_runningEquity_zero]; exact h⟩
  · exact ⟨k, hk2, hk⟩

/-- Where every exact sum `startingBalance + (sum of the first j P&Ls)` up to `k`
is a double, no addition of the walk is rounded up to `k`, and the running
equity is that sum. -/
theorem double_runningEquity_exact (sb : ℚ) (s : List Entry) :
    ∀ k, k ≤ s.length →
      (∀ j, 1 ≤ j → j ≤ k → Double.round (sb + ((s.take j).map Entry.pl).sum)
        = .fin (sb + ((s.take j).map Entry.pl).sum)) →
      Double.runningEquity sb s k = .fin (sb + ((s.take k).map Entry.pl).sum) := by
  intro k
  induction k with
  | zero =>
    intro _ _
    simp [double_runningEquity_zero]
  | succ k ih =>
    intro hk hex
    have hk2 : k < s.length := by omega
    rw [double_runningEquity_succ sb s k hk2,
      ih (by omega) (fun j h1 h2 => hex j h1 (by omega))]
    have hsum : sb + ((s.take (k + 1)).map Entry.pl).sum
        = sb + ((s.take k).map Entry.pl).sum + (s.get ⟨k, hk2⟩).pl := by
      rw [List.take_succ, List.map_append, List.sum_append, List.getElem?_eq_getElem hk2]
      simp only [Option.toList, List.map_cons, List.map_nil, List.sum_cons, List.sum_nil,
        List.get_eq_getElem]
      ring
    have := hex (k + 1) (by omega) (le_refl _)
    rw [hsum] at this
    rw [hsum]
    exact this

/-- The sign of the totals: what the walk keeps true of `totalProfits` and
`totalLosses`. -/
theorem double_foldl_totals_sign (s : List Entry) :
    ∀ w0 : Double.Walk,
      (w0.totalProfits = .posInf ∨ ∃ r, 0 ≤ r ∧ w0.totalProfits = .fin r) →
      (w0.totalLosses = .negInf ∨ ∃ r, r ≤ 0 ∧ w0.totalLosses = .fin r) →
      ((s.foldl Double.walkStep w0).totalProfits = .posInf ∨
          ∃ r, 0 ≤ r ∧ (s.foldl Double.walkStep w0).totalProfits = .fin r) ∧
        ((s.foldl Double.walkStep w0).totalLosses = .negInf ∨
          ∃ r, r ≤ 0 ∧ (s.foldl Double.walkStep w0).totalLosses = .fin r) := by
  induction s with
  | nil => intro w0 h1 h2; exact ⟨h1, h2⟩
  | cons e s ih =>
    intro w0 h1 h2
    simp only [List.foldl_cons]
    apply ih
    · simp only [Double.walkStep]
      split_ifs with hp
      · rcases h1 with h | ⟨r, hr, h⟩
        · left
          rw [h]
          rfl
        · rw [h]
          exact double_round_nonneg _ (by linarith)
      · exact h1
    · simp only [Double.walkStep]
      split_ifs with hp hn
      · exact h2
      · rcases h2 with h | ⟨r, hr, h⟩
        · left
          rw [h]
          rfl
        · rw [h]
          exact double_round_nonpos _ (by linarith)
      · exact h2

theorem double_equityWalk_totals_sign (sb : ℚ) (s : List Entry) :
    ((Double.equityWalk sb s).totalProfits = .posInf ∨
        ∃ r, 0 ≤ r ∧ (Double.equityWalk sb s).totalProfits = .fin r) ∧
      ((Double.equityWalk sb s).totalLosses = .negInf ∨
        ∃ r, r ≤ 0 ∧ (Double.equityWalk sb s).totalLosses = .fin r) :=
  double_foldl_totals_sign s _ (Or.inr ⟨0, le_refl _, rfl⟩) (Or.inr ⟨0, le_refl _, rfl⟩)

/-- The profit factor of a walk whose totals have the signs that the walk keeps:
`NaN` exactly when both totals are infinite, else `Infinity` or a number `≥ 0`. -/
theorem double_profitFactorOf_sign (w : Double.Walk)
    (h1 : w.totalProfits = .posInf ∨ ∃ r, 0 ≤ r ∧ w.totalProfits = .fin r)
    (h2 : w.totalLosses = .negInf ∨ ∃ r, r ≤ 0 ∧ w.totalLosses = .fin r) :
    (Double.profitFactorOf w = .nan ∨ Double.profitFactorOf w = .posInf ∨
        ∃ r, 0 ≤ r ∧ Double.profitFactorOf w = .fin r) ∧
      (Double.profitFactorOf w = .nan ↔ w.totalProfits = .posInf ∧ w.totalLosses = .negInf) := by
  unfold Double.profitFactorOf
  rcases h2 with hl | ⟨l, hl0, hl⟩
  · rcases h1 with hp | ⟨p, hp0, hp⟩
    · rw [hl, hp]
      simp [JsNum.lt, Double.abs, Double.div]
    · rw [hl, hp]
      simp [JsNum.lt, Double.abs, Double.div]
  · by_cases hz : l < 0
    · have habs : |l| ≠ 0 := by
        simp [abs_eq_zero, hz.ne]
      rcases h1 with hp | ⟨p, hp0, hp⟩
      · rw [hl, hp]
        simp [JsNum.lt, Double.abs, Double.div, hz]
      · rw [hl, hp]
        simp only [JsNum.lt, decide_eq_true_eq, hz, if_true, Double.abs, Double.div, habs,
          if_false]
        have hq : 0 ≤ p / |l| := div_nonneg hp0 (abs_nonneg l)
        refine ⟨?_, ?_⟩
        · rcases double_round_nonneg _ hq with h | ⟨r, hr, h⟩
          · exact Or.inr (Or.inl h)
          · exact Or.inr (Or.inr ⟨r, hr, h⟩)
        · simp [double_round_ne_nan]
    · have hl2 : l = 0 := le_antisymm hl0 (not_lt.mp hz)
      subst hl2
      rcases h1 with hp | ⟨p, hp0, hp⟩
      · rw [hl, hp]
        simp [JsNum.lt]
      · rw [hl, hp]
        simp only [JsNum.lt]
        by_cases hpp : 0 < p
        · simp [hpp]
        · simp [hpp]

theorem double_ddFraction_of_pos (sb : ℚ) (w : Double.Walk) (hsb : 0 < sb) :
    Double.ddFraction sb w
      = some (Double.div (Double.sub w.minEquity (.fin sb)) (.fin sb)) := by
  simp [Double.ddFraction, hsb]

theorem double_sub_fin (a b : ℚ) : Double.sub (.fin a) (.fin b) = Double.round (a - b) := rfl

theorem double_div_fin (a b : ℚ) (hb : b ≠ 0) :
    Double.div (.fin a) (.fin b) = Double.round (a / b) := by
  simp [Double.div, hb]

/-- The profit factor of a walk with finite totals and some loss: the rounded
quotient of the profits and the absolute value of the losses. -/
theorem double_profitFactorOf_fin (w : Double.Walk) (p l m : ℚ) (hp : w.totalProfits = .fin p)
    (hl : w.totalLosses = .fin l) (hneg : l < 0) (hm : |l| = m) :
    Double.profitFactorOf w = Double.round (p / m) := by
  have hne : |l| ≠ 0 := by simp [abs_eq_zero, hneg.ne]
  subst hm
  simp [Double.profitFactorOf, hp, hl, JsNum.lt, hneg, Double.abs, Double.div, hne]

/-! ## The rounded walk at concrete inputs -/

/-- The rounded walk of the P&Ls 0.01, 0.2, -0.21 (as doubles) from the starting
balance 10: the equity ends at 9.999999999999998, below the starting balance. -/
theorem equityWalk_cents :
    Double.equityWalk 10 [⟨1, 5764607523034235 / 576460752303423488⟩, ⟨2, 3602879701896397 / 18014398509481984⟩, ⟨3, -7566047373982433 / 36028797018963968⟩]
      = ⟨JsNum.fin (5629499534213119 / 562949953421312), JsNum.fin (5629499534213119 / 562949953421312), JsNum.fin (3783023686991217 / 18014398509481984), JsNum.fin (-7566047373982433 / 36028797018963968)⟩ := by
  have l0 : JsNum.lt (JsNum.fin (5635129033747333 / 562949953421312)) (JsNum.fin 10) = false :=
    lt_fin_false _ _ (by norm_num)
  have e0 : Double.round (10 + 5764607523034235 / 576460752303423488) = JsNum.fin (5635129033747333 / 562949953421312) := by
    rw [double_round_eq _ 3 5635129033747333 (by norm_num [abs_of_pos, abs_of_neg])
      (by norm_num [abs_of_pos, abs_of_neg]) (by norm_num)
      (by norm_num [Double.roundHalfEven]) (by norm_num) (by norm_num)]
    norm_num
  have t0 : Double.round (0 + 5764607523034235 / 576460752303423488) = JsNum.fin (5764607523034235 / 576460752303423488) := by
    rw [double_round_eq _ (-7) 5764607523034235 (by norm_num [abs_of_pos, abs_of_neg])
      (by norm_num [abs_of_pos, abs_of_neg]) (by norm_num)
      (by norm_num [Double.roundHalfEven]) (by norm_num) (by norm_num)]
    norm_num
  have s0 : Double.walkStep ⟨JsNum.fin 10, JsNum.fin 10, JsNum.fin 0, JsNum.fin 0⟩ ⟨1, 5764607523034235 / 576460752303423488⟩
      = ⟨JsNum.fin (5635129033747333 / 562949953421312), JsNum.fin 10, JsNum.fin (5764607523034235 / 576460752303423488), JsNum.fin 0⟩ := by
    simp only [Double.walkStep, Double.add, l0, e0, t0]
    norm_num
  have l1 : JsNum.lt (JsNum.fin (5747719024431595 / 562949953421312)) (JsNum.fin 10) = false :=
    lt_fin_false _ _ (by norm_num)
  have e1 : Double.round (5635129033747333 / 562949953421312 + 3602879701896397 / 18014398509481984) = JsNum.fin (5747719024431595 / 562949953421312) := by
    rw [double_round_eq _ 3 5747719024431595 (by norm_num [abs_of_pos, abs_of_neg])
      (by norm_num [abs_of_pos, abs_of_neg]) (by norm_num)
      (by norm_num [Double.roundHalfEven]) (by norm_num) (by norm_num)]
    norm_num
  have t1 : Double.round (5764607523034235 / 576460752303423488 + 3602879701896397 / 18014398509481984) = JsNum.fin (3783023686991217 / 18014398509481984) := by
    rw [double_round_eq _ (-3) 7566047373982434 (by norm_num [abs_of_pos, abs_of_neg])
      (by norm_num [abs_of_pos, abs_of_neg]) (by norm_num)
      (by norm_num [Double.roundHalfEven]) (by norm_num) (by norm_num)]
    norm_num
  have s1 : Double.walkStep ⟨JsNum.fin (5635129033747333 / 562949953421312), JsNum.fin 10, JsNum.fin (5764607523034235 / 576460752303423488), JsNum.fin 0⟩ ⟨2, 3602879701896397 / 18014398509481984⟩
      = ⟨JsNum.fin (5747719024431595 / 562949953421312), JsNum.fin 10, JsNum.fin (3783023686991217 / 18014398509481984), JsNum.fin 0⟩ := by
    simp only [Double.walkStep, Double.add, l1, e1, t1]
    norm_num
  have l2 : JsNum.lt (JsNum.fin (5629499534213119 / 562949953421312)) (JsNum.fin 10) = true :=
    lt_fin_true _ _ (by norm_num)
  have e2 : Double.round (5747719024431595 / 562949953421312 + -7566047373982433 / 36028797018963968) = JsNum.fin (5629499534213119 / 562949953421312) := by
    rw [double_round_eq _ 3 5629499534213119 (by norm_num [abs_of_pos, abs_of_neg])
      (by norm_num [abs_of_pos, abs_of_neg]) (by norm_num)
      (by norm_num [Double.roundHalfEven]) (by norm_num) (by norm_num)]
    norm_num
  have t2 : Double.round (0 + -7566047373982433 / 36028797018963968) = JsNum.fin (-7566047373982433 / 36028797018963968) := by
    rw [double_round_eq _ (-3) (-7566047373982433) (by norm_num [abs_of_pos, abs_of_neg])
      (by norm_num [abs_of_pos, abs_of_neg]) (by norm_num)
      (by norm_num [Double.roundHalfEven]) (by norm_num) (by norm_num)]
    norm_num
  have s2 : Double.walkStep ⟨JsNum.fin (5747719024431595 / 562949953421312), JsNum.fin 10, JsNum.fin (3783023686991217 / 18014398509481984), JsNum.fin 0⟩ ⟨3, -7566047373982433 / 36028797018963968⟩
      = ⟨JsNum.fin (5629499534213119 / 562949953421312), JsNum.fin (5629499534213119 / 562949953421312), JsNum.fin (3783023686991217 / 18014398509481984), JsNum.fin (-7566047373982433 / 36028797018963968)⟩ := by
    simp only [Double.walkStep, Double.add, l2, e2, t2]
    norm_num
  simp only [Double.equityWalk, List.foldl, s0, s1, s2]

/-- The rounded walk of the P&L 0.01 from the starting balance 10. -/
theorem equityWalk_cents_one :
    Double.equityWalk 10 [⟨1, 5764607523034235 / 576460752303423488⟩]
      = ⟨JsNum.fin (5635129033747333 / 562949953421312), JsNum.fin 10, JsNum.fin (5764607523034235 / 576460752303423488), JsNum.fin 0⟩ := by
  have l0 : JsNum.lt (JsNum.fin (5635129033747333 / 562949953421312)) (JsNum.fin 10) = false :=
    lt_fin_false _ _ (by norm_num)
  have e0 : Double.round (10 + 5764607523034235 / 576460752303423488) = JsNum.fin (5635129033747333 / 562949953421312) := by
    rw [double_round_eq _ 3 5635129033747333 (by norm_num [abs_of_pos, abs_of_neg])
      (by norm_num [abs_of_pos, abs_of_neg]) (by norm_num)
      (by norm_num [Double.roundHalfEven]) (by norm_num) (by norm_num)]
    norm_num
  have t0 : Double.round (0 + 5764607523034235 / 576460752303423488) = JsNum.fin (5764607523034235 / 576460752303423488) := by
    rw [double_round_eq _ (-7) 5764607523034235 (by norm_num [abs_of_pos, abs_of_neg])
      (by norm_num [abs_of_pos, abs_of_neg]) (by norm_num)
      (by norm_num [Double.roundHalfEven]) (by norm_num) (by norm_num)]
    norm_num
  have s0 : Double.walkStep ⟨JsNum.fin 10, JsNum.fin 10, JsNum.fin 0, JsNum.fin 0⟩ ⟨1, 5764607523034235 / 576460752303423488⟩
      = ⟨JsNum.fin (5635129033747333 / 562949953421312), JsNum.fin 10, JsNum.fin (5764607523034235 / 576460752303423488), JsNum.fin 0⟩ := by
    simp only [Double.walkStep, Double.add, l0, e0, t0]
    norm_num
  simp only [Double.equityWalk, List.foldl, s0]

/-- The rounded walk of the P&Ls 0.01, 0.2 from the starting balance 10. -/
theorem equityWalk_cents_two :
    Double.equityWalk 10 [⟨1, 5764607523034235 / 576460752303423488⟩, ⟨2, 3602879701896397 / 18014398509481984⟩]
      = ⟨JsNum.fin (5747719024431595 / 562949953421312), JsNum.fin 10, JsNum.fin (3783023686991217 / 18014398509481984), JsNum.fin 0⟩ := by
  have l0 : JsNum.lt (JsNum.fin (5635129033747333 / 562949953421312)) (JsNum.fin 10) = false :=
    lt_fin_false _ _ (by norm_num)
  have e0 : Double.round (10 + 5764607523034235 / 576460752303423488) = JsNum.fin (5635129033747333 / 562949953421312) := by
    rw [double_round_eq _ 3 5635129033747333 (by norm_num [abs_of_pos, abs_of_neg])
      (by norm_num [abs_of_pos, abs_of_neg]) (by norm_num)
      (by norm_num [Double.roundHalfEven]) (by norm_num) (by norm_num)]
    norm_num
  have t0 : Double.round (0 + 5764607523034235 / 576460752303423488) = JsNum.fin (5764607523034235 / 576460752303423488) := by
    rw [double_round_eq _ (-7) 5764607523034235 (by norm_num [abs_of_pos, abs_of_neg])
      (by norm_num [abs_of_pos, abs_of_neg]) (by norm_num)
      (by norm_num [Double.roundHalfEven]) (by norm_num) (by norm_num)]
    norm_num
  have s0 : Double.walkStep ⟨JsNum.fin 10, JsNum.fin 10, JsNum.fin 0, JsNum.fin 0⟩ ⟨1, 5764607523034235 / 576460752303423488⟩
      = ⟨JsNum.fin (5635129033747333 / 562949953421312), JsNum.fin 10, JsNum.fin (5764607523034235 / 576460752303423488), JsNum.fin 0⟩ := by
    simp only [Double.walkStep, Double.add, l0, e0, t0]
    norm_num
  have l1 : JsNum.lt (JsNum.fin (5747719024431595 / 562949953421312)) (JsNum.fin 10) = false :=
    lt_fin_false _ _ (by norm_num)
  have e1 : Double.round (5635129033747333 / 562949953421312 + 3602879701896397 / 18014398509481984) = JsNum.fin (5747719024431595 / 562949953421312) := by
    rw [double_round_eq _ 3 5747719024431595 (by norm_num [abs_of_pos, abs_of_neg])
      (by norm_num [abs_of_pos, abs_of_neg]) (by norm_num)
      (by norm_num [Double.roundHalfEven]) (by norm_num) (by norm_num)]
    norm_num
  have t1 : Double.round (5764607523034235 / 576460752303423488 + 3602879701896397 / 18014398509481984) = JsNum.fin (3783023686991217 / 18014398509481984) := by
    rw [double_round_eq _ (-3) 7566047373982434 (by norm_num [abs_of_pos, abs_of_neg])
      (by norm_num [abs_of_pos, abs_of_neg]) (by norm_num)
      (by norm_num [Double.roundHalfEven]) (by norm_num) (by norm_num)]
    norm_num
  have s1 : Double.walkStep ⟨JsNum.fin (5635129033747333 / 562949953421312), JsNum.fin 10, JsNum.fin (5764607523034235 / 576460752303423488), JsNum.fin 0⟩ ⟨2, 3602879701896397 / 18014398509481984⟩
      = ⟨JsNum.fin (5747719024431595 / 562949953421312), JsNum.fin 10, JsNum.fin (3783023686991217 / 18014398509481984), JsNum.fin 0⟩ := by
    simp only [Double.walkStep, Double.add, l1, e1, t1]
    norm_num
  simp only [Double.equityWalk, List.foldl, s0, s1]

/-- The rounded walk of the P&Ls 10, -30, 20 from the starting balance 100: no
sum is rounded. -/
theorem equityWalk_spec_example :
    Double.equityWalk 100 [⟨1, 10⟩, ⟨2, -30⟩, ⟨3, 20⟩]
      = ⟨JsNum.fin 100, JsNum.fin 80, JsNum.fin 30, JsNum.fin (-30)⟩ := by
  have l0 : JsNum.lt (JsNum.fin 110) (JsNum.fin 100) = false :=
    lt_fin_false _ _ (by norm_num)
  have e0 : Double.round (100 + 10) = JsNum.fin 110 := by
    rw [double_round_eq _ 6 7740561859543040 (by norm_num [abs_of_pos, abs_of_neg])
      (by norm_num [abs_of_pos, abs_of_neg]) (by norm_num)
      (by norm_num [Double.roundHalfEven]) (by norm_num) (by norm_num)]
    norm_num
  have t0 : Double.round (0 + 10) = JsNum.fin 10 := by
    rw [double_round_eq _ 3 5629499534213120 (by norm_num [abs_of_pos, abs_of_neg])
      (by norm_num [abs_of_pos, abs_of_neg]) (by norm_num)
      (by norm_num [Double.roundHalfEven]) (by norm_num) (by norm_num)]
    norm_num
  have s0 : Double.walkStep ⟨JsNum.fin 100, JsNum.fin 100, JsNum.fin 0, JsNum.fin 0⟩ ⟨1, 10⟩
      = ⟨JsNum.fin 110, JsNum.fin 100, JsNum.fin 10, JsNum.fin 0⟩ := by
    simp only [Double.walkStep, Double.add, l0, e0, t0]
    norm_num
  have l1 : JsNum.lt (JsNum.fin 80) (JsNum.fin 100) = true :=
    lt_fin_true _ _ (by norm_num)
  have e1 : Double.round (110 + -30) = JsNum.fin 80 := by
    rw [double_round_eq _ 6 5629499534213120 (by norm_num [abs_of_pos, abs_of_neg])
      (by norm_num [abs_of_pos, abs_of_neg]) (by norm_num)
      (by norm_num [Double.roundHalfEven]) (by norm_num) (by norm_num)]
    norm_num
  have t1 : Double.round (0 + -30) = JsNum.fin (-30) := by
    rw [double_round_eq _ 4 (-8444249301319680) (by norm_num [abs_of_pos, abs_of_neg])
      (by norm_num [abs_of_pos, abs_of_neg]) (by norm_num)
      (by norm_num [Double.roundHalfEven]) (by norm_num) (by norm_num)]
    norm_num
  have s1 : Double.walkStep ⟨JsNum.fin 110, JsNum.fin 100, JsNum.fin 10, JsNum.fin 0⟩ ⟨2, -30⟩
      = ⟨JsNum.fin 80, JsNum.fin 80, JsNum.fin 10, JsNum.fin (-30)⟩ := by
    simp only [Double.walkStep, Double.add, l1, e1, t1]
    norm_num
  have l2 : JsNum.lt (JsNum.fin 100) (JsNum.fin 80) = false :=
    lt_fin_false _ _ (by norm_num)
  have e2 : Double.round (80 + 20) = JsNum.fin 100 := by
    rw [double_round_eq _ 6 7036874417766400 (by norm_num [abs_of_pos, abs_of_neg])
      (by norm_num [abs_of_pos, abs_of_neg]) (by norm_num)
      (by norm_num [Double.roundHalfEven]) (by norm_num) (by norm_num)]
    norm_num
  have t2 : Double.round (10 + 20) = JsNum.fin 30 := by
    rw [double_round_eq _ 4 8444249301319680 (by norm_num [abs_of_pos, abs_of_neg])
      (by norm_num [abs_of_pos, abs_of_neg]) (by norm_num)
      (by norm_num [Double.roundHalfEven]) (by norm_num) (by norm_num)]
    norm_num
  have s2 : Double.walkStep ⟨JsNum.fin 80, JsNum.fin 80, JsNum.fin 10, JsNum.fin (-30)⟩ ⟨3, 20⟩
      = ⟨JsNum.fin 100, JsNum.fin 80, JsNum.fin 30, JsNum.fin (-30)⟩ := by
    simp only [Double.walkStep, Double.add, l2, e2, t2]
    norm_num
  simp only [Double.equityWalk, List.foldl, s0, s1, s2]

/-- The rounded walk of the P&L 10 from the starting balance 100. -/
theorem equityWalk_spec_example_one :
    Double.equityWalk 100 [⟨1, 10⟩]
      = ⟨JsNum.fin 110, JsNum.fin 100, JsNum.fin 10, JsNum.fin 0⟩ := by
  have l0 : JsNum.lt (JsNum.fin 110) (JsNum.fin 100) = false :=
    lt_fin_false _ _ (by norm_num)
  have e0 : Double.round (100 + 10) = JsNum.fin 110 := by
    rw [double_round_eq _ 6 7740561859543040 (by norm_num [abs_of_pos, abs_of_neg])
      (by norm_num [abs_of_pos, abs_of_neg]) (by norm_num)
      (by norm_num [Double.roundHalfEven]) (by norm_num) (by norm_num)]
    norm_num
  have t0 : Double.round (0 + 10) = JsNum.fin 10 := by
    rw [double_round_eq _ 3 5629499534213120 (by norm_num [abs_of_pos, abs_of_neg])
      (by norm_num [abs_of_pos, abs_of_neg]) (by norm_num)
      (by norm_num [Double.roundHalfEven]) (by norm_num) (by norm_num)]
    norm_num
  have s0 : Double.walkStep ⟨JsNum.fin 100, JsNum.fin 100, JsNum.fin 0, JsNum.fin 0⟩ ⟨1, 10⟩
      = ⟨JsNum.fin 110, JsNum.fin 100, JsNum.fin 10, JsNum.fin 0⟩ := by
    simp only [Double.walkStep, Double.add, l0, e0, t0]
    norm_num
  simp only [Double.equityWalk, List.foldl, s0]

/-- The rounded walk of the P&Ls 10, -30 from the starting balance 100. -/
theorem equityWalk_spec_example_two :
    Double.equityWalk 100 [⟨1, 10⟩, ⟨2, -30⟩]
      = ⟨JsNum.fin 80, JsNum.fin 80, JsNum.fin 10, JsNum.fin (-30)⟩ := by
  have l0 : JsNum.lt (JsNum.fin 110) (JsNum.fin 100) = false :=
    lt_fin_false _ _ (by norm_num)
  have e0 : Double.round (100 + 10) = JsNum.fin 110 := by
    rw [double_round_eq _ 6 7740561859543040 (by norm_num [abs_of_pos, abs_of_neg])
      (by norm_num [abs_of_pos, abs_of_neg]) (by norm_num)
      (by norm_num [Double.roundHalfEven]) (by norm_num) (by norm_num)]
    norm_num
  have t0 : Double.round (0 + 10) = JsNum.fin 10 := by
    rw [double_round_eq _ 3 5629499534213120 (by norm_num [abs_of_pos, abs_of_neg])
      (by norm_num [abs_of_pos, abs_of_neg]) (by norm_num)
      (by norm_num [Double.roundHalfEven]) (by norm_num) (by norm_num)]
    norm_num
  have s0 : Double.walkStep ⟨JsNum.fin 100, JsNum.fin 100, JsNum.fin 0, JsNum.fin 0⟩ ⟨1, 10⟩
      = ⟨JsNum.fin 110, JsNum.fin 100, JsNum.fin 10, JsNum.fin 0⟩ := by
    simp only [Double.walkStep, Double.add, l0, e0, t0]
    norm_num
  have l1 : JsNum.lt (JsNum.fin 80) (JsNum.fin 100) = true :=
    lt_fin_true _ _ (by norm_num)
  have e1 : Double.round (110 + -30) = JsNum.fin 80 := by
    rw [double_round_eq _ 6 5629499534213120 (by norm_num [abs_of_pos, abs_of_neg])
      (by norm_num [abs_of_pos, abs_of_neg]) (by norm_num)
      (by norm_num [Double.roundHalfEven]) (by norm_num) (by norm_num)]
    norm_num
  have t1 : Double.round (0 + -30) = JsNum.fin (-30) := by
    rw [double_round_eq _ 4 (-8444249301319680) (by norm_num [abs_of_pos, abs_of_neg])
      (by norm_num [abs_of_pos, abs_of_neg]) (by norm_num)
      (by norm_num [Double.roundHalfEven]) (by norm_num) (by norm_num)]
    norm_num
  have s1 : Double.walkStep ⟨JsNum.fin 110, JsNum.fin 100, JsNum.fin 10, JsNum.fin 0⟩ ⟨2, -30⟩
      = ⟨JsNum.fin 80, JsNum.fin 80, JsNum.fin 10, JsNum.fin (-30)⟩ := by
    simp only [Double.walkStep, Double.add, l1, e1, t1]
    norm_num
  simp only [Double.equityWalk, List.foldl, s0, s1]

/-- The rounded walk of the P&Ls -30, 30 from the starting balance 100. -/
theorem equityWalk_loss_first :
    Double.equityWalk 100 [⟨1, -30⟩, ⟨1, 30⟩]
      = ⟨JsNum.fin 100, JsNum.fin 70, JsNum.fin 30, JsNum.fin (-30)⟩ := by
  have l0 : JsNum.lt (JsNum.fin 70) (JsNum.fin 100) = true :=
    lt_fin_true _ _ (by norm_num)
  have e0 : Double.round (100 + -30) = JsNum.fin 70 := by
    rw [double_round_eq _ 6 4925812092436480 (by norm_num [abs_of_pos, abs_of_neg])
      (by norm_num [abs_of_pos, abs_of_neg]) (by norm_num)
      (by norm_num [Double.roundHalfEven]) (by norm_num) (by norm_num)]
    norm_num
  have t0 : Double.round (0 + -30) = JsNum.fin (-30) := by
    rw [double_round_eq _ 4 (-8444249301319680) (by norm_num [abs_of_pos, abs_of_neg])
      (by norm_num [abs_of_pos, abs_of_neg]) (by norm_num)
      (by norm_num [Double.roundHalfEven]) (by norm_num) (by norm_num)]
    norm_num
  have s0 : Double.walkStep ⟨JsNum.fin 100, JsNum.fin 100, JsNum.fin 0, JsNum.fin 0⟩ ⟨1, -30⟩
      = ⟨JsNum.fin 70, JsNum.fin 70, JsNum.fin 0, JsNum.fin (-30)⟩ := by
    simp only [Double.walkStep, Double.add, l0, e0, t0]
    norm_num
  have l1 : JsNum.lt (JsNum.fin 100) (JsNum.fin 70) = false :=
    lt_fin_false _ _ (by norm_num)
  have e1 : Double.round (70 + 30) = JsNum.fin 100 := by
    rw [double_round_eq _ 6 7036874417766400 (by norm_num [abs_of_pos, abs_of_neg])
      (by norm_num [abs_of_pos, abs_of_neg]) (by norm_num)
      (by norm_num [Double.roundHalfEven]) (by norm_num) (by norm_num)]
    norm_num
  have t1 : Double.round (0 + 30) = JsNum.fin 30 := by
    rw [double_round_eq _ 4 8444249301319680 (by norm_num [abs_of_pos, abs_of_neg])
      (by norm_num [abs_of_pos, abs_of_neg]) (by norm_num)
      (by norm_num [Double.roundHalfEven]) (by norm_num) (by norm_num)]
    norm_num
  have s1 : Double.walkStep ⟨JsNum.fin 70, JsNum.fin 70, JsNum.fin 0, JsNum.fin (-30)⟩ ⟨1, 30⟩
      = ⟨JsNum.fin 100, JsNum.fin 70, JsNum.fin 30, JsNum.fin (-30)⟩ := by
    simp only [Double.walkStep, Double.add, l1, e1, t1]
    norm_num
  simp only [Double.equityWalk, List.foldl, s0, s1]

/-- The rounded walk of the P&Ls 30, -30 from the starting balance 100. -/
theorem equityWalk_profit_first :
    Double.equityWalk 100 [⟨1, 30⟩, ⟨1, -30⟩]
      = ⟨JsNum.fin 100, JsNum.fin 100, JsNum.fin 30, JsNum.fin (-30)⟩ := by
  have l0 : JsNum.lt (JsNum.fin 130) (JsNum.fin 100) = false :=
    lt_fin_false _ _ (by norm_num)
  have e0 : Double.round (100 + 30) = JsNum.fin 130 := by
    rw [double_round_eq _ 7 4573968371548160 (by norm_num [abs_of_pos, abs_of_neg])
      (by norm_num [abs_of_pos, abs_of_neg]) (by norm_num)
      (by norm_num [Double.roundHalfEven]) (by norm_num) (by norm_num)]
    norm_num
  have t0 : Double.round (0 + 30) = JsNum.fin 30 := by
    rw [double_round_eq _ 4 8444249301319680 (by norm_num [abs_of_pos, abs_of_neg])
      (by norm_num [abs_of_pos, abs_of_neg]) (by norm_num)
      (by norm_num [Double.roundHalfEven]) (by norm_num) (by norm_num)]
    norm_num
  have s0 : Double.walkStep ⟨JsNum.fin 100, JsNum.fin 100, JsNum.fin 0, JsNum.fin 0⟩ ⟨1, 30⟩
      = ⟨JsNum.fin 130, JsNum.fin 100, JsNum.fin 30, JsNum.fin 0⟩ := by
    simp only [Double.walkStep, Double.add, l0, e0, t0]
    norm_num
  have l1 : JsNum.lt (JsNum.fin 100) (JsNum.fin 100) = false :=
    lt_fin_false _ _ (by norm_num)
  have e1 : Double.round (130 + -30) = JsNum.fin 100 := by
    rw [double_round_eq _ 6 7036874417766400 (by norm_num [abs_of_pos, abs_of_neg])
      (by norm_num [abs_of_pos, abs_of_neg]) (by norm_num)
      (by norm_num [Double.roundHalfEven]) (by norm_num) (by norm_num)]
    norm_num
  have t1 : Double.round (0 + -30) = JsNum.fin (-30) := by
    rw [double_round_eq _ 4 (-8444249301319680) (by norm_num [abs_of_pos, abs_of_neg])
      (by norm_num [abs_of_pos, abs_of_neg]) (by norm_num)
      (by norm_num [Double.roundHalfEven]) (by norm_num) (by norm_num)]
    norm_num
  have s1 : Double.walkStep ⟨JsNum.fin 130, JsNum.fin 100, JsNum.fin 30, JsNum.fin 0⟩ ⟨1, -30⟩
      = ⟨JsNum.fin 100, JsNum.fin 100, JsNum.fin 30, JsNum.fin (-30)⟩ := by
    simp only [Double.walkStep, Double.add, l1, e1, t1]
    norm_num
  simp only [Double.equityWalk, List.foldl, s0, s1]

/-- The rounded walk of the P&Ls 0.1, 0.2, 0.3, -0.6 (as doubles) from the
starting balance 100: the profits add up to 0.6000000000000001. -/
theorem equityWalk_tenths_up :
    Double.equityWalk 100 [⟨1, 3602879701896397 / 36028797018963968⟩, ⟨1, 3602879701896397 / 18014398509481984⟩, ⟨1, 5404319552844595 / 18014398509481984⟩, ⟨1, -5404319552844595 / 9007199254740992⟩]
      = ⟨JsNum.fin 100, JsNum.fin 100, JsNum.fin (1351079888211149 / 2251799813685248), JsNum.fin (-5404319552844595 / 9007199254740992)⟩ := by
  have l0 : JsNum.lt (JsNum.fin (3521955646092083 / 35184372088832)) (JsNum.fin 100) = false :=
    lt_fin_false _ _ (by norm_num)
  have e0 : Double.round (100 + 3602879701896397 / 36028797018963968) = JsNum.fin (3521955646092083 / 35184372088832) := by
    rw [double_round_eq _ 6 7043911292184166 (by norm_num [abs_of_pos, abs_of_neg])
      (by norm_num [abs_of_pos, abs_of_neg]) (by norm_num)
      (by norm_num [Double.roundHalfEven]) (by norm_num) (by norm_num)]
    norm_num
  have t0 : Double.round (0 + 3602879701896397 / 36028797018963968) = JsNum.fin (3602879701896397 / 36028797018963968) := by
    rw [double_round_eq _ (-4) 7205759403792794 (by norm_num [abs_of_pos, abs_of_neg])
      (by norm_num [abs_of_pos, abs_of_neg]) (by norm_num)
      (by norm_num [Double.roundHalfEven]) (by norm_num) (by norm_num)]
    norm_num
  have s0 : Double.walkStep ⟨JsNum.fin 100, JsNum.fin 100, JsNum.fin 0, JsNum.fin 0⟩ ⟨1, 3602879701896397 / 36028797018963968⟩
      = ⟨JsNum.fin (3521955646092083 / 35184372088832), JsNum.fin 100, JsNum.fin (3602879701896397 / 36028797018963968), JsNum.fin 0⟩ := by
    simp only [Double.walkStep, Double.add, l0, e0, t0]
    norm_num
  have l1 : JsNum.lt (JsNum.fin (7057985041019699 / 70368744177664)) (JsNum.fin 100) = false :=
    lt_fin_false _ _ (by norm_num)
  have e1 : Double.round (3521955646092083 / 35184372088832 + 3602879701896397 / 18014398509481984) = JsNum.fin (7057985041019699 / 70368744177664) := by
    rw [double_round_eq _ 6 7057985041019699 (by norm_num [abs_of_pos, abs_of_neg])
      (by norm_num [abs_of_pos, abs_of_neg]) (by norm_num)
      (by norm_num [Double.roundHalfEven]) (by norm_num) (by norm_num)]
    norm_num
  have t1 : Double.round (3602879701896397 / 36028797018963968 + 3602879701896397 / 18014398509481984) = JsNum.fin (1351079888211149 / 4503599627370496) := by
    rw [double_round_eq _ (-2) 5404319552844596 (by norm_num [abs_of_pos, abs_of_neg])
      (by norm_num [abs_of_pos, abs_of_neg]) (by norm_num)
      (by norm_num [Double.roundHalfEven]) (by norm_num) (by norm_num)]
    norm_num
  have s1 : Double.walkStep ⟨JsNum.fin (3521955646092083 / 35184372088832), JsNum.fin 100, JsNum.fin (3602879701896397 / 36028797018963968), JsNum.fin 0⟩ ⟨1, 3602879701896397 / 18014398509481984⟩
      = ⟨JsNum.fin (7057985041019699 / 70368744177664), JsNum.fin 100, JsNum.fin (1351079888211149 / 4503599627370496), JsNum.fin 0⟩ := by
    simp only [Double.walkStep, Double.add, l1, e1, t1]
    norm_num
  have l2 : JsNum.lt (JsNum.fin (3539547832136499 / 35184372088832)) (JsNum.fin 100) = false :=
    lt_fin_false _ _ (by norm_num)
  have e2 : Double.round (7057985041019699 / 70368744177664 + 5404319552844595 / 18014398509481984) = JsNum.fin (3539547832136499 / 35184372088832) := by
    rw [double_round_eq _ 6 7079095664272998 (by norm_num [abs_of_pos, abs_of_neg])
      (by norm_num [abs_of_pos, abs_of_neg]) (by norm_num)
      (by norm_num [Double.roundHalfEven]) (by norm_num) (by norm_num)]
    norm_num
  have t2 : Double.round (1351079888211149 / 4503599627370496 + 5404319552844595 / 18014398509481984) = JsNum.fin (1351079888211149 / 2251799813685248) := by
    rw [double_round_eq _ (-1) 5404319552844596 (by norm_num [abs_of_pos, abs_of_neg])
      (by norm_num [abs_of_pos, abs_of_neg]) (by norm_num)
      (by norm_num [Double.roundHalfEven]) (by norm_num) (by norm_num)]
    norm_num
  have s2 : Double.walkStep ⟨JsNum.fin (7057985041019699 / 70368744177664), JsNum.fin 100, JsNum.fin (1351079888211149 / 4503599627370496), JsNum.fin 0⟩ ⟨1, 5404319552844595 / 18014398509481984⟩
      = ⟨JsNum.fin (3539547832136499 / 35184372088832), JsNum.fin 100, JsNum.fin (1351079888211149 / 2251799813685248), JsNum.fin 0⟩ := by
    simp only [Double.walkStep, Double.add, l2, e2, t2]
    norm_num
  have l3 : JsNum.lt (JsNum.fin 100) (JsNum.fin 100) = false :=
    lt_fin_false _ _ (by norm_num)
  have e3 : Double.round (3539547832136499 / 35184372088832 + -5404319552844595 / 9007199254740992) = JsNum.fin 100 := by
    rw [double_round_eq _ 6 7036874417766400 (by norm_num [abs_of_pos, abs_of_neg])
      (by norm_num [abs_of_pos, abs_of_neg]) (by norm_num)
      (by norm_num [Double.roundHalfEven]) (by norm_num) (by norm_num)]
    norm_num
  have t3 : Double.round (0 + -5404319552844595 / 9007199254740992) = JsNum.fin (-5404319552844595 / 9007199254740992) := by
    rw [double_round_eq _ (-1) (-5404319552844595) (by norm_num [abs_of_pos, abs_of_neg])
      (by norm_num [abs_of_pos, abs_of_neg]) (by norm_num)
      (by norm_num [Double.roundHalfEven]) (by norm_num) (by norm_num)]
    norm_num
  have s3 : Double.walkStep ⟨JsNum.fin (3539547832136499 / 35184372088832), JsNum.fin 100, JsNum.fin (1351079888211149 / 2251799813685248), JsNum.fin 0⟩ ⟨1, -5404319552844595 / 9007199254740992⟩
      = ⟨JsNum.fin 100, JsNum.fin 100, JsNum.fin (1351079888211149 / 2251799813685248), JsNum.fin (-5404319552844595 / 9007199254740992)⟩ := by
    simp only [Double.walkStep, Double.add, l3, e3, t3]
    norm_num
  simp only [Double.equityWalk, List.foldl, s0, s1, s2, s3]

/-- The rounded walk of the P&Ls 0.3, 0.2, 0.1, -0.6 (as doubles) from the
starting balance 100: the profits add up to 0.6. -/
theorem equityWalk_tenths_down :
    Double.equityWalk 100 [⟨1, 5404319552844595 / 18014398509481984⟩, ⟨1, 3602879701896397 / 18014398509481984⟩, ⟨1, 3602879701896397 / 36028797018963968⟩, ⟨1, -5404319552844595 / 9007199254740992⟩]
      = ⟨JsNum.fin 100, JsNum.fin 100, JsNum.fin (5404319552844595 / 9007199254740992), JsNum.fin (-5404319552844595 / 9007199254740992)⟩ := by
  have l0 : JsNum.lt (JsNum.fin (7057985041019699 / 70368744177664)) (JsNum.fin 100) = false :=
    lt_fin_false _ _ (by norm_num)
  have e0 : Double.round (100 + 5404319552844595 / 18014398509481984) = JsNum.fin (7057985041019699 / 70368744177664) := by
    rw [double_round_eq _ 6 7057985041019699 (by norm_num [abs_of_pos, abs_of_neg])
      (by norm_num [abs_of_pos, abs_of_neg]) (by norm_num)
      (by norm_num [Double.roundHalfEven]) (by norm_num) (by norm_num)]
    norm_num
  have t0 : Double.round (0 + 5404319552844595 / 18014398509481984) = JsNum.fin (5404319552844595 / 18014398509481984) := by
    rw [double_round_eq _ (-2) 5404319552844595 (by norm_num [abs_of_pos, abs_of_neg])
      (by norm_num [abs_of_pos, abs_of_neg]) (by norm_num)
      (by norm_num [Double.roundHalfEven]) (by norm_num) (by norm_num)]
    norm_num
  have s0 : Double.walkStep ⟨JsNum.fin 100, JsNum.fin 100, JsNum.fin 0, JsNum.fin 0⟩ ⟨1, 5404319552844595 / 18014398509481984⟩
      = ⟨JsNum.fin (7057985041019699 / 70368744177664), JsNum.fin 100, JsNum.fin (5404319552844595 / 18014398509481984), JsNum.fin 0⟩ := by
    simp only [Double.walkStep, Double.add, l0, e0, t0]
    norm_num
  have l1 : JsNum.lt (JsNum.fin (201 / 2)) (JsNum.fin 100) = false :=
    lt_fin_false _ _ (by norm_num)
  have e1 : Double.round (7057985041019699 / 70368744177664 + 3602879701896397 / 18014398509481984) = JsNum.fin (201 / 2) := by
    rw [double_round_eq _ 6 7072058789855232 (by norm_num [abs_of_pos, abs_of_neg])
      (by norm_num [abs_of_pos, abs_of_neg]) (by norm_num)
      (by norm_num [Double.roundHalfEven]) (by norm_num) (by norm_num)]
    norm_num
  have t1 : Double.round (5404319552844595 / 18014398509481984 + 3602879701896397 / 18014398509481984) = JsNum.fin (1 / 2) := by
    rw [double_round_eq _ (-1) 4503599627370496 (by norm_num [abs_of_pos, abs_of_neg])
      (by norm_num [abs_of_pos, abs_of_neg]) (by norm_num)
      (by norm_num [Double.roundHalfEven]) (by norm_num) (by norm_num)]
    norm_num
  have s1 : Double.walkStep ⟨JsNum.fin (7057985041019699 / 70368744177664), JsNum.fin 100, JsNum.fin (5404319552844595 / 18014398509481984), JsNum.fin 0⟩ ⟨1, 3602879701896397 / 18014398509481984⟩
      = ⟨JsNum.fin (201 / 2), JsNum.fin 100, JsNum.fin (1 / 2), JsNum.fin 0⟩ := by
    simp only [Double.walkStep, Double.add, l1, e1, t1]
    norm_num
  have l2 : JsNum.lt (JsNum.fin (3539547832136499 / 35184372088832)) (JsNum.fin 100) = false :=
    lt_fin_false _ _ (by norm_num)
  have e2 : Double.round (201 / 2 + 3602879701896397 / 36028797018963968) = JsNum.fin (3539547832136499 / 35184372088832) := by
    rw [double_round_eq _ 6 7079095664272998 (by norm_num [abs_of_pos, abs_of_neg])
      (by norm_num [abs_of_pos, abs_of_neg]) (by norm_num)
      (by norm_num [Double.roundHalfEven]) (by norm_num) (by norm_num)]
    norm_num
  have t2 : Double.round (1 / 2 + 3602879701896397 / 36028797018963968) = JsNum.fin (5404319552844595 / 9007199254740992) := by
    rw [double_round_eq _ (-1) 5404319552844595 (by norm_num [abs_of_pos, abs_of_neg])
      (by norm_num [abs_of_pos, abs_of_neg]) (by norm_num)
      (by norm_num [Double.roundHalfEven]) (by norm_num) (by norm_num)]
    norm_num
  have s2 : Double.walkStep ⟨JsNum.fin (201 / 2), JsNum.fin 100, JsNum.fin (1 / 2), JsNum.fin 0⟩ ⟨1, 3602879701896397 / 36028797018963968⟩
      = ⟨JsNum.fin (3539547832136499 / 35184372088832), JsNum.fin 100, JsNum.fin (5404319552844595 / 9007199254740992), JsNum.fin 0⟩ := by
    simp only [Double.walkStep, Double.add, l2, e2, t2]
    norm_num
  have l3 : JsNum.lt (JsNum.fin 100) (JsNum.fin 100) = false :=
    lt_fin_false _ _ (by norm_num)
  have e3 : Double.round (3539547832136499 / 35184372088832 + -5404319552844595 / 9007199254740992) = JsNum.fin 100 := by
    rw [double_round_eq _ 6 7036874417766400 (by norm_num [abs_of_pos, abs_of_neg])
      (by norm_num [abs_of_pos, abs_of_neg]) (by norm_num)
      (by norm_num [Double.roundHalfEven]) (by norm_num) (by norm_num)]
    norm_num
  have t3 : Double.round (0 + -5404319552844595 / 9007199254740992) = JsNum.fin (-5404319552844595 / 9007199254740992) := by
    rw [double_round_eq _ (-1) (-5404319552844595) (by norm_num [abs_of_pos, abs_of_neg])
      (by norm_num [abs_of_pos, abs_of_neg]) (by norm_num)
      (by norm_num [Double.roundHalfEven]) (by norm_num) (by norm_num)]
    norm_num
  have s3 : Double.walkStep ⟨JsNum.fin (3539547832136499 / 35184372088832), JsNum.fin 100, JsNum.fin (5404319552844595 / 9007199254740992), JsNum.fin 0⟩ ⟨1, -5404319552844595 / 9007199254740992⟩
      = ⟨JsNum.fin 100, JsNum.fin 100, JsNum.fin (5404319552844595 / 9007199254740992), JsNum.fin (-5404319552844595 / 9007199254740992)⟩ := by
    simp only [Double.walkStep, Double.add, l3, e3, t3]
    norm_num
  simp only [Double.equityWalk, List.foldl, s0, s1, s2, s3]

/-- The rounded walk of the P&Ls `2 ^ 1023`, `2 ^ 1023`, `-2 ^ 1023`, `-2 ^ 1023`
from the starting balance 100: both totals overflow. -/
theorem equityWalk_overflow :
    Double.equityWalk 100 [⟨1, 2 ^ 1023⟩, ⟨2, 2 ^ 1023⟩, ⟨3, -2 ^ 1023⟩, ⟨4, -2 ^ 1023⟩]
      = ⟨JsNum.posInf, JsNum.fin 100, JsNum.posInf, JsNum.negInf⟩ := by
  have l0 : JsNum.lt (JsNum.fin (2 ^ 1023)) (JsNum.fin 100) = false :=
    lt_fin_false _ _ (by norm_num)
  have e0 : Double.round (100 + 2 ^ 1023) = JsNum.fin (2 ^ 1023) := by
    rw [double_round_eq _ 1023 4503599627370496 (by norm_num [abs_of_pos, abs_of_neg])
      (by norm_num [abs_of_pos, abs_of_neg]) (by norm_num)
      (by norm_num [Double.roundHalfEven]) (by norm_num) (by norm_num)]
    norm_num
  have t0 : Double.round (0 + 2 ^ 1023) = JsNum.fin (2 ^ 1023) := by
    rw [double_round_eq _ 1023 4503599627370496 (by norm_num [abs_of_pos, abs_of_neg])
      (by norm_num [abs_of_pos, abs_of_neg]) (by norm_num)
      (by norm_num [Double.roundHalfEven]) (by norm_num) (by norm_num)]
    norm_num
  have s0 : Double.walkStep ⟨JsNum.fin 100, JsNum.fin 100, JsNum.fin 0, JsNum.fin 0⟩ ⟨1, 2 ^ 1023⟩
      = ⟨JsNum.fin (2 ^ 1023), JsNum.fin 100, JsNum.fin (2 ^ 1023), JsNum.fin 0⟩ := by
    simp only [Double.walkStep, Double.add, l0, e0, t0]
    norm_num
  have l1 : JsNum.lt (JsNum.posInf) (JsNum.fin 100) = false := by
    simp [JsNum.lt]
  have e1 : Double.round (2 ^ 1023 + 2 ^ 1023) = JsNum.posInf := by
    exact double_round_eq_posInf _ 1024 4503599627370496 (by norm_num [abs_of_pos, abs_of_neg])
      (by norm_num [abs_of_pos, abs_of_neg]) (by norm_num)
      (by norm_num [Double.roundHalfEven]) (by norm_num)
  have t1 : Double.round (2 ^ 1023 + 2 ^ 1023) = JsNum.posInf := by
    exact double_round_eq_posInf _ 1024 4503599627370496 (by norm_num [abs_of_pos, abs_of_neg])
      (by norm_num [abs_of_pos, abs_of_neg]) (by norm_num)
      (by norm_num [Double.roundHalfEven]) (by norm_num)
  have s1 : Double.walkStep ⟨JsNum.fin (2 ^ 1023), JsNum.fin 100, JsNum.fin (2 ^ 1023), JsNum.fin 0⟩ ⟨2, 2 ^ 1023⟩
      = ⟨JsNum.posInf, JsNum.fin 100, JsNum.posInf, JsNum.fin 0⟩ := by
    simp only [Double.walkStep, Double.add, l1, e1, t1]
    norm_num
  have l2 : JsNum.lt (JsNum.posInf) (JsNum.fin 100) = false := by
    simp [JsNum.lt]
  have t2 : Double.round (0 + -2 ^ 1023) = JsNum.fin (-2 ^ 1023) := by
    rw [double_round_eq _ 1023 (-4503599627370496) (by norm_num [abs_of_pos, abs_of_neg])
      (by norm_num [abs_of_pos, abs_of_neg]) (by norm_num)
      (by norm_num [Double.roundHalfEven]) (by norm_num) (by norm_num)]
    norm_num
  have s2 : Double.walkStep ⟨JsNum.posInf, JsNum.fin 100, JsNum.posInf, JsNum.fin 0⟩ ⟨3, -2 ^ 1023⟩
      = ⟨JsNum.posInf, JsNum.fin 100, JsNum.posInf, JsNum.fin (-2 ^ 1023)⟩ := by
    simp only [Double.walkStep, Double.add, l2, t2]
    norm_num
  have l3 : JsNum.lt (JsNum.posInf) (JsNum.fin 100) = false := by
    simp [JsNum.lt]
  have t3 : Double.round (-2 ^ 1023 + -2 ^ 1023) = JsNum.negInf := by
    exact double_round_eq_negInf _ 1024 (-4503599627370496) (by norm_num [abs_of_pos, abs_of_neg])
      (by norm_num [abs_of_pos, abs_of_neg]) (by norm_num)
      (by norm_num [Double.roundHalfEven]) (by norm_num)
  have s3 : Double.walkStep ⟨JsNum.posInf, JsNum.fin 100, JsNum.posInf, JsNum.fin (-2 ^ 1023)⟩ ⟨4, -2 ^ 1023⟩
      = ⟨JsNum.posInf, JsNum.fin 100, JsNum.posInf, JsNum.negInf⟩ := by
    simp only [Double.walkStep, Double.add, l3, t3]
    norm_num
  simp only [Double.equityWalk, List.foldl, s0, s1, s2, s3]

/-! ## Roundings at concrete values -/

theorem round_cent : Double.round (5764607523034235 / 576460752303423488) = JsNum.fin (5764607523034235 / 576460752303423488) := by
  rw [double_round_eq _ (-7) 5764607523034235 (by norm_num [abs_of_pos, abs_of_neg])
    (by norm_num [abs_of_pos, abs_of_neg]) (by norm_num)
    (by norm_num [Double.roundHalfEven]) (by norm_num) (by norm_num)]
  norm_num

theorem round_fifth : Double.round (3602879701896397 / 18014398509481984) = JsNum.fin (3602879701896397 / 18014398509481984) := by
  rw [double_round_eq _ (-3) 7205759403792794 (by norm_num [abs_of_pos, abs_of_neg])
    (by norm_num [abs_of_pos, abs_of_neg]) (by norm_num)
    (by norm_num [Double.roundHalfEven]) (by norm_num) (by norm_num)]
  norm_num

theorem round_neg_twentyone_cents : Double.round (-7566047373982433 / 36028797018963968) = JsNum.fin (-7566047373982433 / 36028797018963968) := by
  rw [double_round_eq _ (-3) (-7566047373982433) (by norm_num [abs_of_pos, abs_of_neg])
    (by norm_num [abs_of_pos, abs_of_neg]) (by norm_num)
    (by norm_num [Double.roundHalfEven]) (by norm_num) (by norm_num)]
  norm_num

theorem round_tenth : Double.round (3602879701896397 / 36028797018963968) = JsNum.fin (3602879701896397 / 36028797018963968) := by
  rw [double_round_eq _ (-4) 7205759403792794 (by norm_num [abs_of_pos, abs_of_neg])
    (by norm_num [abs_of_pos, abs_of_neg]) (by norm_num)
    (by norm_num [Double.roundHalfEven]) (by norm_num) (by norm_num)]
  norm_num

theorem round_three_tenths : Double.round (5404319552844595 / 18014398509481984) = JsNum.fin (5404319552844595 / 18014398509481984) := by
  rw [double_round_eq _ (-2) 5404319552844595 (by norm_num [abs_of_pos, abs_of_neg])
    (by norm_num [abs_of_pos, abs_of_neg]) (by norm_num)
    (by norm_num [Double.roundHalfEven]) (by norm_num) (by norm_num)]
  norm_num

theorem round_neg_six_tenths : Double.round (-5404319552844595 / 9007199254740992) = JsNum.fin (-5404319552844595 / 9007199254740992) := by
  rw [double_round_eq _ (-1) (-5404319552844595) (by norm_num [abs_of_pos, abs_of_neg])
    (by norm_num [abs_of_pos, abs_of_neg]) (by norm_num)
    (by norm_num [Double.roundHalfEven]) (by norm_num) (by norm_num)]
  norm_num

theorem round_ten : Double.round (10) = JsNum.fin 10 := by
  rw [double_round_eq _ 3 5629499534213120 (by norm_num [abs_of_pos, abs_of_neg])
    (by norm_num [abs_of_pos, abs_of_neg]) (by norm_num)
    (by norm_num [Double.roundHalfEven]) (by norm_num) (by norm_num)]
  norm_num

theorem round_hundred : Double.round (100) = JsNum.fin 100 := by
  rw [double_round_eq _ 6 7036874417766400 (by norm_num [abs_of_pos, abs_of_neg])
    (by norm_num [abs_of_pos, abs_of_neg]) (by norm_num)
    (by norm_num [Double.roundHalfEven]) (by norm_num) (by norm_num)]
  norm_num

theorem round_cents_dip : Double.round (5629499534213119 / 562949953421312 - 10) = JsNum.fin (-1 / 562949953421312) := by
  rw [double_round_eq _ (-49) (-4503599627370496) (by norm_num [abs_of_pos, abs_of_neg])
    (by norm_num [abs_of_pos, abs_of_neg]) (by norm_num)
    (by norm_num [Double.roundHalfEven]) (by norm_num) (by norm_num)]
  norm_num

theorem round_cents_drawdown : Double.round (-1 / 562949953421312 / 10) = JsNum.fin (-3602879701896397 / 20282409603651670423947251286016) := by
  rw [double_round_eq _ (-53) (-7205759403792794) (by norm_num [abs_of_pos, abs_of_neg])
    (by norm_num [abs_of_pos, abs_of_neg]) (by norm_num)
    (by norm_num [Double.roundHalfEven]) (by norm_num) (by norm_num)]
  norm_num

theorem round_spec_example_dip : Double.round (80 - 100) = JsNum.fin (-20) := by
  rw [double_round_eq _ 4 (-5629499534213120) (by norm_num [abs_of_pos, abs_of_neg])
    (by norm_num [abs_of_pos, abs_of_neg]) (by norm_num)
    (by norm_num [Double.roundHalfEven]) (by norm_num) (by norm_num)]
  norm_num

theorem round_spec_example_drawdown : Double.round (-20 / 100) = JsNum.fin (-3602879701896397 / 18014398509481984) := by
  rw [double_round_eq _ (-3) (-7205759403792794) (by norm_num [abs_of_pos, abs_of_neg])
    (by norm_num [abs_of_pos, abs_of_neg]) (by norm_num)
    (by norm_num [Double.roundHalfEven]) (by norm_num) (by norm_num)]
  norm_num

theorem round_loss_first_dip : Double.round (70 - 100) = JsNum.fin (-30) := by
  rw [double_round_eq _ 4 (-8444249301319680) (by norm_num [abs_of_pos, abs_of_neg])
    (by norm_num [abs_of_pos, abs_of_neg]) (by norm_num)
    (by norm_num [Double.roundHalfEven]) (by norm_num) (by norm_num)]
  norm_num

theorem round_loss_first_drawdown : Double.round (-30 / 100) = JsNum.fin (-5404319552844595 / 18014398509481984) := by
  rw [double_round_eq _ (-2) (-5404319552844595) (by norm_num [abs_of_pos, abs_of_neg])
    (by norm_num [abs_of_pos, abs_of_neg]) (by norm_num)
    (by norm_num [Double.roundHalfEven]) (by norm_num) (by norm_num)]
  norm_num

theorem round_tenths_up_factor : Double.round (1351079888211149 / 2251799813685248 / (5404319552844595 / 9007199254740992)) = JsNum.fin (4503599627370497 / 4503599627370496) := by
  rw [double_round_eq _ 0 4503599627370497 (by norm_num [abs_of_pos, abs_of_neg])
    (by norm_num [abs_of_pos, abs_of_neg]) (by norm_num)
    (by norm_num [Double.roundHalfEven]) (by norm_num) (by norm_num)]
  norm_num

theorem round_tenths_down_factor : Double.round (5404319552844595 / 9007199254740992 / (5404319552844595 / 9007199254740992)) = JsNum.fin 1 := by
  rw [double_round_eq _ 0 4503599627370496 (by norm_num [abs_of_pos, abs_of_neg])
    (by norm_num [abs_of_pos, abs_of_neg]) (by norm_num)
    (by norm_num [Double.roundHalfEven]) (by norm_num) (by norm_num)]
  norm_num

theorem round_thirty_factor : Double.round (30 / 30) = JsNum.fin 1 := by
  rw [double_round_eq _ 0 4503599627370496 (by norm_num [abs_of_pos, abs_of_neg])
    (by norm_num [abs_of_pos, abs_of_neg]) (by norm_num)
    (by norm_num [Double.roundHalfEven]) (by norm_num) (by norm_num)]
  norm_num

theorem round_cents_factor : Double.round (3783023686991217 / 18014398509481984 / (7566047373982433 / 36028797018963968)) = JsNum.fin (4503599627370497 / 4503599627370496) := by
  rw [double_round_eq _ 0 4503599627370497 (by norm_num [abs_of_pos, abs_of_neg])
    (by norm_num [abs_of_pos, abs_of_neg]) (by norm_num)
    (by norm_num [Double.roundHalfEven]) (by norm_num) (by norm_num)]
  norm_num

theorem round_pow_1023 : Double.round (2 ^ 1023) = JsNum.fin (2 ^ 1023) := by
  rw [double_round_eq _ 1023 4503599627370496 (by norm_num [abs_of_pos]) (by norm_num [abs_of_pos])
    (by norm_num) (by norm_num [Double.roundHalfEven]) (by norm_num) (by norm_num)]
  norm_num

theorem round_neg_pow_1023 : Double.round (-2 ^ 1023) = JsNum.fin (-2 ^ 1023) := by
  rw [double_round_eq _ 1023 (-4503599627370496) (by norm_num [abs_of_neg]) (by norm_num [abs_of_neg])
    (by norm_num) (by norm_num [Double.roundHalfEven]) (by norm_num) (by norm_num)]
  norm_num

/-! ## The rounded metrics of the example trades -/

theorem sortByCloseTime_tenthsUp : sortByCloseTime tenthsUp = tenthsUp := by
  norm_num [sortByCloseTime, tenthsUp, List.insertionSort, List.orderedInsert]

theorem sortByCloseTime_tenthsDown : sortByCloseTime tenthsDown = tenthsDown := by
  norm_num [sortByCloseTime, tenthsDown, List.insertionSort, List.orderedInsert]

theorem sortByCloseTime_overflowTrades : sortByCloseTime overflowTrades = overflowTrades := by
  norm_num [sortByCloseTime, overflowTrades, List.insertionSort, List.orderedInsert]

theorem tenthsUp_perm_tenthsDown : tenthsUp.Perm tenthsDown := by
  unfold tenthsUp tenthsDown
  exact ((List.Perm.swap _ _ _).trans ((List.Perm.swap _ _ _).cons _)).trans
    (List.Perm.swap _ _ _)

/-- The profit factor of `tenthsUp` is 1.0000000000000002. -/
theorem profitFactor_tenthsUp :
    (Double.riskMetrics 100 tenthsUp).profitFactor
      = some (.fin (4503599627370497 / 4503599627370496)) := by
  rw [double_riskMetrics_of_ne_nil _ _ (by simp [tenthsUp]), sortByCloseTime_tenthsUp]
  simp only [Option.some.injEq]
  rw [double_profitFactorOf_fin _ (1351079888211149 / 2251799813685248)
    (-5404319552844595 / 9007199254740992) (5404319552844595 / 9007199254740992)
    (by simp only [tenthsUp, equityWalk_tenths_up])
    (by simp only [tenthsUp, equityWalk_tenths_up]) (by norm_num) (by norm_num [abs_of_neg]),
    round_tenths_up_factor]

/-- The profit factor of `tenthsDown` is 1. -/
theorem profitFactor_tenthsDown :
    (Double.riskMetrics 100 tenthsDown).profitFactor = some (.fin 1) := by
  rw [double_riskMetrics_of_ne_nil _ _ (by simp [tenthsDown]), sortByCloseTime_tenthsDown]
  simp only [Option.some.injEq]
  rw [double_profitFactorOf_fin _ (5404319552844595 / 9007199254740992)
    (-5404319552844595 / 9007199254740992) (5404319552844595 / 9007199254740992)
    (by simp only [tenthsDown, equityWalk_tenths_down])
    (by simp only [tenthsDown, equityWalk_tenths_down]) (by norm_num)
    (by norm_num [abs_of_neg]),
    round_tenths_down_factor]

/-- The profit factor of `overflowTrades` is `NaN`. -/
theorem profitFactor_overflowTrades :
    (Double.riskMetrics 100 overflowTrades).profitFactor = some .nan := by
  have hw : Double.equityWalk 100 overflowTrades
      = ⟨JsNum.posInf, JsNum.fin 100, JsNum.posInf, JsNum.negInf⟩ := equityWalk_overflow
  rw [double_riskMetrics_of_ne_nil _ _ (by simp [overflowTrades]),
    sortByCloseTime_overflowTrades, hw]
  simp [Double.profitFactorOf, JsNum.lt, Double.abs, Double.div]

/-! ## C4: minimum equity and drawdown -/

/-- C4 (counterexample): the trades with the P&Ls 0.01, 0.2 and -0.21 (doubles,
closed at the times 1, 2, 3) and the starting balance 10.  The exact sums
`startingBalance + (sum of the first k P&Ls)` never fall below 10, so the
minimum that the claim describes is 10 and its drawdown is 0.  The program
rounds every addition: its equity path is 10, 10.01, 10.209999999999999,
9.999999999999998, its `minEquity` is 9.999999999999998 and its drawdown is
negative. -/
theorem riskMetrics_rounded_equity_dips :
    (∀ e ∈ centTrades, Double.round e.pl = .fin e.pl) ∧ Double.round 10 = .fin 10 ∧
    sortByCloseTime centTrades = centTrades ∧
    (∀ k, k ≤ centTrades.length →
      (10 : ℚ) ≤ 10 + (((sortByCloseTime centTrades).take k).map Entry.pl).sum) ∧
    closedFormMinEquity 10 (sortByCloseTime centTrades) = 10 ∧
    (List.range 4).map (Double.runningEquity 10 (sortByCloseTime centTrades))
      = [.fin 10, .fin (5635129033747333 / 562949953421312),
          .fin (5747719024431595 / 562949953421312),
          .fin (5629499534213119 / 562949953421312)] ∧
    (Double.equityWalk 10 (sortByCloseTime centTrades)).minEquity
      = .fin (5629499534213119 / 562949953421312) ∧
    (Double.equityWalk 10 (sortByCloseTime centTrades)).minEquity
      ≠ .fin (closedFormMinEquity 10 (sortByCloseTime centTrades)) ∧
    (Double.riskMetrics 10 centTrades).maxDrawdown
      = some (.fin (-3602879701896397 / 20282409603651670423947251286016)) ∧
    (Double.riskMetrics 10 centTrades).maxDrawdown
      ≠ some (Double.div (Double.sub
          (.fin (closedFormMinEquity 10 (sortByCloseTime centTrades))) (.fin 10)) (.fin 10)) := by
  have hsort : sortByCloseTime centTrades = centTrades := by
    norm_num [sortByCloseTime, centTrades, List.insertionSort, List.orderedInsert]
  have hclosed : closedFormMinEquity 10 centTrades = 10 := by
    norm_num [closedFormMinEquity, centTrades, List.range, List.range.loop]
  have hwalk := equityWalk_cents
  have hdd : (Double.riskMetrics 10 centTrades).maxDrawdown
      = some (.fin (-3602879701896397 / 20282409603651670423947251286016)) := by
    rw [double_riskMetrics_of_ne_nil _ _ (by simp [centTrades]), hsort]
    simp only [centTrades, hwalk, double_ddFraction_of_pos _ _ (by norm_num : (0 : ℚ) < 10),
      double_sub_fin, round_cents_dip, double_div_fin _ _ (by norm_num : (10 : ℚ) ≠ 0),
      round_cents_drawdown]
  refine ⟨?_, round_ten, hsort, ?_, ?_, ?_, ?_, ?_, hdd, ?_⟩
  · simp only [centTrades, List.mem_cons, List.mem_nil_iff, or_false, forall_eq_or_imp,
      forall_eq]
    exact ⟨round_cent, round_fifth, round_neg_twentyone_cents⟩
  · intro k hk
    rw [hsort]
    have h4 : k = 0 ∨ k = 1 ∨ k = 2 ∨ k = 3 := by
      simp only [centTrades, List.length_cons, List.length_nil] at hk
      omega
    rcases h4 with rfl | rfl | rfl | rfl <;> norm_num [centTrades]
  · rw [hsort, hclosed]
  · rw [hsort]
    simp only [List.range, List.range.loop, List.map, Double.runningEquity, centTrades,
      List.take, hwalk, equityWalk_cents_one, equityWalk_cents_two]
    simp [Double.equityWalk]
  · rw [hsort]
    simp only [centTrades, hwalk]
  · rw [hsort, hclosed]
    simp only [centTrades, hwalk]
    norm_num
  · rw [hdd, hsort, hclosed]
    have h0 : Double.div (Double.sub (.fin 10) (.fin 10)) (.fin 10) = .fin 0 := by
      rw [double_sub_fin]
      norm_num [double_round_zero, double_div_fin]
    rw [h0]
    norm_num

/-- C4 (amended): for a positive starting balance and a non-empty list of trades,
the walked list is the input sorted by close time; the running equity starts at
the starting balance and each further one is the rounded sum (double precision)
of the one before and the next P&L; `minEquity` is the least of the running
equities for `k = 0, ..., n` (none is `NaN`, none is below it, it is one of
them); the drawdown is `(minEquity - startingBalance) / startingBalance`, the
difference and the quotient rounded.  Where all the exact sums
`startingBalance + (sum of the first j P&Ls)` up to `k` are doubles, the running
equity after `k` trades is that sum.  For the P&Ls 10, -30, 20 and starting
balance 100 the equity path is 100, 110, 80, 100, the drawdown is the double
-0.2 and the profit factor 1. -/
theorem riskMetrics_minEquity_rounded :
    (∀ (sb : ℚ) (l : List Entry), 0 < sb → l ≠ [] →
      (sortByCloseTime l).Perm l ∧ (sortByCloseTime l).Sorted (fun a b => a.ts ≤ b.ts) ∧
      Double.runningEquity sb (sortByCloseTime l) 0 = .fin sb ∧
      (∀ k (hk : k < (sortByCloseTime l).length),
        Double.runningEquity sb (sortByCloseTime l) (k + 1)
          = Double.add (Double.runningEquity sb (sortByCloseTime l) k)
              (.fin ((sortByCloseTime l).get ⟨k, hk⟩).pl)) ∧
      (∀ k, k ≤ l.length →
        Double.runningEquity sb (sortByCloseTime l) k ≠ .nan ∧
        (Double.runningEquity sb (sortByCloseTime l) k).lt
          (Double.equityWalk sb (sortByCloseTime l)).minEquity = false) ∧
      (∃ k, k ≤ l.length ∧
        (Double.equityWalk sb (sortByCloseTime l)).minEquity
          = Double.runningEquity sb (sortByCloseTime l) k) ∧
      (Double.riskMetrics sb l).maxDrawdown
          = some (Double.div
              (Double.sub (Double.equityWalk sb (sortByCloseTime l)).minEquity (.fin sb))
              (.fin sb)) ∧
      (∀ k, k ≤ l.length →
        (∀ j, 1 ≤ j → j ≤ k →
          Double.round (sb + (((sortByCloseTime l).take j).map Entry.pl).sum)
            = .fin (sb + (((sortByCloseTime l).take j).map Entry.pl).sum)) →
        Double.runningEquity sb (sortByCloseTime l) k
          = .fin (sb + (((sortByCloseTime l).take k).map Entry.pl).sum))) ∧
    ((List.range 4).map
          (Double.runningEquity 100 (sortByCloseTime [⟨3, 20⟩, ⟨1, 10⟩, ⟨2, -30⟩]))
        = [.fin 100, .fin 110, .fin 80, .fin 100] ∧
      (Double.riskMetrics 100 [⟨3, 20⟩, ⟨1, 10⟩, ⟨2, -30⟩]).maxDrawdown
        = some (Double.round (-20 / 100)) ∧
      (Double.riskMetrics 100 [⟨3, 20⟩, ⟨1, 10⟩, ⟨2, -30⟩]).maxDrawdown
        = some (.fin (-3602879701896397 / 18014398509481984)) ∧
      (Double.riskMetrics 100 [⟨3, 20⟩, ⟨1, 10⟩, ⟨2, -30⟩]).profitFactor = some (.fin 1)) := by
  constructor
  · intro sb l hsb hl
    have hlen := sortByCloseTime_length l
    refine ⟨sortByCloseTime_perm l, sortByCloseTime_sorted l, double_runningEquity_zero sb _,
      fun k hk => double_runningEquity_succ sb _ k hk, ?_, ?_, ?_, ?_⟩
    · intro k hk
      exact ⟨double_runningEquity_ne_nan sb _ k,
        double_equityWalk_min_not_lt sb _ k (by rw [hlen]; exact hk)⟩
    · obtain ⟨k, hk, h⟩ := double_equityWalk_min_attained sb (sortByCloseTime l)
      exact ⟨k, by rw [hlen] at hk; exact hk, h⟩
    · rw [double_riskMetrics_of_ne_nil sb l hl, double_ddFraction_of_pos _ _ hsb]
    · intro k hk hex
      exact double_runningEquity_exact sb _ k (by rw [hlen]; exact hk) hex
  · have hsort : sortByCloseTime [⟨3, 20⟩, ⟨1, 10⟩, ⟨2, -30⟩]
        = [⟨1, 10⟩, ⟨2, -30⟩, ⟨3, 20⟩] := by
      norm_num [sortByCloseTime, List.insertionSort, List.orderedInsert]
    have hdd : (Double.riskMetrics 100 [⟨3, 20⟩, ⟨1, 10⟩, ⟨2, -30⟩]).maxDrawdown
        = some (Double.round (-20 / 100)) := by
      rw [double_riskMetrics_of_ne_nil _ _ (by simp), hsort]
      simp only [equityWalk_spec_example,
        double_ddFraction_of_pos _ _ (by norm_num : (0 : ℚ) < 100), double_sub_fin,
        round_spec_example_dip, double_div_fin _ _ (by norm_num : (100 : ℚ) ≠ 0)]
    refine ⟨?_, hdd, ?_, ?_⟩
    · rw [hsort]
      simp only [List.range, List.range.loop, List.map, Double.runningEquity, List.take,
        equityWalk_spec_example, equityWalk_spec_example_one, equityWalk_spec_example_two]
      simp [Double.equityWalk]
    · rw [hdd, round_spec_example_drawdown]
    · rw [double_riskMetrics_of_ne_nil _ _ (by simp), hsort]
      simp only [Option.some.injEq]
      rw [double_profitFactorOf_fin _ 30 (-30) 30 (by rw [equityWalk_spec_example])
        (by rw [equityWalk_spec_example]) (by norm_num) (by norm_num [abs_of_neg]),
        round_thirty_factor]

/-- C4 (witness): the amended statement applied to the trades with P&Ls 20, 10,
-30 closed at times 3, 1, 2 and the starting balance 100. -/
theorem riskMetrics_minEquity_rounded_witness :
    (0 : ℚ) < 100 ∧ ([⟨3, 20⟩, ⟨1, 10⟩, ⟨2, -30⟩] : List Entry) ≠ [] ∧
      (∃ k, k ≤ ([⟨3, 20⟩, ⟨1, 10⟩, ⟨2, -30⟩] : List Entry).length ∧
        (Double.equityWalk 100 (sortByCloseTime [⟨3, 20⟩, ⟨1, 10⟩, ⟨2, -30⟩])).minEquity
          = Double.runningEquity 100 (sortByCloseTime [⟨3, 20⟩, ⟨1, 10⟩, ⟨2, -30⟩]) k) ∧
      (Double.riskMetrics 100 [⟨3, 20⟩, ⟨1, 10⟩, ⟨2, -30⟩]).maxDrawdown
        = some (Double.div (Double.sub
            (Double.equityWalk 100 (sortByCloseTime [⟨3, 20⟩, ⟨1, 10⟩, ⟨2, -30⟩])).minEquity
            (.fin 100)) (.fin 100)) :=
  ⟨by norm_num, by simp,
    (riskMetrics_minEquity_rounded.1 100 [⟨3, 20⟩, ⟨1, 10⟩, ⟨2, -30⟩]
      (by norm_num) (by simp)).2.2.2.2.2.1,
    (riskMetrics_minEquity_rounded.1 100 [⟨3, 20⟩, ⟨1, 10⟩, ⟨2, -30⟩]
      (by norm_num) (by simp)).2.2.2.2.2.2.1⟩

/-! ## C5: the profit factor -/

/-- C5 (counterexample): for the empty list there are neither profits nor
losses, yet the profit factor is not 0: `fetchAll` returns before the walk and
sets it to `null`. -/
theorem riskMetrics_nil_profitFactor_null :
    (∀ e ∈ ([] : List Entry), ¬ 0 < e.pl) ∧ (∀ e ∈ ([] : List Entry), ¬ e.pl < 0) ∧
      (riskMetrics 100 []).profitFactor = none ∧
      (riskMetrics 100 []).profitFactor ≠ some (.fin 0) := by
  simp [riskMetrics]

/-- C5 (amended): for every non-empty list of trades the profit factor is
`totalProfits / |totalLosses|` when the sum of the negative P&Ls is non-zero,
`Infinity` when some P&L is positive and none is negative, and 0 when no P&L is
positive and none is negative; for the empty list it is `null`.  For the P&Ls 10
and 5 with starting balance 100 it is `Infinity` and the drawdown is 0. -/
theorem riskMetrics_profitFactor :
    (∀ (sb : ℚ) (l : List Entry), l ≠ [] →
      (sumLosses l ≠ 0 →
        (riskMetrics sb l).profitFactor = some (.fin (sumProfits l / |sumLosses l|))) ∧
      ((∃ e ∈ l, 0 < e.pl) → (∀ e ∈ l, ¬ e.pl < 0) →
        (riskMetrics sb l).profitFactor = some .posInf) ∧
      ((∀ e ∈ l, ¬ 0 < e.pl) → (∀ e ∈ l, ¬ e.pl < 0) →
        (riskMetrics sb l).profitFactor = some (.fin 0))) ∧
    (∀ sb : ℚ, (riskMetrics sb []).profitFactor = none) ∧
    ((riskMetrics 100 [⟨1, 10⟩, ⟨2, 5⟩]).profitFactor = some .posInf ∧
      (riskMetrics 100 [⟨1, 10⟩, ⟨2, 5⟩]).maxDrawdown = some 0) := by
  refine ⟨?_, ?_, ?_, ?_⟩
  · intro sb l hl
    rw [riskMetrics_of_ne_nil sb l hl]
    simp only [profitFactorOf_walk]
    refine ⟨?_, ?_, ?_⟩
    · intro hne
      have hlt : sumLosses l < 0 := lt_of_le_of_ne (sumLosses_nonpos l) hne
      simp [hlt]
    · intro hpos hneg
      have h0 : sumLosses l = 0 := sumLosses_eq_zero_of_none l hneg
      have hp : 0 < sumProfits l := sumProfits_pos_of_exists l hpos
      simp [h0, hp]
    · intro hpos hneg
      have h0 : sumLosses l = 0 := sumLosses_eq_zero_of_none l hneg
      have hp : sumProfits l = 0 := sumProfits_eq_zero_of_none l hpos
      simp [h0, hp]
  · intro sb
    simp [riskMetrics]
  · have hsort : sortByCloseTime [⟨1, 10⟩, ⟨2, 5⟩] = [⟨1, 10⟩, ⟨2, 5⟩] := by
      norm_num [sortByCloseTime, List.insertionSort, List.orderedInsert]
    rw [riskMetrics_of_ne_nil _ _ (by simp), hsort]
    norm_num [profitFactorOf, equityWalk, walkStep]
  · have hsort : sortByCloseTime [⟨1, 10⟩, ⟨2, 5⟩] = [⟨1, 10⟩, ⟨2, 5⟩] := by
      norm_num [sortByCloseTime, List.insertionSort, List.orderedInsert]
    rw [riskMetrics_of_ne_nil _ _ (by simp), hsort]
    norm_num [ddFraction, equityWalk, walkStep]

/-- C5 (witness): the amended statement applied to the P&Ls 10, -30, 20, whose
losses sum to -30. -/
theorem riskMetrics_profitFactor_witness :
    ([⟨1, 10⟩, ⟨2, -30⟩, ⟨3, 20⟩] : List Entry) ≠ [] ∧
      sumLosses [⟨1, 10⟩, ⟨2, -30⟩, ⟨3, 20⟩] ≠ 0 ∧
      (riskMetrics 100 [⟨1, 10⟩, ⟨2, -30⟩, ⟨3, 20⟩]).profitFactor
        = some (.fin (sumProfits [⟨1, 10⟩, ⟨2, -30⟩, ⟨3, 20⟩]
            / |sumLosses [⟨1, 10⟩, ⟨2, -30⟩, ⟨3, 20⟩]|)) :=
  ⟨by simp, by norm_num [sumLosses, List.filter],
    (riskMetrics_profitFactor.1 100 [⟨1, 10⟩, ⟨2, -30⟩, ⟨3, 20⟩] (by simp)).1
      (by norm_num [sumLosses, List.filter])⟩

/-! ## C6: sign of the drawdown -/

/-- The drawdown fraction computed from the walk of the sorted list: for a
positive starting balance it is a number `d ≤ 0`, with `d = 0` exactly when no
running equity of the walk is below the starting balance. -/
theorem ddFraction_walk (sb : ℚ) (l : List Entry) (hsb : 0 < sb) :
    ∃ d, ddFraction sb (equityWalk sb (sortByCloseTime l)) = some d ∧ d ≤ 0 ∧
      (d = 0 ↔ ∀ k, k ≤ l.length → sb ≤ runningEquity sb (sortByCloseTime l) k) := by
  have hlen := sortByCloseTime_length l
  have hle : (equityWalk sb (sortByCloseTime l)).minEquity ≤ sb := by
    have := equityWalk_min_le sb (sortByCloseTime l) 0 (Nat.zero_le _)
    simpa [runningEquity_eq] using this
  refine ⟨((equityWalk sb (sortByCloseTime l)).minEquity - sb) / sb, by simp [ddFraction, hsb],
    ?_, ?_⟩
  · exact div_nonpos_of_nonpos_of_nonneg (by linarith) hsb.le
  · rw [div_eq_zero_iff]
    constructor
    · intro h k hk
      have hmin : (equityWalk sb (sortByCloseTime l)).minEquity = sb := by
        rcases h with h | h
        · linarith
        · exact absurd h (ne_of_gt hsb)
      have := equityWalk_min_le sb (sortByCloseTime l) k (by rw [hlen]; exact hk)
      linarith
    · intro h
      left
      obtain ⟨k, hk, hmin⟩ := equityWalk_min_attained sb (sortByCloseTime l)
      have := h k (by rw [hlen] at hk; exact hk)
      linarith

/-- C6 (counterexample): for the empty list and starting balance 100 the running
equity never falls below the starting balance, yet the drawdown is not 0:
`fetchAll` returns before the walk and sets it to `null`. -/
theorem riskMetrics_nil_drawdown_null :
    (∀ k, k ≤ ([] : List Entry).length → (100 : ℚ) ≤ runningEquity 100 (sortByCloseTime []) k) ∧
      (riskMetrics 100 []).maxDrawdown = none ∧
      (riskMetrics 100 []).maxDrawdown ≠ some 0 := by
  refine ⟨?_, by simp [riskMetrics], by simp [riskMetrics]⟩
  intro k _
  simp [runningEquity_eq, sortByCloseTime]

/-- C6 (amended): for every non-empty list of trades, the drawdown is, for a
positive starting balance, a number `d ≤ 0` with `d = 0` exactly when no running
equity of the close-time-ordered walk is below the starting balance, and it is
`null` for a starting balance `≤ 0`; for the empty list it is `null`. -/
theorem riskMetrics_drawdown_nonpos :
    (∀ (sb : ℚ) (l : List Entry), l ≠ [] →
      (0 < sb → ∃ d, (riskMetrics sb l).maxDrawdown = some d ∧ d ≤ 0 ∧
        (d = 0 ↔ ∀ k, k ≤ l.length → sb ≤ runningEquity sb (sortByCloseTime l) k)) ∧
      (sb ≤ 0 → (riskMetrics sb l).maxDrawdown = none)) ∧
    (∀ sb : ℚ, (riskMetrics sb []).maxDrawdown = none) := by
  constructor
  · intro sb l hl
    rw [riskMetrics_of_ne_nil sb l hl]
    refine ⟨fun hsb => ddFraction_walk sb l hsb, ?_⟩
    intro hsb
    simp [ddFraction, not_lt.mpr hsb]
  · intro sb
    simp [riskMetrics]

/-- C6 (witness): the amended statement applied to the P&Ls 10 and -30 with
starting balance 100, where the equity falls to 80. -/
theorem riskMetrics_drawdown_nonpos_witness :
    ([⟨1, 10⟩, ⟨2, -30⟩] : List Entry) ≠ [] ∧ (0 : ℚ) < 100 ∧
      ∃ d, (riskMetrics 100 [⟨1, 10⟩, ⟨2, -30⟩]).maxDrawdown = some d ∧ d ≤ 0 ∧
        (d = 0 ↔ ∀ k, k ≤ ([⟨1, 10⟩, ⟨2, -30⟩] : List Entry).length →
          100 ≤ runningEquity 100 (sortByCloseTime [⟨1, 10⟩, ⟨2, -30⟩]) k) :=
  ⟨by simp, by norm_num,
    (riskMetrics_drawdown_nonpos.1 100 [⟨1, 10⟩, ⟨2, -30⟩] (by simp)).1 (by norm_num)⟩

/-! ## C7: trades with the same close time -/

/-- C7 (counterexample): two trades closed at the same time 1 with P&Ls -30 and
30, starting balance 100.  The two orders are permutations of each other that
differ only in the order of trades with equal close time; the sort keeps the
input order of ties, so the drawdown is -0.3 for one order and 0 for the other.
No sum of this walk is rounded: the values are the same with exact sums and in
double precision, where -0.3 is the double nearest to it.  The profit factor
depends on the order of such trades too: `tenthsUp` and `tenthsDown` hold the
same four trades, all closed at the time 1, and the rounded sums give the
profit factor 1.0000000000000002 for the first and 1 for the second. -/
theorem riskMetrics_tie_order_drawdown :
    ([⟨1, -30⟩, ⟨1, 30⟩] : List Entry).Perm [⟨1, 30⟩, ⟨1, -30⟩] ∧
      ([⟨1, -30⟩, ⟨1, 30⟩] : List Entry).map Entry.ts
        = ([⟨1, 30⟩, ⟨1, -30⟩] : List Entry).map Entry.ts ∧
      (riskMetrics 100 [⟨1, -30⟩, ⟨1, 30⟩]).maxDrawdown = some (-30 / 100) ∧
      (riskMetrics 100 [⟨1, 30⟩, ⟨1, -30⟩]).maxDrawdown = some 0 ∧
      (riskMetrics 100 [⟨1, -30⟩, ⟨1, 30⟩]).maxDrawdown
        ≠ (riskMetrics 100 [⟨1, 30⟩, ⟨1, -30⟩]).maxDrawdown ∧
      (Double.riskMetrics 100 [⟨1, -30⟩, ⟨1, 30⟩]).maxDrawdown
        = some (.fin (-5404319552844595 / 18014398509481984)) ∧
      (Double.riskMetrics 100 [⟨1, 30⟩, ⟨1, -30⟩]).maxDrawdown = some (.fin 0) ∧
      (Double.riskMetrics 100 [⟨1, -30⟩, ⟨1, 30⟩]).maxDrawdown
        ≠ (Double.riskMetrics 100 [⟨1, 30⟩, ⟨1, -30⟩]).maxDrawdown ∧
      tenthsUp.Perm tenthsDown ∧ tenthsUp.map Entry.ts = tenthsDown.map Entry.ts ∧
      (Double.riskMetrics 100 tenthsUp).profitFactor
        ≠ (Double.riskMetrics 100 tenthsDown).profitFactor := by
  have hs1 : sortByCloseTime [⟨1, -30⟩, ⟨1, 30⟩] = [⟨1, -30⟩, ⟨1, 30⟩] := by
    norm_num [sortByCloseTime, List.insertionSort, List.orderedInsert]
  have hs2 : sortByCloseTime [⟨1, 30⟩, ⟨1, -30⟩] = [⟨1, 30⟩, ⟨1, -30⟩] := by
    norm_num [sortByCloseTime, List.insertionSort, List.orderedInsert]
  have h1 : (riskMetrics 100 [⟨1, -30⟩, ⟨1, 30⟩]).maxDrawdown = some (-30 / 100) := by
    rw [riskMetrics_of_ne_nil _ _ (by simp), hs1]
    norm_num [ddFraction, equityWalk, walkStep]
  have h2 : (riskMetrics 100 [⟨1, 30⟩, ⟨1, -30⟩]).maxDrawdown = some 0 := by
    rw [riskMetrics_of_ne_nil _ _ (by simp), hs2]
    norm_num [ddFraction, equityWalk, walkStep]
  have h3 : (Double.riskMetrics 100 [⟨1, -30⟩, ⟨1, 30⟩]).maxDrawdown
      = some (.fin (-5404319552844595 / 18014398509481984)) := by
    rw [double_riskMetrics_of_ne_nil _ _ (by simp), hs1]
    simp only [equityWalk_loss_first,
      double_ddFraction_of_pos _ _ (by norm_num : (0 : ℚ) < 100), double_sub_fin,
      round_loss_first_dip, double_div_fin _ _ (by norm_num : (100 : ℚ) ≠ 0),
      round_loss_first_drawdown]
  have h4 : (Double.riskMetrics 100 [⟨1, 30⟩, ⟨1, -30⟩]).maxDrawdown = some (.fin 0) := by
    rw [double_riskMetrics_of_ne_nil _ _ (by simp), hs2]
    simp only [equityWalk_profit_first,
      double_ddFraction_of_pos _ _ (by norm_num : (0 : ℚ) < 100), double_sub_fin]
    norm_num [double_round_zero, double_div_fin]
  refine ⟨List.Perm.swap _ _ _, by simp, h1, h2, ?_, h3, h4, ?_, tenthsUp_perm_tenthsDown,
    by simp [tenthsUp, tenthsDown], ?_⟩
  · rw [h1, h2]
    norm_num
  · rw [h3, h4]
    norm_num
  · rw [profitFactor_tenthsUp, profitFactor_tenthsDown]
    norm_num

/-- C7 (amended): two lists of trades that are permutations of each other and
in which no two trades share a close time are walked in the same order, so the
drawdown fraction and the profit factor (every sum rounded as the program rounds
it) are equal.  Trades that share a close time are walked in their input order:
a list that is already in close-time order is walked as it is given. -/
theorem riskMetrics_perm_of_distinct_close :
    (∀ (sb : ℚ) (l1 l2 : List Entry), l1.Perm l2 → (l1.map Entry.ts).Nodup →
      sortByCloseTime l1 = sortByCloseTime l2 ∧
      (Double.riskMetrics sb l1).maxDrawdown = (Double.riskMetrics sb l2).maxDrawdown ∧
      (Double.riskMetrics sb l1).profitFactor = (Double.riskMetrics sb l2).profitFactor) ∧
    (∀ l : List Entry, l.Sorted (fun a b => a.ts ≤ b.ts) → sortByCloseTime l = l) := by
  constructor
  · intro sb l1 l2 hp hn
    have hs := sortByCloseTime_eq_of_perm l1 l2 hp hn
    have hr : Double.riskMetrics sb l1 = Double.riskMetrics sb l2 := by
      unfold Double.riskMetrics
      rw [hs, hp.length_eq]
    exact ⟨hs, by rw [hr], by rw [hr]⟩
  · intro l hl
    exact List.Sorted.insertionSort_eq hl

/-- C7 (witness): the amended statement applied to the two orders of two trades
closed at the distinct times 1 and 2. -/
theorem riskMetrics_perm_of_distinct_close_witness :
    ([⟨2, 30⟩, ⟨1, -30⟩] : List Entry).Perm [⟨1, -30⟩, ⟨2, 30⟩] ∧
      (([⟨2, 30⟩, ⟨1, -30⟩] : List Entry).map Entry.ts).Nodup ∧
      (Double.riskMetrics 100 [⟨2, 30⟩, ⟨1, -30⟩]).maxDrawdown
        = (Double.riskMetrics 100 [⟨1, -30⟩, ⟨2, 30⟩]).maxDrawdown ∧
      (Double.riskMetrics 100 [⟨2, 30⟩, ⟨1, -30⟩]).profitFactor
        = (Double.riskMetrics 100 [⟨1, -30⟩, ⟨2, 30⟩]).profitFactor :=
  ⟨List.Perm.swap _ _ _, by norm_num,
    (riskMetrics_perm_of_distinct_close.1 100 [⟨2, 30⟩, ⟨1, -30⟩] [⟨1, -30⟩, ⟨2, 30⟩]
      (List.Perm.swap _ _ _) (by norm_num)).2.1,
    (riskMetrics_perm_of_distinct_close.1 100 [⟨2, 30⟩, ⟨1, -30⟩] [⟨1, -30⟩, ⟨2, 30⟩]
      (List.Perm.swap _ _ _) (by norm_num)).2.2⟩

/-! ## The lookback window -/

/-- The result of `toSec` is `undefined` or a number. -/
theorem toSec_undefined_or_num (h : Host) (v : JsVal) :
    toSec h v = .undefined ∨ ∃ x, toSec h v = .num x := by
  unfold toSec
  cases v with
  | undefined => exact Or.inl rfl
  | null => exact Or.inl rfl
  | num x =>
    right
    simp only
    split_ifs
    · exact ⟨_, rfl⟩
    · exact ⟨_, rfl⟩
  | bool b =>
    simp only
    split_ifs
    · exact Or.inr ⟨_, rfl⟩
    · exact Or.inr ⟨_, rfl⟩
    · cases dateTimeValue h (.bool b) with
      | none => exact Or.inl rfl
      | some t => exact Or.inr ⟨_, rfl⟩
  | str s =>
    simp only
    split_ifs
    · exact Or.inr ⟨_, rfl⟩
    · exact Or.inr ⟨_, rfl⟩
    · cases dateTimeValue h (.str s) with
      | none => exact Or.inl rfl
      | some t => exact Or.inr ⟨_, rfl⟩
  | arr xs =>
    simp only
    split_ifs
    · exact Or.inr ⟨_, rfl⟩
    · exact Or.inr ⟨_, rfl⟩
    · cases dateTimeValue h (.arr xs) with
      | none => exact Or.inl rfl
      | some t => exact Or.inr ⟨_, rfl⟩
  | obj fs =>
    simp only
    split_ifs
    · exact Or.inr ⟨_, rfl⟩
    · exact Or.inr ⟨_, rfl⟩
    · cases dateTimeValue h (.obj fs) with
      | none => exact Or.inl rfl
      | some t => exact Or.inr ⟨_, rfl⟩

/-- Every trade that `normalizeTrade` returns is a trade record. -/
theorem normalizeTrade_isTradeRecord (h : Host) (t : JsVal) (exchange symbol : String)
    (tr : JsVal) (hn : normalizeTrade h t exchange symbol = .ok tr) : IsTradeRecord tr := by
  unfold normalizeTrade at hn
  by_cases hnull : t.isNullish = true
  · simp [hnull] at hn
  · simp only [hnull, Bool.false_eq_true, if_false, bind, Except.bind, pure, Except.pure] at hn
    cases hu : callToUpperCase h ((t.field "symbol").or (.str symbol)) with
    | error e => simp [hu] at hn
    | ok sym =>
      simp only [hu, Except.ok.injEq] at hn
      subst hn
      refine ⟨⟨_, rfl⟩, ?_⟩
      simpa using toSec_undefined_or_num h _

/-- Every trade decoded from an identifier is a trade record. -/
theorem idDerivedTrade_isTradeRecord (h : Host) (id exchange symbol : String) (tr : JsVal)
    (hi : idDerivedTrade h id exchange symbol = some tr) : IsTradeRecord tr := by
  unfold idDerivedTrade at hi
  split at hi
  · split_ifs at hi <;>
    · simp only [Option.some.injEq] at hi
      subst hi
      refine ⟨⟨_, rfl⟩, ?_⟩
      simpa using toSec_undefined_or_num h _
  · simp at hi

theorem isTradeRecord_not_nullish {t : JsVal} (ht : IsTradeRecord t) : t.isNullish = false := by
  obtain ⟨⟨fs, rfl⟩, _⟩ := ht
  rfl

/-- On a trade record the window test of `PnLWinRatePie` skips the trade
exactly when its close time is outside the closed interval. -/
theorem window_test_eq (h : Host) (fromSec nowSec : ℤ) (t : JsVal) (ht : IsTradeRecord t) :
    (!(toNumber h (t.field "close_timestamp_s")).isFinite ||
        (toNumber h (t.field "close_timestamp_s")).lt (.fin fromSec) ||
        (JsNum.fin nowSec).lt (toNumber h (t.field "close_timestamp_s")))
      = !closeInWindow fromSec nowSec t := by
  obtain ⟨_, hc | ⟨x, hc⟩⟩ := ht
  · simp [closeInWindow, hc, toNumber, JsNum.isFinite]
  · cases x with
    | fin c =>
      simp only [closeInWindow, hc, toNumber, JsNum.isFinite, lt_fin_fin, Bool.not_true,
        Bool.false_or]
      by_cases h1 : c < (fromSec : ℚ)
      · have : ¬ ((fromSec : ℚ) ≤ c) := not_le.mpr h1
        simp [h1, this]
      · by_cases h2 : (nowSec : ℚ) < c
        · have : ¬ (c ≤ (nowSec : ℚ)) := not_le.mpr h2
          simp [h1, h2, this]
        · simp [h1, h2, not_lt.mp h1, not_lt.mp h2]
    | nan => simp [closeInWindow, hc, toNumber, JsNum.isFinite]
    | posInf => simp [closeInWindow, hc, toNumber, JsNum.isFinite]
    | negInf => simp [closeInWindow, hc, toNumber, JsNum.isFinite]

/-- The P&L that the loop of `PnLWinRatePie` resolves is the resolved P&L of
the specification, `null` when there is none. -/
theorem pnl_choice_eq (t : JsVal) :
    (if (t.field "real_net_pnl").typeofNumber then t.field "real_net_pnl"
      else if (t.field "real_pnl").typeofNumber then t.field "real_pnl" else JsVal.null)
      = match resolvedPnl t with
        | some x => .num x
        | none => .null := by
  unfold resolvedPnl
  cases hn : t.field "real_net_pnl" <;> cases hp : t.field "real_pnl" <;>
    simp [JsVal.typeofNumber]

/-- One iteration of the loop of `PnLWinRatePie` on a trade record. -/
theorem winLossStep_eq (h : Host) (fromSec nowSec : ℤ) (acc : WinLoss) (t : JsVal)
    (ht : IsTradeRecord t) :
    winLossStep h fromSec nowSec acc t = .ok
      { win := acc.win + if closeInWindow fromSec nowSec t && isWin t then 1 else 0
        loss := acc.loss + if closeInWindow fromSec nowSec t && isLoss t then 1 else 0 } := by
  unfold winLossStep
  simp only [isTradeRecord_not_nullish ht, window_test_eq h fromSec nowSec t ht, pnl_choice_eq]
  by_cases hw : closeInWindow fromSec nowSec t = true
  · simp only [hw, isWin, isLoss]
    cases hr : resolvedPnl t with
    | none => simp
    | some x =>
      by_cases h1 : (JsNum.fin 0).lt x = true
      · have h2 : x.lt (.fin 0) = false := by
          cases x <;> simp_all [JsNum.lt]
          linarith
        simp [h1, h2]
      · by_cases h2 : x.lt (.fin 0) = true
        · simp [h1, h2]
        · simp [h1, h2]
  · simp [hw]

/-! ## C8: the win/loss count -/

/-- C8: on a list of normalized trades, from any counters, window end `nowSec`
and span `seconds`, the loop of `PnLWinRatePie` raises no error and adds to `win`
the number of trades whose close time lies in `[nowSec - seconds, nowSec]` and
whose resolved P&L is strictly positive, to `loss` the number of those whose
resolved P&L is strictly negative; a trade whose resolved P&L is 0 or absent is
neither a win nor a loss. -/
theorem winLossCount_eq (h : Host) (nowSec seconds : ℤ) (acc : WinLoss) (trades : List JsVal)
    (ht : ∀ t ∈ trades, IsTradeRecord t) :
    winLossCount h nowSec seconds acc trades = .ok
        { win := acc.win +
            trades.countP (fun t => closeInWindow (nowSec - seconds) nowSec t && isWin t)
          loss := acc.loss +
            trades.countP (fun t => closeInWindow (nowSec - seconds) nowSec t && isLoss t) } ∧
      ∀ t, resolvedPnl t = none ∨ resolvedPnl t = some (.fin 0) →
        isWin t = false ∧ isLoss t = false := by
  constructor
  · unfold winLossCount
    induction trades generalizing acc with
    | nil => simp [foldExcept]
    | cons t ts ih =>
      have ht1 : IsTradeRecord t := ht t (List.mem_cons_self _ _)
      have hts : ∀ u ∈ ts, IsTradeRecord u := fun u hu => ht u (List.mem_cons_of_mem _ hu)
      simp only [foldExcept, winLossStep_eq h _ _ acc t ht1, ih _ hts, List.countP_cons]
      congr 2 <;> omega
  · intro t ht
    rcases ht with hn | hz
    · simp [isWin, isLoss, hn]
    · simp [isWin, isLoss, hz]

/-- C8 (witness): five normalized trades seen at `nowSec = 1000000` with the
one-day span: a win and a loss at the two ends of the window, a trade with P&L 0
inside it, a win that closed before it and a trade without P&L inside it. -/
theorem winLossCount_eq_witness :
    (∀ t ∈ [JsVal.obj [("close_timestamp_s", .num (.fin 913600)),
          ("real_net_pnl", .num (.fin 5))],
        .obj [("close_timestamp_s", .num (.fin 1000000)), ("real_pnl", .num (.fin (-2)))],
        .obj [("close_timestamp_s", .num (.fin 950000)), ("real_net_pnl", .num (.fin 0))],
        .obj [("close_timestamp_s", .num (.fin 913599)), ("real_net_pnl", .num (.fin 7))],
        .obj [("close_timestamp_s", .num (.fin 950000))]], IsTradeRecord t) ∧
      winLossCount refHost 1000000 (lookbackSeconds "1d") { win := 0, loss := 0 }
        [.obj [("close_timestamp_s", .num (.fin 913600)), ("real_net_pnl", .num (.fin 5))],
          .obj [("close_timestamp_s", .num (.fin 1000000)), ("real_pnl", .num (.fin (-2)))],
          .obj [("close_timestamp_s", .num (.fin 950000)), ("real_net_pnl", .num (.fin 0))],
          .obj [("close_timestamp_s", .num (.fin 913599)), ("real_net_pnl", .num (.fin 7))],
          .obj [("close_timestamp_s", .num (.fin 950000))]]
        = .ok { win := 1, loss := 1 } := by
  have hrec : ∀ t ∈ [JsVal.obj [("close_timestamp_s", .num (.fin 913600)),
          ("real_net_pnl", .num (.fin 5))],
        .obj [("close_timestamp_s", .num (.fin 1000000)), ("real_pnl", .num (.fin (-2)))],
        .obj [("close_timestamp_s", .num (.fin 950000)), ("real_net_pnl", .num (.fin 0))],
        .obj [("close_timestamp_s", .num (.fin 913599)), ("real_net_pnl", .num (.fin 7))],
        .obj [("close_timestamp_s", .num (.fin 950000))]], IsTradeRecord t := by
    intro t ht
    simp only [List.mem_cons, List.mem_singleton, List.not_mem_nil, or_false] at ht
    rcases ht with rfl | rfl | rfl | rfl | rfl <;> simp [IsTradeRecord]
  have hspan : lookbackSeconds "1d" = 86400 := by decide
  refine ⟨hrec, ?_⟩
  rw [(winLossCount_eq refHost 1000000 (lookbackSeconds "1d") { win := 0, loss := 0 } _ hrec).1,
    hspan]
  simp [List.countP_cons, closeInWindow, isWin, isLoss, resolvedPnl]
  norm_num

/-! ## C9: the windowed P&L -/

@[simp] theorem add_fin_fin (a b : ℚ) : (JsNum.fin a).add (.fin b) = .fin (a + b) := rfl

theorem addNetPnl_eq (acc : JsNum) (t : JsVal) : addNetPnl acc t = acc.add (netPnlOrZero t) := by
  unfold addNetPnl netPnlOrZero
  cases t.field "real_net_pnl" <;> rfl

theorem foldl_addNetPnl (l : List JsVal) :
    ∀ acc : JsNum, l.foldl addNetPnl acc = (l.map netPnlOrZero).foldl JsNum.add acc := by
  induction l with
  | nil => intro acc; rfl
  | cons t l ih =>
    intro acc
    simp only [List.foldl_cons, List.map_cons, ih, addNetPnl_eq]

/-- On a trade record the filter callback of `PnLMarplot` keeps the trade
exactly when its close time is inside the closed interval. -/
theorem inLookback_eq (h : Host) (fromSec nowSec : ℤ) (t : JsVal) (ht : IsTradeRecord t) :
    inLookback h fromSec nowSec t = .ok (closeInWindow fromSec nowSec t) := by
  unfold inLookback
  simp only [isTradeRecord_not_nullish ht]
  obtain ⟨_, hc | ⟨x, hc⟩⟩ := ht
  · simp [closeInWindow, hc, toNumber, JsNum.isFinite]
  · cases x with
    | fin c => simp [closeInWindow, hc, toNumber, JsNum.isFinite]
    | nan => simp [closeInWindow, hc, toNumber, JsNum.isFinite]
    | posInf => simp [closeInWindow, hc, toNumber, JsNum.isFinite]
    | negInf => simp [closeInWindow, hc, toNumber, JsNum.isFinite]

theorem filterExcept_eq (h : Host) (fromSec nowSec : ℤ) (trades : List JsVal)
    (ht : ∀ t ∈ trades, IsTradeRecord t) :
    filterExcept (inLookback h fromSec nowSec) trades
      = .ok (trades.filter (closeInWindow fromSec nowSec)) := by
  induction trades with
  | nil => rfl
  | cons t ts ih =>
    have ht1 : IsTradeRecord t := ht t (List.mem_cons_self _ _)
    have hts : ∀ u ∈ ts, IsTradeRecord u := fun u hu => ht u (List.mem_cons_of_mem _ hu)
    simp only [filterExcept, inLookback_eq h _ _ t ht1, ih hts, List.filter_cons]

/-- C9: on the normalized trades of one symbol, window end `nowSec` and span
`seconds`, the windowed P&L of `PnLMarplot` raises no error and is the sum, from
0, of the `real_net_pnl` of the trades whose close time lies in
`[nowSec - seconds, nowSec]`, a `real_net_pnl` that is absent or not a number
counting as 0; it is 0 when no trade lies in the window, in particular for an
empty list. -/
theorem windowedPnl_eq (h : Host) (nowSec seconds : ℤ) (trades : List JsVal)
    (ht : ∀ t ∈ trades, IsTradeRecord t) :
    windowedPnl h nowSec seconds trades
        = .ok (sumNums ((trades.filter (closeInWindow (nowSec - seconds) nowSec)).map
            netPnlOrZero)) ∧
      ((∀ t ∈ trades, closeInWindow (nowSec - seconds) nowSec t = false) →
        windowedPnl h nowSec seconds trades = .ok (.fin 0)) ∧
      windowedPnl h nowSec seconds [] = .ok (.fin 0) ∧
      (∀ t, (∀ x, t.field "real_net_pnl" ≠ .num x) → netPnlOrZero t = .fin 0) := by
  have key : windowedPnl h nowSec seconds trades
        = .ok (sumNums ((trades.filter (closeInWindow (nowSec - seconds) nowSec)).map
            netPnlOrZero)) := by
    simp only [windowedPnl, filterExcept_eq h _ _ trades ht, foldl_addNetPnl, sumNums]
  refine ⟨key, ?_, ?_, ?_⟩
  · intro hout
    have : trades.filter (closeInWindow (nowSec - seconds) nowSec) = [] := by
      simp only [List.filter_eq_nil_iff]
      intro t htm
      simp [hout t htm]
    rw [key, this]
    rfl
  · rfl
  · intro t hno
    unfold netPnlOrZero
    cases hf : t.field "real_net_pnl" with
    | num x => exact absurd hf (hno x)
    | _ => rfl

/-- C9 (witness): four normalized trades of a symbol seen at `nowSec = 1000000`
with the one-day span: net P&Ls 5 and -2 at the two ends of the window, a trade
without `real_net_pnl` inside it and a net P&L 7 that closed before it. -/
theorem windowedPnl_eq_witness :
    (∀ t ∈ [JsVal.obj [("close_timestamp_s", .num (.fin 913600)),
          ("real_net_pnl", .num (.fin 5))],
        .obj [("close_timestamp_s", .num (.fin 1000000)), ("real_net_pnl", .num (.fin (-2)))],
        .obj [("close_timestamp_s", .num (.fin 950000)), ("real_pnl", .num (.fin 4))],
        .obj [("close_timestamp_s", .num (.fin 913599)), ("real_net_pnl", .num (.fin 7))]],
        IsTradeRecord t) ∧
      windowedPnl refHost 1000000 (lookbackSeconds "1d")
        [.obj [("close_timestamp_s", .num (.fin 913600)), ("real_net_pnl", .num (.fin 5))],
          .obj [("close_timestamp_s", .num (.fin 1000000)), ("real_net_pnl", .num (.fin (-2)))],
          .obj [("close_timestamp_s", .num (.fin 950000)), ("real_pnl", .num (.fin 4))],
          .obj [("close_timestamp_s", .num (.fin 913599)), ("real_net_pnl", .num (.fin 7))]]
        = .ok (.fin 3) := by
  have hrec : ∀ t ∈ [JsVal.obj [("close_timestamp_s", .num (.fin 913600)),
          ("real_net_pnl", .num (.fin 5))],
        .obj [("close_timestamp_s", .num (.fin 1000000)), ("real_net_pnl", .num (.fin (-2)))],
        .obj [("close_timestamp_s", .num (.fin 950000)), ("real_pnl", .num (.fin 4))],
        .obj [("close_timestamp_s", .num (.fin 913599)), ("real_net_pnl", .num (.fin 7))]],
        IsTradeRecord t := by
    intro t ht
    simp only [List.mem_cons, List.mem_singleton, List.not_mem_nil, or_false] at ht
    rcases ht with rfl | rfl | rfl | rfl <;> simp [IsTradeRecord]
  have hspan : lookbackSeconds "1d" = 86400 := by decide
  refine ⟨hrec, ?_⟩
  rw [(windowedPnl_eq refHost 1000000 (lookbackSeconds "1d") _ hrec).1, hspan]
  simp [List.filter_cons, closeInWindow, sumNums]
  norm_num
  simp [netPnlOrZero]
  norm_num

/-! ## C10: the precedence of document shapes -/

/-- The test `v && typeof v === "object"` holds exactly for objects and arrays. -/
theorem isObjectValue_iff (v : JsVal) :
    (v.truthy && v.typeofObject) = true ↔ IsObjectValue v := by
  cases v <;> simp [IsObjectValue, JsVal.typeofObject]

/-- C10: the structured raw records of `parseTradesFromDocData` follow a fixed
precedence: the elements of a document that is an array; else the array `trades`
(whatever `positions` is); else the array `positions`; else the top-level values
when each of them is a non-null object; else nothing.  A document that is not a
non-null object yields the empty list, and for any other document the result is
built from these records and the `lines` records. -/
theorem selectRaw_precedence (h : Host) (data : JsVal) (exchange symbol : String) :
    (∀ xs, data = .arr xs → selectRaw data = xs) ∧
    (∀ fs xs, data = .obj fs → data.field "trades" = .arr xs → selectRaw data = xs) ∧
    (∀ fs xs, data = .obj fs → (∀ ys, data.field "trades" ≠ .arr ys) →
      data.field "positions" = .arr xs → selectRaw data = xs) ∧
    (∀ fs, data = .obj fs → (∀ ys, data.field "trades" ≠ .arr ys) →
      (∀ ys, data.field "positions" ≠ .arr ys) →
      (∀ v ∈ data.objectValues, IsObjectValue v) → selectRaw data = data.objectValues) ∧
    (∀ fs, data = .obj fs → (∀ ys, data.field "trades" ≠ .arr ys) →
      (∀ ys, data.field "positions" ≠ .arr ys) →
      (∃ v ∈ data.objectValues, ¬ IsObjectValue v) → selectRaw data = []) ∧
    (¬ IsObjectValue data → parseTradesFromDocData h data exchange symbol = .ok []) ∧
    (IsObjectValue data → parseTradesFromDocData h data exchange symbol =
      match mapExcept (fun t => normalizeTrade h t exchange symbol) (selectRaw data) with
      | .error e => .error e
      | .ok a =>
        match mapExcept (parseLine h exchange symbol) (selectLines data) with
        | .error e => .error e
        | .ok b => .ok (a.filter passesFilter ++ b.filter JsVal.truthy)) := by
  refine ⟨?_, ?_, ?_, ?_, ?_, ?_, ?_⟩
  · rintro xs rfl
    rfl
  · rintro fs xs rfl ht
    simp only [selectRaw, ht]
  · rintro fs xs rfl ht hp
    unfold selectRaw
    cases hf : (JsVal.obj fs).field "trades" with
    | arr ys => exact absurd hf (ht ys)
    | _ => simp only [hp]
  · rintro fs rfl ht hp hall
    have hall2 : (JsVal.obj fs).objectValues.all (fun v => v.truthy && v.typeofObject) = true := by
      rw [List.all_eq_true]
      intro v hv
      exact (isObjectValue_iff v).mpr (hall v hv)
    unfold selectRaw
    cases hf : (JsVal.obj fs).field "trades" with
    | arr ys => exact absurd hf (ht ys)
    | _ =>
      cases hg : (JsVal.obj fs).field "positions" with
      | arr ys => exact absurd hg (hp ys)
      | _ => simp only [hall2, if_true]
  · rintro fs rfl ht hp ⟨v, hv, hnot⟩
    have hall2 : (JsVal.obj fs).objectValues.all (fun v => v.truthy && v.typeofObject) = false := by
      rw [← Bool.not_eq_true, List.all_eq_true]
      intro hall
      exact hnot ((isObjectValue_iff v).mp (hall v hv))
    unfold selectRaw
    cases hf : (JsVal.obj fs).field "trades" with
    | arr ys => exact absurd hf (ht ys)
    | _ =>
      cases hg : (JsVal.obj fs).field "positions" with
      | arr ys => exact absurd hg (hp ys)
      | _ => simp [hall2]
  · intro hno
    have : (data.truthy && data.typeofObject) = false := by
      rw [← Bool.not_eq_true]
      exact fun hc => hno ((isObjectValue_iff data).mp hc)
    cases data <;> simp_all [parseTradesFromDocData, JsVal.typeofObject]
  · intro hobj
    have hc := (isObjectValue_iff data).mpr hobj
    simp only [Bool.and_eq_true] at hc
    simp only [parseTradesFromDocData, hc.1, hc.2, Bool.not_true, Bool.or_self, Bool.false_eq_true,
      if_false, bind, Except.bind, pure, Except.pure]
    cases mapExcept (fun t => normalizeTrade h t exchange symbol) (selectRaw data) with
    | error e => rfl
    | ok a =>
      cases mapExcept (parseLine h exchange symbol) (selectLines data) with
      | error e => rfl
      | ok b => rfl

/-- C10 (witness): a document holding both an array `positions` and an array
`trades`: the records are those of `trades`. -/
theorem selectRaw_precedence_witness :
    (JsVal.obj [("positions", .arr [.str "p"]), ("trades", .arr [.str "t"])]).field "trades"
        = .arr [.str "t"] ∧
      selectRaw (.obj [("positions", .arr [.str "p"]), ("trades", .arr [.str "t"])])
        = [.str "t"] :=
  ⟨by simp,
    (selectRaw_precedence refHost
      (.obj [("positions", .arr [.str "p"]), ("trades", .arr [.str "t"])]) "binance"
      "BTCUSDT").2.1 _ _ rfl (by simp)⟩

/-! ## Decimal digit strings and `toSec` -/

theorem isDigit_iff (c : Char) : c.isDigit = true ↔ 48 ≤ c.toNat ∧ c.toNat ≤ 57 := by
  simp [Char.isDigit, Char.toNat, UInt32.le_def, Fin.le_def]
  rfl

theorem not_whiteSpace_of_isDigit (c : Char) (hc : c.isDigit = true) :
    isStrWhiteSpace c = false := by
  have h := (isDigit_iff c).mp hc
  simp only [isStrWhiteSpace]
  simp
  omega

theorem dropWhile_whiteSpace_digits (cs : List Char) (hd : cs.all Char.isDigit = true) :
    cs.dropWhile isStrWhiteSpace = cs := by
  cases cs with
  | nil => rfl
  | cons c cs =>
    simp only [List.all_cons, Bool.and_eq_true] at hd
    simp [List.dropWhile, not_whiteSpace_of_isDigit c hd.1]

theorem trimChars_digits (cs : List Char) (hd : cs.all Char.isDigit = true) :
    trimChars cs = cs := by
  unfold trimChars
  rw [dropWhile_whiteSpace_digits cs hd, dropWhile_whiteSpace_digits cs.reverse (by simpa using hd)]
  simp

theorem takeWhile_digits (cs : List Char) (hd : cs.all Char.isDigit = true) :
    cs.takeWhile Char.isDigit = cs := by
  rw [List.takeWhile_eq_self_iff]
  simpa using hd

theorem dropWhile_digits (cs : List Char) (hd : cs.all Char.isDigit = true) :
    cs.dropWhile Char.isDigit = [] := by
  rw [List.dropWhile_eq_nil_iff]
  simpa using hd

theorem parseUnsigned_digits (cs : List Char) (hne : cs ≠ [])
    (hd : cs.all Char.isDigit = true) :
    parseUnsigned false cs = some (.finite false (digitsValue 10 cs) 0 0 0) := by
  have hinf : cs ≠ "Infinity".data := by
    intro he
    rw [he] at hd
    revert hd
    decide
  unfold parseUnsigned
  simp only [hinf, if_false, takeWhile_digits cs hd, dropWhile_digits cs hd]
  simp [hne, digitsValue]

theorem parseNumLit_digits (cs : List Char) (hne : cs ≠ [])
    (hd : cs.all Char.isDigit = true) :
    parseNumLit cs = parseUnsigned false cs := by
  unfold parseNumLit
  split <;> first
    | rfl
    | (exfalso; revert hd; simp [List.all_cons]; try decide)

/-- The literal read from a non-empty string of decimal digits is its value. -/
theorem readNumLit_digits (s : String) (hne : s.data ≠ [])
    (hd : s.data.all Char.isDigit = true) :
    readNumLit s = some (.finite false (digitsValue 10 s.data) 0 0 0) := by
  unfold readNumLit
  rw [trimChars_digits _ hd, if_neg hne, parseNumLit_digits _ hne hd,
    parseUnsigned_digits _ hne hd]

/-- The conversion `Number(s)` of a non-empty string of decimal digits is its
decimal value. -/
theorem stringToNumber_digits (s : String) (hne : s.data ≠ [])
    (hd : s.data.all Char.isDigit = true) :
    stringToNumber s = .fin (digitsValue 10 s.data) := by
  simp [stringToNumber, readNumLit_digits s hne hd, NumLit.value]

theorem isDigits_spec (n : Nat) (s : String) (hs : isDigits n s = true) :
    s.data.length = n ∧ s.data.all Char.isDigit = true := by
  simpa [isDigits] using hs

/-- The result of `toSec` on a value that is not a number, in terms of its
string form. -/
theorem toSec_of_not_num (h : Host) (v : JsVal) (hn : ∀ x, v ≠ .num x)
    (hu : v.isNullish = false) :
    toSec h v =
      if isDigits 13 (jsToString h v) then .num (stringToNumber (jsToString h v)).floorDiv1000
      else if isDigits 10 (jsToString h v) then .num (stringToNumber (jsToString h v))
      else
        match dateTimeValue h v with
        | some t => .num (.fin (⌊(t : ℚ) / 1000⌋ : ℤ))
        | none => .undefined := by
  cases v with
  | undefined => simp [JsVal.isNullish] at hu
  | null => simp [JsVal.isNullish] at hu
  | num x => exact absurd rfl (hn x)
  | bool b => rfl
  | str s => rfl
  | arr xs => rfl
  | obj fs => rfl

theorem toSec_nullish (h : Host) (v : JsVal) (hu : v.isNullish = true) :
    toSec h v = .undefined := by
  cases v <;> simp [JsVal.isNullish] at hu <;> rfl

theorem stringToNumber_of_isDigits (n : Nat) (hn : 0 < n) (s : String)
    (hs : isDigits n s = true) : stringToNumber s = .fin (digitsValue 10 s.data) := by
  obtain ⟨hl, hd⟩ := isDigits_spec n s hs
  apply stringToNumber_digits s _ hd
  intro he
  rw [he] at hl
  simp at hl
  omega

/-! ## The result of `normalizeTrade` -/

/-- The trade that `normalizeTrade` returns for a record that is not `null` or
`undefined` and whose symbol, or else the context symbol, is the string `s`. -/
theorem normalizeTrade_ok (h : Host) (t : JsVal) (exchange symbol s : String)
    (ht : t.isNullish = false) (hs : (t.field "symbol").or (.str symbol) = .str s) :
    normalizeTrade h t exchange symbol = .ok (.obj [
      ("exchange", (t.field "exchange").or (.str exchange)),
      ("symbol", .str (h.toUpperCase s)),
      ("position",
        .str (jsToString h (((t.field "position").or (t.field "side")).or (.str "")))),
      ("entry_timestamp_s",
        toSec h ((((t.field "entry_timestamp").coalesce (t.field "entry")).coalesce
          (t.field "open_time")).coalesce (t.field "timestamp"))),
      ("close_timestamp_s",
        toSec h (((t.field "close_timestamp").coalesce (t.field "exit")).coalesce
          (t.field "close_time"))),
      ("real_pnl",
        if (t.field "real_pnl").typeofNumber then t.field "real_pnl" else .undefined),
      ("real_net_pnl",
        if (t.field "real_net_pnl").typeofNumber then t.field "real_net_pnl"
        else .undefined),
      ("close_reason", t.field "close_reason")]) := by
  simp [normalizeTrade, ht, hs, callToUpperCase, bind, Except.bind, pure, Except.pure]

theorem coalesce_of_nullish (a b : JsVal) (ha : a.isNullish = true) : a.coalesce b = b := by
  cases a <;> simp [JsVal.isNullish] at ha <;> rfl

theorem coalesce_of_not_nullish (a b : JsVal) (ha : a.isNullish = false) :
    a.coalesce b = a := by
  cases a <;> simp [JsVal.isNullish] at ha <;> rfl

@[simp] theorem toSec_undefined (h : Host) : toSec h .undefined = .undefined := rfl

@[simp] theorem toSec_null (h : Host) : toSec h .null = .undefined := rfl

theorem isNullish_cases (a : JsVal) : a.isNullish = true ∨ a.isNullish = false := by
  cases a.isNullish <;> simp

/-- Coercing the chain `a ?? b ?? c ?? d` is coercing the first defined value. -/
theorem toSec_coalesce4 (h : Host) (a b c d : JsVal) :
    toSec h (((a.coalesce b).coalesce c).coalesce d) = toSec h (firstDefined [a, b, c, d]) := by
  rcases isNullish_cases a with ha | ha <;> rcases isNullish_cases b with hb | hb <;>
    rcases isNullish_cases c with hc | hc <;> rcases isNullish_cases d with hd | hd <;>
    simp [firstDefined, ha, hb, hc, hd, coalesce_of_nullish, coalesce_of_not_nullish,
      toSec_nullish]

/-- Coercing the chain `a ?? b ?? c` is coercing the first defined value. -/
theorem toSec_coalesce3 (h : Host) (a b c : JsVal) :
    toSec h ((a.coalesce b).coalesce c) = toSec h (firstDefined [a, b, c]) := by
  rcases isNullish_cases a with ha | ha <;> rcases isNullish_cases b with hb | hb <;>
    rcases isNullish_cases c with hc | hc <;>
    simp [firstDefined, ha, hb, hc, coalesce_of_nullish, coalesce_of_not_nullish,
      toSec_nullish]

/-! ## The output of `parseTradesFromDocData` -/

/-- The normalized trade of the record built from the five parts of a line. -/
theorem normalizeTrade_line (h : Host) (exchange symbol ex sym pos : String) (a b : JsNum) :
    normalizeTrade h
        (.obj [("exchange", .str ex), ("symbol", .str sym), ("position", .str pos),
          ("entry_timestamp", .num a), ("close_timestamp", .num b)]) exchange symbol
      = .ok (.obj [
          ("exchange", .str (if ex = "" then exchange else ex)),
          ("symbol", .str (h.toUpperCase (if sym = "" then symbol else sym))),
          ("position", .str pos),
          ("entry_timestamp_s", toSec h (.num a)),
          ("close_timestamp_s", toSec h (.num b)),
          ("real_pnl", .undefined), ("real_net_pnl", .undefined),
          ("close_reason", .undefined)]) := by
  rw [normalizeTrade_ok h
    (.obj [("exchange", .str ex), ("symbol", .str sym), ("position", .str pos),
      ("entry_timestamp", .num a), ("close_timestamp", .num b)])
    exchange symbol (if sym = "" then symbol else sym) rfl
    (by by_cases hs : sym = "" <;> simp [JsVal.or, hs])]
  by_cases hex : ex = "" <;> by_cases hpos : pos = "" <;>
    simp [JsVal.or, JsVal.coalesce, JsVal.typeofNumber, jsToString, hex, hpos]

/-- The callback mapped over `lines` never raises: it returns the trade that
the line contributes, `null` when it contributes none. -/
theorem parseLine_eq (h : Host) (exchange symbol : String) (line : JsVal) :
    parseLine h exchange symbol line
      = .ok ((lineTradeOf h exchange symbol line).getD .null) := by
  unfold parseLine lineTradeOf
  generalize splitPipe (jsToString h line) = parts
  match parts with
  | ex :: sym :: pos :: entry :: exit :: rest =>
    simp only [Option.getD_some, lineTrade]
    exact normalizeTrade_line h exchange symbol ex sym pos _ _
  | [] => rfl
  | [_] => rfl
  | [_, _] => rfl
  | [_, _, _] => rfl
  | [_, _, _, _] => rfl

theorem mapExcept_parseLine (h : Host) (exchange symbol : String) (lines : List JsVal) :
    mapExcept (parseLine h exchange symbol) lines
      = .ok (lines.map (fun l => (lineTradeOf h exchange symbol l).getD .null)) := by
  induction lines with
  | nil => rfl
  | cons l ls ih => simp [mapExcept, parseLine_eq, ih]

theorem lineTradeOf_truthy (h : Host) (exchange symbol : String) (line t : JsVal)
    (ht : lineTradeOf h exchange symbol line = some t) : t.truthy = true := by
  unfold lineTradeOf at ht
  split at ht
  · simp only [Option.some.injEq] at ht
    subst ht
    rfl
  · simp at ht

/-- The `lines` half of the output is the list of the trades that the lines
contribute. -/
theorem filter_lines_eq (h : Host) (exchange symbol : String) (lines : List JsVal) :
    (lines.map (fun l => (lineTradeOf h exchange symbol l).getD .null)).filter JsVal.truthy
      = lineTrades h exchange symbol lines := by
  induction lines with
  | nil => rfl
  | cons l ls ih =>
    simp only [List.map_cons, lineTrades, List.filterMap_cons] at ih ⊢
    cases hl : lineTradeOf h exchange symbol l with
    | none => simpa [List.filter_cons] using ih
    | some t =>
      have := lineTradeOf_truthy h exchange symbol l t hl
      simpa [List.filter_cons, this] using ih

/-- The result of `parseTradesFromDocData` on a document that is an object or
an array, in terms of the normalization of its structured records. -/
theorem parseTradesFromDocData_eq (h : Host) (data : JsVal) (exchange symbol : String)
    (hd : IsObjectValue data) :
    parseTradesFromDocData h data exchange symbol =
      match mapExcept (fun t => normalizeTrade h t exchange symbol) (selectRaw data) with
      | .error e => .error e
      | .ok ns =>
        .ok (ns.filter passesFilter ++ lineTrades h exchange symbol (selectLines data)) := by
  have hc : data.truthy = true ∧ data.typeofObject = true := by
    rcases hd with ⟨xs, rfl⟩ | ⟨fs, rfl⟩ <;> exact ⟨rfl, rfl⟩
  simp only [parseTradesFromDocData, hc.1, hc.2, Bool.not_true, Bool.or_self,
    Bool.false_eq_true, if_false, bind, Except.bind, pure, Except.pure, mapExcept_parseLine,
    filter_lines_eq]
  cases mapExcept (fun t => normalizeTrade h t exchange symbol) (selectRaw data) with
  | error e => rfl
  | ok a => rfl

theorem passesFilter_iff (n : JsVal) : passesFilter n = true ↔ TruthyComplete n := by
  simp only [passesFilter, TruthyComplete, Bool.and_eq_true]
  tauto

theorem mem_of_mapExcept {α β : Type} (f : α → Except JsError β) :
    ∀ (xs : List α) (ys : List β), mapExcept f xs = .ok ys →
      ∀ y ∈ ys, ∃ x ∈ xs, f x = .ok y := by
  intro xs
  induction xs with
  | nil =>
    intro ys h y hy
    simp [mapExcept] at h
    subst h
    simp at hy
  | cons x xs ih =>
    intro ys h y hy
    simp only [mapExcept] at h
    cases hx : f x with
    | error e => simp [hx] at h
    | ok y0 =>
      cases hrest : mapExcept f xs with
      | error e => simp [hx, hrest] at h
      | ok ys0 =>
        simp only [hx, hrest, Except.ok.injEq] at h
        subst h
        rcases List.mem_cons.mp hy with rfl | hmem
        · exact ⟨x, List.mem_cons_self _ _, hx⟩
        · obtain ⟨x1, hx1, hf⟩ := ih ys0 hrest y hmem
          exact ⟨x1, List.mem_cons_of_mem _ hx1, hf⟩

theorem selectRaw_of_trades (fs : List (String × JsVal)) (ts : List JsVal)
    (ht : (JsVal.obj fs).field "trades" = .arr ts) : selectRaw (.obj fs) = ts := by
  simp only [selectRaw, ht]

theorem selectLines_of_lines (data : JsVal) (ls : List JsVal)
    (hl : data.field "lines" = .arr ls) : selectLines data = ls := by
  simp only [selectLines, hl]

/-- The shape of a normalized trade: its position is a string and each of its
times is `undefined` or a number. -/
theorem normalizeTrade_shape (h : Host) (t : JsVal) (exchange symbol : String) (n : JsVal)
    (hn : normalizeTrade h t exchange symbol = .ok n) :
    (∃ p, n.field "position" = .str p) ∧
      (n.field "entry_timestamp_s" = .undefined ∨ ∃ x, n.field "entry_timestamp_s" = .num x) ∧
      (n.field "close_timestamp_s" = .undefined ∨ ∃ x, n.field "close_timestamp_s" = .num x) := by
  unfold normalizeTrade at hn
  by_cases hnull : t.isNullish = true
  · simp [hnull] at hn
  · simp only [hnull, Bool.false_eq_true, if_false, bind, Except.bind, pure, Except.pure] at hn
    cases hu : callToUpperCase h ((t.field "symbol").or (.str symbol)) with
    | error e => simp [hu] at hn
    | ok sym =>
      simp only [hu, Except.ok.injEq] at hn
      subst hn
      refine ⟨⟨_, by simp; rfl⟩, ?_, ?_⟩
      · simpa using toSec_undefined_or_num h _
      · simpa using toSec_undefined_or_num h _

@[simp] theorem field_arr (xs : List JsVal) (k : String) :
    (JsVal.arr xs).field k = .undefined := rfl

theorem truthy_num_iff (x : JsNum) : x.truthy = true ↔ x ≠ .fin 0 ∧ x ≠ .nan := by
  cases x <;> simp [JsNum.truthy]

theorem truthy_time_iff (v : JsVal) (hv : v = .undefined ∨ ∃ x, v = .num x) :
    v.truthy = true ↔ IsTruthyTime v := by
  rcases hv with rfl | ⟨x, rfl⟩
  · simp [IsTruthyTime]
  · simp [IsTruthyTime, truthy_num_iff]

theorem extractRaw_eq_selectRaw (data : JsVal) :
    extractRawTradesFromDocData data = selectRaw data := by
  cases data <;> simp [extractRawTradesFromDocData, selectRaw, JsVal.typeofObject,
    JsVal.field, JsVal.objectValues]

theorem parseTradesFromDocData_of_not_object (h : Host) (data : JsVal)
    (exchange symbol : String) (hd : ¬ IsObjectValue data) :
    parseTradesFromDocData h data exchange symbol = .ok [] := by
  have hb : (data.truthy && data.typeofObject) = false := by
    cases hv : (data.truthy && data.typeofObject) with
    | false => rfl
    | true => exact absurd ((isObjectValue_iff data).mp hv) hd
  have hc : (!data.truthy || !data.typeofObject) = true := by
    cases h1 : data.truthy <;> cases h2 : data.typeofObject <;> simp_all
  simp only [parseTradesFromDocData, hc, if_true]

theorem selectLines_of_no_lines (data : JsVal) (hl : ∀ ls, data.field "lines" ≠ .arr ls) :
    selectLines data = [] := by
  unfold selectLines
  split
  · next xs hx => exact absurd hx (hl xs)
  · rfl

theorem mapExcept_nil_ok {α β : Type} (f : α → Except JsError β) (ns : List β)
    (hn : mapExcept f [] = .ok ns) : ns = [] := by
  simp only [mapExcept, Except.ok.injEq] at hn
  exact hn.symm

/-! ## The old-layout loops of the routes -/

theorem oldLayoutLoop_reads_doc (h : Host) (store : Store) (exchange symbol : String)
    (cands : List String) (acc : List Read) (name : String)
    (hacc : Read.collection name ∉ acc) :
    Read.collection name ∉ (oldLayoutLoop h store exchange symbol cands acc).reads := by
  induction cands generalizing acc with
  | nil => simpa [oldLayoutLoop] using hacc
  | cons d rest ih =>
    have hacc2 : Read.collection name ∉ acc ++ [Read.doc d] := by
      simp [hacc]
    unfold oldLayoutLoop
    cases hg : store.getDoc d with
    | failed => exact ih _ hacc2
    | missing => exact ih _ hacc2
    | found data =>
      cases hp : parseTradesFromDocData h (data.or (.obj [])) exchange symbol with
      | error e =>
        simp only [hp]
        exact ih _ hacc2
      | ok ts =>
        simp only [hp]
        exact hacc2

theorem oldLayoutLoop_yield (h : Host) (store : Store) (exchange symbol : String)
    (cands : List String) (acc : List Read) (c : String) (data : JsVal) (ts : List JsVal)
    (hread : Read.doc c ∈ (oldLayoutLoop h store exchange symbol cands acc).reads)
    (hacc : Read.doc c ∉ acc)
    (hg : store.getDoc c = .found data)
    (hp : parseTradesFromDocData h (data.or (.obj [])) exchange symbol = .ok ts) :
    (oldLayoutLoop h store exchange symbol cands acc).trades = ts := by
  induction cands generalizing acc with
  | nil => exact absurd (by simpa [oldLayoutLoop] using hread) hacc
  | cons d rest ih =>
    by_cases hcd : c = d
    · subst hcd
      simp only [oldLayoutLoop, hg, hp]
    · have hacc2 : Read.doc c ∉ acc ++ [Read.doc d] := by
        simp [hacc, hcd]
      unfold oldLayoutLoop at hread ⊢
      cases hg2 : store.getDoc d with
      | failed =>
        simp only [hg2] at hread ⊢
        exact ih _ hread hacc2
      | missing =>
        simp only [hg2] at hread ⊢
        exact ih _ hread hacc2
      | found data2 =>
        cases hp2 : parseTradesFromDocData h (data2.or (.obj [])) exchange symbol with
        | error e =>
          simp only [hg2, hp2] at hread ⊢
          exact ih _ hread hacc2
        | ok ts2 =>
          simp only [hg2, hp2] at hread
          exact absurd hread hacc2

theorem rawOldLayoutLoop_reads_doc (store : Store)
    (cands : List String) (acc : List Read) (name : String)
    (hacc : Read.collection name ∉ acc) :
    Read.collection name ∉ (rawOldLayoutLoop store cands acc).reads := by
  induction cands generalizing acc with
  | nil => simpa [rawOldLayoutLoop] using hacc
  | cons d rest ih =>
    have hacc2 : Read.collection name ∉ acc ++ [Read.doc d] := by
      simp [hacc]
    unfold rawOldLayoutLoop
    cases hg : store.getDoc d with
    | failed => exact ih _ hacc2
    | missing => exact ih _ hacc2
    | found data => exact hacc2

theorem rawOldLayoutLoop_yield (store : Store)
    (cands : List String) (acc : List Read) (c : String) (data : JsVal)
    (hread : Read.doc c ∈ (rawOldLayoutLoop store cands acc).reads)
    (hacc : Read.doc c ∉ acc)
    (hg : store.getDoc c = .found data) :
    (rawOldLayoutLoop store cands acc).trades
      = extractRawTradesFromDocData (data.or (.obj [])) := by
  induction cands generalizing acc with
  | nil => exact absurd (by simpa [rawOldLayoutLoop] using hread) hacc
  | cons d rest ih =>
    by_cases hcd : c = d
    · subst hcd
      simp only [rawOldLayoutLoop, hg]
    · have hacc2 : Read.doc c ∉ acc ++ [Read.doc d] := by
        simp [hacc, hcd]
      unfold rawOldLayoutLoop at hread ⊢
      cases hg2 : store.getDoc d with
      | failed =>
        simp only [hg2] at hread ⊢
        exact ih _ hread hacc2
      | missing =>
        simp only [hg2] at hread ⊢
        exact ih _ hread hacc2
      | found data2 =>
        simp only [hg2] at hread
        exact absurd hread hacc2

theorem coinStatsProbe_of_trades (h : Host) (store : Store) (exchange symbol : String)
    (hne : (oldLayoutLoop h store exchange symbol (docCandidates h exchange symbol) []).trades
      ≠ []) :
    coinStatsProbe h store exchange symbol
      = oldLayoutLoop h store exchange symbol (docCandidates h exchange symbol) [] := by
  have hlen : ¬ (oldLayoutLoop h store exchange symbol
      (docCandidates h exchange symbol) []).trades.length = 0 := by
    simpa [List.length_eq_zero] using hne
  simp only [coinStatsProbe, hlen, if_false]

theorem coinStatsProbe_reads_of_no_trades (h : Host) (store : Store) (exchange symbol : String)
    (he : (oldLayoutLoop h store exchange symbol (docCandidates h exchange symbol) []).trades
      = []) :
    (coinStatsProbe h store exchange symbol).reads
      = (oldLayoutLoop h store exchange symbol (docCandidates h exchange symbol) []).reads
        ++ [.collection (exchange ++ "-" ++ symbol)] := by
  have hlen : (oldLayoutLoop h store exchange symbol
      (docCandidates h exchange symbol) []).trades.length = 0 := by
    simp [he]
  simp only [coinStatsProbe, hlen, if_true]
  cases store.getCollection (exchange ++ "-" ++ symbol) with
  | failed => rfl
  | docs ds =>
    by_cases hds : ds.length = 0
    · simp only [hds, if_true]
    · simp only [hds, if_false]
      split <;> rfl

theorem coinStatsRawProbe_of_trades (h : Host) (store : Store) (exchange symbol : String)
    (hne : (rawOldLayoutLoop store (docCandidates h exchange symbol) []).trades ≠ []) :
    coinStatsRawProbe h store exchange symbol
      = rawOldLayoutLoop store (docCandidates h exchange symbol) [] := by
  have hlen : ¬ (rawOldLayoutLoop store
      (docCandidates h exchange symbol) []).trades.length = 0 := by
    simpa [List.length_eq_zero] using hne
  simp only [coinStatsRawProbe, hlen, if_false]

theorem coinStatsRawProbe_reads_of_no_trades (h : Host) (store : Store)
    (exchange symbol : String)
    (he : (rawOldLayoutLoop store (docCandidates h exchange symbol) []).trades = []) :
    (coinStatsRawProbe h store exchange symbol).reads
      = (rawOldLayoutLoop store (docCandidates h exchange symbol) []).reads
        ++ [.collection (exchange ++ "-" ++ symbol)] := by
  have hlen : (rawOldLayoutLoop store
      (docCandidates h exchange symbol) []).trades.length = 0 := by
    simp [he]
  simp only [coinStatsRawProbe, hlen, if_true]
  cases store.getCollection (exchange ++ "-" ++ symbol) with
  | failed => rfl
  | docs ds =>
    by_cases hds : ds.length = 0
    · simp only [hds, if_true]
    · simp only [hds, if_false]

theorem oldLayoutLoop_reads_sub (h : Host) (store : Store) (exchange symbol : String)
    (cands : List String) (acc : List Read) (c : String)
    (hread : Read.doc c ∈ (oldLayoutLoop h store exchange symbol cands acc).reads) :
    Read.doc c ∈ acc ∨ c ∈ cands := by
  induction cands generalizing acc with
  | nil => exact Or.inl (by simpa [oldLayoutLoop] using hread)
  | cons d rest ih =>
    have step : Read.doc c ∈ acc ++ [Read.doc d] → Read.doc c ∈ acc ∨ c ∈ d :: rest := by
      intro hm
      rcases List.mem_append.mp hm with h1 | h1
      · exact Or.inl h1
      · simp only [List.mem_singleton, Read.doc.injEq] at h1
        exact Or.inr (by simp [h1])
    have next : Read.doc c ∈ (oldLayoutLoop h store exchange symbol rest
        (acc ++ [Read.doc d])).reads → Read.doc c ∈ acc ∨ c ∈ d :: rest := by
      intro hm
      rcases ih _ hm with h1 | h1
      · exact step h1
      · exact Or.inr (List.mem_cons_of_mem _ h1)
    unfold oldLayoutLoop at hread
    cases hg : store.getDoc d with
    | failed =>
      simp only [hg] at hread
      exact next hread
    | missing =>
      simp only [hg] at hread
      exact next hread
    | found data =>
      cases hp : parseTradesFromDocData h (data.or (.obj [])) exchange symbol with
      | error e =>
        simp only [hg, hp] at hread
        exact next hread
      | ok ts =>
        simp only [hg, hp] at hread
        exact step hread

theorem rawOldLayoutLoop_reads_sub (store : Store)
    (cands : List String) (acc : List Read) (c : String)
    (hread : Read.doc c ∈ (rawOldLayoutLoop store cands acc).reads) :
    Read.doc c ∈ acc ∨ c ∈ cands := by
  induction cands generalizing acc with
  | nil => exact Or.inl (by simpa [rawOldLayoutLoop] using hread)
  | cons d rest ih =>
    have step : Read.doc c ∈ acc ++ [Read.doc d] → Read.doc c ∈ acc ∨ c ∈ d :: rest := by
      intro hm
      rcases List.mem_append.mp hm with h1 | h1
      · exact Or.inl h1
      · simp only [List.mem_singleton, Read.doc.injEq] at h1
        exact Or.inr (by simp [h1])
    have next : Read.doc c ∈ (rawOldLayoutLoop store rest
        (acc ++ [Read.doc d])).reads → Read.doc c ∈ acc ∨ c ∈ d :: rest := by
      intro hm
      rcases ih _ hm with h1 | h1
      · exact step h1
      · exact Or.inr (List.mem_cons_of_mem _ h1)
    unfold rawOldLayoutLoop at hread
    cases hg : store.getDoc d with
    | failed =>
      simp only [hg] at hread
      exact next hread
    | missing =>
      simp only [hg] at hread
      exact next hread
    | found data =>
      simp only [hg] at hread
      exact step hread

theorem coinStatsProbe_doc_reads (h : Host) (store : Store) (exchange symbol : String)
    (c : String) (hread : Read.doc c ∈ (coinStatsProbe h store exchange symbol).reads) :
    Read.doc c ∈
      (oldLayoutLoop h store exchange symbol (docCandidates h exchange symbol) []).reads := by
  by_cases he : (oldLayoutLoop h store exchange symbol
      (docCandidates h exchange symbol) []).trades = []
  · rw [coinStatsProbe_reads_of_no_trades h store exchange symbol he] at hread
    rcases List.mem_append.mp hread with h1 | h1
    · exact h1
    · simp at h1
  · rw [coinStatsProbe_of_trades h store exchange symbol he] at hread
    exact hread

theorem coinStatsRawProbe_doc_reads (h : Host) (store : Store) (exchange symbol : String)
    (c : String) (hread : Read.doc c ∈ (coinStatsRawProbe h store exchange symbol).reads) :
    Read.doc c ∈ (rawOldLayoutLoop store (docCandidates h exchange symbol) []).reads := by
  by_cases he : (rawOldLayoutLoop store (docCandidates h exchange symbol) []).trades = []
  · rw [coinStatsRawProbe_reads_of_no_trades h store exchange symbol he] at hread
    rcases List.mem_append.mp hread with h1 | h1
    · exact h1
    · simp at h1
  · rw [coinStatsRawProbe_of_trades h store exchange symbol he] at hread
    exact hread

/-! ## C11: a document with `trades` and `lines` -/

/-- C11 (counterexample): a document whose `trades` array holds a record with
position `Short`, entry time 1754548860 and close time 0, and whose `lines`
array holds `binance|BTCUSDT|Long|1754548860|1754549760`.  The normalized
record is complete in the sense of the specification (non-empty position, both
timestamps defined), yet the output holds the line trade only: the filter tests
truthiness and the close time 0 is falsy. -/
theorem parseTradesFromDocData_zero_close_dropped :
    normalizeTrade refHost
        (.obj [("position", .str "Short"), ("entry_timestamp", .num (.fin 1754548860)),
          ("close_timestamp", .num (.fin 0))]) "binance" "BTCUSDT"
      = .ok (.obj [("exchange", .str "binance"), ("symbol", .str "BTCUSDT"),
          ("position", .str "Short"), ("entry_timestamp_s", .num (.fin 1754548860)),
          ("close_timestamp_s", .num (.fin 0)), ("real_pnl", .undefined),
          ("real_net_pnl", .undefined), ("close_reason", .undefined)]) ∧
    SpecComplete (.obj [("exchange", .str "binance"), ("symbol", .str "BTCUSDT"),
          ("position", .str "Short"), ("entry_timestamp_s", .num (.fin 1754548860)),
          ("close_timestamp_s", .num (.fin 0)), ("real_pnl", .undefined),
          ("real_net_pnl", .undefined), ("close_reason", .undefined)]) ∧
    parseTradesFromDocData refHost
        (.obj [("trades", .arr [.obj [("position", .str "Short"),
            ("entry_timestamp", .num (.fin 1754548860)), ("close_timestamp", .num (.fin 0))]]),
          ("lines", .arr [.str "binance|BTCUSDT|Long|1754548860|1754549760"])])
        "binance" "BTCUSDT"
      = .ok [.obj [("exchange", .str "binance"), ("symbol", .str "BTCUSDT"),
          ("position", .str "Long"), ("entry_timestamp_s", .num (.fin 1754548860)),
          ("close_timestamp_s", .num (.fin 1754549760)), ("real_pnl", .undefined),
          ("real_net_pnl", .undefined), ("close_reason", .undefined)]] := by
  have hu : refHost.toUpperCase "BTCUSDT" = "BTCUSDT" := by decide
  have hn : normalizeTrade refHost
        (.obj [("position", .str "Short"), ("entry_timestamp", .num (.fin 1754548860)),
          ("close_timestamp", .num (.fin 0))]) "binance" "BTCUSDT"
      = .ok (.obj [("exchange", .str "binance"), ("symbol", .str "BTCUSDT"),
          ("position", .str "Short"), ("entry_timestamp_s", .num (.fin 1754548860)),
          ("close_timestamp_s", .num (.fin 0)), ("real_pnl", .undefined),
          ("real_net_pnl", .undefined), ("close_reason", .undefined)]) := by
    rw [normalizeTrade_ok refHost
      (.obj [("position", .str "Short"), ("entry_timestamp", .num (.fin 1754548860)),
        ("close_timestamp", .num (.fin 0))]) "binance" "BTCUSDT" "BTCUSDT" rfl
      (by simp [JsVal.or])]
    simp [hu, JsVal.or, JsVal.coalesce, JsVal.typeofNumber, jsToString, toSec]
    norm_num
  have hs : splitPipe "binance|BTCUSDT|Long|1754548860|1754549760"
      = ["binance", "BTCUSDT", "Long", "1754548860", "1754549760"] := by decide
  have hn1 : readNumLit "1754548860" = some (.finite false 1754548860 0 0 0) := by decide
  have hn2 : readNumLit "1754549760" = some (.finite false 1754549760 0 0 0) := by decide
  have hl : lineTrades refHost "binance" "BTCUSDT"
      [.str "binance|BTCUSDT|Long|1754548860|1754549760"]
      = [.obj [("exchange", .str "binance"), ("symbol", .str "BTCUSDT"),
          ("position", .str "Long"), ("entry_timestamp_s", .num (.fin 1754548860)),
          ("close_timestamp_s", .num (.fin 1754549760)), ("real_pnl", .undefined),
          ("real_net_pnl", .undefined), ("close_reason", .undefined)]] := by
    simp [lineTrades, lineTradeOf, jsToString, hs, lineTrade, hu, stringToNumber, hn1, hn2,
      NumLit.value, toSec]
    norm_num
  refine ⟨hn, by simp [SpecComplete], ?_⟩
  rw [parseTradesFromDocData_eq refHost _ "binance" "BTCUSDT" (Or.inr ⟨_, rfl⟩)]
  simp [selectRaw, selectLines, mapExcept, hn, hl, passesFilter]

/-- C11 (amended): for a document holding an array `trades` and an array `lines`,
whenever every record of `trades` normalizes, the output is the normalized
records that pass the truthiness filter, in order, followed by the trades of the
`lines` entries, in order; a `TypeError` of a record is raised by the whole
call.  A line with fewer than five pipe-separated fields contributes nothing; a
line with at least five contributes the trade of its first five fields. -/
theorem parseTradesFromDocData_trades_lines (h : Host) (fs : List (String × JsVal))
    (ts ls : List JsVal) (exchange symbol : String)
    (ht : (JsVal.obj fs).field "trades" = .arr ts)
    (hl : (JsVal.obj fs).field "lines" = .arr ls) :
    (∀ ns, mapExcept (fun t => normalizeTrade h t exchange symbol) ts = .ok ns →
      parseTradesFromDocData h (.obj fs) exchange symbol
        = .ok (ns.filter passesFilter ++ lineTrades h exchange symbol ls)) ∧
    (∀ e, mapExcept (fun t => normalizeTrade h t exchange symbol) ts = .error e →
      parseTradesFromDocData h (.obj fs) exchange symbol = .error e) ∧
    (∀ n, passesFilter n = true ↔ TruthyComplete n) ∧
    (∀ line, (splitPipe (jsToString h line)).length < 5 →
      lineTradeOf h exchange symbol line = none) ∧
    (∀ line ex sym pos entry exit rest,
      splitPipe (jsToString h line) = ex :: sym :: pos :: entry :: exit :: rest →
      lineTradeOf h exchange symbol line
        = some (lineTrade h exchange symbol ex sym pos entry exit)) := by
  have key := parseTradesFromDocData_eq h (.obj fs) exchange symbol (Or.inr ⟨fs, rfl⟩)
  rw [selectRaw_of_trades fs ts ht, selectLines_of_lines _ ls hl] at key
  refine ⟨?_, ?_, passesFilter_iff, ?_, ?_⟩
  · intro ns hns
    rw [key, hns]
  · intro e he
    rw [key, he]
  · intro line hlen
    unfold lineTradeOf
    generalize splitPipe (jsToString h line) = parts at hlen
    match parts, hlen with
    | ex :: sym :: pos :: entry :: exit :: rest, hlen =>
      simp only [List.length_cons] at hlen
      omega
    | [], _ => rfl
    | [_], _ => rfl
    | [_, _], _ => rfl
    | [_, _, _], _ => rfl
    | [_, _, _, _], _ => rfl
  · intro line ex sym pos entry exit rest hsp
    simp only [lineTradeOf, hsp]

/-- C11 (witness): a document with one complete record in `trades` and, in
`lines`, one line of five fields and one of two: the output is the normalized
record followed by the trade of the five-field line. -/
theorem parseTradesFromDocData_trades_lines_witness :
    (JsVal.obj [("trades", .arr [.obj [("position", .str "Short"),
          ("entry_timestamp", .num (.fin 1754548860)),
          ("close_timestamp", .num (.fin 1754549760))]]),
        ("lines", .arr [.str "binance|BTCUSDT|Long|1754548860|1754549760",
          .str "binance|BTCUSDT"])]).field "trades"
      = .arr [.obj [("position", .str "Short"), ("entry_timestamp", .num (.fin 1754548860)),
          ("close_timestamp", .num (.fin 1754549760))]] ∧
    (JsVal.obj [("trades", .arr [.obj [("position", .str "Short"),
          ("entry_timestamp", .num (.fin 1754548860)),
          ("close_timestamp", .num (.fin 1754549760))]]),
        ("lines", .arr [.str "binance|BTCUSDT|Long|1754548860|1754549760",
          .str "binance|BTCUSDT"])]).field "lines"
      = .arr [.str "binance|BTCUSDT|Long|1754548860|1754549760", .str "binance|BTCUSDT"] ∧
    parseTradesFromDocData refHost
        (.obj [("trades", .arr [.obj [("position", .str "Short"),
            ("entry_timestamp", .num (.fin 1754548860)),
            ("close_timestamp", .num (.fin 1754549760))]]),
          ("lines", .arr [.str "binance|BTCUSDT|Long|1754548860|1754549760",
            .str "binance|BTCUSDT"])])
        "binance" "BTCUSDT"
      = .ok [.obj [("exchange", .str "binance"), ("symbol", .str "BTCUSDT"),
          ("position", .str "Short"), ("entry_timestamp_s", .num (.fin 1754548860)),
          ("close_timestamp_s", .num (.fin 1754549760)), ("real_pnl", .undefined),
          ("real_net_pnl", .undefined), ("close_reason", .undefined)],
        .obj [("exchange", .str "binance"), ("symbol", .str "BTCUSDT"),
          ("position", .str "Long"), ("entry_timestamp_s", .num (.fin 1754548860)),
          ("close_timestamp_s", .num (.fin 1754549760)), ("real_pnl", .undefined),
          ("real_net_pnl", .undefined), ("close_reason", .undefined)]] := by
  have hu : refHost.toUpperCase "BTCUSDT" = "BTCUSDT" := by decide
  have hn : normalizeTrade refHost
        (.obj [("position", .str "Short"), ("entry_timestamp", .num (.fin 1754548860)),
          ("close_timestamp", .num (.fin 1754549760))]) "binance" "BTCUSDT"
      = .ok (.obj [("exchange", .str "binance"), ("symbol", .str "BTCUSDT"),
          ("position", .str "Short"), ("entry_timestamp_s", .num (.fin 1754548860)),
          ("close_timestamp_s", .num (.fin 1754549760)), ("real_pnl", .undefined),
          ("real_net_pnl", .undefined), ("close_reason", .undefined)]) := by
    rw [normalizeTrade_ok refHost
      (.obj [("position", .str "Short"), ("entry_timestamp", .num (.fin 1754548860)),
        ("close_timestamp", .num (.fin 1754549760))]) "binance" "BTCUSDT" "BTCUSDT" rfl
      (by simp [JsVal.or])]
    simp [hu, JsVal.or, JsVal.coalesce, JsVal.typeofNumber, jsToString, toSec]
    norm_num
  have hm : mapExcept (fun t => normalizeTrade refHost t "binance" "BTCUSDT")
      [.obj [("position", .str "Short"), ("entry_timestamp", .num (.fin 1754548860)),
        ("close_timestamp", .num (.fin 1754549760))]]
      = .ok [.obj [("exchange", .str "binance"), ("symbol", .str "BTCUSDT"),
          ("position", .str "Short"), ("entry_timestamp_s", .num (.fin 1754548860)),
          ("close_timestamp_s", .num (.fin 1754549760)), ("real_pnl", .undefined),
          ("real_net_pnl", .undefined), ("close_reason", .undefined)]] := by
    simp only [mapExcept, hn]
  have hs : splitPipe "binance|BTCUSDT|Long|1754548860|1754549760"
      = ["binance", "BTCUSDT", "Long", "1754548860", "1754549760"] := by decide
  have hs2 : splitPipe "binance|BTCUSDT" = ["binance", "BTCUSDT"] := by decide
  have hn1 : readNumLit "1754548860" = some (.finite false 1754548860 0 0 0) := by decide
  have hn2 : readNumLit "1754549760" = some (.finite false 1754549760 0 0 0) := by decide
  have hl : lineTrades refHost "binance" "BTCUSDT"
      [.str "binance|BTCUSDT|Long|1754548860|1754549760", .str "binance|BTCUSDT"]
      = [.obj [("exchange", .str "binance"), ("symbol", .str "BTCUSDT"),
          ("position", .str "Long"), ("entry_timestamp_s", .num (.fin 1754548860)),
          ("close_timestamp_s", .num (.fin 1754549760)), ("real_pnl", .undefined),
          ("real_net_pnl", .undefined), ("close_reason", .undefined)]] := by
    simp [lineTrades, lineTradeOf, jsToString, hs, hs2, lineTrade, hu, stringToNumber, hn1, hn2,
      NumLit.value, toSec]
    norm_num
  refine ⟨by simp, by simp, ?_⟩
  rw [(parseTradesFromDocData_trades_lines refHost
    [("trades", .arr [.obj [("position", .str "Short"),
        ("entry_timestamp", .num (.fin 1754548860)),
        ("close_timestamp", .num (.fin 1754549760))]]),
      ("lines", .arr [.str "binance|BTCUSDT|Long|1754548860|1754549760",
        .str "binance|BTCUSDT"])]
    [.obj [("position", .str "Short"), ("entry_timestamp", .num (.fin 1754548860)),
      ("close_timestamp", .num (.fin 1754549760))]]
    [.str "binance|BTCUSDT|Long|1754548860|1754549760", .str "binance|BTCUSDT"]
    "binance" "BTCUSDT" (by simp) (by simp)).1 _ hm, hl]
  simp [passesFilter]

/-! ## C12: the field resolution of `normalizeTrade` -/

/-- C12: for every record that is not `null` or `undefined` and whose symbol, or
else the context symbol, is a string, `normalizeTrade` returns a trade whose
`entry_timestamp_s` is `toSec` of the first defined value among
`entry_timestamp`, `entry`, `open_time`, `timestamp`, whose `close_timestamp_s`
is `toSec` of the first defined value among `close_timestamp`, `exit`,
`close_time`, whose position is the string form of `position`, else of `side`,
else the empty string, and whose exchange is `exchange`, else the context
exchange. -/
theorem normalizeTrade_fields (h : Host) (t : JsVal) (exchange symbol s : String)
    (ht : t.isNullish = false) (hs : (t.field "symbol").or (.str symbol) = .str s) :
    ∃ tr, normalizeTrade h t exchange symbol = .ok tr ∧
      tr.field "entry_timestamp_s" = toSec h (firstDefined
        [t.field "entry_timestamp", t.field "entry", t.field "open_time",
          t.field "timestamp"]) ∧
      tr.field "close_timestamp_s" = toSec h (firstDefined
        [t.field "close_timestamp", t.field "exit", t.field "close_time"]) ∧
      ((t.field "position").truthy = true →
        tr.field "position" = .str (jsToString h (t.field "position"))) ∧
      ((t.field "position").truthy = false → (t.field "side").truthy = true →
        tr.field "position" = .str (jsToString h (t.field "side"))) ∧
      ((t.field "position").truthy = false → (t.field "side").truthy = false →
        tr.field "position" = .str "") ∧
      ((t.field "exchange").truthy = true → tr.field "exchange" = t.field "exchange") ∧
      ((t.field "exchange").truthy = false → tr.field "exchange" = .str exchange) := by
  refine ⟨_, normalizeTrade_ok h t exchange symbol s ht hs, ?_, ?_, ?_, ?_, ?_, ?_, ?_⟩
  · simp [toSec_coalesce4]
  · simp [toSec_coalesce3]
  · intro hp
    simp [JsVal.or, hp]
  · intro hp hsd
    simp [JsVal.or, hp, hsd]
  · intro hp hsd
    simp [JsVal.or, hp, hsd, jsToString]
  · intro he
    simp [JsVal.or, he]
  · intro he
    simp [JsVal.or, he]

/-- C12 (witness): a record with `side`, `entry`, `open_time` and `exit` but
neither `position`, `entry_timestamp` nor `close_timestamp`: the entry time is
read from `entry`, the close time from `exit`, the position from `side`. -/
theorem normalizeTrade_fields_witness :
    (JsVal.obj [("side", .str "short"), ("entry", .num (.fin 1754548860)),
        ("open_time", .num (.fin 5)), ("exit", .num (.fin 1754549760))]).isNullish = false ∧
      ((JsVal.obj [("side", .str "short"), ("entry", .num (.fin 1754548860)),
        ("open_time", .num (.fin 5)), ("exit", .num (.fin 1754549760))]).field "symbol").or
          (.str "BTCUSDT") = .str "BTCUSDT" ∧
      ∃ tr, normalizeTrade refHost
          (.obj [("side", .str "short"), ("entry", .num (.fin 1754548860)),
            ("open_time", .num (.fin 5)), ("exit", .num (.fin 1754549760))])
          "binance" "BTCUSDT" = .ok tr ∧
        tr.field "entry_timestamp_s" = toSec refHost (.num (.fin 1754548860)) ∧
        tr.field "close_timestamp_s" = toSec refHost (.num (.fin 1754549760)) ∧
        tr.field "position" = .str "short" ∧ tr.field "exchange" = .str "binance" := by
  refine ⟨rfl, by simp [JsVal.or], ?_⟩
  obtain ⟨tr, h1, h2, h3, _, h5, _, _, h8⟩ := normalizeTrade_fields refHost
    (.obj [("side", .str "short"), ("entry", .num (.fin 1754548860)),
      ("open_time", .num (.fin 5)), ("exit", .num (.fin 1754549760))])
    "binance" "BTCUSDT" "BTCUSDT" rfl (by simp [JsVal.or])
  refine ⟨tr, h1, ?_, ?_, ?_, ?_⟩
  · simpa [firstDefined, JsVal.isNullish] using h2
  · simpa [firstDefined, JsVal.isNullish] using h3
  · simpa [jsToString] using h5 (by simp) (by simp)
  · simpa using h8 (by simp)

/-! ## C13: which structured records are kept -/

/-- C13 (counterexample): a document that is an array of one record with side
`long`, entry time 0 and exit time 1754549760.  The normalized record has a
non-empty position and both timestamps defined, yet it is not kept: the output
is empty, because the entry time 0 is falsy. -/
theorem parseTradesFromDocData_zero_entry_not_kept :
    normalizeTrade refHost
        (.obj [("side", .str "long"), ("entry", .num (.fin 0)),
          ("exit", .num (.fin 1754549760))]) "binance" "BTCUSDT"
      = .ok (.obj [("exchange", .str "binance"), ("symbol", .str "BTCUSDT"),
          ("position", .str "long"), ("entry_timestamp_s", .num (.fin 0)),
          ("close_timestamp_s", .num (.fin 1754549760)), ("real_pnl", .undefined),
          ("real_net_pnl", .undefined), ("close_reason", .undefined)]) ∧
    SpecComplete (.obj [("exchange", .str "binance"), ("symbol", .str "BTCUSDT"),
          ("position", .str "long"), ("entry_timestamp_s", .num (.fin 0)),
          ("close_timestamp_s", .num (.fin 1754549760)), ("real_pnl", .undefined),
          ("real_net_pnl", .undefined), ("close_reason", .undefined)]) ∧
    parseTradesFromDocData refHost
        (.arr [.obj [("side", .str "long"), ("entry", .num (.fin 0)),
          ("exit", .num (.fin 1754549760))]]) "binance" "BTCUSDT" = .ok [] := by
  have hu : refHost.toUpperCase "BTCUSDT" = "BTCUSDT" := by decide
  have hn : normalizeTrade refHost
        (.obj [("side", .str "long"), ("entry", .num (.fin 0)),
          ("exit", .num (.fin 1754549760))]) "binance" "BTCUSDT"
      = .ok (.obj [("exchange", .str "binance"), ("symbol", .str "BTCUSDT"),
          ("position", .str "long"), ("entry_timestamp_s", .num (.fin 0)),
          ("close_timestamp_s", .num (.fin 1754549760)), ("real_pnl", .undefined),
          ("real_net_pnl", .undefined), ("close_reason", .undefined)]) := by
    rw [normalizeTrade_ok refHost
      (.obj [("side", .str "long"), ("entry", .num (.fin 0)),
        ("exit", .num (.fin 1754549760))]) "binance" "BTCUSDT" "BTCUSDT" rfl
      (by simp [JsVal.or])]
    simp [hu, JsVal.or, JsVal.coalesce, JsVal.typeofNumber, jsToString, toSec]
    norm_num
  refine ⟨hn, by simp [SpecComplete], ?_⟩
  rw [parseTradesFromDocData_eq refHost _ "binance" "BTCUSDT" (Or.inl ⟨_, rfl⟩)]
  simp [selectRaw, selectLines, mapExcept, hn, passesFilter, lineTrades]

/-- C13 (amended): for a document that is an object or an array and whose
structured records all normalize, the structured half of the output is the list
of the normalized records that pass the filter, and a normalized record passes
exactly when its position is a non-empty string and both `entry_timestamp_s` and
`close_timestamp_s` are numbers other than 0 and `NaN`. -/
theorem parseTradesFromDocData_kept (h : Host) (data : JsVal) (exchange symbol : String)
    (ns : List JsVal) (hd : IsObjectValue data)
    (hn : mapExcept (fun t => normalizeTrade h t exchange symbol) (selectRaw data) = .ok ns) :
    parseTradesFromDocData h data exchange symbol
        = .ok (ns.filter passesFilter ++ lineTrades h exchange symbol (selectLines data)) ∧
      ∀ n ∈ ns, (passesFilter n = true ↔
        (∃ s, n.field "position" = .str s ∧ s ≠ "") ∧
          IsTruthyTime (n.field "entry_timestamp_s") ∧
          IsTruthyTime (n.field "close_timestamp_s")) := by
  constructor
  · rw [parseTradesFromDocData_eq h data exchange symbol hd, hn]
  · intro n hmem
    obtain ⟨t, _, ht⟩ := mem_of_mapExcept _ _ _ hn n hmem
    obtain ⟨⟨p, hp⟩, he, hc⟩ := normalizeTrade_shape h t exchange symbol n ht
    simp only [passesFilter, Bool.and_eq_true, truthy_time_iff _ he, truthy_time_iff _ hc, hp,
      truthy_str, decide_eq_true_eq]
    constructor
    · rintro ⟨⟨h1, h2⟩, h3⟩
      exact ⟨⟨p, rfl, h3⟩, h1, h2⟩
    · rintro ⟨⟨s, hs, hne⟩, h1, h2⟩
      simp only [JsVal.str.injEq] at hs
      subst hs
      exact ⟨⟨h1, h2⟩, hne⟩

/-- C13 (witness): a document that is an array of two records, one with entry
time 1754548860 and one with entry time 0: the first is kept, the second is not. -/
theorem parseTradesFromDocData_kept_witness :
    IsObjectValue (.arr [.obj [("position", .str "Long"),
        ("entry_timestamp", .num (.fin 1754548860)),
        ("close_timestamp", .num (.fin 1754549760))],
      .obj [("position", .str "Long"), ("entry_timestamp", .num (.fin 0)),
        ("close_timestamp", .num (.fin 1754549760))]]) ∧
    parseTradesFromDocData refHost
        (.arr [.obj [("position", .str "Long"), ("entry_timestamp", .num (.fin 1754548860)),
            ("close_timestamp", .num (.fin 1754549760))],
          .obj [("position", .str "Long"), ("entry_timestamp", .num (.fin 0)),
            ("close_timestamp", .num (.fin 1754549760))]]) "binance" "BTCUSDT"
      = .ok [.obj [("exchange", .str "binance"), ("symbol", .str "BTCUSDT"),
          ("position", .str "Long"), ("entry_timestamp_s", .num (.fin 1754548860)),
          ("close_timestamp_s", .num (.fin 1754549760)), ("real_pnl", .undefined),
          ("real_net_pnl", .undefined), ("close_reason", .undefined)]] := by
  have hu : refHost.toUpperCase "BTCUSDT" = "BTCUSDT" := by decide
  have hn1 : normalizeTrade refHost
        (.obj [("position", .str "Long"), ("entry_timestamp", .num (.fin 1754548860)),
          ("close_timestamp", .num (.fin 1754549760))]) "binance" "BTCUSDT"
      = .ok (.obj [("exchange", .str "binance"), ("symbol", .str "BTCUSDT"),
          ("position", .str "Long"), ("entry_timestamp_s", .num (.fin 1754548860)),
          ("close_timestamp_s", .num (.fin 1754549760)), ("real_pnl", .undefined),
          ("real_net_pnl", .undefined), ("close_reason", .undefined)]) := by
    rw [normalizeTrade_ok refHost
      (.obj [("position", .str "Long"), ("entry_timestamp", .num (.fin 1754548860)),
        ("close_timestamp", .num (.fin 1754549760))]) "binance" "BTCUSDT" "BTCUSDT" rfl
      (by simp [JsVal.or])]
    simp [hu, JsVal.or, JsVal.coalesce, JsVal.typeofNumber, jsToString, toSec]
    norm_num
  have hn2 : normalizeTrade refHost
        (.obj [("position", .str "Long"), ("entry_timestamp", .num (.fin 0)),
          ("close_timestamp", .num (.fin 1754549760))]) "binance" "BTCUSDT"
      = .ok (.obj [("exchange", .str "binance"), ("symbol", .str "BTCUSDT"),
          ("position", .str "Long"), ("entry_timestamp_s", .num (.fin 0)),
          ("close_timestamp_s", .num (.fin 1754549760)), ("real_pnl", .undefined),
          ("real_net_pnl", .undefined), ("close_reason", .undefined)]) := by
    rw [normalizeTrade_ok refHost
      (.obj [("position", .str "Long"), ("entry_timestamp", .num (.fin 0)),
        ("close_timestamp", .num (.fin 1754549760))]) "binance" "BTCUSDT" "BTCUSDT" rfl
      (by simp [JsVal.or])]
    simp [hu, JsVal.or, JsVal.coalesce, JsVal.typeofNumber, jsToString, toSec]
    norm_num
  have hm : mapExcept (fun t => normalizeTrade refHost t "binance" "BTCUSDT")
      (selectRaw (.arr [.obj [("position", .str "Long"),
          ("entry_timestamp", .num (.fin 1754548860)),
          ("close_timestamp", .num (.fin 1754549760))],
        .obj [("position", .str "Long"), ("entry_timestamp", .num (.fin 0)),
          ("close_timestamp", .num (.fin 1754549760))]]))
      = .ok [.obj [("exchange", .str "binance"), ("symbol", .str "BTCUSDT"),
          ("position", .str "Long"), ("entry_timestamp_s", .num (.fin 1754548860)),
          ("close_timestamp_s", .num (.fin 1754549760)), ("real_pnl", .undefined),
          ("real_net_pnl", .undefined), ("close_reason", .undefined)],
        .obj [("exchange", .str "binance"), ("symbol", .str "BTCUSDT"),
          ("position", .str "Long"), ("entry_timestamp_s", .num (.fin 0)),
          ("close_timestamp_s", .num (.fin 1754549760)), ("real_pnl", .undefined),
          ("real_net_pnl", .undefined), ("close_reason", .undefined)]] := by
    simp only [selectRaw, mapExcept, hn1, hn2]
  refine ⟨Or.inl ⟨_, rfl⟩, ?_⟩
  rw [(parseTradesFromDocData_kept refHost _ "binance" "BTCUSDT" _ (Or.inl ⟨_, rfl⟩) hm).1]
  simp [passesFilter, lineTrades, selectLines]

/-! ## C14: integrality of `toSec` -/

/-- C14 (counterexample): the number 1754548860.5 does not exceed the
millisecond threshold and is returned unchanged: the result of `toSec` is
neither `undefined` nor an integer. -/
theorem toSec_fraction_kept :
    toSec refHost (.num (.fin (3509097721 / 2))) = .num (.fin (3509097721 / 2)) ∧
      ¬ ∃ n : ℤ, (3509097721 / 2 : ℚ) = n := by
  constructor
  · norm_num [toSec]
  · rintro ⟨n, hn⟩
    have h1 : (3509097721 : ℚ) = 2 * n := by linarith
    have h2 : (3509097721 : ℤ) = 2 * n := by exact_mod_cast h1
    omega

/-- C14 (amended): for every input that is not a number (`null`, `undefined`, a
string, and also a boolean, an array or an object) `toSec` returns `undefined`
or an integer; for a finite number that is an integer or exceeds 2·10^12 it
returns an integer; a number that does not exceed 2·10^12 is returned unchanged,
integer or not. -/
theorem toSec_integer (h : Host) :
    (∀ v, (∀ x, v ≠ .num x) →
      toSec h v = .undefined ∨ ∃ n : ℤ, toSec h v = .num (.fin n)) ∧
    (∀ q : ℚ, (2000000000000 < q ∨ ∃ n : ℤ, q = n) →
      ∃ n : ℤ, toSec h (.num (.fin q)) = .num (.fin n)) ∧
    (∀ x, JsNum.lt (.fin 2000000000000) x = false → toSec h (.num x) = .num x) := by
  refine ⟨?_, ?_, ?_⟩
  · intro v hn
    by_cases hu : v.isNullish = true
    · exact Or.inl (toSec_nullish h v hu)
    · have hu2 : v.isNullish = false := by simpa using hu
      rw [toSec_of_not_num h v hn hu2]
      split_ifs with h13 h10
      · right
        rw [stringToNumber_of_isDigits 13 (by norm_num) _ h13]
        exact ⟨_, rfl⟩
      · right
        rw [stringToNumber_of_isDigits 10 (by norm_num) _ h10]
        exact ⟨(digitsValue 10 (jsToString h v).data : ℤ), by simp⟩
      · cases dateTimeValue h v with
        | none => exact Or.inl rfl
        | some t => exact Or.inr ⟨_, rfl⟩
  · intro q hq
    by_cases hlt : (2000000000000 : ℚ) < q
    · exact ⟨⌊q / 1000⌋, by simp [toSec, hlt, JsNum.floorDiv1000]⟩
    · rcases hq with hq | ⟨n, hn⟩
      · exact absurd hq hlt
      · exact ⟨n, by subst hn; simp [toSec, hlt]⟩
  · intro x hx
    simp [toSec, hx]

/-- C14 (witness): the amended statement applied to the string `1754548860`,
which is not a number, and to the integer number 1754548860. -/
theorem toSec_integer_witness :
    (∀ x, JsVal.str "1754548860" ≠ .num x) ∧
      (toSec refHost (.str "1754548860") = .undefined ∨
        ∃ n : ℤ, toSec refHost (.str "1754548860") = .num (.fin n)) ∧
      ∃ n : ℤ, toSec refHost (.num (.fin 1754548860)) = .num (.fin n) :=
  ⟨fun _ => nofun, (toSec_integer refHost).1 _ (fun _ => nofun),
    (toSec_integer refHost).2.1 1754548860 (Or.inr ⟨1754548860, by norm_num⟩)⟩

/-! ## C15: the branches of `toSec` -/

/-- C15: for a number, `toSec` returns `Math.floor(v / 1000)` when `v` exceeds
2·10^12 and `v` itself otherwise, 2·10^12 included; for a string of 13 decimal
digits it returns the floor of its value divided by 1000; for a string of 10
decimal digits it returns its value; for `null` and `undefined` it returns
`undefined`. -/
theorem toSec_branches (h : Host) :
    (∀ x, JsNum.lt (.fin 2000000000000) x = true → toSec h (.num x) = .num x.floorDiv1000) ∧
    (∀ x, JsNum.lt (.fin 2000000000000) x = false → toSec h (.num x) = .num x) ∧
    (∀ q : ℚ, 2000000000000 < q →
      toSec h (.num (.fin q)) = .num (.fin (⌊q / 1000⌋ : ℤ))) ∧
    (∀ q : ℚ, q ≤ 2000000000000 → toSec h (.num (.fin q)) = .num (.fin q)) ∧
    toSec h (.num (.fin 2000000000000)) = .num (.fin 2000000000000) ∧
    (∀ s, isDigits 13 s = true →
      toSec h (.str s) = .num (.fin (⌊(digitsValue 10 s.data : ℚ) / 1000⌋ : ℤ))) ∧
    (∀ s, isDigits 10 s = true → toSec h (.str s) = .num (.fin (digitsValue 10 s.data))) ∧
    toSec h .null = .undefined ∧ toSec h .undefined = .undefined := by
  refine ⟨?_, ?_, ?_, ?_, ?_, ?_, ?_, rfl, rfl⟩
  · intro x hx
    simp [toSec, hx]
  · intro x hx
    simp [toSec, hx]
  · intro q hq
    simp [toSec, hq, JsNum.floorDiv1000]
  · intro q hq
    simp [toSec, not_lt.mpr hq]
  · simp [toSec]
  · intro s hs
    have hv := stringToNumber_of_isDigits 13 (by norm_num) s hs
    simp [toSec, jsToString, hs, hv, JsNum.floorDiv1000]
  · intro s hs
    have hv := stringToNumber_of_isDigits 10 (by norm_num) s hs
    have h13 : isDigits 13 s = false := by
      obtain ⟨hl, _⟩ := isDigits_spec 10 s hs
      simp [isDigits, hl]
    simp [toSec, jsToString, hs, h13, hv]

/-- C15 (witness): the statement applied to the 13-digit string `1754548860123`
and to the 10-digit string `1754548860`. -/
theorem toSec_branches_witness :
    isDigits 13 "1754548860123" = true ∧
      toSec refHost (.str "1754548860123")
        = .num (.fin (⌊(digitsValue 10 "1754548860123".data : ℚ) / 1000⌋ : ℤ)) ∧
      isDigits 10 "1754548860" = true ∧
      toSec refHost (.str "1754548860") = .num (.fin (digitsValue 10 "1754548860".data)) :=
  ⟨by decide, (toSec_branches refHost).2.2.2.2.2.1 _ (by decide), by decide,
    (toSec_branches refHost).2.2.2.2.2.2.1 _ (by decide)⟩

/-! ## C16: the P&L fields of `normalizeTrade` -/

/-- C16: for every record that is not `null` or `undefined` and whose symbol, or
else the context symbol, is a string, `normalizeTrade` returns a trade whose
`real_pnl` (and likewise `real_net_pnl`) is the raw field when that is a number
and `undefined` otherwise. -/
theorem normalizeTrade_pnl (h : Host) (t : JsVal) (exchange symbol s : String)
    (ht : t.isNullish = false) (hs : (t.field "symbol").or (.str symbol) = .str s) :
    ∃ tr, normalizeTrade h t exchange symbol = .ok tr ∧
      (∀ x, t.field "real_pnl" = .num x → tr.field "real_pnl" = .num x) ∧
      ((∀ x, t.field "real_pnl" ≠ .num x) → tr.field "real_pnl" = .undefined) ∧
      (∀ x, t.field "real_net_pnl" = .num x → tr.field "real_net_pnl" = .num x) ∧
      ((∀ x, t.field "real_net_pnl" ≠ .num x) → tr.field "real_net_pnl" = .undefined) := by
  refine ⟨_, normalizeTrade_ok h t exchange symbol s ht hs, ?_, ?_, ?_, ?_⟩
  · intro x hx
    simp [hx, JsVal.typeofNumber]
  · intro hx
    cases hf : t.field "real_pnl" with
    | num x => exact absurd hf (hx x)
    | _ => simp [JsVal.typeofNumber]
  · intro x hx
    simp [hx, JsVal.typeofNumber]
  · intro hx
    cases hf : t.field "real_net_pnl" with
    | num x => exact absurd hf (hx x)
    | _ => simp [JsVal.typeofNumber]

/-- C16 (witness): a record whose `real_pnl` is the string `1.5` and whose
`real_net_pnl` is the number 2.5: the string is dropped, the number is kept. -/
theorem normalizeTrade_pnl_witness :
    (JsVal.obj [("real_pnl", .str "1.5"), ("real_net_pnl", .num (.fin (5 / 2)))]).isNullish
        = false ∧
      ((JsVal.obj [("real_pnl", .str "1.5"), ("real_net_pnl", .num (.fin (5 / 2)))]).field
        "symbol").or (.str "BTCUSDT") = .str "BTCUSDT" ∧
      ∃ tr, normalizeTrade refHost
          (.obj [("real_pnl", .str "1.5"), ("real_net_pnl", .num (.fin (5 / 2)))])
          "binance" "BTCUSDT" = .ok tr ∧
        tr.field "real_pnl" = .undefined ∧ tr.field "real_net_pnl" = .num (.fin (5 / 2)) := by
  refine ⟨rfl, by simp [JsVal.or], ?_⟩
  obtain ⟨tr, h1, _, h3, h4, _⟩ := normalizeTrade_pnl refHost
    (.obj [("real_pnl", .str "1.5"), ("real_net_pnl", .num (.fin (5 / 2)))])
    "binance" "BTCUSDT" "BTCUSDT" rfl (by simp [JsVal.or])
  exact ⟨tr, h1, h3 (by simp), h4 _ (by simp)⟩

/-! ## C17: the symbol of `normalizeTrade` -/

/-- C17 (counterexample): a record whose symbol is `btc-usdt`: the symbol of the
trade is `BTC-USDT`, which is not alphanumeric. -/
theorem normalizeTrade_symbol_hyphen :
    normalizeTrade refHost (.obj [("symbol", .str "btc-usdt")]) "binance" "ETHUSDT"
      = .ok (.obj [("exchange", .str "binance"), ("symbol", .str "BTC-USDT"),
          ("position", .str ""), ("entry_timestamp_s", .undefined),
          ("close_timestamp_s", .undefined), ("real_pnl", .undefined),
          ("real_net_pnl", .undefined), ("close_reason", .undefined)]) ∧
      "BTC-USDT".data.all Char.isAlphanum = false := by
  have hu : refHost.toUpperCase "btc-usdt" = "BTC-USDT" := by decide
  refine ⟨?_, by decide⟩
  rw [normalizeTrade_ok refHost (.obj [("symbol", .str "btc-usdt")]) "binance" "ETHUSDT"
    "btc-usdt" rfl (by simp [JsVal.or])]
  simp [hu, JsVal.or, JsVal.coalesce, JsVal.typeofNumber, jsToString]

/-- C17 (amended): for every record that is not `null` or `undefined`, the symbol
of the trade is the upper-cased raw symbol when that is a non-empty string, and
the upper-cased context symbol when the raw symbol is falsy; no character is
removed or checked. -/
theorem normalizeTrade_symbol (h : Host) (t : JsVal) (exchange symbol : String)
    (ht : t.isNullish = false) :
    (∀ s, t.field "symbol" = .str s → s ≠ "" →
      ∃ tr, normalizeTrade h t exchange symbol = .ok tr ∧
        tr.field "symbol" = .str (h.toUpperCase s)) ∧
    ((t.field "symbol").truthy = false →
      ∃ tr, normalizeTrade h t exchange symbol = .ok tr ∧
        tr.field "symbol" = .str (h.toUpperCase symbol)) := by
  constructor
  · intro s hsym hne
    exact ⟨_, normalizeTrade_ok h t exchange symbol s ht (by simp [JsVal.or, hsym, hne]),
      by simp⟩
  · intro hf
    exact ⟨_, normalizeTrade_ok h t exchange symbol symbol ht (by simp [JsVal.or, hf]),
      by simp⟩

/-- C17 (witness): the amended statement applied to a record whose symbol is
`xrpusdt`. -/
theorem normalizeTrade_symbol_witness :
    (JsVal.obj [("symbol", .str "xrpusdt")]).isNullish = false ∧
      ∃ tr, normalizeTrade refHost (.obj [("symbol", .str "xrpusdt")]) "binance" "BTCUSDT"
          = .ok tr ∧
        tr.field "symbol" = .str (refHost.toUpperCase "xrpusdt") :=
  ⟨rfl, (normalizeTrade_symbol refHost (.obj [("symbol", .str "xrpusdt")]) "binance"
    "BTCUSDT" rfl).1 "xrpusdt" (by simp) (by decide)⟩

/-! ## C18: raw extraction mirrors the shape detection -/

/-- C18 (counterexample): a document that is a map with one record whose
`open_time` is 0 and that has no `lines`.  Raw extraction returns the record, its
normalized trade is complete in the sense of the specification (non-empty
position, both timestamps defined), yet `parseTradesFromDocData` returns the
empty list, not the list of that trade. -/
theorem extractRaw_zero_open_time_dropped :
    extractRawTradesFromDocData
        (.obj [("a", .obj [("position", .str "Long"), ("open_time", .num (.fin 0)),
          ("close_time", .num (.fin 1754549760))])])
      = [.obj [("position", .str "Long"), ("open_time", .num (.fin 0)),
          ("close_time", .num (.fin 1754549760))]] ∧
    mapExcept (fun t => normalizeTrade refHost t "binance" "BTCUSDT")
        (extractRawTradesFromDocData
          (.obj [("a", .obj [("position", .str "Long"), ("open_time", .num (.fin 0)),
            ("close_time", .num (.fin 1754549760))])]))
      = .ok [.obj [("exchange", .str "binance"), ("symbol", .str "BTCUSDT"),
          ("position", .str "Long"), ("entry_timestamp_s", .num (.fin 0)),
          ("close_timestamp_s", .num (.fin 1754549760)), ("real_pnl", .undefined),
          ("real_net_pnl", .undefined), ("close_reason", .undefined)]] ∧
    [JsVal.obj [("exchange", .str "binance"), ("symbol", .str "BTCUSDT"),
          ("position", .str "Long"), ("entry_timestamp_s", .num (.fin 0)),
          ("close_timestamp_s", .num (.fin 1754549760)), ("real_pnl", .undefined),
          ("real_net_pnl", .undefined), ("close_reason", .undefined)]].filter
        (fun n => decide (SpecComplete n))
      = [.obj [("exchange", .str "binance"), ("symbol", .str "BTCUSDT"),
          ("position", .str "Long"), ("entry_timestamp_s", .num (.fin 0)),
          ("close_timestamp_s", .num (.fin 1754549760)), ("real_pnl", .undefined),
          ("real_net_pnl", .undefined), ("close_reason", .undefined)]] ∧
    parseTradesFromDocData refHost
        (.obj [("a", .obj [("position", .str "Long"), ("open_time", .num (.fin 0)),
          ("close_time", .num (.fin 1754549760))])]) "binance" "BTCUSDT" = .ok [] := by
  have hu : refHost.toUpperCase "BTCUSDT" = "BTCUSDT" := by decide
  have hn : normalizeTrade refHost
        (.obj [("position", .str "Long"), ("open_time", .num (.fin 0)),
          ("close_time", .num (.fin 1754549760))]) "binance" "BTCUSDT"
      = .ok (.obj [("exchange", .str "binance"), ("symbol", .str "BTCUSDT"),
          ("position", .str "Long"), ("entry_timestamp_s", .num (.fin 0)),
          ("close_timestamp_s", .num (.fin 1754549760)), ("real_pnl", .undefined),
          ("real_net_pnl", .undefined), ("close_reason", .undefined)]) := by
    rw [normalizeTrade_ok refHost
      (.obj [("position", .str "Long"), ("open_time", .num (.fin 0)),
        ("close_time", .num (.fin 1754549760))]) "binance" "BTCUSDT" "BTCUSDT" rfl
      (by simp [JsVal.or])]
    simp [hu, JsVal.or, JsVal.coalesce, JsVal.typeofNumber, jsToString, toSec]
    norm_num
  have he : extractRawTradesFromDocData
        (.obj [("a", .obj [("position", .str "Long"), ("open_time", .num (.fin 0)),
          ("close_time", .num (.fin 1754549760))])])
      = [.obj [("position", .str "Long"), ("open_time", .num (.fin 0)),
          ("close_time", .num (.fin 1754549760))]] := by
    simp [extractRawTradesFromDocData, JsVal.typeofObject, JsVal.objectValues]
  refine ⟨he, ?_, ?_, ?_⟩
  · rw [he]
    simp only [mapExcept, hn]
  · simp [SpecComplete]
  · rw [parseTradesFromDocData_eq refHost _ "binance" "BTCUSDT" (Or.inr ⟨_, rfl⟩),
      ← extractRaw_eq_selectRaw, he]
    simp [selectLines, mapExcept, hn, passesFilter, lineTrades]

/-- C18 (amended): raw extraction uses the same shape detection as
normalization: for every document, `extractRawTradesFromDocData` returns exactly
the structured raw-record list that `parseTradesFromDocData` selects, unfiltered
and with every record unchanged (the elements of an array, else of `trades`,
else of `positions`).  For a document without a `lines` array whose raw records
all normalize, `parseTradesFromDocData` returns the normalized raw records that
pass the truthiness filter (position, entry and close time all truthy), in
order; a `TypeError` of a record is raised by the whole call. -/
theorem extractRaw_mirrors (h : Host) (data : JsVal) (exchange symbol : String) :
    extractRawTradesFromDocData data = selectRaw data ∧
    (∀ xs, data = .arr xs → extractRawTradesFromDocData data = xs) ∧
    (∀ fs ts, data = .obj fs → data.field "trades" = .arr ts →
      extractRawTradesFromDocData data = ts) ∧
    (∀ fs ps, data = .obj fs → (∀ ts, data.field "trades" ≠ .arr ts) →
      data.field "positions" = .arr ps → extractRawTradesFromDocData data = ps) ∧
    (¬ IsObjectValue data → extractRawTradesFromDocData data = []) ∧
    (∀ ns, (∀ ls, data.field "lines" ≠ .arr ls) →
      mapExcept (fun t => normalizeTrade h t exchange symbol)
        (extractRawTradesFromDocData data) = .ok ns →
      parseTradesFromDocData h data exchange symbol = .ok (ns.filter passesFilter)) ∧
    (∀ e, IsObjectValue data →
      mapExcept (fun t => normalizeTrade h t exchange symbol)
        (extractRawTradesFromDocData data) = .error e →
      parseTradesFromDocData h data exchange symbol = .error e) ∧
    (∀ n, passesFilter n = true ↔ TruthyComplete n) := by
  refine ⟨extractRaw_eq_selectRaw data, ?_, ?_, ?_, ?_, ?_, ?_, passesFilter_iff⟩
  · rintro xs rfl
    simp [extractRawTradesFromDocData, JsVal.typeofObject]
  · rintro fs ts rfl ht
    simp [extractRawTradesFromDocData, JsVal.typeofObject, ht]
  · rintro fs ps rfl ht hp
    rw [extractRaw_eq_selectRaw]
    unfold selectRaw
    simp only [hp]
  · intro hd
    cases data with
    | arr xs => exact absurd (Or.inl ⟨xs, rfl⟩) hd
    | obj fs => exact absurd (Or.inr ⟨fs, rfl⟩) hd
    | _ => simp [extractRawTradesFromDocData, JsVal.typeofObject]
  · intro ns hl hn
    by_cases hd : IsObjectValue data
    · rw [parseTradesFromDocData_eq h data exchange symbol hd, ← extractRaw_eq_selectRaw, hn,
        selectLines_of_no_lines data hl]
      simp [lineTrades]
    · have he : extractRawTradesFromDocData data = [] := by
        cases data with
        | arr xs => exact absurd (Or.inl ⟨xs, rfl⟩) hd
        | obj fs => exact absurd (Or.inr ⟨fs, rfl⟩) hd
        | _ => simp [extractRawTradesFromDocData, JsVal.typeofObject]
      rw [he] at hn
      rw [mapExcept_nil_ok _ ns hn, parseTradesFromDocData_of_not_object h data exchange symbol hd]
      rfl
  · intro e hd hn
    rw [parseTradesFromDocData_eq h data exchange symbol hd, ← extractRaw_eq_selectRaw, hn]

/-- C18 (witness): a map-shaped document of two records without `lines`: raw
extraction returns both records unchanged, normalization keeps the one whose
times are truthy. -/
theorem extractRaw_mirrors_witness :
    extractRawTradesFromDocData
        (.obj [("a", .obj [("position", .str "Long"), ("open_time", .num (.fin 0)),
            ("close_time", .num (.fin 1754549760))]),
          ("b", .obj [("position", .str "Short"), ("open_time", .num (.fin 1754548860)),
            ("close_time", .num (.fin 1754549760))])])
      = [.obj [("position", .str "Long"), ("open_time", .num (.fin 0)),
            ("close_time", .num (.fin 1754549760))],
          .obj [("position", .str "Short"), ("open_time", .num (.fin 1754548860)),
            ("close_time", .num (.fin 1754549760))]] ∧
    parseTradesFromDocData refHost
        (.obj [("a", .obj [("position", .str "Long"), ("open_time", .num (.fin 0)),
            ("close_time", .num (.fin 1754549760))]),
          ("b", .obj [("position", .str "Short"), ("open_time", .num (.fin 1754548860)),
            ("close_time", .num (.fin 1754549760))])]) "binance" "BTCUSDT"
      = .ok [.obj [("exchange", .str "binance"), ("symbol", .str "BTCUSDT"),
          ("position", .str "Short"), ("entry_timestamp_s", .num (.fin 1754548860)),
          ("close_timestamp_s", .num (.fin 1754549760)), ("real_pnl", .undefined),
          ("real_net_pnl", .undefined), ("close_reason", .undefined)]] := by
  have hu : refHost.toUpperCase "BTCUSDT" = "BTCUSDT" := by decide
  have hn1 : normalizeTrade refHost
        (.obj [("position", .str "Long"), ("open_time", .num (.fin 0)),
          ("close_time", .num (.fin 1754549760))]) "binance" "BTCUSDT"
      = .ok (.obj [("exchange", .str "binance"), ("symbol", .str "BTCUSDT"),
          ("position", .str "Long"), ("entry_timestamp_s", .num (.fin 0)),
          ("close_timestamp_s", .num (.fin 1754549760)), ("real_pnl", .undefined),
          ("real_net_pnl", .undefined), ("close_reason", .undefined)]) := by
    rw [normalizeTrade_ok refHost
      (.obj [("position", .str "Long"), ("open_time", .num (.fin 0)),
        ("close_time", .num (.fin 1754549760))]) "binance" "BTCUSDT" "BTCUSDT" rfl
      (by simp [JsVal.or])]
    simp [hu, JsVal.or, JsVal.coalesce, JsVal.typeofNumber, jsToString, toSec]
    norm_num
  have hn2 : normalizeTrade refHost
        (.obj [("position", .str "Short"), ("open_time", .num (.fin 1754548860)),
          ("close_time", .num (.fin 1754549760))]) "binance" "BTCUSDT"
      = .ok (.obj [("exchange", .str "binance"), ("symbol", .str "BTCUSDT"),
          ("position", .str "Short"), ("entry_timestamp_s", .num (.fin 1754548860)),
          ("close_timestamp_s", .num (.fin 1754549760)), ("real_pnl", .undefined),
          ("real_net_pnl", .undefined), ("close_reason", .undefined)]) := by
    rw [normalizeTrade_ok refHost
      (.obj [("position", .str "Short"), ("open_time", .num (.fin 1754548860)),
        ("close_time", .num (.fin 1754549760))]) "binance" "BTCUSDT" "BTCUSDT" rfl
      (by simp [JsVal.or])]
    simp [hu, JsVal.or, JsVal.coalesce, JsVal.typeofNumber, jsToString, toSec]
    norm_num
  have he : extractRawTradesFromDocData
        (.obj [("a", .obj [("position", .str "Long"), ("open_time", .num (.fin 0)),
            ("close_time", .num (.fin 1754549760))]),
          ("b", .obj [("position", .str "Short"), ("open_time", .num (.fin 1754548860)),
            ("close_time", .num (.fin 1754549760))])])
      = [.obj [("position", .str "Long"), ("open_time", .num (.fin 0)),
            ("close_time", .num (.fin 1754549760))],
          .obj [("position", .str "Short"), ("open_time", .num (.fin 1754548860)),
            ("close_time", .num (.fin 1754549760))]] := by
    simp [extractRawTradesFromDocData, JsVal.typeofObject, JsVal.objectValues]
  have hm : mapExcept (fun t => normalizeTrade refHost t "binance" "BTCUSDT")
      (extractRawTradesFromDocData
        (.obj [("a", .obj [("position", .str "Long"), ("open_time", .num (.fin 0)),
            ("close_time", .num (.fin 1754549760))]),
          ("b", .obj [("position", .str "Short"), ("open_time", .num (.fin 1754548860)),
            ("close_time", .num (.fin 1754549760))])]))
      = .ok [.obj [("exchange", .str "binance"), ("symbol", .str "BTCUSDT"),
          ("position", .str "Long"), ("entry_timestamp_s", .num (.fin 0)),
          ("close_timestamp_s", .num (.fin 1754549760)), ("real_pnl", .undefined),
          ("real_net_pnl", .undefined), ("close_reason", .undefined)],
        .obj [("exchange", .str "binance"), ("symbol", .str "BTCUSDT"),
          ("position", .str "Short"), ("entry_timestamp_s", .num (.fin 1754548860)),
          ("close_timestamp_s", .num (.fin 1754549760)), ("real_pnl", .undefined),
          ("real_net_pnl", .undefined), ("close_reason", .undefined)]] := by
    rw [he]
    simp only [mapExcept, hn1, hn2]
  refine ⟨he, ?_⟩
  rw [(extractRaw_mirrors refHost _ "binance" "BTCUSDT").2.2.2.2.2.1 _ (by simp) hm]
  simp [passesFilter]

/-! ## C19: the raw record of a snapshot -/

/-- C19 (failing input): a snapshot with identifier `doc-1` whose stored data
has a field `id` of its own.  The spread `...data` comes after `id: docSnap.id`
in the object literal, so the stored `id` replaces the provenance identifier:
the result's `id` is `other`, not `doc-1`.  Without the stored `id` the same
snapshot gets the identifier `doc-1`; the other fields are unchanged. -/
theorem parseRawTradeFromDocSnap_stored_id_wins :
    parseRawTradeFromDocSnap
        { id := "doc-1", data := .obj [("position", .str "Long"), ("id", .str "other")] }
      = .obj [("id", .str "other"), ("position", .str "Long")] ∧
    (parseRawTradeFromDocSnap
        { id := "doc-1",
          data := .obj [("position", .str "Long"), ("id", .str "other")] }).field "id"
      ≠ .str "doc-1" ∧
    parseRawTradeFromDocSnap { id := "doc-1", data := .obj [("position", .str "Long")] }
      = .obj [("id", .str "doc-1"), ("position", .str "Long")] := by
  refine ⟨?_, ?_, ?_⟩
  · simp [parseRawTradeFromDocSnap, JsVal.or, spreadFields, setField]
  · simp [parseRawTradeFromDocSnap, JsVal.or, spreadFields, setField]
  · simp [parseRawTradeFromDocSnap, JsVal.or, spreadFields, setField]

/-! ## The resolver: which candidate ends the old-layout loop -/

theorem oldLayoutLoop_skip (h : Host) (store : Store) (exchange symbol : String)
    (pre rest : List String) (acc : List Read)
    (hpre : ∀ d ∈ pre, SkippedByLoop h store exchange symbol d) :
    oldLayoutLoop h store exchange symbol (pre ++ rest) acc
      = oldLayoutLoop h store exchange symbol rest (acc ++ pre.map Read.doc) := by
  induction pre generalizing acc with
  | nil => simp
  | cons d pre ih =>
    have hd := hpre d (List.mem_cons_self _ _)
    have ih2 := ih (acc ++ [Read.doc d]) (fun x hx => hpre x (List.mem_cons_of_mem _ hx))
    have hl : acc ++ [Read.doc d] ++ pre.map Read.doc = acc ++ (d :: pre).map Read.doc := by
      simp
    rw [hl] at ih2
    rw [← ih2, List.cons_append]
    conv_lhs => unfold oldLayoutLoop
    cases hg : store.getDoc d with
    | failed => rfl
    | missing => rfl
    | found data =>
      cases hp : parseTradesFromDocData h (data.or (.obj [])) exchange symbol with
      | error e => simp only [hp]
      | ok ts => exact absurd hp (hd data ts hg)

theorem rawOldLayoutLoop_skip (store : Store) (pre rest : List String) (acc : List Read)
    (hpre : ∀ d ∈ pre, SkippedByRawLoop store d) :
    rawOldLayoutLoop store (pre ++ rest) acc
      = rawOldLayoutLoop store rest (acc ++ pre.map Read.doc) := by
  induction pre generalizing acc with
  | nil => simp
  | cons d pre ih =>
    have hd := hpre d (List.mem_cons_self _ _)
    have ih2 := ih (acc ++ [Read.doc d]) (fun x hx => hpre x (List.mem_cons_of_mem _ hx))
    have hl : acc ++ [Read.doc d] ++ pre.map Read.doc = acc ++ (d :: pre).map Read.doc := by
      simp
    rw [hl] at ih2
    rw [← ih2, List.cons_append]
    conv_lhs => unfold rawOldLayoutLoop
    cases hg : store.getDoc d with
    | failed => rfl
    | missing => rfl
    | found data => exact absurd hg (hd data)

theorem coinStatsProbe_trades_of_no_trades (h : Host) (store : Store)
    (exchange symbol : String)
    (he : (oldLayoutLoop h store exchange symbol (docCandidates h exchange symbol) []).trades
      = []) :
    (coinStatsProbe h store exchange symbol).trades = newLayoutTrades h store exchange symbol := by
  have hlen : (oldLayoutLoop h store exchange symbol
      (docCandidates h exchange symbol) []).trades.length = 0 := by
    simp [he]
  simp only [coinStatsProbe, hlen, if_true, newLayoutTrades]
  cases store.getCollection (exchange ++ "-" ++ symbol) with
  | failed => exact he
  | docs ds =>
    by_cases hds : ds.length = 0
    · have hnil : ds = [] := List.length_eq_zero.mp hds
      subst hnil
      simp [pushDocs, he]
    · simp only [hds, if_false, he]
      rcases hp : pushDocs h exchange symbol ds [] with ⟨ts, b⟩
      cases b <;> rfl

theorem coinStatsRawProbe_trades_of_no_trades (h : Host) (store : Store)
    (exchange symbol : String)
    (he : (rawOldLayoutLoop store (docCandidates h exchange symbol) []).trades = []) :
    (coinStatsRawProbe h store exchange symbol).trades
      = newLayoutRawTrades store exchange symbol := by
  have hlen : (rawOldLayoutLoop store
      (docCandidates h exchange symbol) []).trades.length = 0 := by
    simp [he]
  simp only [coinStatsRawProbe, hlen, if_true, newLayoutRawTrades]
  cases store.getCollection (exchange ++ "-" ++ symbol) with
  | failed => exact he
  | docs ds =>
    by_cases hds : ds.length = 0
    · have hnil : ds = [] := List.length_eq_zero.mp hds
      subst hnil
      simp [he]
    · simp only [hds, if_false]

theorem parse_one_trade :
    parseTradesFromDocData refHost
        (.obj [("trades", .arr [.obj [("position", .str "Long"),
          ("entry_timestamp", .num (.fin 1754548860)),
          ("close_timestamp", .num (.fin 1754549760))]])]) "binance" "BTCUSDT"
      = .ok [.obj [("exchange", .str "binance"), ("symbol", .str "BTCUSDT"),
          ("position", .str "Long"), ("entry_timestamp_s", .num (.fin 1754548860)),
          ("close_timestamp_s", .num (.fin 1754549760)), ("real_pnl", .undefined),
          ("real_net_pnl", .undefined), ("close_reason", .undefined)]] := by
  have hu : refHost.toUpperCase "BTCUSDT" = "BTCUSDT" := by decide
  have hn : normalizeTrade refHost
        (.obj [("position", .str "Long"), ("entry_timestamp", .num (.fin 1754548860)),
          ("close_timestamp", .num (.fin 1754549760))]) "binance" "BTCUSDT"
      = .ok (.obj [("exchange", .str "binance"), ("symbol", .str "BTCUSDT"),
          ("position", .str "Long"), ("entry_timestamp_s", .num (.fin 1754548860)),
          ("close_timestamp_s", .num (.fin 1754549760)), ("real_pnl", .undefined),
          ("real_net_pnl", .undefined), ("close_reason", .undefined)]) := by
    rw [normalizeTrade_ok refHost
      (.obj [("position", .str "Long"), ("entry_timestamp", .num (.fin 1754548860)),
        ("close_timestamp", .num (.fin 1754549760))]) "binance" "BTCUSDT" "BTCUSDT" rfl
      (by simp [JsVal.or])]
    simp [hu, JsVal.or, JsVal.coalesce, JsVal.typeofNumber, jsToString, toSec]
    norm_num
  rw [parseTradesFromDocData_eq refHost _ "binance" "BTCUSDT" (Or.inr ⟨_, rfl⟩)]
  simp [selectRaw, selectLines, mapExcept, hn, passesFilter, lineTrades]

theorem parse_no_trade :
    parseTradesFromDocData refHost (.obj [("trades", .arr [])]) "binance" "BTCUSDT"
      = .ok [] := by
  rw [parseTradesFromDocData_eq refHost _ "binance" "BTCUSDT" (Or.inr ⟨_, rfl⟩)]
  simp [selectRaw, selectLines, mapExcept, lineTrades]

theorem docCandidates_binance_btcusdt :
    docCandidates refHost "binance" "BTCUSDT"
      = ["binance-BTCUSDT", "binance-btcusdt", "binance_BTCUSDT", "binance_btcusdt"] := by
  have hl : refHost.toLowerCase "BTCUSDT" = "btcusdt" := by decide
  simp only [docCandidates, hl]
  decide

/-! ## The result of `parseTradeFromDocSnap` -/

theorem idDerivedTrade_passes (h : Host) (id exchange symbol : String) (tr : JsVal)
    (hi : idDerivedTrade h id exchange symbol = some tr) :
    passesFilter tr = true ∧ (∃ fs, tr = .obj fs) ∧ HasEntryTime tr := by
  unfold idDerivedTrade at hi
  split at hi
  · rename_i ex sym pos entry exit rest heq
    by_cases hc : pos ≠ "" ∧ (toSec h (.str entry)).truthy = true ∧
        (toSec h (.str exit)).truthy = true
    · simp only [if_pos hc, Option.some.injEq] at hi
      subst hi
      obtain ⟨hpos, he, hx⟩ := hc
      refine ⟨?_, ⟨_, rfl⟩, ?_⟩
      · simp [passesFilter, he, hx, hpos]
      · simpa [HasEntryTime] using toSec_undefined_or_num h _
    · simp only [if_neg hc] at hi
      exact absurd hi (by simp)
  · exact absurd hi (by simp)

theorem normalizeTrade_obj (h : Host) (t : JsVal) (exchange symbol : String) (n : JsVal)
    (hn : normalizeTrade h t exchange symbol = .ok n) : ∃ fs, n = .obj fs :=
  (normalizeTrade_isTradeRecord h t exchange symbol n hn).1

/-- The result of `parseTradeFromDocSnap`, when there is one, is `null` or an
object that passes the completeness test. -/
theorem parseTradeFromDocSnap_result (h : Host) (docSnap : DocSnap) (exchange symbol : String)
    (r : JsVal) (hr : parseTradeFromDocSnap h docSnap exchange symbol = .ok r) :
    r = .null ∨ (passesFilter r = true ∧ (∃ fs, r = .obj fs) ∧ HasEntryTime r) := by
  unfold parseTradeFromDocSnap at hr
  simp only [bind, Except.bind, pure, Except.pure, parseFromId_eq] at hr
  cases hn : normalizeTrade h (docSnap.data.or (.obj [])) exchange symbol with
  | error e => simp [hn] at hr
  | ok fromData =>
    simp only [hn] at hr
    obtain ⟨fs, hfs⟩ := normalizeTrade_obj h _ exchange symbol fromData hn
    have hshape := normalizeTrade_shape h _ exchange symbol fromData hn
    by_cases hc : ((fromData.field "position").truthy &&
        (fromData.field "entry_timestamp_s").truthy &&
        (fromData.field "close_timestamp_s").truthy) = true
    · simp only [hc, if_true, Except.ok.injEq] at hr
      have ht : fromData.truthy = true := by rw [hfs]; rfl
      rw [or_of_truthy _ ht] at hr
      subst hr
      right
      refine ⟨?_, ⟨fs, hfs⟩, hshape.2.1⟩
      simp only [Bool.and_eq_true] at hc
      simp [passesFilter, hc.1.1, hc.1.2, hc.2]
    · simp only [hc, Bool.false_eq_true, if_false, Except.ok.injEq] at hr
      rw [or_of_falsy _ (by rfl)] at hr
      subst hr
      cases hi : idDerivedTrade h docSnap.id exchange symbol with
      | none => exact Or.inl rfl
      | some tr => exact Or.inr (idDerivedTrade_passes h _ exchange symbol tr hi)

theorem pushDocs_of_results (h : Host) (exchange symbol : String) (ds : List DocSnap) :
    ∀ (rs acc : List JsVal),
      mapExcept (fun d => parseTradeFromDocSnap h d exchange symbol) ds = .ok rs →
      pushDocs h exchange symbol ds acc = (acc ++ rs.filter (fun r => !r.isNullish), true) := by
  induction ds with
  | nil =>
    intro rs acc hm
    simp only [mapExcept, Except.ok.injEq] at hm
    subst hm
    simp [pushDocs]
  | cons d ds ih =>
    intro rs acc hm
    unfold mapExcept at hm
    cases hd : parseTradeFromDocSnap h d exchange symbol with
    | error e => simp [hd] at hm
    | ok r =>
      cases hrest : mapExcept (fun d => parseTradeFromDocSnap h d exchange symbol) ds with
      | error e => simp [hd, hrest] at hm
      | ok rs2 =>
        simp only [hd, hrest, Except.ok.injEq] at hm
        subst hm
        unfold pushDocs
        simp only [hd]
        rw [ih rs2 _ hrest]
        rcases parseTradeFromDocSnap_result h d exchange symbol r hd with rfl | ⟨hp, ⟨fs, rfl⟩, _⟩
        · simp [JsVal.isNullish]
        · simp [hp, JsVal.isNullish]

theorem or_obj_not_nullish (a : JsVal) : (a.or (.obj [])).isNullish = false := by
  by_cases ht : a.truthy = true
  · rw [or_of_truthy _ ht]
    cases a <;> first | rfl | simp at ht
  · rw [or_of_falsy _ (by simpa using ht)]
    rfl

theorem parseTradeFromDocSnap_returns (h : Host) (docSnap : DocSnap) (exchange symbol s : String)
    (hs : ((docSnap.data.or (.obj [])).field "symbol").or (.str symbol) = .str s) :
    ∃ r, parseTradeFromDocSnap h docSnap exchange symbol = .ok r := by
  unfold parseTradeFromDocSnap
  simp only [bind, Except.bind, pure, Except.pure, parseFromId_eq,
    normalizeTrade_ok h (docSnap.data.or (.obj [])) exchange symbol s (or_obj_not_nullish _) hs]
  exact ⟨_, rfl⟩

theorem parse_snap_example :
    parseTradeFromDocSnap refHost
        { id := "doc-1",
          data := .obj [("position", .str "Long"), ("entry_timestamp", .num (.fin 1754548860)),
            ("close_timestamp", .num (.fin 1754549760))] } "binance" "BTCUSDT"
      = .ok (.obj [("exchange", .str "binance"), ("symbol", .str "BTCUSDT"),
          ("position", .str "Long"), ("entry_timestamp_s", .num (.fin 1754548860)),
          ("close_timestamp_s", .num (.fin 1754549760)), ("real_pnl", .undefined),
          ("real_net_pnl", .undefined), ("close_reason", .undefined)]) := by
  have hu : refHost.toUpperCase "BTCUSDT" = "BTCUSDT" := by decide
  have ho : ∀ fs : List (String × JsVal), (JsVal.obj fs).or (.obj []) = .obj fs := by
    intro fs
    simp [JsVal.or]
  have hn : normalizeTrade refHost
        (.obj [("position", .str "Long"), ("entry_timestamp", .num (.fin 1754548860)),
          ("close_timestamp", .num (.fin 1754549760))]) "binance" "BTCUSDT"
      = .ok (.obj [("exchange", .str "binance"), ("symbol", .str "BTCUSDT"),
          ("position", .str "Long"), ("entry_timestamp_s", .num (.fin 1754548860)),
          ("close_timestamp_s", .num (.fin 1754549760)), ("real_pnl", .undefined),
          ("real_net_pnl", .undefined), ("close_reason", .undefined)]) := by
    rw [normalizeTrade_ok refHost
      (.obj [("position", .str "Long"), ("entry_timestamp", .num (.fin 1754548860)),
        ("close_timestamp", .num (.fin 1754549760))]) "binance" "BTCUSDT" "BTCUSDT" rfl
      (by simp [JsVal.or])]
    simp [hu, JsVal.or, JsVal.coalesce, JsVal.typeofNumber, jsToString, toSec]
    norm_num
  unfold parseTradeFromDocSnap
  simp only [bind, Except.bind, pure, Except.pure, parseFromId_eq, ho, hn]
  simp [JsVal.or]

/-! ## The final sort by entry time -/

theorem entryKey_of_truthy (h : Host) (t : JsVal) (x : JsNum)
    (he : t.field "entry_timestamp_s" = .num x) (hx : x.truthy = true) : entryKey h t = x := by
  simp [entryKey, he, JsVal.or, hx, toNumber]

theorem entryKey_of_falsy (h : Host) (t : JsVal)
    (he : (t.field "entry_timestamp_s").truthy = false) : entryKey h t = .fin 0 := by
  simp [entryKey, JsVal.or, he, toNumber]

theorem entryKey_ne_nan (h : Host) (t : JsVal) (ht : HasEntryTime t) : entryKey h t ≠ .nan := by
  rcases ht with hu | ⟨x, hx⟩
  · rw [entryKey_of_falsy h t (by rw [hu]; rfl)]
    exact nofun
  · by_cases hxt : x.truthy = true
    · rw [entryKey_of_truthy h t x hx hxt]
      intro hn
      rw [hn] at hxt
      exact absurd hxt (by decide)
    · rw [entryKey_of_falsy h t (by rw [hx]; simpa using hxt)]
      exact nofun

theorem sub_pos_iff_not_le (x y : JsNum) (hx : x ≠ .nan) (hy : y ≠ .nan) :
    JsNum.lt (.fin 0) (x.sub y) = false ↔ x.le y = true := by
  cases x <;> cases y <;> simp_all [JsNum.sub, JsNum.lt, JsNum.le]

theorem le_total_of_ne_nan (x y : JsNum) (hx : x ≠ .nan) (hy : y ≠ .nan) :
    x.le y = true ∨ y.le x = true := by
  cases x <;> cases y <;> simp_all [JsNum.le]
  exact le_total _ _

theorem le_trans_of_ne_nan (x y z : JsNum) (hxy : x.le y = true) (hyz : y.le z = true) :
    x.le z = true := by
  cases x <;> cases y <;> cases z <;> simp_all [JsNum.le]
  exact le_trans hxy hyz

theorem orderedInsert_pairwise_on {α : Type} (r : α → α → Prop) [DecidableRel r]
    (P : α → Prop) (htot : ∀ a b, P a → P b → r a b ∨ r b a)
    (htr : ∀ a b c, P a → P b → P c → r a b → r b c → r a c)
    (a : α) (ha : P a) :
    ∀ l : List α, (∀ x ∈ l, P x) → l.Pairwise r → (l.orderedInsert r a).Pairwise r := by
  intro l
  induction l with
  | nil => intro _ _; simp
  | cons b l ih =>
    intro hP hs
    have hb : P b := hP b (List.mem_cons_self _ _)
    have hl : ∀ x ∈ l, P x := fun x hx => hP x (List.mem_cons_of_mem _ hx)
    rw [List.pairwise_cons] at hs
    by_cases hab : r a b
    · rw [List.orderedInsert, if_pos hab]
      refine List.pairwise_cons.mpr ⟨?_, List.pairwise_cons.mpr hs⟩
      intro x hx
      rcases List.mem_cons.mp hx with rfl | hx
      · exact hab
      · exact htr a b x ha hb (hl x hx) hab (hs.1 x hx)
    · rw [List.orderedInsert, if_neg hab]
      refine List.pairwise_cons.mpr ⟨?_, ih hl hs.2⟩
      intro x hx
      rcases (List.mem_orderedInsert r).mp hx with rfl | hx
      · rcases htot x b ha hb with h1 | h1
        · exact absurd h1 hab
        · exact h1
      · exact hs.1 x hx

theorem insertionSort_pairwise_on {α : Type} (r : α → α → Prop) [DecidableRel r]
    (P : α → Prop) (htot : ∀ a b, P a → P b → r a b ∨ r b a)
    (htr : ∀ a b c, P a → P b → P c → r a b → r b c → r a c) :
    ∀ l : List α, (∀ x ∈ l, P x) → (l.insertionSort r).Pairwise r := by
  intro l
  induction l with
  | nil => intro _; simp
  | cons a l ih =>
    intro hP
    have hl : ∀ x ∈ l, P x := fun x hx => hP x (List.mem_cons_of_mem _ hx)
    rw [List.insertionSort]
    refine orderedInsert_pairwise_on r P htot htr a (hP a (List.mem_cons_self _ _)) _ ?_ (ih hl)
    intro x hx
    exact hl x ((List.perm_insertionSort r l).subset hx)

theorem sortByEntry_perm (h : Host) (trades : List JsVal) :
    (sortByEntry h trades).Perm trades :=
  List.perm_insertionSort _ _

theorem sortByEntry_sorted (h : Host) (trades : List JsVal)
    (ht : ∀ t ∈ trades, HasEntryTime t) :
    (sortByEntry h trades).Pairwise (fun a b => (entryKey h a).le (entryKey h b) = true) := by
  have key := insertionSort_pairwise_on
    (fun a b => JsNum.lt (.fin 0) (compareEntry h a b) = false) HasEntryTime
    (by
      intro a b ha hb
      rcases le_total_of_ne_nan _ _ (entryKey_ne_nan h a ha) (entryKey_ne_nan h b hb) with h1 | h1
      · exact Or.inl ((sub_pos_iff_not_le _ _ (entryKey_ne_nan h a ha)
          (entryKey_ne_nan h b hb)).mpr h1)
      · exact Or.inr ((sub_pos_iff_not_le _ _ (entryKey_ne_nan h b hb)
          (entryKey_ne_nan h a ha)).mpr h1))
    (by
      intro a b c ha hb hc hab hbc
      have h1 := (sub_pos_iff_not_le _ _ (entryKey_ne_nan h a ha)
        (entryKey_ne_nan h b hb)).mp hab
      have h2 := (sub_pos_iff_not_le _ _ (entryKey_ne_nan h b hb)
        (entryKey_ne_nan h c hc)).mp hbc
      exact (sub_pos_iff_not_le _ _ (entryKey_ne_nan h a ha) (entryKey_ne_nan h c hc)).mpr
        (le_trans_of_ne_nan _ _ _ h1 h2))
    trades ht
  have hmem : ∀ x ∈ sortByEntry h trades, HasEntryTime x :=
    fun x hx => ht x ((sortByEntry_perm h trades).subset hx)
  refine (List.Pairwise.and_mem.mp key).imp ?_
  intro a b hab
  obtain ⟨ha, hb, hr⟩ := hab
  exact (sub_pos_iff_not_le _ _ (entryKey_ne_nan h a (hmem a ha))
    (entryKey_ne_nan h b (hmem b hb))).mp hr

theorem lineTradeOf_hasEntryTime (h : Host) (exchange symbol : String) (line t : JsVal)
    (hl : lineTradeOf h exchange symbol line = some t) : HasEntryTime t := by
  unfold lineTradeOf at hl
  split at hl
  · simp only [Option.some.injEq] at hl
    subst hl
    simpa [HasEntryTime, lineTrade] using toSec_undefined_or_num h _
  · exact absurd hl (by simp)

theorem parseTradesFromDocData_hasEntryTime (h : Host) (data : JsVal)
    (exchange symbol : String) (ts : List JsVal)
    (hp : parseTradesFromDocData h data exchange symbol = .ok ts) :
    ∀ t ∈ ts, HasEntryTime t := by
  by_cases hd : IsObjectValue data
  · rw [parseTradesFromDocData_eq h data exchange symbol hd] at hp
    cases hm : mapExcept (fun t => normalizeTrade h t exchange symbol) (selectRaw data) with
    | error e => simp [hm] at hp
    | ok ns =>
      simp only [hm, Except.ok.injEq] at hp
      subst hp
      intro t ht
      rcases List.mem_append.mp ht with h1 | h1
      · obtain ⟨raw, _, hraw⟩ := mem_of_mapExcept _ _ _ hm t (List.mem_of_mem_filter h1)
        exact (normalizeTrade_shape h raw exchange symbol t hraw).2.1
      · unfold lineTrades at h1
        obtain ⟨line, _, hline⟩ := List.mem_filterMap.mp h1
        exact lineTradeOf_hasEntryTime h exchange symbol line t hline
  · rw [parseTradesFromDocData_of_not_object h data exchange symbol hd] at hp
    simp only [Except.ok.injEq] at hp
    subst hp
    intro t ht
    exact absurd ht (List.not_mem_nil t)

theorem oldLayoutLoop_hasEntryTime (h : Host) (store : Store) (exchange symbol : String)
    (cands : List String) (acc : List Read) :
    ∀ t ∈ (oldLayoutLoop h store exchange symbol cands acc).trades, HasEntryTime t := by
  induction cands generalizing acc with
  | nil =>
    intro t ht
    simp [oldLayoutLoop] at ht
  | cons d rest ih =>
    unfold oldLayoutLoop
    cases hg : store.getDoc d with
    | failed => exact ih _
    | missing => exact ih _
    | found data =>
      cases hp : parseTradesFromDocData h (data.or (.obj [])) exchange symbol with
      | error e =>
        simp only [hp]
        exact ih _
      | ok ts =>
        simp only [hp]
        exact parseTradesFromDocData_hasEntryTime h _ exchange symbol ts hp

theorem pushDocs_hasEntryTime (h : Host) (exchange symbol : String) (ds : List DocSnap) :
    ∀ acc : List JsVal, (∀ t ∈ acc, HasEntryTime t) →
      ∀ t ∈ (pushDocs h exchange symbol ds acc).1, HasEntryTime t := by
  induction ds with
  | nil =>
    intro acc hacc t ht
    exact hacc t (by simpa [pushDocs] using ht)
  | cons d ds ih =>
    intro acc hacc
    unfold pushDocs
    cases hd : parseTradeFromDocSnap h d exchange symbol with
    | error e => exact hacc
    | ok r =>
      simp only []
      apply ih
      intro t ht
      split_ifs at ht with hc
      · rcases List.mem_append.mp ht with h1 | h1
        · exact hacc t h1
        · simp only [List.mem_singleton] at h1
          subst h1
          rcases parseTradeFromDocSnap_result h d exchange symbol t hd with h2 | ⟨_, _, h3⟩
          · rw [h2] at hc
            simp at hc
          · exact h3
      · exact hacc t ht

theorem coinStatsProbe_hasEntryTime (h : Host) (store : Store) (exchange symbol : String) :
    ∀ t ∈ (coinStatsProbe h store exchange symbol).trades, HasEntryTime t := by
  have hold := oldLayoutLoop_hasEntryTime h store exchange symbol
    (docCandidates h exchange symbol) []
  unfold coinStatsProbe
  simp only []
  split_ifs with hlen
  · cases store.getCollection (exchange ++ "-" ++ symbol) with
    | failed => exact hold
    | docs ds =>
      simp only []
      split_ifs with hds
      · exact hold
      · have hpd := pushDocs_hasEntryTime h exchange symbol ds _ hold
        rcases hp : pushDocs h exchange symbol ds
          (oldLayoutLoop h store exchange symbol (docCandidates h exchange symbol) []).trades
          with ⟨ts, b⟩
        rw [hp] at hpd
        cases b <;> exact hpd
  · exact hold

/-! ## `getPL`, the identifier fallback and the two copies of `toSec` -/

theorem plOfField_num (h : Host) (x : JsNum) :
    MaxDrawdown.plOfField h (.num x) = some (.num x) := rfl

theorem plOfField_of_not_num (h : Host) (v : JsVal) (hv : ∀ x, v ≠ .num x) :
    MaxDrawdown.plOfField h v
      = if v.isNullish then none
        else if (toNumber h v).isFinite then some (.num (toNumber h v)) else none := by
  cases v with
  | num x => exact absurd rfl (hv x)
  | _ => rfl

theorem plOfField_eq_none_iff (h : Host) (v : JsVal) :
    MaxDrawdown.plOfField h v = none ↔
      v.isNullish = true ∨ ((∀ x, v ≠ .num x) ∧ (toNumber h v).isFinite = false) := by
  cases v with
  | num x =>
    simp [plOfField_num, JsVal.isNullish]
  | undefined => simp [MaxDrawdown.plOfField, JsVal.isNullish]
  | null => simp [MaxDrawdown.plOfField, JsVal.isNullish]
  | bool b =>
    rw [plOfField_of_not_num h _ (fun _ hx => by cases hx)]
    simp [JsVal.isNullish]
  | str s =>
    rw [plOfField_of_not_num h _ (fun _ hx => by cases hx)]
    simp [JsVal.isNullish]
  | arr xs =>
    rw [plOfField_of_not_num h _ (fun _ hx => by cases hx)]
    simp [JsVal.isNullish]
  | obj fs =>
    rw [plOfField_of_not_num h _ (fun _ hx => by cases hx)]
    simp [JsVal.isNullish]

theorem add_zero_right (x : JsNum) : x.add (.fin 0) = x := by
  cases x <;> simp [JsNum.add]

theorem idDerivedTrade_keys (h : Host) (id exchange symbol : String) (r : JsVal)
    (hid : idDerivedTrade h id exchange symbol = some r) :
    ∃ fs, r = .obj fs ∧
      fs.map Prod.fst
        = ["exchange", "symbol", "position", "entry_timestamp_s", "close_timestamp_s"] := by
  unfold idDerivedTrade at hid
  split at hid
  · rename_i ex sym pos entry exit rest heq
    by_cases hc : pos ≠ "" ∧ (toSec h (.str entry)).truthy = true ∧
        (toSec h (.str exit)).truthy = true
    · simp only [if_pos hc, Option.some.injEq] at hid
      subst hid
      exact ⟨_, rfl, rfl⟩
    · simp only [if_neg hc] at hid
      exact absurd hid (by simp)
  · exact absurd hid (by simp)

theorem field_undefined_of_not_key (fs : List (String × JsVal)) (k : String)
    (hk : k ∉ fs.map Prod.fst) : (JsVal.obj fs).field k = .undefined := by
  induction fs with
  | nil => rfl
  | cons kv fs ih =>
    obtain ⟨k1, v1⟩ := kv
    simp only [List.map_cons, List.mem_cons, not_or] at hk
    rw [field_obj_cons]
    rw [if_neg (fun hh => hk.1 hh.symm)]
    exact ih hk.2

/-- The two copies of `toSec` agree on every value that is not a boolean. -/
theorem maxDrawdown_toSec_eq (h : Host) (v : JsVal) (hv : ∀ b, v ≠ .bool b) :
    MaxDrawdown.toSec h v = toSec h v := by
  cases v with
  | bool b => exact absurd rfl (hv b)
  | undefined => rfl
  | null => rfl
  | num x => rfl
  | str s => rfl
  | arr xs => rfl
  | obj fs => rfl

/-- The two copies disagree on `true`: the server reads `new Date(true)`, the
instant 1 ms, the component reads `new Date("true")`, which is no date. -/
theorem toSec_bool_differs :
    toSec refHost (.bool true) = .num (.fin 0) ∧
      MaxDrawdown.toSec refHost (.bool true) = .undefined := by
  have hd1 : isDigits 13 "true" = false := by decide
  have hd2 : isDigits 10 "true" = false := by decide
  have hp : parseIsoUtc "true" = none := by decide
  constructor
  · simp [toSec, jsToString, hd1, hd2, dateTimeValue]
    norm_num
  · simp [MaxDrawdown.toSec, jsToString, hd1, hd2, dateTimeValue, refHost, hp]

theorem normalizeTrade_close (h : Host) (t : JsVal) (exchange symbol : String) (n : JsVal)
    (hn : normalizeTrade h t exchange symbol = .ok n) :
    n.field "close_timestamp_s"
      = toSec h (firstDefined [t.field "close_timestamp", t.field "exit",
          t.field "close_time"]) := by
  unfold normalizeTrade at hn
  by_cases hnull : t.isNullish = true
  · simp [hnull] at hn
  · simp only [hnull, Bool.false_eq_true, if_false, bind, Except.bind, pure, Except.pure] at hn
    cases hu : callToUpperCase h ((t.field "symbol").or (.str symbol)) with
    | error e => simp [hu] at hn
    | ok sym =>
      simp only [hu, Except.ok.injEq] at hn
      subst hn
      simp [toSec_coalesce3]

theorem maxDrawdown_toSec_nullish (h : Host) (v : JsVal) (hv : v.isNullish = true) :
    MaxDrawdown.toSec h v = .undefined := by
  cases v <;> first | rfl | simp [JsVal.isNullish] at hv

theorem toSec_isNullish (h : Host) (v : JsVal) :
    (toSec h v).isNullish = true ↔ toSec h v = .undefined := by
  rcases toSec_undefined_or_num h v with hu | ⟨x, hx⟩
  · simp [hu, JsVal.isNullish]
  · simp [hx, JsVal.isNullish]

theorem maxDrawdown_toSec_undefined_or_num (h : Host) (v : JsVal) :
    MaxDrawdown.toSec h v = .undefined ∨ ∃ x, MaxDrawdown.toSec h v = .num x := by
  by_cases hb : ∀ b, v ≠ .bool b
  · rw [maxDrawdown_toSec_eq h v hb]
    exact toSec_undefined_or_num h v
  · push_neg at hb
    obtain ⟨b, rfl⟩ := hb
    unfold MaxDrawdown.toSec
    simp only []
    split_ifs
    · exact Or.inr ⟨_, rfl⟩
    · exact Or.inr ⟨_, rfl⟩
    · cases dateTimeValue h (.str (jsToString h (.bool b))) with
      | none => exact Or.inl rfl
      | some t => exact Or.inr ⟨_, rfl⟩

theorem maxDrawdown_toSec_isNullish (h : Host) (v : JsVal)
    (hv : (MaxDrawdown.toSec h v).isNullish = true) : MaxDrawdown.toSec h v = .undefined := by
  rcases maxDrawdown_toSec_undefined_or_num h v with hu | ⟨x, hx⟩
  · exact hu
  · rw [hx] at hv
    exact absurd hv (by simp [JsVal.isNullish])

theorem firstDefined_cons_nullish (v : JsVal) (vs : List JsVal) (hv : v.isNullish = true) :
    firstDefined (v :: vs) = firstDefined vs := by
  simp [firstDefined, hv]

theorem firstDefined_cons_defined (v : JsVal) (vs : List JsVal) (hv : v.isNullish = false) :
    firstDefined (v :: vs) = v := by
  simp [firstDefined, hv]

theorem getCloseSec_eq (h : Host) (t : JsVal) :
    MaxDrawdown.getCloseSec h t
      = firstDefined [MaxDrawdown.toSec h (t.field "close_timestamp"),
          MaxDrawdown.toSec h (t.field "exit"), MaxDrawdown.toSec h (t.field "close_time"),
          MaxDrawdown.toSec h (t.field "timestamp"),
          MaxDrawdown.toSec h (t.field "entry_timestamp")] := by
  unfold MaxDrawdown.getCloseSec
  rcases isNullish_cases (MaxDrawdown.toSec h (t.field "close_timestamp")) with h1 | h1 <;>
    rcases isNullish_cases (MaxDrawdown.toSec h (t.field "exit")) with h2 | h2 <;>
    rcases isNullish_cases (MaxDrawdown.toSec h (t.field "close_time")) with h3 | h3 <;>
    rcases isNullish_cases (MaxDrawdown.toSec h (t.field "timestamp")) with h4 | h4 <;>
    rcases isNullish_cases (MaxDrawdown.toSec h (t.field "entry_timestamp")) with h5 | h5 <;>
    first
    | simp [firstDefined, h1, h2, h3, h4, h5, coalesce_of_nullish, coalesce_of_not_nullish,
        maxDrawdown_toSec_isNullish h _ h5]
    | simp [firstDefined, h1, h2, h3, h4, h5, coalesce_of_nullish, coalesce_of_not_nullish]

theorem isNullish_false_of_ne_undefined (h : Host) (v : JsVal) (hv : toSec h v ≠ .undefined) :
    (toSec h v).isNullish = false := by
  cases hc : (toSec h v).isNullish with
  | false => rfl
  | true => exact absurd ((toSec_isNullish h v).mp hc) hv

/-! ## C20: no read of the collection after an old document yielded trades -/

/-- C20 (counterexample): in the example store the legacy candidate
`binance-btcusdt` yields a non-empty trade list (one trade, one raw record), yet
both routes read the current-layout collection `binance-BTCUSDT`: the earlier
candidate `binance-BTCUSDT` exists and yields nothing, the loop ends there, the
candidate that holds the trade is never read and the collection is read next. -/
theorem probe_shadowed_collection_read :
    "binance-btcusdt" ∈ docCandidates refHost "binance" "BTCUSDT" ∧
    shadowedStore.getDoc "binance-btcusdt"
      = .found (.obj [("trades", .arr [.obj [("position", .str "Long"),
          ("entry_timestamp", .num (.fin 1754548860)),
          ("close_timestamp", .num (.fin 1754549760))]])]) ∧
    (∃ t, parseTradesFromDocData refHost
        ((JsVal.obj [("trades", .arr [.obj [("position", .str "Long"),
          ("entry_timestamp", .num (.fin 1754548860)),
          ("close_timestamp", .num (.fin 1754549760))]])]).or (.obj [])) "binance" "BTCUSDT"
      = .ok [t]) ∧
    extractRawTradesFromDocData
        ((JsVal.obj [("trades", .arr [.obj [("position", .str "Long"),
          ("entry_timestamp", .num (.fin 1754548860)),
          ("close_timestamp", .num (.fin 1754549760))]])]).or (.obj [])) ≠ [] ∧
    (coinStatsProbe refHost shadowedStore "binance" "BTCUSDT").reads
      = [Read.doc "binance-BTCUSDT", Read.collection "binance-BTCUSDT"] ∧
    (coinStatsRawProbe refHost shadowedStore "binance" "BTCUSDT").reads
      = [Read.doc "binance-BTCUSDT", Read.collection "binance-BTCUSDT"] ∧
    Read.collection "binance-BTCUSDT"
      ∈ (coinStatsProbe refHost shadowedStore "binance" "BTCUSDT").reads ∧
    Read.collection "binance-BTCUSDT"
      ∈ (coinStatsRawProbe refHost shadowedStore "binance" "BTCUSDT").reads := by
  have ho : ∀ fs : List (String × JsVal), (JsVal.obj fs).or (.obj []) = .obj fs := by
    intro fs
    simp [JsVal.or]
  have hg1 : shadowedStore.getDoc "binance-BTCUSDT" = .found (.obj [("trades", .arr [])]) := by
    simp [shadowedStore]
  have hc : "binance" ++ "-" ++ "BTCUSDT" = "binance-BTCUSDT" := by decide
  have hr1 : (coinStatsProbe refHost shadowedStore "binance" "BTCUSDT").reads
      = [Read.doc "binance-BTCUSDT", Read.collection "binance-BTCUSDT"] := by
    have hold : oldLayoutLoop refHost shadowedStore "binance" "BTCUSDT"
        (docCandidates refHost "binance" "BTCUSDT") []
        = { trades := [], usedPath := some "coin-stats/binance-BTCUSDT",
            reads := [Read.doc "binance-BTCUSDT"] } := by
      rw [docCandidates_binance_btcusdt]
      simp only [oldLayoutLoop, hg1, ho, parse_no_trade]
      simp
    rw [coinStatsProbe_reads_of_no_trades refHost shadowedStore "binance" "BTCUSDT"
      (by rw [hold]), hold, hc]
    rfl
  have hr2 : (coinStatsRawProbe refHost shadowedStore "binance" "BTCUSDT").reads
      = [Read.doc "binance-BTCUSDT", Read.collection "binance-BTCUSDT"] := by
    have hold : rawOldLayoutLoop shadowedStore
        (docCandidates refHost "binance" "BTCUSDT") []
        = { trades := [], usedPath := some "coin-stats/binance-BTCUSDT",
            reads := [Read.doc "binance-BTCUSDT"] } := by
      rw [docCandidates_binance_btcusdt]
      simp only [rawOldLayoutLoop, hg1, ho]
      simp [extractRawTradesFromDocData, JsVal.typeofObject]
    rw [coinStatsRawProbe_reads_of_no_trades refHost shadowedStore "binance" "BTCUSDT"
      (by rw [hold]), hold, hc]
    rfl
  refine ⟨?_, by simp [shadowedStore], ?_, ?_, hr1, hr2, ?_, ?_⟩
  · rw [docCandidates_binance_btcusdt]
    simp
  · rw [ho]
    exact ⟨_, parse_one_trade⟩
  · rw [ho]
    simp [extractRawTradesFromDocData, JsVal.typeofObject]
  · rw [hr1]
    simp
  · rw [hr2]
    simp

/-- C20 (amended): with the store a read-only function and each route producing
the log of its reads: whenever a legacy candidate document that the normalized
route reads exists and parses to a non-empty trade list, the log of the route
holds no read of a collection; likewise for the raw route and a document read
by it whose raw extraction is non-empty.  Every document read is one of the four
candidates, and when the documents read yielded no trade the collection
`{exchange}-{SYMBOL}` is read once, after them. -/
theorem probe_no_collection_read (h : Host) (store : Store) (exchange symbol : String) :
    (∀ c data ts, Read.doc c ∈ (coinStatsProbe h store exchange symbol).reads →
      store.getDoc c = .found data →
      parseTradesFromDocData h (data.or (.obj [])) exchange symbol = .ok ts → ts ≠ [] →
      ∀ name, Read.collection name ∉ (coinStatsProbe h store exchange symbol).reads) ∧
    (∀ c data, Read.doc c ∈ (coinStatsRawProbe h store exchange symbol).reads →
      store.getDoc c = .found data →
      extractRawTradesFromDocData (data.or (.obj [])) ≠ [] →
      ∀ name, Read.collection name ∉ (coinStatsRawProbe h store exchange symbol).reads) ∧
    (∀ c, Read.doc c ∈ (coinStatsProbe h store exchange symbol).reads →
      c ∈ docCandidates h exchange symbol) ∧
    (∀ c, Read.doc c ∈ (coinStatsRawProbe h store exchange symbol).reads →
      c ∈ docCandidates h exchange symbol) ∧
    ((oldLayoutLoop h store exchange symbol (docCandidates h exchange symbol) []).trades = [] →
      (coinStatsProbe h store exchange symbol).reads
        = (oldLayoutLoop h store exchange symbol (docCandidates h exchange symbol) []).reads
          ++ [.collection (exchange ++ "-" ++ symbol)]) ∧
    ((rawOldLayoutLoop store (docCandidates h exchange symbol) []).trades = [] →
      (coinStatsRawProbe h store exchange symbol).reads
        = (rawOldLayoutLoop store (docCandidates h exchange symbol) []).reads
          ++ [.collection (exchange ++ "-" ++ symbol)]) := by
  refine ⟨?_, ?_, ?_, ?_, coinStatsProbe_reads_of_no_trades h store exchange symbol,
    coinStatsRawProbe_reads_of_no_trades h store exchange symbol⟩
  · intro c data ts hread hg hp hne name
    have hold := coinStatsProbe_doc_reads h store exchange symbol c hread
    have ht := oldLayoutLoop_yield h store exchange symbol _ [] c data ts hold (by simp) hg hp
    rw [coinStatsProbe_of_trades h store exchange symbol (by rw [ht]; exact hne)]
    exact oldLayoutLoop_reads_doc h store exchange symbol _ [] name (by simp)
  · intro c data hread hg hne name
    have hold := coinStatsRawProbe_doc_reads h store exchange symbol c hread
    have ht := rawOldLayoutLoop_yield store _ [] c data hold (by simp) hg
    rw [coinStatsRawProbe_of_trades h store exchange symbol (by rw [ht]; exact hne)]
    exact rawOldLayoutLoop_reads_doc store _ [] name (by simp)
  · intro c hread
    rcases oldLayoutLoop_reads_sub h store exchange symbol _ [] c
      (coinStatsProbe_doc_reads h store exchange symbol c hread) with h1 | h1
    · simp at h1
    · exact h1
  · intro c hread
    rcases rawOldLayoutLoop_reads_sub store _ [] c
      (coinStatsRawProbe_doc_reads h store exchange symbol c hread) with h1 | h1
    · simp at h1
    · exact h1

/-- C20 (witness): in the example store `legacyStore` the first candidate `binance-BTCUSDT`
exists and parses to one trade: the only read of the normalized route is that
document, and no collection is read. -/
theorem probe_no_collection_read_witness :
    (coinStatsProbe refHost legacyStore "binance" "BTCUSDT").reads
      = [Read.doc "binance-BTCUSDT"] ∧
    legacyStore.getDoc "binance-BTCUSDT"
      = .found (.obj [("trades", .arr [.obj [("position", .str "Long"),
          ("entry_timestamp", .num (.fin 1754548860)),
          ("close_timestamp", .num (.fin 1754549760))]])]) ∧
    parseTradesFromDocData refHost
        ((JsVal.obj [("trades", .arr [.obj [("position", .str "Long"),
          ("entry_timestamp", .num (.fin 1754548860)),
          ("close_timestamp", .num (.fin 1754549760))]])]).or (.obj [])) "binance" "BTCUSDT"
      = .ok [.obj [("exchange", .str "binance"), ("symbol", .str "BTCUSDT"),
          ("position", .str "Long"), ("entry_timestamp_s", .num (.fin 1754548860)),
          ("close_timestamp_s", .num (.fin 1754549760)), ("real_pnl", .undefined),
          ("real_net_pnl", .undefined), ("close_reason", .undefined)]] ∧
    ∀ name, Read.collection name
      ∉ (coinStatsProbe refHost legacyStore "binance" "BTCUSDT").reads := by
  have hu : refHost.toUpperCase "BTCUSDT" = "BTCUSDT" := by decide
  have hn : normalizeTrade refHost
        (.obj [("position", .str "Long"), ("entry_timestamp", .num (.fin 1754548860)),
          ("close_timestamp", .num (.fin 1754549760))]) "binance" "BTCUSDT"
      = .ok (.obj [("exchange", .str "binance"), ("symbol", .str "BTCUSDT"),
          ("position", .str "Long"), ("entry_timestamp_s", .num (.fin 1754548860)),
          ("close_timestamp_s", .num (.fin 1754549760)), ("real_pnl", .undefined),
          ("real_net_pnl", .undefined), ("close_reason", .undefined)]) := by
    rw [normalizeTrade_ok refHost
      (.obj [("position", .str "Long"), ("entry_timestamp", .num (.fin 1754548860)),
        ("close_timestamp", .num (.fin 1754549760))]) "binance" "BTCUSDT" "BTCUSDT" rfl
      (by simp [JsVal.or])]
    simp [hu, JsVal.or, JsVal.coalesce, JsVal.typeofNumber, jsToString, toSec]
    norm_num
  have hp : parseTradesFromDocData refHost
        ((JsVal.obj [("trades", .arr [.obj [("position", .str "Long"),
          ("entry_timestamp", .num (.fin 1754548860)),
          ("close_timestamp", .num (.fin 1754549760))]])]).or (.obj [])) "binance" "BTCUSDT"
      = .ok [.obj [("exchange", .str "binance"), ("symbol", .str "BTCUSDT"),
          ("position", .str "Long"), ("entry_timestamp_s", .num (.fin 1754548860)),
          ("close_timestamp_s", .num (.fin 1754549760)), ("real_pnl", .undefined),
          ("real_net_pnl", .undefined), ("close_reason", .undefined)]] := by
    have ho : (JsVal.obj [("trades", .arr [.obj [("position", .str "Long"),
          ("entry_timestamp", .num (.fin 1754548860)),
          ("close_timestamp", .num (.fin 1754549760))]])]).or (.obj [])
        = .obj [("trades", .arr [.obj [("position", .str "Long"),
          ("entry_timestamp", .num (.fin 1754548860)),
          ("close_timestamp", .num (.fin 1754549760))]])] := by
      simp [JsVal.or]
    rw [ho, parseTradesFromDocData_eq refHost _ "binance" "BTCUSDT" (Or.inr ⟨_, rfl⟩)]
    simp [selectRaw, selectLines, mapExcept, hn, passesFilter, lineTrades]
  have hc : "binance" ++ "-" ++ "BTCUSDT" = "binance-BTCUSDT" := by decide
  have hg : legacyStore.getDoc "binance-BTCUSDT"
      = .found (.obj [("trades", .arr [.obj [("position", .str "Long"),
          ("entry_timestamp", .num (.fin 1754548860)),
          ("close_timestamp", .num (.fin 1754549760))]])]) := by
    simp [legacyStore]
  have hr : (coinStatsProbe refHost legacyStore "binance" "BTCUSDT").reads
      = [Read.doc "binance-BTCUSDT"] := by
    simp only [coinStatsProbe, docCandidates, hc, oldLayoutLoop, hg, hp]
    simp
  exact ⟨hr, hg, hp,
    (probe_no_collection_read refHost legacyStore "binance" "BTCUSDT").1 "binance-BTCUSDT" _ _
      (by rw [hr]; simp) hg hp (by simp)⟩

/-! ## C21: which source the resolver returns -/

/-- C21 (counterexample): in the example store the first candidate
`binance-BTCUSDT` exists and yields no record, and the second candidate
`binance-btcusdt` yields one trade (one raw record).  Both routes stop at the
first candidate and then find the collection empty: the list returned is empty,
not the records of the second candidate. -/
theorem resolver_shadowed_candidate :
    docCandidates refHost "binance" "BTCUSDT"
      = ["binance-BTCUSDT", "binance-btcusdt", "binance_BTCUSDT", "binance_btcusdt"] ∧
    shadowedStore.getDoc "binance-btcusdt"
      = .found (.obj [("trades", .arr [.obj [("position", .str "Long"),
          ("entry_timestamp", .num (.fin 1754548860)),
          ("close_timestamp", .num (.fin 1754549760))]])]) ∧
    parseTradesFromDocData refHost
        ((JsVal.obj [("trades", .arr [.obj [("position", .str "Long"),
          ("entry_timestamp", .num (.fin 1754548860)),
          ("close_timestamp", .num (.fin 1754549760))]])]).or (.obj [])) "binance" "BTCUSDT"
      = .ok [.obj [("exchange", .str "binance"), ("symbol", .str "BTCUSDT"),
          ("position", .str "Long"), ("entry_timestamp_s", .num (.fin 1754548860)),
          ("close_timestamp_s", .num (.fin 1754549760)), ("real_pnl", .undefined),
          ("real_net_pnl", .undefined), ("close_reason", .undefined)]] ∧
    extractRawTradesFromDocData
        ((JsVal.obj [("trades", .arr [.obj [("position", .str "Long"),
          ("entry_timestamp", .num (.fin 1754548860)),
          ("close_timestamp", .num (.fin 1754549760))]])]).or (.obj []))
      = [.obj [("position", .str "Long"), ("entry_timestamp", .num (.fin 1754548860)),
          ("close_timestamp", .num (.fin 1754549760))]] ∧
    coinStatsTrades refHost shadowedStore "binance" "BTCUSDT" = [] ∧
    coinStatsRawTrades refHost shadowedStore "binance" "BTCUSDT" = [] := by
  have ho : ∀ fs : List (String × JsVal), (JsVal.obj fs).or (.obj []) = .obj fs := by
    intro fs
    simp [JsVal.or]
  have hg1 : shadowedStore.getDoc "binance-BTCUSDT" = .found (.obj [("trades", .arr [])]) := by
    simp [shadowedStore]
  refine ⟨docCandidates_binance_btcusdt, by simp [shadowedStore], ?_, ?_, ?_, ?_⟩
  · rw [ho]
    exact parse_one_trade
  · rw [ho]
    simp [extractRawTradesFromDocData, JsVal.typeofObject]
  · have hold : oldLayoutLoop refHost shadowedStore "binance" "BTCUSDT"
        (docCandidates refHost "binance" "BTCUSDT") []
        = { trades := [], usedPath := some "coin-stats/binance-BTCUSDT",
            reads := [Read.doc "binance-BTCUSDT"] } := by
      rw [docCandidates_binance_btcusdt]
      simp only [oldLayoutLoop, hg1, ho, parse_no_trade]
      simp
    simp only [coinStatsTrades, coinStatsProbe, hold]
    simp [shadowedStore]
  · have hold : rawOldLayoutLoop shadowedStore
        (docCandidates refHost "binance" "BTCUSDT") []
        = { trades := [], usedPath := some "coin-stats/binance-BTCUSDT",
            reads := [Read.doc "binance-BTCUSDT"] } := by
      rw [docCandidates_binance_btcusdt]
      simp only [rawOldLayoutLoop, hg1, ho]
      simp [extractRawTradesFromDocData, JsVal.typeofObject]
    simp only [coinStatsRawTrades, coinStatsRawProbe, hold]
    simp [shadowedStore]

/-- C21 (amended): in both routes the old-layout loop reads the four candidates
in the fixed order and ends at the first one that exists (in the normalized
route: exists and parses without raising), whatever it yields.  When that
document yields a non-empty list, the list is what the route found and the
document is the path used; when it yields the empty list, or when the loop ends
at no candidate, the route found what the current-layout collection yields.  A
candidate after the first existing one is never read. -/
theorem resolver_first_existing (h : Host) (store : Store) (exchange symbol : String) :
    (∀ pre c post data ts, docCandidates h exchange symbol = pre ++ c :: post →
      (∀ d ∈ pre, SkippedByLoop h store exchange symbol d) →
      store.getDoc c = .found data →
      parseTradesFromDocData h (data.or (.obj [])) exchange symbol = .ok ts →
      (ts ≠ [] →
        (coinStatsProbe h store exchange symbol).trades = ts ∧
        (coinStatsProbe h store exchange symbol).usedPath = some ("coin-stats/" ++ c) ∧
        (coinStatsProbe h store exchange symbol).reads = (pre ++ [c]).map Read.doc ∧
        coinStatsTrades h store exchange symbol = sortByEntry h ts) ∧
      (ts = [] →
        (coinStatsProbe h store exchange symbol).trades
          = newLayoutTrades h store exchange symbol ∧
        (coinStatsProbe h store exchange symbol).reads
          = (pre ++ [c]).map Read.doc ++ [.collection (exchange ++ "-" ++ symbol)])) ∧
    (∀ pre c post data, docCandidates h exchange symbol = pre ++ c :: post →
      (∀ d ∈ pre, SkippedByRawLoop store d) →
      store.getDoc c = .found data →
      (extractRawTradesFromDocData (data.or (.obj [])) ≠ [] →
        (coinStatsRawProbe h store exchange symbol).trades
          = extractRawTradesFromDocData (data.or (.obj [])) ∧
        (coinStatsRawProbe h store exchange symbol).usedPath = some ("coin-stats/" ++ c) ∧
        (coinStatsRawProbe h store exchange symbol).reads = (pre ++ [c]).map Read.doc ∧
        coinStatsRawTrades h store exchange symbol
          = extractRawTradesFromDocData (data.or (.obj []))) ∧
      (extractRawTradesFromDocData (data.or (.obj [])) = [] →
        (coinStatsRawProbe h store exchange symbol).trades
          = newLayoutRawTrades store exchange symbol ∧
        (coinStatsRawProbe h store exchange symbol).reads
          = (pre ++ [c]).map Read.doc ++ [.collection (exchange ++ "-" ++ symbol)])) ∧
    ((∀ d ∈ docCandidates h exchange symbol, SkippedByLoop h store exchange symbol d) →
      (coinStatsProbe h store exchange symbol).trades
        = newLayoutTrades h store exchange symbol) ∧
    ((∀ d ∈ docCandidates h exchange symbol, SkippedByRawLoop store d) →
      (coinStatsRawProbe h store exchange symbol).trades
        = newLayoutRawTrades store exchange symbol) := by
  refine ⟨?_, ?_, ?_, ?_⟩
  · intro pre c post data ts hc hpre hg hp
    have hold : oldLayoutLoop h store exchange symbol (docCandidates h exchange symbol) []
        = { trades := ts, usedPath := some ("coin-stats/" ++ c),
            reads := (pre ++ [c]).map Read.doc } := by
      rw [hc, oldLayoutLoop_skip h store exchange symbol pre (c :: post) [] hpre]
      simp only [oldLayoutLoop, hg, hp]
      simp
    constructor
    · intro hne
      have hpr := coinStatsProbe_of_trades h store exchange symbol (by rw [hold]; exact hne)
      have hlen : ¬ ts.length = 0 := by simpa [List.length_eq_zero] using hne
      refine ⟨by rw [hpr, hold], by rw [hpr, hold], by rw [hpr, hold], ?_⟩
      simp only [coinStatsTrades, hpr, hold, hlen, if_false]
    · intro he
      have he2 : (oldLayoutLoop h store exchange symbol
          (docCandidates h exchange symbol) []).trades = [] := by rw [hold]; exact he
      refine ⟨coinStatsProbe_trades_of_no_trades h store exchange symbol he2, ?_⟩
      rw [coinStatsProbe_reads_of_no_trades h store exchange symbol he2, hold]
  · intro pre c post data hc hpre hg
    have hold : rawOldLayoutLoop store (docCandidates h exchange symbol) []
        = { trades := extractRawTradesFromDocData (data.or (.obj [])),
            usedPath := some ("coin-stats/" ++ c),
            reads := (pre ++ [c]).map Read.doc } := by
      rw [hc, rawOldLayoutLoop_skip store pre (c :: post) [] hpre]
      simp only [rawOldLayoutLoop, hg]
      simp
    constructor
    · intro hne
      have hpr := coinStatsRawProbe_of_trades h store exchange symbol (by rw [hold]; exact hne)
      have hlen : ¬ (extractRawTradesFromDocData (data.or (.obj []))).length = 0 := by
        simpa [List.length_eq_zero] using hne
      refine ⟨by rw [hpr, hold], by rw [hpr, hold], by rw [hpr, hold], ?_⟩
      simp only [coinStatsRawTrades, hpr, hold, hlen, if_false]
    · intro he
      have he2 : (rawOldLayoutLoop store (docCandidates h exchange symbol) []).trades = [] := by
        rw [hold]; exact he
      refine ⟨coinStatsRawProbe_trades_of_no_trades h store exchange symbol he2, ?_⟩
      rw [coinStatsRawProbe_reads_of_no_trades h store exchange symbol he2, hold]
  · intro hall
    have hold := oldLayoutLoop_skip h store exchange symbol (docCandidates h exchange symbol)
      [] [] hall
    rw [List.append_nil] at hold
    exact coinStatsProbe_trades_of_no_trades h store exchange symbol
      (by rw [hold]; rfl)
  · intro hall
    have hold := rawOldLayoutLoop_skip store (docCandidates h exchange symbol) [] [] hall
    rw [List.append_nil] at hold
    exact coinStatsRawProbe_trades_of_no_trades h store exchange symbol
      (by rw [hold]; rfl)

/-- C21 (witness): in the example store whose first candidate holds one trade,
nothing is skipped before it and the route finds that trade, read from
`coin-stats/binance-BTCUSDT`. -/
theorem resolver_first_existing_witness :
    docCandidates refHost "binance" "BTCUSDT"
      = [] ++ "binance-BTCUSDT" :: ["binance-btcusdt", "binance_BTCUSDT", "binance_btcusdt"] ∧
    (∀ d ∈ ([] : List String), SkippedByLoop refHost legacyStore "binance" "BTCUSDT" d) ∧
    legacyStore.getDoc "binance-BTCUSDT"
      = .found (.obj [("trades", .arr [.obj [("position", .str "Long"),
          ("entry_timestamp", .num (.fin 1754548860)),
          ("close_timestamp", .num (.fin 1754549760))]])]) ∧
    (coinStatsProbe refHost legacyStore "binance" "BTCUSDT").trades
      = [.obj [("exchange", .str "binance"), ("symbol", .str "BTCUSDT"),
          ("position", .str "Long"), ("entry_timestamp_s", .num (.fin 1754548860)),
          ("close_timestamp_s", .num (.fin 1754549760)), ("real_pnl", .undefined),
          ("real_net_pnl", .undefined), ("close_reason", .undefined)]] ∧
    (coinStatsProbe refHost legacyStore "binance" "BTCUSDT").usedPath
      = some ("coin-stats/" ++ "binance-BTCUSDT") := by
  have ho : ∀ fs : List (String × JsVal), (JsVal.obj fs).or (.obj []) = .obj fs := by
    intro fs
    simp [JsVal.or]
  have hg : legacyStore.getDoc "binance-BTCUSDT"
      = .found (.obj [("trades", .arr [.obj [("position", .str "Long"),
          ("entry_timestamp", .num (.fin 1754548860)),
          ("close_timestamp", .num (.fin 1754549760))]])]) := by
    simp [legacyStore]
  have key := ((resolver_first_existing refHost legacyStore "binance" "BTCUSDT").1
    [] "binance-BTCUSDT" ["binance-btcusdt", "binance_BTCUSDT", "binance_btcusdt"] _ _
    docCandidates_binance_btcusdt (by simp) hg (by rw [ho]; exact parse_one_trade)).1 (by simp)
  exact ⟨docCandidates_binance_btcusdt, by simp, hg, key.1, key.2.1⟩

/-! ## C22: the final sort of the normalized route -/

/-- C22: whenever the normalized route found a non-empty trade list, the list
it returns is a permutation of the found trades and is sorted in non-decreasing
order of the sort key `entry_timestamp_s || 0`: the entry time itself when that
is a number other than `NaN`, and 0 for a trade whose entry time is `undefined`
or `NaN`. -/
theorem coinStatsTrades_sorted (h : Host) (store : Store) (exchange symbol : String) :
    ((coinStatsProbe h store exchange symbol).trades ≠ [] →
      (coinStatsTrades h store exchange symbol).Perm
        (coinStatsProbe h store exchange symbol).trades ∧
      (coinStatsTrades h store exchange symbol).Pairwise
        (fun a b => (entryKey h a).le (entryKey h b) = true)) ∧
    (∀ t x, t.field "entry_timestamp_s" = .num x → x ≠ .nan → entryKey h t = x) ∧
    (∀ t, t.field "entry_timestamp_s" = .undefined ∨ t.field "entry_timestamp_s" = .num .nan →
      entryKey h t = .fin 0) := by
  refine ⟨?_, ?_, ?_⟩
  rotate_left
  · intro t x hx hn
    by_cases hxt : x.truthy = true
    · exact entryKey_of_truthy h t x hx hxt
    · rw [entryKey_of_falsy h t (by rw [hx]; simpa using hxt)]
      cases x with
      | fin q =>
        have hq : q = 0 := by simpa [JsNum.truthy] using hxt
        rw [hq]
      | nan => exact absurd rfl hn
      | posInf => exact absurd rfl hxt
      | negInf => exact absurd rfl hxt
  · intro t ht
    rcases ht with ht | ht <;> exact entryKey_of_falsy h t (by rw [ht]; rfl)
  intro hne
  have hlen : ¬ (coinStatsProbe h store exchange symbol).trades.length = 0 := by
    simpa [List.length_eq_zero] using hne
  have heq : coinStatsTrades h store exchange symbol
      = sortByEntry h (coinStatsProbe h store exchange symbol).trades := by
    simp only [coinStatsTrades, hlen, if_false]
  rw [heq]
  exact ⟨sortByEntry_perm h _,
    sortByEntry_sorted h _ (coinStatsProbe_hasEntryTime h store exchange symbol)⟩

/-- C22 (witness): in the example store the document holds the trade entered at
1754549000 before the trade entered at 1754548860; the route returns them in
the opposite order. -/
theorem coinStatsTrades_sorted_witness :
    (coinStatsProbe refHost unsortedStore "binance" "BTCUSDT").trades
      = [.obj [("exchange", .str "binance"), ("symbol", .str "BTCUSDT"),
          ("position", .str "Short"), ("entry_timestamp_s", .num (.fin 1754549000)),
          ("close_timestamp_s", .num (.fin 1754549760)), ("real_pnl", .undefined),
          ("real_net_pnl", .undefined), ("close_reason", .undefined)],
        .obj [("exchange", .str "binance"), ("symbol", .str "BTCUSDT"),
          ("position", .str "Long"), ("entry_timestamp_s", .num (.fin 1754548860)),
          ("close_timestamp_s", .num (.fin 1754549760)), ("real_pnl", .undefined),
          ("real_net_pnl", .undefined), ("close_reason", .undefined)]] ∧
    coinStatsTrades refHost unsortedStore "binance" "BTCUSDT"
      = [.obj [("exchange", .str "binance"), ("symbol", .str "BTCUSDT"),
          ("position", .str "Long"), ("entry_timestamp_s", .num (.fin 1754548860)),
          ("close_timestamp_s", .num (.fin 1754549760)), ("real_pnl", .undefined),
          ("real_net_pnl", .undefined), ("close_reason", .undefined)],
        .obj [("exchange", .str "binance"), ("symbol", .str "BTCUSDT"),
          ("position", .str "Short"), ("entry_timestamp_s", .num (.fin 1754549000)),
          ("close_timestamp_s", .num (.fin 1754549760)), ("real_pnl", .undefined),
          ("real_net_pnl", .undefined), ("close_reason", .undefined)]] ∧
    (coinStatsTrades refHost unsortedStore "binance" "BTCUSDT").Perm
      (coinStatsProbe refHost unsortedStore "binance" "BTCUSDT").trades ∧
    (coinStatsTrades refHost unsortedStore "binance" "BTCUSDT").Pairwise
      (fun a b => (entryKey refHost a).le (entryKey refHost b) = true) := by
  have hu : refHost.toUpperCase "BTCUSDT" = "BTCUSDT" := by decide
  have hc : "binance" ++ "-" ++ "BTCUSDT" = "binance-BTCUSDT" := by decide
  have ho : ∀ fs : List (String × JsVal), (JsVal.obj fs).or (.obj []) = .obj fs := by
    intro fs
    simp [JsVal.or]
  have hn1 : normalizeTrade refHost
        (.obj [("position", .str "Short"), ("entry_timestamp", .num (.fin 1754549000)),
          ("close_timestamp", .num (.fin 1754549760))]) "binance" "BTCUSDT"
      = .ok (.obj [("exchange", .str "binance"), ("symbol", .str "BTCUSDT"),
          ("position", .str "Short"), ("entry_timestamp_s", .num (.fin 1754549000)),
          ("close_timestamp_s", .num (.fin 1754549760)), ("real_pnl", .undefined),
          ("real_net_pnl", .undefined), ("close_reason", .undefined)]) := by
    rw [normalizeTrade_ok refHost
      (.obj [("position", .str "Short"), ("entry_timestamp", .num (.fin 1754549000)),
        ("close_timestamp", .num (.fin 1754549760))]) "binance" "BTCUSDT" "BTCUSDT" rfl
      (by simp [JsVal.or])]
    simp [hu, JsVal.or, JsVal.coalesce, JsVal.typeofNumber, jsToString, toSec]
    norm_num
  have hn2 : normalizeTrade refHost
        (.obj [("position", .str "Long"), ("entry_timestamp", .num (.fin 1754548860)),
          ("close_timestamp", .num (.fin 1754549760))]) "binance" "BTCUSDT"
      = .ok (.obj [("exchange", .str "binance"), ("symbol", .str "BTCUSDT"),
          ("position", .str "Long"), ("entry_timestamp_s", .num (.fin 1754548860)),
          ("close_timestamp_s", .num (.fin 1754549760)), ("real_pnl", .undefined),
          ("real_net_pnl", .undefined), ("close_reason", .undefined)]) := by
    rw [normalizeTrade_ok refHost
      (.obj [("position", .str "Long"), ("entry_timestamp", .num (.fin 1754548860)),
        ("close_timestamp", .num (.fin 1754549760))]) "binance" "BTCUSDT" "BTCUSDT" rfl
      (by simp [JsVal.or])]
    simp [hu, JsVal.or, JsVal.coalesce, JsVal.typeofNumber, jsToString, toSec]
    norm_num
  have hp : parseTradesFromDocData refHost
        (.obj [("trades", .arr [
          .obj [("position", .str "Short"), ("entry_timestamp", .num (.fin 1754549000)),
            ("close_timestamp", .num (.fin 1754549760))],
          .obj [("position", .str "Long"), ("entry_timestamp", .num (.fin 1754548860)),
            ("close_timestamp", .num (.fin 1754549760))]])]) "binance" "BTCUSDT"
      = .ok [.obj [("exchange", .str "binance"), ("symbol", .str "BTCUSDT"),
          ("position", .str "Short"), ("entry_timestamp_s", .num (.fin 1754549000)),
          ("close_timestamp_s", .num (.fin 1754549760)), ("real_pnl", .undefined),
          ("real_net_pnl", .undefined), ("close_reason", .undefined)],
        .obj [("exchange", .str "binance"), ("symbol", .str "BTCUSDT"),
          ("position", .str "Long"), ("entry_timestamp_s", .num (.fin 1754548860)),
          ("close_timestamp_s", .num (.fin 1754549760)), ("real_pnl", .undefined),
          ("real_net_pnl", .undefined), ("close_reason", .undefined)]] := by
    rw [parseTradesFromDocData_eq refHost _ "binance" "BTCUSDT" (Or.inr ⟨_, rfl⟩)]
    simp [selectRaw, selectLines, mapExcept, hn1, hn2, passesFilter, lineTrades]
  have hg : unsortedStore.getDoc "binance-BTCUSDT"
      = .found (.obj [("trades", .arr [
          .obj [("position", .str "Short"), ("entry_timestamp", .num (.fin 1754549000)),
            ("close_timestamp", .num (.fin 1754549760))],
          .obj [("position", .str "Long"), ("entry_timestamp", .num (.fin 1754548860)),
            ("close_timestamp", .num (.fin 1754549760))]])]) := by
    simp [unsortedStore]
  have hpr : (coinStatsProbe refHost unsortedStore "binance" "BTCUSDT").trades
      = [.obj [("exchange", .str "binance"), ("symbol", .str "BTCUSDT"),
          ("position", .str "Short"), ("entry_timestamp_s", .num (.fin 1754549000)),
          ("close_timestamp_s", .num (.fin 1754549760)), ("real_pnl", .undefined),
          ("real_net_pnl", .undefined), ("close_reason", .undefined)],
        .obj [("exchange", .str "binance"), ("symbol", .str "BTCUSDT"),
          ("position", .str "Long"), ("entry_timestamp_s", .num (.fin 1754548860)),
          ("close_timestamp_s", .num (.fin 1754549760)), ("real_pnl", .undefined),
          ("real_net_pnl", .undefined), ("close_reason", .undefined)]] := by
    simp only [coinStatsProbe, docCandidates, hc, oldLayoutLoop, hg, ho, hp]
    simp
  have hst : coinStatsTrades refHost unsortedStore "binance" "BTCUSDT"
      = [.obj [("exchange", .str "binance"), ("symbol", .str "BTCUSDT"),
          ("position", .str "Long"), ("entry_timestamp_s", .num (.fin 1754548860)),
          ("close_timestamp_s", .num (.fin 1754549760)), ("real_pnl", .undefined),
          ("real_net_pnl", .undefined), ("close_reason", .undefined)],
        .obj [("exchange", .str "binance"), ("symbol", .str "BTCUSDT"),
          ("position", .str "Short"), ("entry_timestamp_s", .num (.fin 1754549000)),
          ("close_timestamp_s", .num (.fin 1754549760)), ("real_pnl", .undefined),
          ("real_net_pnl", .undefined), ("close_reason", .undefined)]] := by
    simp only [coinStatsTrades, hpr]
    simp [sortByEntry, List.insertionSort, List.orderedInsert, compareEntry, entryKey,
      JsVal.or, toNumber, JsNum.sub, JsNum.lt]
    norm_num
  exact ⟨hpr, hst,
    (coinStatsTrades_sorted refHost unsortedStore "binance" "BTCUSDT").1 (by rw [hpr]; simp)⟩

/-! ## C23: the P&L that `getPL` chooses -/

/-- C23 (counterexample): a record whose `real_profit_loss` is the string `1.5`
and whose `real_pnl` is the number 2.  The first field that holds a number is
`real_pnl`, yet `getPL` returns 1.5, the string converted by `Number`; with the
empty string in `real_profit_loss` it returns 0, and with `NaN` there it returns
`NaN`, never reaching `real_pnl`. -/
theorem getPL_coerces_string :
    (JsVal.str "1.5").typeofNumber = false ∧
    MaxDrawdown.getPL refHost
        (.obj [("real_profit_loss", .str "1.5"), ("real_pnl", .num (.fin 2))])
      = .num (.fin (3 / 2)) ∧
    MaxDrawdown.getPL refHost
        (.obj [("real_profit_loss", .str ""), ("real_pnl", .num (.fin 2))])
      = .num (.fin 0) ∧
    MaxDrawdown.getPL refHost
        (.obj [("real_profit_loss", .num .nan), ("real_pnl", .num (.fin 2))])
      = .num .nan := by
  have h1 : readNumLit "1.5" = some (.finite false 1 5 1 0) := by decide
  have h2 : readNumLit "" = some (.finite false 0 0 0 0) := by decide
  refine ⟨rfl, ?_, ?_, ?_⟩
  · simp [MaxDrawdown.getPL, MaxDrawdown.plOfField, JsVal.isNullish, toNumber, stringToNumber,
      h1, NumLit.value, JsNum.isFinite]
    norm_num
  · simp [MaxDrawdown.getPL, MaxDrawdown.plOfField, JsVal.isNullish, toNumber, stringToNumber,
      h2, NumLit.value, JsNum.isFinite]
  · simp [MaxDrawdown.getPL, MaxDrawdown.plOfField]

/-- C23 (amended): `getPL` reads `real_profit_loss`, `real_net_profit_loss`,
`real_net_pnl`, `real_pnl` in that order and returns the value of the first
field that is accepted, `undefined` when none is.  A field is accepted when its
value has type number (whatever the number, `NaN` included), which is returned
as it is, or when it is neither `null` nor `undefined` and `Number(value)` is
finite, which is what is returned.  A trade is pushed to `allTrades` exactly
when the close time and the value of `getPL` are both finite numbers. -/
theorem getPL_first_accepted (h : Host) (t : JsVal) :
    (∀ v, MaxDrawdown.plOfField h (t.field "real_profit_loss") = some v →
      MaxDrawdown.getPL h t = v) ∧
    (∀ v, MaxDrawdown.plOfField h (t.field "real_profit_loss") = none →
      MaxDrawdown.plOfField h (t.field "real_net_profit_loss") = some v →
      MaxDrawdown.getPL h t = v) ∧
    (∀ v, MaxDrawdown.plOfField h (t.field "real_profit_loss") = none →
      MaxDrawdown.plOfField h (t.field "real_net_profit_loss") = none →
      MaxDrawdown.plOfField h (t.field "real_net_pnl") = some v →
      MaxDrawdown.getPL h t = v) ∧
    (∀ v, MaxDrawdown.plOfField h (t.field "real_profit_loss") = none →
      MaxDrawdown.plOfField h (t.field "real_net_profit_loss") = none →
      MaxDrawdown.plOfField h (t.field "real_net_pnl") = none →
      MaxDrawdown.plOfField h (t.field "real_pnl") = some v →
      MaxDrawdown.getPL h t = v) ∧
    (MaxDrawdown.plOfField h (t.field "real_profit_loss") = none →
      MaxDrawdown.plOfField h (t.field "real_net_profit_loss") = none →
      MaxDrawdown.plOfField h (t.field "real_net_pnl") = none →
      MaxDrawdown.plOfField h (t.field "real_pnl") = none →
      MaxDrawdown.getPL h t = .undefined) ∧
    (∀ x, MaxDrawdown.plOfField h (.num x) = some (.num x)) ∧
    (∀ v, (∀ x, v ≠ .num x) → v.isNullish = false → (toNumber h v).isFinite = true →
      MaxDrawdown.plOfField h v = some (.num (toNumber h v))) ∧
    (∀ v, MaxDrawdown.plOfField h v = none ↔
      v.isNullish = true ∨ ((∀ x, v ≠ .num x) ∧ (toNumber h v).isFinite = false)) ∧
    (∀ e, MaxDrawdown.collectEntry h t = .ok (some e) →
      MaxDrawdown.getCloseSec h t = .num (.fin e.ts) ∧
        MaxDrawdown.getPL h t = .num (.fin e.pl)) ∧
    (∀ ts pl, t.isNullish = false → MaxDrawdown.getCloseSec h t = .num (.fin ts) →
      MaxDrawdown.getPL h t = .num (.fin pl) →
      MaxDrawdown.collectEntry h t = .ok (some { ts := ts, pl := pl })) := by
  refine ⟨?_, ?_, ?_, ?_, ?_, plOfField_num h, ?_, plOfField_eq_none_iff h, ?_, ?_⟩
  · intro v h1
    simp only [MaxDrawdown.getPL, h1]
  · intro v h1 h2
    simp only [MaxDrawdown.getPL, h1, h2]
  · intro v h1 h2 h3
    simp only [MaxDrawdown.getPL, h1, h2, h3]
  · intro v h1 h2 h3 h4
    simp only [MaxDrawdown.getPL, h1, h2, h3, h4]
  · intro h1 h2 h3 h4
    simp only [MaxDrawdown.getPL, h1, h2, h3, h4]
  · intro v hv hn hf
    rw [plOfField_of_not_num h v hv]
    simp [hn, hf]
  · intro e he
    unfold MaxDrawdown.collectEntry at he
    split_ifs at he with h1 h2 h3 <;> try (exact absurd he (by simp))
    split at he
    · rename_i ts pl hts hpl
      simp only [Except.ok.injEq, Option.some.injEq] at he
      subst he
      exact ⟨hts, hpl⟩
    · simp at he
  · intro ts pl hn hts hpl
    simp [MaxDrawdown.collectEntry, hn, hts, hpl, MaxDrawdown.isFiniteNumber, JsNum.isFinite]

/-- C23 (witness): a record whose `real_profit_loss` is the string `abc`, which
`Number` does not read, and whose `real_pnl` is 2: the first three fields are
not accepted and `getPL` returns 2. -/
theorem getPL_first_accepted_witness :
    MaxDrawdown.plOfField refHost
        ((JsVal.obj [("real_profit_loss", .str "abc"), ("real_pnl", .num (.fin 2))]).field
          "real_profit_loss") = none ∧
    MaxDrawdown.getPL refHost
        (.obj [("real_profit_loss", .str "abc"), ("real_pnl", .num (.fin 2))])
      = .num (.fin 2) := by
  have h1 : readNumLit "abc" = none := by decide
  have hp : MaxDrawdown.plOfField refHost
      ((JsVal.obj [("real_profit_loss", .str "abc"), ("real_pnl", .num (.fin 2))]).field
        "real_profit_loss") = none := by
    simp [MaxDrawdown.plOfField, JsVal.isNullish, toNumber, stringToNumber, h1,
      JsNum.isFinite]
  exact ⟨hp, (getPL_first_accepted refHost
    (.obj [("real_profit_loss", .str "abc"), ("real_pnl", .num (.fin 2))])).2.2.2.1 _ hp
    (by simp [MaxDrawdown.plOfField, JsVal.isNullish])
    (by simp [MaxDrawdown.plOfField, JsVal.isNullish])
    (by simp [MaxDrawdown.plOfField])⟩

/-! ## C24: a malformed record aborts the batch -/

/-- C24 (failing input): a document that is an array whose only element is
`null`, and a document whose `trades` array holds a complete record followed by
a record whose `symbol` is the number 5.  In both cases `parseTradesFromDocData`
raises a `TypeError` and returns no list, although the second document holds a
well-formed trade.  The same `null` as a top-level value of a map-shaped
document is caught by the shape test, and the call returns the empty list. -/
theorem parseTradesFromDocData_aborts :
    parseTradesFromDocData refHost (.arr [.null]) "binance" "BTCUSDT" = .error .typeError ∧
    parseTradesFromDocData refHost
        (.obj [("trades", .arr [
          .obj [("position", .str "Long"), ("entry_timestamp", .num (.fin 1754548860)),
            ("close_timestamp", .num (.fin 1754549760))],
          .obj [("symbol", .num (.fin 5))]])]) "binance" "BTCUSDT" = .error .typeError ∧
    parseTradesFromDocData refHost (.obj [("a", .null)]) "binance" "BTCUSDT" = .ok [] := by
  have hu : refHost.toUpperCase "BTCUSDT" = "BTCUSDT" := by decide
  have hn : normalizeTrade refHost
        (.obj [("position", .str "Long"), ("entry_timestamp", .num (.fin 1754548860)),
          ("close_timestamp", .num (.fin 1754549760))]) "binance" "BTCUSDT"
      = .ok (.obj [("exchange", .str "binance"), ("symbol", .str "BTCUSDT"),
          ("position", .str "Long"), ("entry_timestamp_s", .num (.fin 1754548860)),
          ("close_timestamp_s", .num (.fin 1754549760)), ("real_pnl", .undefined),
          ("real_net_pnl", .undefined), ("close_reason", .undefined)]) := by
    rw [normalizeTrade_ok refHost
      (.obj [("position", .str "Long"), ("entry_timestamp", .num (.fin 1754548860)),
        ("close_timestamp", .num (.fin 1754549760))]) "binance" "BTCUSDT" "BTCUSDT" rfl
      (by simp [JsVal.or])]
    simp [hu, JsVal.or, JsVal.coalesce, JsVal.typeofNumber, jsToString, toSec]
    norm_num
  have hnull : normalizeTrade refHost .null "binance" "BTCUSDT" = .error .typeError := by
    simp [normalizeTrade, JsVal.isNullish]
  have hsym : normalizeTrade refHost (.obj [("symbol", .num (.fin 5))]) "binance" "BTCUSDT"
      = .error .typeError := by
    simp [normalizeTrade, JsVal.isNullish, JsVal.or, callToUpperCase, bind, Except.bind]
  refine ⟨?_, ?_, ?_⟩
  · rw [parseTradesFromDocData_eq refHost _ "binance" "BTCUSDT" (Or.inl ⟨_, rfl⟩)]
    simp [selectRaw, mapExcept, hnull]
  · rw [parseTradesFromDocData_eq refHost _ "binance" "BTCUSDT" (Or.inr ⟨_, rfl⟩)]
    simp [selectRaw, mapExcept, hn, hsym]
  · rw [parseTradesFromDocData_eq refHost _ "binance" "BTCUSDT" (Or.inr ⟨_, rfl⟩)]
    simp [selectRaw, selectLines, mapExcept, JsVal.objectValues, lineTrades]

/-! ## The re-check of the new-layout loop -/

/-- Whenever `parseTradeFromDocSnap` returns, its result is `null` or an
object whose position, `entry_timestamp_s` and `close_timestamp_s` are all
truthy; so the re-check of the new-layout loop accepts every result that is not
`null`, and when every snapshot of the page returns, the trades pushed are the
results that are not `null`, in order, and their number is the number of such
results.  The function returns whenever the stored symbol, or else the context
symbol, is a string. -/
theorem parseTradeFromDocSnap_truthy (h : Host) (exchange symbol : String) :
    (∀ docSnap r, parseTradeFromDocSnap h docSnap exchange symbol = .ok r →
      r = .null ∨ ((∃ fs, r = .obj fs) ∧ TruthyComplete r)) ∧
    (∀ docSnap r, parseTradeFromDocSnap h docSnap exchange symbol = .ok r → r ≠ .null →
      (r.truthy && passesFilter r) = true) ∧
    (∀ ds rs acc, mapExcept (fun d => parseTradeFromDocSnap h d exchange symbol) ds = .ok rs →
      pushDocs h exchange symbol ds acc = (acc ++ rs.filter (fun r => !r.isNullish), true) ∧
      (pushDocs h exchange symbol ds acc).1.length
        = acc.length + (rs.filter (fun r => !r.isNullish)).length) ∧
    (∀ docSnap s, ((docSnap.data.or (.obj [])).field "symbol").or (.str symbol) = .str s →
      ∃ r, parseTradeFromDocSnap h docSnap exchange symbol = .ok r) := by
  refine ⟨?_, ?_, ?_, ?_⟩
  · intro docSnap r hr
    rcases parseTradeFromDocSnap_result h docSnap exchange symbol r hr with h1 | ⟨hp, ho, _⟩
    · exact Or.inl h1
    · exact Or.inr ⟨ho, (passesFilter_iff r).mp hp⟩
  · intro docSnap r hr hne
    rcases parseTradeFromDocSnap_result h docSnap exchange symbol r hr with h1 | ⟨hp, ⟨fs, rfl⟩, _⟩
    · exact absurd h1 hne
    · simp [hp]
  · intro ds rs acc hm
    have hpd := pushDocs_of_results h exchange symbol ds rs acc hm
    refine ⟨hpd, ?_⟩
    rw [hpd]
    simp
  · intro docSnap s hs
    exact parseTradeFromDocSnap_returns h docSnap exchange symbol s hs

/-! ## C25: the result of `parseTradeFromDocSnap` passes the re-check -/

/-- C25 (failing input): a page of two snapshots, the first with the stored
symbol 5 (a number), the second with complete field data.  The call of
`parseTradeFromDocSnap` on the first raises a `TypeError` and has no result; the
result for the second is a trade, not `null`, that passes the re-check.  The
exception ends the loop over the page: no trade is pushed, although one snapshot
of the page has a result that is not `null`, and the route returns the empty
list.  The page of the second snapshot alone pushes its trade. -/
theorem pushDocs_aborted_by_raise :
    parseTradeFromDocSnap refHost
        { id := "doc-0", data := .obj [("symbol", .num (.fin 5))] } "binance" "BTCUSDT"
      = .error .typeError ∧
    (∃ t, parseTradeFromDocSnap refHost
        { id := "doc-1",
          data := .obj [("position", .str "Long"), ("entry_timestamp", .num (.fin 1754548860)),
            ("close_timestamp", .num (.fin 1754549760))] } "binance" "BTCUSDT" = .ok t ∧
      t ≠ .null ∧ (t.truthy && passesFilter t) = true ∧
      pushDocs refHost "binance" "BTCUSDT"
        [{ id := "doc-1",
           data := .obj [("position", .str "Long"),
             ("entry_timestamp", .num (.fin 1754548860)),
             ("close_timestamp", .num (.fin 1754549760))] }] [] = ([t], true)) ∧
    pushDocs refHost "binance" "BTCUSDT"
        [{ id := "doc-0", data := .obj [("symbol", .num (.fin 5))] },
          { id := "doc-1",
            data := .obj [("position", .str "Long"),
              ("entry_timestamp", .num (.fin 1754548860)),
              ("close_timestamp", .num (.fin 1754549760))] }] [] = ([], false) ∧
    (coinStatsProbe refHost raisingPageStore "binance" "BTCUSDT").trades = [] ∧
    coinStatsTrades refHost raisingPageStore "binance" "BTCUSDT" = [] := by
  have hbad : parseTradeFromDocSnap refHost
        { id := "doc-0", data := .obj [("symbol", .num (.fin 5))] } "binance" "BTCUSDT"
      = .error .typeError := by
    simp [parseTradeFromDocSnap, normalizeTrade, JsVal.isNullish, JsVal.or, callToUpperCase,
      bind, Except.bind]
  have hpush : pushDocs refHost "binance" "BTCUSDT"
        [{ id := "doc-0", data := .obj [("symbol", .num (.fin 5))] },
          { id := "doc-1",
            data := .obj [("position", .str "Long"),
              ("entry_timestamp", .num (.fin 1754548860)),
              ("close_timestamp", .num (.fin 1754549760))] }] [] = ([], false) := by
    simp only [pushDocs, hbad]
  have hc : "binance" ++ "-" ++ "BTCUSDT" = "binance-BTCUSDT" := by decide
  have hold : oldLayoutLoop refHost raisingPageStore "binance" "BTCUSDT"
      (docCandidates refHost "binance" "BTCUSDT") []
      = { trades := [], usedPath := none,
          reads := [Read.doc "binance-BTCUSDT", Read.doc "binance-btcusdt",
            Read.doc "binance_BTCUSDT", Read.doc "binance_btcusdt"] } := by
    rw [docCandidates_binance_btcusdt]
    simp [oldLayoutLoop, raisingPageStore]
  have hprobe : (coinStatsProbe refHost raisingPageStore "binance" "BTCUSDT").trades = [] := by
    simp only [coinStatsProbe, hold, hc]
    simp [raisingPageStore, hpush]
  refine ⟨hbad, ⟨_, parse_snap_example, nofun, by simp [passesFilter], ?_⟩, hpush, hprobe, ?_⟩
  · simp only [pushDocs, parse_snap_example]
    simp [passesFilter]
  · simp [coinStatsTrades, hprobe]

/-! ## C26: the two decoders of the pipe format -/

/-- C26 (failing input): the string
`binance|BTCUSDT|Long|1754548860000|1754549760000`, whose times are in
milliseconds.  As the identifier of a snapshot without field data it decodes to
a trade entered at 1754548860 and closed at 1754549760; as an entry of `lines`
it decodes to a trade entered at 1754548860000 and closed at 1754549760000: the
line decoder converts the parts with `Number` first, and `toSec` keeps a number
that does not exceed 2·10^12 as seconds. -/
theorem pipe_decoders_disagree :
    parseTradeFromDocSnap refHost
        { id := "binance|BTCUSDT|Long|1754548860000|1754549760000", data := .obj [] }
        "binance" "BTCUSDT"
      = .ok (.obj [("exchange", .str "binance"), ("symbol", .str "BTCUSDT"),
          ("position", .str "Long"), ("entry_timestamp_s", .num (.fin 1754548860)),
          ("close_timestamp_s", .num (.fin 1754549760))]) ∧
    parseTradesFromDocData refHost
        (.obj [("trades", .arr []),
          ("lines", .arr [.str "binance|BTCUSDT|Long|1754548860000|1754549760000"])])
        "binance" "BTCUSDT"
      = .ok [.obj [("exchange", .str "binance"), ("symbol", .str "BTCUSDT"),
          ("position", .str "Long"), ("entry_timestamp_s", .num (.fin 1754548860000)),
          ("close_timestamp_s", .num (.fin 1754549760000)), ("real_pnl", .undefined),
          ("real_net_pnl", .undefined), ("close_reason", .undefined)]] := by
  have hu : refHost.toUpperCase "BTCUSDT" = "BTCUSDT" := by decide
  have hs : splitPipe "binance|BTCUSDT|Long|1754548860000|1754549760000"
      = ["binance", "BTCUSDT", "Long", "1754548860000", "1754549760000"] := by decide
  have hn1 : readNumLit "1754548860000" = some (.finite false 1754548860000 0 0 0) := by
    decide
  have hn2 : readNumLit "1754549760000" = some (.finite false 1754549760000 0 0 0) := by
    decide
  have hd1 : isDigits 13 "1754548860000" = true := by decide
  have hd2 : isDigits 13 "1754549760000" = true := by decide
  have ht1 : toSec refHost (.str "1754548860000") = .num (.fin 1754548860) := by
    simp [toSec, jsToString, hd1, stringToNumber, hn1, NumLit.value, JsNum.floorDiv1000]
    norm_num
  have ht2 : toSec refHost (.str "1754549760000") = .num (.fin 1754549760) := by
    simp [toSec, jsToString, hd2, stringToNumber, hn2, NumLit.value, JsNum.floorDiv1000]
    norm_num
  have hn : normalizeTrade refHost (.obj []) "binance" "BTCUSDT"
      = .ok (.obj [("exchange", .str "binance"), ("symbol", .str "BTCUSDT"),
          ("position", .str ""), ("entry_timestamp_s", .undefined),
          ("close_timestamp_s", .undefined), ("real_pnl", .undefined),
          ("real_net_pnl", .undefined), ("close_reason", .undefined)]) := by
    rw [normalizeTrade_ok refHost (.obj []) "binance" "BTCUSDT" "BTCUSDT" rfl
      (by simp [JsVal.or])]
    simp [hu, JsVal.or, JsVal.coalesce, JsVal.typeofNumber, jsToString]
  constructor
  · unfold parseTradeFromDocSnap
    simp only [bind, Except.bind, pure, Except.pure, parseFromId_eq]
    have ho : (JsVal.obj []).or (.obj []) = .obj [] := by simp [JsVal.or]
    simp only [ho, hn]
    simp [idDerivedTrade, hs, ht1, ht2, hu, JsVal.or]
  · rw [parseTradesFromDocData_eq refHost _ "binance" "BTCUSDT" (Or.inr ⟨_, rfl⟩)]
    simp [selectRaw, selectLines, mapExcept, JsVal.objectValues, lineTrades, lineTradeOf,
      jsToString, hs, lineTrade, hu, stringToNumber, hn1, hn2, NumLit.value, toSec]
    norm_num

/-! ## C27: the identifier-derived trade carries no P&L -/

/-- C27: when the field data of a snapshot normalizes to a trade that fails the
completeness test and the identifier decodes to a trade, `parseTradeFromDocSnap`
returns the identifier-derived trade, whose only properties are `exchange`,
`symbol`, `position`, `entry_timestamp_s` and `close_timestamp_s`: its
`real_pnl`, `real_net_pnl` and `close_reason` are `undefined` whatever the field
data holds.  Such a trade leaves the windowed P&L sum unchanged (it adds 0) and
changes neither the win nor the loss counter. -/
theorem idDerived_no_pnl (h : Host) (docSnap : DocSnap) (exchange symbol : String)
    (fromData r : JsVal)
    (hn : normalizeTrade h (docSnap.data.or (.obj [])) exchange symbol = .ok fromData)
    (hinc : passesFilter fromData = false)
    (hid : idDerivedTrade h docSnap.id exchange symbol = some r) :
    parseTradeFromDocSnap h docSnap exchange symbol = .ok r ∧
    (∃ fs, r = .obj fs ∧ fs.map Prod.fst
      = ["exchange", "symbol", "position", "entry_timestamp_s", "close_timestamp_s"]) ∧
    r.field "real_pnl" = .undefined ∧ r.field "real_net_pnl" = .undefined ∧
    r.field "close_reason" = .undefined ∧
    (∀ acc, addNetPnl acc r = acc.add (.fin 0) ∧ addNetPnl acc r = acc) ∧
    (∀ fromSec nowSec acc, winLossStep h fromSec nowSec acc r = .ok acc) := by
  obtain ⟨fs, hfs, hkeys⟩ := idDerivedTrade_keys h docSnap.id exchange symbol r hid
  have hp : r.field "real_pnl" = .undefined := by
    rw [hfs]
    exact field_undefined_of_not_key fs _ (by rw [hkeys]; decide)
  have hnp : r.field "real_net_pnl" = .undefined := by
    rw [hfs]
    exact field_undefined_of_not_key fs _ (by rw [hkeys]; decide)
  have hcr : r.field "close_reason" = .undefined := by
    rw [hfs]
    exact field_undefined_of_not_key fs _ (by rw [hkeys]; decide)
  refine ⟨?_, ⟨fs, hfs, hkeys⟩, hp, hnp, hcr, ?_, ?_⟩
  · have hc : ((fromData.field "position").truthy &&
        (fromData.field "entry_timestamp_s").truthy &&
        (fromData.field "close_timestamp_s").truthy) = false := by
      unfold passesFilter at hinc
      cases h1 : (fromData.field "position").truthy <;>
        cases h2 : (fromData.field "entry_timestamp_s").truthy <;>
        cases h3 : (fromData.field "close_timestamp_s").truthy <;> simp_all
    unfold parseTradeFromDocSnap
    simp only [bind, Except.bind, pure, Except.pure, parseFromId_eq, hn, hc, hid,
      Bool.false_eq_true, if_false, Option.getD_some]
    rw [or_of_falsy _ (by rfl)]
  · intro acc
    have ha : addNetPnl acc r = acc.add (.fin 0) := by
      simp only [addNetPnl, hnp]
    exact ⟨ha, by rw [ha, add_zero_right]⟩
  · intro fromSec nowSec acc
    have hnull : r.isNullish = false := by rw [hfs]; rfl
    unfold winLossStep
    rw [if_neg (by simp [hnull])]
    simp only [hnp, hp, JsVal.typeofNumber]
    split_ifs <;> rfl

/-- C27 (witness): a snapshot whose field data holds a position and a numeric
`real_net_pnl` of 12.5 but no times, and whose identifier is
`binance|BTCUSDT|Long|1754548860|1754549760`: the result is the
identifier-derived trade, without `real_net_pnl`. -/
theorem idDerived_no_pnl_witness :
    normalizeTrade refHost
        ((JsVal.obj [("position", .str "Long"), ("real_net_pnl", .num (.fin (25 / 2)))]).or
          (.obj [])) "binance" "BTCUSDT"
      = .ok (.obj [("exchange", .str "binance"), ("symbol", .str "BTCUSDT"),
          ("position", .str "Long"), ("entry_timestamp_s", .undefined),
          ("close_timestamp_s", .undefined), ("real_pnl", .undefined),
          ("real_net_pnl", .num (.fin (25 / 2))), ("close_reason", .undefined)]) ∧
    parseTradeFromDocSnap refHost
        { id := "binance|BTCUSDT|Long|1754548860|1754549760",
          data := .obj [("position", .str "Long"), ("real_net_pnl", .num (.fin (25 / 2)))] }
        "binance" "BTCUSDT"
      = .ok (.obj [("exchange", .str "binance"), ("symbol", .str "BTCUSDT"),
          ("position", .str "Long"), ("entry_timestamp_s", .num (.fin 1754548860)),
          ("close_timestamp_s", .num (.fin 1754549760))]) ∧
    (JsVal.obj [("exchange", .str "binance"), ("symbol", .str "BTCUSDT"),
          ("position", .str "Long"), ("entry_timestamp_s", .num (.fin 1754548860)),
          ("close_timestamp_s", .num (.fin 1754549760))]).field "real_net_pnl"
      = .undefined := by
  have hu : refHost.toUpperCase "BTCUSDT" = "BTCUSDT" := by decide
  have hs : splitPipe "binance|BTCUSDT|Long|1754548860|1754549760"
      = ["binance", "BTCUSDT", "Long", "1754548860", "1754549760"] := by decide
  have hn1 : readNumLit "1754548860" = some (.finite false 1754548860 0 0 0) := by decide
  have hn2 : readNumLit "1754549760" = some (.finite false 1754549760 0 0 0) := by decide
  have hd1 : isDigits 13 "1754548860" = false := by decide
  have hd2 : isDigits 10 "1754548860" = true := by decide
  have hd3 : isDigits 13 "1754549760" = false := by decide
  have hd4 : isDigits 10 "1754549760" = true := by decide
  have ht1 : toSec refHost (.str "1754548860") = .num (.fin 1754548860) := by
    simp [toSec, jsToString, hd1, hd2, stringToNumber, hn1, NumLit.value]
  have ht2 : toSec refHost (.str "1754549760") = .num (.fin 1754549760) := by
    simp [toSec, jsToString, hd3, hd4, stringToNumber, hn2, NumLit.value]
  have ho : ∀ fs : List (String × JsVal), (JsVal.obj fs).or (.obj []) = .obj fs := by
    intro fs
    simp [JsVal.or]
  have hn : normalizeTrade refHost
        ((JsVal.obj [("position", .str "Long"), ("real_net_pnl", .num (.fin (25 / 2)))]).or
          (.obj [])) "binance" "BTCUSDT"
      = .ok (.obj [("exchange", .str "binance"), ("symbol", .str "BTCUSDT"),
          ("position", .str "Long"), ("entry_timestamp_s", .undefined),
          ("close_timestamp_s", .undefined), ("real_pnl", .undefined),
          ("real_net_pnl", .num (.fin (25 / 2))), ("close_reason", .undefined)]) := by
    rw [ho, normalizeTrade_ok refHost
      (.obj [("position", .str "Long"), ("real_net_pnl", .num (.fin (25 / 2)))])
      "binance" "BTCUSDT" "BTCUSDT" rfl (by simp [JsVal.or])]
    simp [hu, JsVal.or, JsVal.coalesce, JsVal.typeofNumber, jsToString]
  have hid : idDerivedTrade refHost "binance|BTCUSDT|Long|1754548860|1754549760"
      "binance" "BTCUSDT"
      = some (.obj [("exchange", .str "binance"), ("symbol", .str "BTCUSDT"),
          ("position", .str "Long"), ("entry_timestamp_s", .num (.fin 1754548860)),
          ("close_timestamp_s", .num (.fin 1754549760))]) := by
    simp [idDerivedTrade, hs, ht1, ht2, hu]
  have key := idDerived_no_pnl refHost
    { id := "binance|BTCUSDT|Long|1754548860|1754549760",
      data := .obj [("position", .str "Long"), ("real_net_pnl", .num (.fin (25 / 2)))] }
    "binance" "BTCUSDT" _ _ hn (by simp [passesFilter]) hid
  exact ⟨hn, key.1, key.2.2.2.1⟩

/-! ## C28: the two copies of `toSec` -/

/-- C28: the `toSec` of `server.js` and the `toSec` of the `MaxDrawdown`
component return the same result for `null`, for `undefined`, for every number
and for every string. -/
theorem toSec_copies_agree (h : Host) :
    MaxDrawdown.toSec h .null = toSec h .null ∧
    MaxDrawdown.toSec h .undefined = toSec h .undefined ∧
    (∀ x, MaxDrawdown.toSec h (.num x) = toSec h (.num x)) ∧
    (∀ s, MaxDrawdown.toSec h (.str s) = toSec h (.str s)) :=
  ⟨rfl, rfl, fun x => maxDrawdown_toSec_eq h (.num x) (fun _ => nofun),
    fun s => maxDrawdown_toSec_eq h (.str s) (fun _ => nofun)⟩

/-! ## C29: the close time of the equity metrics -/

/-- C29 (counterexample): a record whose `close_timestamp` is `true`.  The
server reads `new Date(true)`, the instant 1 ms, so the normalized close time is
defined (it is 0); the component reads `new Date("true")`, which is no date, and
`getCloseSec` returns `undefined`. -/
theorem getCloseSec_boolean_undefined :
    normalizeTrade refHost (.obj [("close_timestamp", .bool true)]) "binance" "BTCUSDT"
      = .ok (.obj [("exchange", .str "binance"), ("symbol", .str "BTCUSDT"),
          ("position", .str ""), ("entry_timestamp_s", .undefined),
          ("close_timestamp_s", .num (.fin 0)), ("real_pnl", .undefined),
          ("real_net_pnl", .undefined), ("close_reason", .undefined)]) ∧
    JsVal.num (.fin 0) ≠ .undefined ∧
    MaxDrawdown.getCloseSec refHost (.obj [("close_timestamp", .bool true)])
      = .undefined := by
  have hu : refHost.toUpperCase "BTCUSDT" = "BTCUSDT" := by decide
  obtain ⟨hs, hc⟩ := toSec_bool_differs
  refine ⟨?_, nofun, ?_⟩
  · rw [normalizeTrade_ok refHost (.obj [("close_timestamp", .bool true)]) "binance"
      "BTCUSDT" "BTCUSDT" rfl (by simp [JsVal.or])]
    simp [hu, JsVal.or, JsVal.coalesce, JsVal.typeofNumber, jsToString, hs]
  · have hc2 : MaxDrawdown.toSec refHost .undefined = .undefined := rfl
    rw [getCloseSec_eq]
    simp [hc, hc2, firstDefined, JsVal.isNullish]

/-- C29 (amended): for every raw record that normalizes and none of whose fields
`close_timestamp`, `exit`, `close_time` is a boolean: when the close time of the
normalized trade is defined, `getCloseSec` returns the same value.  `getCloseSec`
is more lenient: when `close_timestamp` holds a value that `toSec` cannot read,
the normalized close time is `undefined` while `getCloseSec` goes on to `exit`,
`close_time`, `timestamp` and `entry_timestamp`; when the three close fields are
all missing, the normalized close time is `undefined` while `getCloseSec` falls
back to `timestamp` and then `entry_timestamp`. -/
theorem getCloseSec_consistent (h : Host) (t : JsVal) (exchange symbol : String) (n : JsVal)
    (hn : normalizeTrade h t exchange symbol = .ok n)
    (hb : ∀ b, t.field "close_timestamp" ≠ .bool b ∧ t.field "exit" ≠ .bool b ∧
      t.field "close_time" ≠ .bool b) :
    (n.field "close_timestamp_s" ≠ .undefined →
      MaxDrawdown.getCloseSec h t = n.field "close_timestamp_s") ∧
    ((t.field "close_timestamp").isNullish = false →
      toSec h (t.field "close_timestamp") = .undefined →
      n.field "close_timestamp_s" = .undefined ∧
      MaxDrawdown.getCloseSec h t
        = firstDefined [MaxDrawdown.toSec h (t.field "exit"),
            MaxDrawdown.toSec h (t.field "close_time"),
            MaxDrawdown.toSec h (t.field "timestamp"),
            MaxDrawdown.toSec h (t.field "entry_timestamp")]) ∧
    ((t.field "close_timestamp").isNullish = true → (t.field "exit").isNullish = true →
      (t.field "close_time").isNullish = true →
      n.field "close_timestamp_s" = .undefined ∧
      MaxDrawdown.getCloseSec h t
        = firstDefined [MaxDrawdown.toSec h (t.field "timestamp"),
            MaxDrawdown.toSec h (t.field "entry_timestamp")]) := by
  have hclose := normalizeTrade_close h t exchange symbol n hn
  have ea := maxDrawdown_toSec_eq h (t.field "close_timestamp") (fun b => (hb b).1)
  have eb := maxDrawdown_toSec_eq h (t.field "exit") (fun b => (hb b).2.1)
  have ec := maxDrawdown_toSec_eq h (t.field "close_time") (fun b => (hb b).2.2)
  rw [hclose, getCloseSec_eq, ea, eb, ec]
  refine ⟨?_, ?_, ?_⟩
  · intro hdef
    rcases isNullish_cases (t.field "close_timestamp") with ha | ha
    · rw [firstDefined_cons_nullish _ _ ha] at hdef ⊢
      rw [firstDefined_cons_nullish _ _ (by rw [toSec_nullish h _ ha]; rfl)]
      rcases isNullish_cases (t.field "exit") with hb2 | hb2
      · rw [firstDefined_cons_nullish _ _ hb2] at hdef ⊢
        rw [firstDefined_cons_nullish _ _ (by rw [toSec_nullish h _ hb2]; rfl)]
        rcases isNullish_cases (t.field "close_time") with hc | hc
        · rw [firstDefined_cons_nullish _ _ hc] at hdef
          exact absurd rfl hdef
        · rw [firstDefined_cons_defined _ _ hc] at hdef ⊢
          exact firstDefined_cons_defined _ _ (isNullish_false_of_ne_undefined h _ hdef)
      · rw [firstDefined_cons_defined _ _ hb2] at hdef ⊢
        exact firstDefined_cons_defined _ _ (isNullish_false_of_ne_undefined h _ hdef)
    · rw [firstDefined_cons_defined _ _ ha] at hdef ⊢
      exact firstDefined_cons_defined _ _ (isNullish_false_of_ne_undefined h _ hdef)
  · intro ha hu
    rw [firstDefined_cons_defined _ _ ha]
    refine ⟨hu, ?_⟩
    rw [firstDefined_cons_nullish _ _ (by rw [hu]; rfl)]
  · intro ha hb2 hc
    constructor
    · simp [firstDefined, ha, hb2, hc]
    · rw [firstDefined_cons_nullish _ _ (by rw [toSec_nullish h _ ha]; rfl),
        firstDefined_cons_nullish _ _ (by rw [toSec_nullish h _ hb2]; rfl),
        firstDefined_cons_nullish _ _ (by rw [toSec_nullish h _ hc]; rfl)]

/-- C29 (witness): a record without `close_timestamp` whose `exit` is
1754549760: the normalized close time and `getCloseSec` are both 1754549760. -/
theorem getCloseSec_consistent_witness :
    normalizeTrade refHost
        (.obj [("position", .str "Long"), ("entry", .num (.fin 1754548860)),
          ("exit", .num (.fin 1754549760))]) "binance" "BTCUSDT"
      = .ok (.obj [("exchange", .str "binance"), ("symbol", .str "BTCUSDT"),
          ("position", .str "Long"), ("entry_timestamp_s", .num (.fin 1754548860)),
          ("close_timestamp_s", .num (.fin 1754549760)), ("real_pnl", .undefined),
          ("real_net_pnl", .undefined), ("close_reason", .undefined)]) ∧
    MaxDrawdown.getCloseSec refHost
        (.obj [("position", .str "Long"), ("entry", .num (.fin 1754548860)),
          ("exit", .num (.fin 1754549760))])
      = .num (.fin 1754549760) := by
  have hu : refHost.toUpperCase "BTCUSDT" = "BTCUSDT" := by decide
  have hn : normalizeTrade refHost
        (.obj [("position", .str "Long"), ("entry", .num (.fin 1754548860)),
          ("exit", .num (.fin 1754549760))]) "binance" "BTCUSDT"
      = .ok (.obj [("exchange", .str "binance"), ("symbol", .str "BTCUSDT"),
          ("position", .str "Long"), ("entry_timestamp_s", .num (.fin 1754548860)),
          ("close_timestamp_s", .num (.fin 1754549760)), ("real_pnl", .undefined),
          ("real_net_pnl", .undefined), ("close_reason", .undefined)]) := by
    rw [normalizeTrade_ok refHost
      (.obj [("position", .str "Long"), ("entry", .num (.fin 1754548860)),
        ("exit", .num (.fin 1754549760))]) "binance" "BTCUSDT" "BTCUSDT" rfl
      (by simp [JsVal.or])]
    simp [hu, JsVal.or, JsVal.coalesce, JsVal.typeofNumber, jsToString, toSec]
    norm_num
  have key := (getCloseSec_consistent refHost
    (.obj [("position", .str "Long"), ("entry", .num (.fin 1754548860)),
      ("exit", .num (.fin 1754549760))]) "binance" "BTCUSDT" _ hn
    (fun b => by simp)).1 (by simp)
  refine ⟨hn, ?_⟩
  rw [key]
  simp

/-! ## C30: the profit factor under reordering -/

/-- C30 (counterexample): `tenthsUp` and `tenthsDown` are permutations of each
other (four trades closed at the same time, P&Ls 0.1, 0.2, 0.3, -0.6 and 0.3,
0.2, 0.1, -0.6, all doubles).  The trades are added in their input order and
every sum is rounded, so `totalProfits` is 0.6000000000000001 for the first and
0.6 for the second, and the profit factor 1.0000000000000002 and 1.  For the
trades `overflowTrades` (P&Ls `2 ^ 1023` twice and `-2 ^ 1023` twice, finite
doubles) both totals overflow and the profit factor is `NaN`, neither a number
`≥ 0` nor `Infinity`. -/
theorem profitFactor_order_rounding :
    tenthsUp.Perm tenthsDown ∧
    (∀ e ∈ tenthsUp, Double.round e.pl = .fin e.pl) ∧
    (Double.equityWalk 100 (sortByCloseTime tenthsUp)).totalProfits
      = .fin (1351079888211149 / 2251799813685248) ∧
    (Double.equityWalk 100 (sortByCloseTime tenthsDown)).totalProfits
      = .fin (5404319552844595 / 9007199254740992) ∧
    (Double.equityWalk 100 (sortByCloseTime tenthsUp)).totalProfits
      ≠ (Double.equityWalk 100 (sortByCloseTime tenthsDown)).totalProfits ∧
    (Double.riskMetrics 100 tenthsUp).profitFactor
      = some (.fin (4503599627370497 / 4503599627370496)) ∧
    (Double.riskMetrics 100 tenthsDown).profitFactor = some (.fin 1) ∧
    (Double.riskMetrics 100 tenthsUp).profitFactor
      ≠ (Double.riskMetrics 100 tenthsDown).profitFactor ∧
    (∀ e ∈ overflowTrades, Double.round e.pl = .fin e.pl) ∧
    (Double.equityWalk 100 (sortByCloseTime overflowTrades)).totalProfits = .posInf ∧
    (Double.equityWalk 100 (sortByCloseTime overflowTrades)).totalLosses = .negInf ∧
    (Double.riskMetrics 100 overflowTrades).profitFactor = some .nan := by
  have hu : (Double.equityWalk 100 (sortByCloseTime tenthsUp)).totalProfits
      = .fin (1351079888211149 / 2251799813685248) := by
    rw [sortByCloseTime_tenthsUp]
    simp only [tenthsUp, equityWalk_tenths_up]
  have hd : (Double.equityWalk 100 (sortByCloseTime tenthsDown)).totalProfits
      = .fin (5404319552844595 / 9007199254740992) := by
    rw [sortByCloseTime_tenthsDown]
    simp only [tenthsDown, equityWalk_tenths_down]
  refine ⟨tenthsUp_perm_tenthsDown, ?_, hu, hd, ?_, profitFactor_tenthsUp,
    profitFactor_tenthsDown, ?_, ?_, ?_, ?_, profitFactor_overflowTrades⟩
  · simp only [tenthsUp, List.mem_cons, List.mem_nil_iff, or_false, forall_eq_or_imp,
      forall_eq]
    exact ⟨round_tenth, round_fifth, round_three_tenths, round_neg_six_tenths⟩
  · rw [hu, hd]
    norm_num
  · rw [profitFactor_tenthsUp, profitFactor_tenthsDown]
    norm_num
  · simp only [overflowTrades, List.mem_cons, List.mem_nil_iff, or_false, forall_eq_or_imp,
      forall_eq]
    exact ⟨round_pow_1023, round_pow_1023, round_neg_pow_1023, round_neg_pow_1023⟩
  · rw [sortByCloseTime_overflowTrades, show Double.equityWalk 100 overflowTrades
      = ⟨JsNum.posInf, JsNum.fin 100, JsNum.posInf, JsNum.negInf⟩ from equityWalk_overflow]
  · rw [sortByCloseTime_overflowTrades, show Double.equityWalk 100 overflowTrades
      = ⟨JsNum.posInf, JsNum.fin 100, JsNum.posInf, JsNum.negInf⟩ from equityWalk_overflow]

/-- C30 (amended): for two lists of trades that are permutations of each other
and in which no two trades share a close time, the walk computes the same
`totalProfits`, the same `totalLosses` and the same profit factor (every sum
rounded as the program rounds it).  For every non-empty list `totalProfits` is a
number `≥ 0` or `Infinity`, `totalLosses` is a number `≤ 0` or `-Infinity`, and
the profit factor is a number `≥ 0` or `Infinity`, except when both totals have
overflowed: exactly then it is `NaN`. -/
theorem profitFactor_perm_distinct_nonneg :
    (∀ (sb : ℚ) (l1 l2 : List Entry), l1.Perm l2 → (l1.map Entry.ts).Nodup →
      (Double.equityWalk sb (sortByCloseTime l1)).totalProfits
        = (Double.equityWalk sb (sortByCloseTime l2)).totalProfits ∧
      (Double.equityWalk sb (sortByCloseTime l1)).totalLosses
        = (Double.equityWalk sb (sortByCloseTime l2)).totalLosses ∧
      (Double.riskMetrics sb l1).profitFactor = (Double.riskMetrics sb l2).profitFactor) ∧
    (∀ (sb : ℚ) (l : List Entry), l ≠ [] →
      ((Double.equityWalk sb (sortByCloseTime l)).totalProfits = .posInf ∨
        ∃ r, 0 ≤ r ∧ (Double.equityWalk sb (sortByCloseTime l)).totalProfits = .fin r) ∧
      ((Double.equityWalk sb (sortByCloseTime l)).totalLosses = .negInf ∨
        ∃ r, r ≤ 0 ∧ (Double.equityWalk sb (sortByCloseTime l)).totalLosses = .fin r) ∧
      ∃ pf, (Double.riskMetrics sb l).profitFactor = some pf ∧
        (pf = .nan ∨ pf = .posInf ∨ ∃ r, 0 ≤ r ∧ pf = .fin r) ∧
        (pf = .nan ↔
          (Double.equityWalk sb (sortByCloseTime l)).totalProfits = .posInf ∧
            (Double.equityWalk sb (sortByCloseTime l)).totalLosses = .negInf)) := by
  constructor
  · intro sb l1 l2 hp hn
    have hs := sortByCloseTime_eq_of_perm l1 l2 hp hn
    have hr : Double.riskMetrics sb l1 = Double.riskMetrics sb l2 := by
      unfold Double.riskMetrics
      rw [hs, hp.length_eq]
    exact ⟨by rw [hs], by rw [hs], by rw [hr]⟩
  · intro sb l hl
    obtain ⟨h1, h2⟩ := double_equityWalk_totals_sign sb (sortByCloseTime l)
    obtain ⟨h3, h4⟩ := double_profitFactorOf_sign _ h1 h2
    refine ⟨h1, h2, _, ?_, h3, h4⟩
    rw [double_riskMetrics_of_ne_nil sb l hl]

/-- C30 (witness): the amended statement applied to the two orders of the trades
with P&Ls 30 and -30 closed at the distinct times 2 and 1. -/
theorem profitFactor_perm_distinct_nonneg_witness :
    ([⟨2, 30⟩, ⟨1, -30⟩] : List Entry).Perm [⟨1, -30⟩, ⟨2, 30⟩] ∧
      (([⟨2, 30⟩, ⟨1, -30⟩] : List Entry).map Entry.ts).Nodup ∧
      ([⟨2, 30⟩, ⟨1, -30⟩] : List Entry) ≠ [] ∧
      (Double.riskMetrics 100 [⟨2, 30⟩, ⟨1, -30⟩]).profitFactor
        = (Double.riskMetrics 100 [⟨1, -30⟩, ⟨2, 30⟩]).profitFactor ∧
      ((Double.equityWalk 100 (sortByCloseTime [⟨2, 30⟩, ⟨1, -30⟩])).totalProfits = .posInf ∨
        ∃ r, 0 ≤ r ∧
          (Double.equityWalk 100 (sortByCloseTime [⟨2, 30⟩, ⟨1, -30⟩])).totalProfits = .fin r) :=
  ⟨List.Perm.swap _ _ _, by norm_num, by simp,
    (profitFactor_perm_distinct_nonneg.1 100 [⟨2, 30⟩, ⟨1, -30⟩] [⟨1, -30⟩, ⟨2, 30⟩]
      (List.Perm.swap _ _ _) (by norm_num)).2.2,
    (profitFactor_perm_distinct_nonneg.2 100 [⟨2, 30⟩, ⟨1, -30⟩] (by simp)).1⟩

end CoinStats
